import Mathlib

/-!
SNS3 satellite module: the contention access engine (Slotted ALOHA / CRDSA).

A shallow embedding of the random-access (Slotted ALOHA / CRDSA) decision code of
`satellite-random-access-container.cc`, `satellite-random-access-container-conf.cc` and
`satellite-random-access-allocation-channel.cc`, and of the per-beam scheduler of
`satellite-beam-scheduler.cc`, with theorems about them.

Conventions of the embedding.

* `NS_FATAL_ERROR` ends the run: a function that can reach it returns `Except Fault`, and
  the error carries the message of the source.
* C++ `double` arithmetic (probabilities, times in seconds and milliseconds) is embedded as
  exact arithmetic in `ℚ`, a decimal literal standing for its decimal value; rounding,
  infinities and NaN are outside the embedding.
* The header that declares the member types of `SatRandomAccessAllocationChannel` is not
  among the sources.  The integral members that the sanity check compares with `0` or `1`
  are embedded as `Int` (this covers a signed and an unsigned declaration alike); where the
  code stores them in a `uint32_t` local or parameter they are converted by `toUint32`.
  The pure counters are `Nat` and wrap at `2^32` where the code adds to them.
* The ns-3 generator `UniformRandomVariable` is not part of the repository.  Its outputs are
  an explicit finite list of draws held in the engine state; a routine that needs a draw
  when the list is empty ends with `Fault.outOfDraws`.
* Log statements (`NS_LOG_*`, `PrintVariables`) have no effect on the state and are left out.
* Where a theorem speaks of what the loop of the slot preparation did (the number of its
  attempts, whether it left through the backoff), the loop is embedded a second time as
  `prepareLoopTrace`, which makes the same calls and returns that record; a lemma ties the
  record to the run of `prepareLoop`.
-/

namespace SatSpec

/-! ## Allocation channel configuration -/

/-- The per-channel CRDSA configuration together with its mutable runtime state
(`m_crdsaIdleBlocksLeft`, `m_crdsaNumOfConsecutiveBlocksUsed`, `m_crdsaBackoffReleaseTime`). -/
structure SatRandomAccessAllocationChannel where
  m_crdsaMinRandomizationValue : Int
  m_crdsaMaxRandomizationValue : Int
  m_crdsaNumOfInstances : Int
  m_crdsaMinIdleBlocks : Nat
  m_crdsaIdleBlocksLeft : Nat
  m_crdsaBackoffTime : ℚ
  m_crdsaBackoffProbability : ℚ
  m_crdsaMaximumBackoffProbability : ℚ
  m_crdsaMaxUniquePayloadPerBlock : Nat
  m_crdsaMaxConsecutiveBlocksAccessed : Nat
  m_crdsaNumOfConsecutiveBlocksUsed : Nat
  m_crdsaBackoffReleaseTime : ℚ
deriving DecidableEq

/-- How a run can end without a result: `fatal` is `NS_FATAL_ERROR` with its message,
`outOfDraws` says that the finite list of generator outputs of the embedding was used up. -/
inductive Fault where
  | fatal (msg : String)
  | outOfDraws
deriving DecidableEq

/-- Result of a routine that either finishes or ends the run. -/
abbrev Run (α : Type) : Type := Except Fault α

instance {ε α : Type} [DecidableEq ε] [DecidableEq α] : DecidableEq (Except ε α) :=
  fun a b =>
    match a, b with
    | .ok x, .ok y => decidable_of_iff (x = y) (by simp)
    | .error x, .error y => decidable_of_iff (x = y) (by simp)
    | .ok _, .error _ => isFalse (by simp)
    | .error _, .ok _ => isFalse (by simp)

/-- Embedding of `SatRandomAccessAllocationChannel::DoCrdsaVariableSanityCheck`: the seven
`if` statements of the source in their order, each ending the run with its message. -/
def DoCrdsaVariableSanityCheck (c : SatRandomAccessAllocationChannel) : Run Unit :=
  if c.m_crdsaMinRandomizationValue < 0 ∨ c.m_crdsaMaxRandomizationValue < 0 then
    .error (.fatal "SatRandomAccessAllocationChannel::DoCrdsaVariableSanityCheck - min < 0 || max < 0")
  else if c.m_crdsaMinRandomizationValue > c.m_crdsaMaxRandomizationValue then
    .error (.fatal "SatRandomAccessAllocationChannel::DoCrdsaVariableSanityCheck - min > max")
  else if c.m_crdsaNumOfInstances < 1 then
    .error (.fatal "SatRandomAccessAllocationChannel::DoCrdsaVariableSanityCheck - instances < 1")
  else if c.m_crdsaMaxRandomizationValue - c.m_crdsaMinRandomizationValue
      < c.m_crdsaNumOfInstances then
    .error (.fatal "SatRandomAccessAllocationChannel::DoCrdsaVariableSanityCheck - (max - min) < instances")
  else if c.m_crdsaBackoffTime < 0 then
    .error (.fatal "SatRandomAccessAllocationChannel::CrdsaDoVariableSanityCheck - m_crdsaBackoffTime < 0")
  else if c.m_crdsaBackoffProbability < 0 ∨ c.m_crdsaBackoffProbability > 1 then
    .error (.fatal "SatRandomAccessAllocationChannel::CrdsaDoVariableSanityCheck - m_crdsaBackoffProbability < 0.0 || m_crdsaBackoffProbability > 1.0")
  else if c.m_crdsaMaximumBackoffProbability < 0 ∨ c.m_crdsaMaximumBackoffProbability > 1 then
    .error (.fatal "SatRandomAccessAllocationChannel::CrdsaDoVariableSanityCheck - m_crdsaMaximumBackoffProbability < 0.0 || m_crdsaMaximumBackoffProbability > 1.0")
  else
    .ok ()

/-- The seven inequalities the specification lists for a channel configuration:
`min ≥ 0`, `max ≥ 0`, `min ≤ max`, `(max − min) ≥ instanceCount`, `backoffTime ≥ 0`,
`0 ≤ backoffProbability ≤ 1`, `0 ≤ maxBackoffProbability ≤ 1`.  Written from the
specification, to be compared with `DoCrdsaVariableSanityCheck`. -/
def SpecSevenConditions (c : SatRandomAccessAllocationChannel) : Prop :=
  0 ≤ c.m_crdsaMinRandomizationValue ∧
  0 ≤ c.m_crdsaMaxRandomizationValue ∧
  c.m_crdsaMinRandomizationValue ≤ c.m_crdsaMaxRandomizationValue ∧
  c.m_crdsaNumOfInstances ≤ c.m_crdsaMaxRandomizationValue - c.m_crdsaMinRandomizationValue ∧
  0 ≤ c.m_crdsaBackoffTime ∧
  (0 ≤ c.m_crdsaBackoffProbability ∧ c.m_crdsaBackoffProbability ≤ 1) ∧
  (0 ≤ c.m_crdsaMaximumBackoffProbability ∧ c.m_crdsaMaximumBackoffProbability ≤ 1)

instance (c : SatRandomAccessAllocationChannel) : Decidable (SpecSevenConditions c) := by
  unfold SpecSevenConditions; infer_instance

/-- A channel as the default constructor of the source leaves it (all members zero). -/
def zeroChannel : SatRandomAccessAllocationChannel :=
  { m_crdsaMinRandomizationValue := 0, m_crdsaMaxRandomizationValue := 0,
    m_crdsaNumOfInstances := 0, m_crdsaMinIdleBlocks := 0, m_crdsaIdleBlocksLeft := 0,
    m_crdsaBackoffTime := 0, m_crdsaBackoffProbability := 0,
    m_crdsaMaximumBackoffProbability := 0, m_crdsaMaxUniquePayloadPerBlock := 0,
    m_crdsaMaxConsecutiveBlocksAccessed := 0, m_crdsaNumOfConsecutiveBlocksUsed := 0,
    m_crdsaBackoffReleaseTime := 0 }


/-! ## The random source -/

/-- One output of the generator, a point `num / den` of the interval `[0, 1)`. -/
structure Draw where
  num : Nat
  den : Nat
  lt : num < den
deriving DecidableEq

/-- The rational value of a draw. -/
def Draw.value (d : Draw) : ℚ := (d.num : ℚ) / (d.den : ℚ)

/-- Model of ns-3 `UniformRandomVariable::GetValue (0.0, 1.0)` (ns-3 is not part of the
repository): `0.0 + u * (1.0 - 0.0)` for the generator output `u` of `[0, 1)`. -/
def GetValue01 (d : Draw) : ℚ := d.value

/-- Model of ns-3 `UniformRandomVariable::GetInteger (min, max)` (ns-3 is not part of the
repository).  ns-3 computes `static_cast<uint32_t> (GetValue (min, max + 1))` with
`GetValue (a, b) = a + u * (b - a)` for the generator output `u` of `[0, 1)`, so that both
ends of `[min, max]` are possible results.  For `u = num / den` the integer part is
`min + (num * (max + 1 - min)) / den`.  The callers pass `min ≤ max`. -/
def GetInteger (min max : Nat) (d : Draw) : Nat :=
  min + d.num * (max + 1 - min) / d.den

/-- Conversion of an integral value to `uint32_t`. -/
def toUint32 (x : Int) : Nat := (x % 4294967296).toNat

/-! ## The engine state -/

/-- Embedding of `SatRandomAccess::RandomAccessModel_t`. -/
inductive RandomAccessModel_t where
  | RA_OFF
  | RA_SLOTTED_ALOHA
  | RA_CRDSA
  | RA_ANY_AVAILABLE
deriving DecidableEq

/-- Embedding of `SatRandomAccess::RandomAccessTxOpportunities_t`, the result type. -/
inductive RandomAccessTxOpportunities_t where
  | RA_DO_NOTHING
  | RA_SLOTTED_ALOHA_TX_OPPORTUNITY
  | RA_CRDSA_TX_OPPORTUNITY
deriving DecidableEq

/-- Embedding of `SatRandomAccess::RandomAccessResults_s`.  `slottedAlohaResult` is `none`
as long as the code has not assigned the member; `crdsaResult` is the
`std::map<uint32_t, std::set<uint32_t> >` as a list of entries in key order. -/
structure RandomAccessResults_s where
  resultType : RandomAccessTxOpportunities_t
  slottedAlohaResult : Option Nat
  crdsaResult : List (Nat × Finset Nat)

instance : DecidableEq RandomAccessResults_s :=
  fun a b =>
    decidable_of_iff (a.resultType = b.resultType ∧
      a.slottedAlohaResult = b.slottedAlohaResult ∧ a.crdsaResult = b.crdsaResult)
      (by cases a; cases b; simp)

/-- The value of a freshly declared `RandomAccessResults_s results` after
`results.resultType = SatRandomAccess::RA_DO_NOTHING`. -/
def RandomAccessResults_s.doNothing : RandomAccessResults_s :=
  { resultType := .RA_DO_NOTHING, slottedAlohaResult := none, crdsaResult := [] }

/-- Embedding of `std::map::find` on `crdsaResult`. -/
def crdsaResultFind (m : List (Nat × Finset Nat)) (key : Nat) : Option (Finset Nat) :=
  m.lookup key

/-- Embedding of `std::map::insert` on `crdsaResult`: the entry is placed in key order, and
nothing changes when the key is already present. -/
def crdsaResultInsert (key : Nat) (value : Finset Nat) :
    List (Nat × Finset Nat) → List (Nat × Finset Nat)
  | [] => [(key, value)]
  | (k, v) :: rest =>
    if key < k then (key, value) :: (k, v) :: rest
    else if key = k then (k, v) :: rest
    else (k, v) :: crdsaResultInsert key value rest

/-- Embedding of `crdsaResult.at (key) = value` for a key that is present. -/
def crdsaResultAssign (key : Nat) (value : Finset Nat) (m : List (Nat × Finset Nat)) :
    List (Nat × Finset Nat) :=
  m.map (fun p => if p.1 = key then (p.1, value) else p)

/-- Embedding of `SatRandomAccessConf`: the Slotted ALOHA interval (as the `uint32_t` that
the generator receives) and the map of allocation channels, whose keys are `0 .. count - 1`
by construction, as a list indexed by the key. -/
structure SatRandomAccessConf where
  m_slottedAlohaControlRandomizationIntervalInMilliSeconds : Nat
  m_allocationChannelConf : List SatRandomAccessAllocationChannel
deriving DecidableEq

/-- Embedding of the members of `SatRandomAccess`; `m_uniformRandomVariable` holds the
outputs that the generator is still going to produce. -/
structure SatRandomAccess where
  m_uniformRandomVariable : List Draw
  m_randomAccessModel : RandomAccessModel_t
  m_randomAccessConf : SatRandomAccessConf
  m_numOfAllocationChannels : Nat
  m_crdsaNewData : Bool
deriving DecidableEq

/-- What the engine reads from its collaborators at one call: the simulation time
`Now ().GetSeconds ()` and the answers of `IsFrameStart ()` and `IsDamaAvailable ()`.  The
two predicates are placeholders in the source (marked "TODO: implement this"); the embedding
takes their answers from here, and `IsFrameStart`, `IsDamaAvailable` below are the values
the placeholders return at present. -/
structure Instant where
  now : ℚ
  isFrameStart : Bool
  isDamaAvailable : Bool
deriving DecidableEq

/-- Embedding of the present body of `SatRandomAccess::IsFrameStart`. -/
def IsFrameStart : Bool := true

/-- Embedding of the present body of `SatRandomAccess::IsDamaAvailable`. -/
def IsDamaAvailable : Bool := false

/-- The instant at time `now` as the present placeholders of the source report it. -/
def Instant.current (now : ℚ) : Instant :=
  { now := now, isFrameStart := IsFrameStart, isDamaAvailable := IsDamaAvailable }

/-- The state that the constructor `SatRandomAccess (randomAccessConf, randomAccessModel)`
builds, with the generator outputs `draws` still to come. -/
def SatRandomAccess.create (randomAccessConf : SatRandomAccessConf)
    (randomAccessModel : RandomAccessModel_t) (draws : List Draw) : SatRandomAccess :=
  { m_uniformRandomVariable := draws
    m_randomAccessModel := randomAccessModel
    m_randomAccessConf := randomAccessConf
    m_numOfAllocationChannels := randomAccessConf.m_allocationChannelConf.length
    m_crdsaNewData := true }

/-! ## Access to the configuration and to the generator -/

/-- Embedding of `SatRandomAccessConf::GetAllocationChannelConfiguration`. -/
def GetAllocationChannelConfiguration (conf : SatRandomAccessConf) (allocationChannel : Nat) :
    Run SatRandomAccessAllocationChannel :=
  match conf.m_allocationChannelConf[allocationChannel]? with
  | some c => .ok c
  | none => .error (.fatal
      "SatRandomAccessConf::GetAllocationChannelConfiguration - Invalid allocation channel")

/-- A setter call `GetAllocationChannelConfiguration (allocationChannel)->Set... (...)`: the
channel object behind the pointer is replaced by `f` of it. -/
def updateChannel (s : SatRandomAccess) (allocationChannel : Nat)
    (f : SatRandomAccessAllocationChannel → SatRandomAccessAllocationChannel) :
    Run SatRandomAccess := do
  let c ← GetAllocationChannelConfiguration s.m_randomAccessConf allocationChannel
  pure { s with m_randomAccessConf :=
    { s.m_randomAccessConf with m_allocationChannelConf :=
        s.m_randomAccessConf.m_allocationChannelConf.set allocationChannel (f c) } }

/-- The next output of the generator. -/
def nextDraw (s : SatRandomAccess) : Run (Draw × SatRandomAccess) :=
  match s.m_uniformRandomVariable with
  | [] => .error .outOfDraws
  | d :: ds => .ok (d, { s with m_uniformRandomVariable := ds })

/-- Embedding of `SatRandomAccess::AreBuffersEmpty`: `GetInteger (0,1)` converted to `bool`. -/
def AreBuffersEmpty (s : SatRandomAccess) : Run (Bool × SatRandomAccess) := do
  let (d, s) ← nextDraw s
  pure (decide (GetInteger 0 1 d ≠ 0), s)

/-! ## Slotted ALOHA -/

/-- Embedding of `SatRandomAccess::SlottedAlohaRandomizeReleaseTime`. -/
def SlottedAlohaRandomizeReleaseTime (s : SatRandomAccess) : Run (Nat × SatRandomAccess) := do
  let (d, s) ← nextDraw s
  let releaseTime := GetInteger 0
    s.m_randomAccessConf.m_slottedAlohaControlRandomizationIntervalInMilliSeconds d
  pure (releaseTime, s)

/-- Embedding of `SatRandomAccess::DoSlottedAloha`. -/
def DoSlottedAloha (t : Instant) (s : SatRandomAccess) :
    Run (RandomAccessResults_s × SatRandomAccess) :=
  let results := RandomAccessResults_s.doNothing
  if !t.isDamaAvailable then do
    let (releaseTime, s) ← SlottedAlohaRandomizeReleaseTime s
    pure ({ results with slottedAlohaResult := some releaseTime
                         resultType := .RA_SLOTTED_ALOHA_TX_OPPORTUNITY }, s)
  else
    pure (results, s)

/-! ## CRDSA -/

/-- Embedding of `SatRandomAccess::IsCrdsaAllocationChannelFree`. -/
def IsCrdsaAllocationChannelFree (t : Instant) (s : SatRandomAccess) (allocationChannel : Nat) :
    Run Bool := do
  let c ← GetAllocationChannelConfiguration s.m_randomAccessConf allocationChannel
  pure (decide (t.now ≥ c.m_crdsaBackoffReleaseTime))

/-- Embedding of `SatRandomAccess::IsCrdsaBackoffProbabilityTooHigh`. -/
def IsCrdsaBackoffProbabilityTooHigh (s : SatRandomAccess) (allocationChannel : Nat) :
    Run Bool := do
  let c ← GetAllocationChannelConfiguration s.m_randomAccessConf allocationChannel
  pure (decide (c.m_crdsaBackoffProbability ≥ c.m_crdsaMaximumBackoffProbability))

/-- Embedding of `SatRandomAccess::CrdsaHasBackoffTimePassed`. -/
def CrdsaHasBackoffTimePassed (t : Instant) (s : SatRandomAccess) (allocationChannel : Nat) :
    Run Bool := do
  if (← IsCrdsaAllocationChannelFree t s allocationChannel) then pure true else pure false

/-- Embedding of `SatRandomAccess::CrdsaReduceIdleBlocks`. -/
def CrdsaReduceIdleBlocks (s : SatRandomAccess) (allocationChannel : Nat) :
    Run SatRandomAccess := do
  let c ← GetAllocationChannelConfiguration s.m_randomAccessConf allocationChannel
  let idleBlocksLeft := c.m_crdsaIdleBlocksLeft
  if idleBlocksLeft > 0 then
    updateChannel s allocationChannel
      (fun c => { c with m_crdsaIdleBlocksLeft := idleBlocksLeft - 1 })
  else
    pure s

/-- Embedding of `SatRandomAccess::CrdsaReduceIdleBlocksForAllAllocationChannels`: the loop
over `i = 0 .. m_numOfAllocationChannels - 1`. -/
def CrdsaReduceIdleBlocksForAllAllocationChannels (s : SatRandomAccess) :
    Run SatRandomAccess :=
  (List.range s.m_numOfAllocationChannels).foldlM CrdsaReduceIdleBlocks s

/-- Embedding of `SatRandomAccess::CrdsaIsAllocationChannelFree`. -/
def CrdsaIsAllocationChannelFree (s : SatRandomAccess) (allocationChannel : Nat) :
    Run Bool := do
  let c ← GetAllocationChannelConfiguration s.m_randomAccessConf allocationChannel
  if c.m_crdsaIdleBlocksLeft > 0 then pure false else pure true

/-- Embedding of `SatRandomAccess::CrdsaDoBackoff`: one draw of `GetValue (0.0,1.0)` compared
with the backoff probability of the channel. -/
def CrdsaDoBackoff (s : SatRandomAccess) (allocationChannel : Nat) :
    Run (Bool × SatRandomAccess) := do
  let c ← GetAllocationChannelConfiguration s.m_randomAccessConf allocationChannel
  let (d, s) ← nextDraw s
  pure (decide (GetValue01 d < c.m_crdsaBackoffProbability), s)

/-- Embedding of `SatRandomAccess::CrdsaSetBackoffTimer`. -/
def CrdsaSetBackoffTimer (t : Instant) (s : SatRandomAccess) (allocationChannel : Nat) :
    Run SatRandomAccess := do
  let s ← updateChannel s allocationChannel
    (fun c => { c with m_crdsaBackoffReleaseTime := t.now + c.m_crdsaBackoffTime / 1000 })
  CrdsaReduceIdleBlocks s allocationChannel

/-- The `while (successfulInserts < instances)` loop of `CrdsaRandomizeTxOpportunities`, for
a channel with `uint32_t` range ends `lo`, `hi`; it returns the set and the unused draws. -/
def randomizeLoop (instances lo hi : Nat) :
    List Draw → Nat → Finset Nat → Run (Finset Nat × List Draw)
  | [], successfulInserts, txOpportunities =>
    if successfulInserts < instances then .error .outOfDraws
    else .ok (txOpportunities, [])
  | d :: ds, successfulInserts, txOpportunities =>
    if successfulInserts < instances then
      let slot := GetInteger lo hi d
      if slot ∈ txOpportunities then
        randomizeLoop instances lo hi ds successfulInserts (insert slot txOpportunities)
      else
        randomizeLoop instances lo hi ds (successfulInserts + 1) (insert slot txOpportunities)
    else .ok (txOpportunities, d :: ds)

/-- Embedding of `SatRandomAccess::CrdsaRandomizeTxOpportunities`. -/
def CrdsaRandomizeTxOpportunities (s : SatRandomAccess) (allocationChannel : Nat)
    (txOpportunities : Finset Nat) : Run (Finset Nat × SatRandomAccess) := do
  let c ← GetAllocationChannelConfiguration s.m_randomAccessConf allocationChannel
  let instances := toUint32 c.m_crdsaNumOfInstances
  let (txOpportunities, ds) ← randomizeLoop instances
    (toUint32 c.m_crdsaMinRandomizationValue) (toUint32 c.m_crdsaMaxRandomizationValue)
    s.m_uniformRandomVariable 0 txOpportunities
  pure (txOpportunities, { s with m_uniformRandomVariable := ds })

/-- The `for (i = 0; i < limit; i++)` loop of `CrdsaPrepareToTransmit`, with `n` iterations
still to run; a `break` of the source returns at once. -/
def prepareLoop (t : Instant) (allocationChannel : Nat) :
    Nat → SatRandomAccess → RandomAccessResults_s →
      Run (RandomAccessResults_s × SatRandomAccess)
  | 0, s, results => pure (results, s)
  | n + 1, s, results => do
    let (doBackoff, s) ← CrdsaDoBackoff s allocationChannel
    if doBackoff then
      let s ← CrdsaSetBackoffTimer t s allocationChannel
      pure (results, s)
    else
      let (d, s) ← nextDraw s
      if GetValue01 d < 0.2 then
        pure (results, s)
      else if (← CrdsaIsAllocationChannelFree s allocationChannel) then
        let (crdsaResult, s) ←
          match crdsaResultFind results.crdsaResult allocationChannel with
          | none => do
            let (tx, s) ← CrdsaRandomizeTxOpportunities s allocationChannel ∅
            pure (crdsaResultInsert allocationChannel tx results.crdsaResult, s)
          | some old => do
            let (tx, s) ← CrdsaRandomizeTxOpportunities s allocationChannel old
            pure (crdsaResultAssign allocationChannel tx results.crdsaResult, s)
        let results := { results with crdsaResult := crdsaResult
                                      resultType := .RA_CRDSA_TX_OPPORTUNITY }
        let (empty, s) ← AreBuffersEmpty s
        let s := if empty then { s with m_crdsaNewData := true } else s
        prepareLoop t allocationChannel n s results
      else
        prepareLoop t allocationChannel n s results

/-- Embedding of `SatRandomAccess::CrdsaPrepareToTransmit`. -/
def CrdsaPrepareToTransmit (t : Instant) (s : SatRandomAccess) (allocationChannel : Nat) :
    Run (RandomAccessResults_s × SatRandomAccess) := do
  let c ← GetAllocationChannelConfiguration s.m_randomAccessConf allocationChannel
  let limit := c.m_crdsaMaxUniquePayloadPerBlock
  let (results, s) ← prepareLoop t allocationChannel limit s RandomAccessResults_s.doNothing
  let s ← CrdsaReduceIdleBlocks s allocationChannel
  pure (results, s)

/-- Embedding of `SatRandomAccess::CrdsaIncreaseConsecutiveBlocksUsed`. -/
def CrdsaIncreaseConsecutiveBlocksUsed (s : SatRandomAccess) (allocationChannel : Nat) :
    Run SatRandomAccess := do
  let s ← updateChannel s allocationChannel (fun c =>
    { c with m_crdsaNumOfConsecutiveBlocksUsed :=
        (c.m_crdsaNumOfConsecutiveBlocksUsed + 1) % 4294967296 })
  let c ← GetAllocationChannelConfiguration s.m_randomAccessConf allocationChannel
  if c.m_crdsaNumOfConsecutiveBlocksUsed ≥ c.m_crdsaMaxConsecutiveBlocksAccessed then
    let s ← updateChannel s allocationChannel (fun c =>
      { c with m_crdsaIdleBlocksLeft := c.m_crdsaMinIdleBlocks })
    updateChannel s allocationChannel (fun c => { c with m_crdsaNumOfConsecutiveBlocksUsed := 0 })
  else
    pure s

/-- Embedding of `SatRandomAccess::DoCrdsa`. -/
def DoCrdsa (t : Instant) (s : SatRandomAccess) (allocationChannel : Nat) :
    Run (RandomAccessResults_s × SatRandomAccess) := do
  let results := RandomAccessResults_s.doNothing
  if (← CrdsaHasBackoffTimePassed t s allocationChannel) then
    if !t.isDamaAvailable then
      let (results, s) ←
        if s.m_crdsaNewData then do
          let s := { s with m_crdsaNewData := false }
          let (doBackoff, s) ← CrdsaDoBackoff s allocationChannel
          if doBackoff then
            let s ← CrdsaSetBackoffTimer t s allocationChannel
            pure (results, s)
          else
            CrdsaPrepareToTransmit t s allocationChannel
        else
          CrdsaPrepareToTransmit t s allocationChannel
      if results.resultType = .RA_CRDSA_TX_OPPORTUNITY then
        let s ← CrdsaIncreaseConsecutiveBlocksUsed s allocationChannel
        pure (results, s)
      else if results.resultType = .RA_DO_NOTHING then
        let s ← updateChannel s allocationChannel
          (fun c => { c with m_crdsaNumOfConsecutiveBlocksUsed := 0 })
        pure (results, s)
      else
        pure (results, s)
    else
      let s ← CrdsaReduceIdleBlocks s allocationChannel
      pure (results, s)
  else
    let s ← CrdsaReduceIdleBlocks s allocationChannel
    pure (results, s)

/-! ## The decision procedure -/

/-- Embedding of `SatRandomAccess::DoRandomAccess`.  The closing check of the result type is
left out: each of the three result types is accepted there. -/
def DoRandomAccess (t : Instant) (s : SatRandomAccess) (allocationChannel : Nat) :
    Run (RandomAccessResults_s × SatRandomAccess) :=
  let results := RandomAccessResults_s.doNothing
  match s.m_randomAccessModel with
  | .RA_CRDSA =>
    if t.isFrameStart then DoCrdsa t s allocationChannel else pure (results, s)
  | .RA_SLOTTED_ALOHA => DoSlottedAloha t s
  | .RA_ANY_AVAILABLE =>
    if !t.isFrameStart then
      DoSlottedAloha t s
    else do
      let free ← IsCrdsaAllocationChannelFree t s allocationChannel
      let tooHigh ← if free then IsCrdsaBackoffProbabilityTooHigh s allocationChannel
                    else pure false
      if free && !tooHigh then
        DoCrdsa t s allocationChannel
      else
        let (results, s) ← DoSlottedAloha t s
        let s ← CrdsaReduceIdleBlocksForAllAllocationChannels s
        pure (results, s)
  | .RA_OFF => .error (.fatal "SatRandomAccess::DoRandomAccess - Invalid random access model")

/-! ## Beam scheduler: collaborators

The classes below are declared outside `satellite-beam-scheduler.cc`; the scheduler only
calls them.  Their data is embedded as far as the scheduler reads or writes it. -/

/-- A link-layer terminal address (`Address`), an ordered identifier. -/
abbrev Address : Type := Nat

/-- Embedding of `SatCnoEstimator::EstimationMode_t`; `OTHER` stands for a value of the enum
variable outside the three enumerators, which the `default` branch of
`CreateCnoEstimator` meets. -/
inductive EstimationMode_t where
  | LAST
  | MINIMUM
  | AVERAGE
  | OTHER (value : Nat)
deriving DecidableEq

/-- Modelled from the spec: `SatCnoEstimator` / `SatBasicCnoEstimator`, which are not under
`src/`.  The estimator holds its mode, its window and the samples it was fed, in arrival
order; the removal of samples that have left the window is not modelled. -/
structure SatCnoEstimator where
  m_mode : EstimationMode_t
  m_window : Int
  m_samples : List ℚ
deriving DecidableEq

/-- Modelled from the spec: `SatCnoEstimator::AddSample`, the sample is appended. -/
def SatCnoEstimator.AddSample (e : SatCnoEstimator) (sample : ℚ) : SatCnoEstimator :=
  { e with m_samples := e.m_samples ++ [sample] }

/-- Modelled from the spec: `SatCnoEstimator::GetCnoEstimation`, the last value, the minimum
or the average of the samples according to the mode; `none` is the "unknown" estimate (NaN)
that is reported while there is no sample. -/
def SatCnoEstimator.GetCnoEstimation (e : SatCnoEstimator) : Option ℚ :=
  match e.m_samples with
  | [] => none
  | x :: xs =>
    match e.m_mode with
    | .LAST => some ((x :: xs).getLast (List.cons_ne_nil x xs))
    | .MINIMUM => some (xs.foldl min x)
    | .AVERAGE => some ((x :: xs).sum / ((x :: xs).length : ℚ))
    | .OTHER _ => none

/-- One resource class of a demand entry: constant rate, minimum and requested dynamic rate,
requested dynamic volume. -/
structure SatDamaRc where
  m_craInKbps : Nat
  m_minRbdcInKbps : Nat
  m_rbdcInKbps : Nat
  m_vbdcInBytes : Nat
deriving DecidableEq

/-- One random-access service of a service profile as the constructor of
`SatRandomAccessConf` reads it through `GetRaMaximumUniquePayloadPerBlock (i)`,
`GetRaMaximumConsecutiveBlockAccessed (i)`, `GetRaMinimumIdleBlock (i)`,
`GetRaNumberOfInstances (i)`, `GetRaBackOffProbability (i)` and
`GetRaBackOffTimeInMilliSeconds (i)`.  The values are unsigned integers; the raw backoff
probability is a 16-bit value. -/
structure SatLowerLayerServiceRaEntry where
  m_maximumUniquePayloadPerBlock : Nat
  m_maximumConsecutiveBlockAccessed : Nat
  m_minimumIdleBlock : Nat
  m_numberOfInstances : Nat
  m_backOffProbability : Nat
  m_backOffTimeInMilliSeconds : Nat
deriving DecidableEq

/-- The service profile `SatLowerLayerServiceConf` as far as it is read: for a demand entry
the constant rate and the minimum dynamic rate of each resource class and the start values
of the two persistence counters; for the random access configuration the random-access
services (`GetRaServiceCount ()` is their number) and
`GetDefaultControlRandomizationInterval ().GetMilliSeconds ()`, a whole number of
milliseconds that is not negative. -/
structure SatLowerLayerServiceConf where
  m_daServices : List (Nat × Nat)
  m_dynamicRatePersistence : Nat
  m_volumeBacklogPersistence : Nat
  m_raServiceEntries : List SatLowerLayerServiceRaEntry := []
  m_defaultControlRandomizationInterval : Nat := 0
deriving DecidableEq

/-- Modelled from the spec: `SatDamaEntry`, which is not under `src/`.  Per resource class
it tracks the constant rate, the minimum and the requested dynamic rate and the requested
dynamic volume, and it has two persistence counters that decay once per cycle.  The number
of resource classes is fixed when the entry is created. -/
structure SatDamaEntry where
  m_rcs : List SatDamaRc
  m_dynamicRatePersistence : Nat
  m_volumeBacklogPersistence : Nat
deriving DecidableEq

/-- Modelled from the spec: `Create<SatDamaEntry> (llsConf)`, nothing is requested yet. -/
def SatDamaEntry.create (llsConf : SatLowerLayerServiceConf) : SatDamaEntry :=
  { m_rcs := llsConf.m_daServices.map (fun p =>
      { m_craInKbps := p.1, m_minRbdcInKbps := p.2, m_rbdcInKbps := 0, m_vbdcInBytes := 0 })
    m_dynamicRatePersistence := llsConf.m_dynamicRatePersistence
    m_volumeBacklogPersistence := llsConf.m_volumeBacklogPersistence }

/-- Modelled from the spec: `SatDamaEntry::GetRcCount`. -/
def SatDamaEntry.GetRcCount (e : SatDamaEntry) : Nat := e.m_rcs.length

/-- Modelled from the spec: `SatDamaEntry::GetCraInKbps`. -/
def SatDamaEntry.GetCraInKbps (e : SatDamaEntry) (index : Nat) : Nat :=
  ((e.m_rcs[index]?).map (fun rc => rc.m_craInKbps)).getD 0

/-- Modelled from the spec: `SatDamaEntry::GetMinRbdcInKbps`. -/
def SatDamaEntry.GetMinRbdcInKbps (e : SatDamaEntry) (index : Nat) : Nat :=
  ((e.m_rcs[index]?).map (fun rc => rc.m_minRbdcInKbps)).getD 0

/-- Modelled from the spec: `SatDamaEntry::GetRbdcInKbps`. -/
def SatDamaEntry.GetRbdcInKbps (e : SatDamaEntry) (index : Nat) : Nat :=
  ((e.m_rcs[index]?).map (fun rc => rc.m_rbdcInKbps)).getD 0

/-- Modelled from the spec: `SatDamaEntry::GetVbdcInBytes`. -/
def SatDamaEntry.GetVbdcInBytes (e : SatDamaEntry) (index : Nat) : Nat :=
  ((e.m_rcs[index]?).map (fun rc => rc.m_vbdcInBytes)).getD 0

/-- Modelled from the spec: `SatDamaEntry::UpdateRbdcInKbps`, the requested dynamic rate of
the class is replaced. -/
def SatDamaEntry.UpdateRbdcInKbps (e : SatDamaEntry) (index value : Nat) : SatDamaEntry :=
  { e with m_rcs := e.m_rcs.modify (fun rc => { rc with m_rbdcInKbps := value }) index }

/-- Modelled from the spec: `SatDamaEntry::UpdateVbdcInBytes`, the requested volume of the
class grows by the value. -/
def SatDamaEntry.UpdateVbdcInBytes (e : SatDamaEntry) (index value : Nat) : SatDamaEntry :=
  { e with m_rcs :=
      e.m_rcs.modify (fun rc => { rc with m_vbdcInBytes := rc.m_vbdcInBytes + value }) index }

/-- Modelled from the spec: `SatDamaEntry::SetVbdcInBytes`, the requested volume of the class
is overwritten. -/
def SatDamaEntry.SetVbdcInBytes (e : SatDamaEntry) (index value : Nat) : SatDamaEntry :=
  { e with m_rcs := e.m_rcs.modify (fun rc => { rc with m_vbdcInBytes := value }) index }

/-- Modelled from the spec: `SatDamaEntry::DecrementDynamicRatePersistence`, one tick of
decay. -/
def SatDamaEntry.DecrementDynamicRatePersistence (e : SatDamaEntry) : SatDamaEntry :=
  { e with m_dynamicRatePersistence := e.m_dynamicRatePersistence - 1 }

/-- Modelled from the spec: `SatDamaEntry::DecrementVolumeBacklogPersistence`, one tick of
decay. -/
def SatDamaEntry.DecrementVolumeBacklogPersistence (e : SatDamaEntry) : SatDamaEntry :=
  { e with m_volumeBacklogPersistence := e.m_volumeBacklogPersistence - 1 }

/-- Embedding of `SatEnums::SatCapacityAllocationCategory_t`, the request type of a capacity
request descriptor. -/
inductive SatCapacityAllocationCategory_t where
  | DA_CRA
  | DA_RBDC
  | DA_VBDC
  | DA_AVBDC
deriving DecidableEq

/-- A capacity request message `SatCrMessage` as the scheduler reads it: the content of
`GetCapacityRequestContent ()`, descriptors `((RC index, request type), value)` in the order
in which the container is iterated. -/
structure SatCrMessage where
  m_requestData : List ((Nat × SatCapacityAllocationCategory_t) × Nat)
deriving DecidableEq

/-- The two size constants of a schedule message: the size of an instance without slots and
`GetTimeSlotInfoSizeInBytes ()`, the size that one announced or assigned slot adds. -/
structure SatTbtpFormat where
  m_tbtpBodySizeInBytes : Nat
  m_tbtpTimeSlotInfoSizeInBytes : Nat
deriving DecidableEq

/-- Modelled from the spec: the schedule message `SatTbtpMessage`, which is not under `src/`.
An instance carries the superframe sequence id, the superframe counter, the random-access
announcements `(channel index, frame id, slot count)` in the order they were set, and the
number of slots it holds. -/
structure SatTbtpMessage where
  m_superframeSeqId : Nat
  m_superframeCounter : Nat
  m_raChannels : List (Nat × Nat × Nat)
  m_assignedSlotCount : Nat
deriving DecidableEq

/-- Modelled from the spec: `CreateObject<SatTbtpMessage> (seqId)`, an instance without
slots; its superframe counter is set by the caller. -/
def SatTbtpMessage.create (seqId : Nat) : SatTbtpMessage :=
  { m_superframeSeqId := seqId, m_superframeCounter := 0, m_raChannels := [],
    m_assignedSlotCount := 0 }

/-- Modelled from the spec: `SatTbtpMessage::SetSuperframeCounter`. -/
def SatTbtpMessage.SetSuperframeCounter (m : SatTbtpMessage) (counter : Nat) : SatTbtpMessage :=
  { m with m_superframeCounter := counter }

/-- Modelled from the spec: `SatTbtpMessage::GetSizeInBytes`; an announcement of `n` slots
adds `n` times the per-slot info size to the instance. -/
def SatTbtpMessage.GetSizeInBytes (fmt : SatTbtpFormat) (m : SatTbtpMessage) : Nat :=
  fmt.m_tbtpBodySizeInBytes + fmt.m_tbtpTimeSlotInfoSizeInBytes * m.m_assignedSlotCount

/-- Modelled from the spec: `SatTbtpMessage::SetRaChannel`, the announcement of
`timeSlotCount` slots of a random-access channel is added to the instance. -/
def SatTbtpMessage.SetRaChannel (m : SatTbtpMessage) (raChannel frameId timeSlotCount : Nat) :
    SatTbtpMessage :=
  { m with m_raChannels := m.m_raChannels ++ [(raChannel, frameId, timeSlotCount)]
           m_assignedSlotCount := m.m_assignedSlotCount + timeSlotCount }

/-- A frame configuration `SatFrameConf` as the scheduler reads it: `GetTimeSlotCount ()` and
`GetCarrierCount ()`.  A frame has at least one carrier; a division by a carrier count of
zero is outside the embedding. -/
structure SatFrameConf where
  m_timeSlotCount : Nat
  m_carrierCount : Nat

/-- A superframe configuration `SatSuperframeConf` as the scheduler reads it:
`GetRaChannelCount ()`, `GetRaChannelFrameId (i)` and `GetFrameConf (frameId)`. -/
structure SatSuperframeConf where
  GetRaChannelCount : Nat
  GetRaChannelFrameId : Nat → Nat
  GetFrameConf : Nat → SatFrameConf

/-- The superframe sequence `SatSuperframeSeq` as the scheduler reads it:
`GetDuration (seqId).GetInteger ()`, in the integer time unit of `Time`, and
`GetSuperframeConf (seqId)`. -/
structure SatSuperframeSeq where
  GetDuration : Nat → Int
  GetSuperframeConf : Nat → SatSuperframeConf

/-- Embedding of `SatFrameAllocator::SatFrameAllocReqItem`. -/
structure SatFrameAllocReqItem where
  m_craInKbps : Nat
  m_minRbdcInKbps : Nat
  m_rbdcInKbps : Nat
  m_vbdcBytes : Nat
deriving DecidableEq

/-- Embedding of `SatFrameAllocator::SatFrameAllocReq`: the items per resource class and the
address the request is tagged with. -/
structure SatFrameAllocReq where
  m_reqPerRc : List SatFrameAllocReqItem
  m_address : Address
deriving DecidableEq

/-- The frame allocator `SatFrameAllocator` is a collaborator of which only
`GenerateTimeSlots` gives something back to the scheduler: the container of schedule
messages it was handed, with the data-access slots emitted into it.  Its packing policy is
not the concern of the scheduler and is a parameter of the embedding. -/
structure SatFrameAllocator where
  GenerateTimeSlots : List SatTbtpMessage → Nat → List SatTbtpMessage

/-- What a run of the scheduler does to its collaborators, in the order in which it does it:
the calls to the frame allocator with their arguments (`cno` is `none` for the unknown
estimate), a message handed to the send callback for the broadcast address, and an event
`Simulator::Schedule (delay, &SatBeamScheduler::Schedule, this)`, recorded with the time
`Now () + delay` at which the run is due. -/
inductive SchedulerEffect where
  | RemoveAllocations
  | AllocateToFrame (cno : Option ℚ) (allocReq : SatFrameAllocReq)
  | AllocateSymbols
  | GenerateTimeSlots (tbtpContainer : List SatTbtpMessage) (maxFrameSizeInBytes : Nat)
  | Send (msg : SatTbtpMessage)
  | SimulatorSchedule (time : Int)
deriving DecidableEq

/-! ## Beam scheduler: state -/

/-- Embedding of `SatBeamScheduler::SatUtInfo`. -/
structure SatUtInfo where
  m_damaEntry : SatDamaEntry
  m_cnoEstimator : SatCnoEstimator
  m_crContainer : List SatCrMessage
deriving DecidableEq

/-- Embedding of `UtInfoItem_t`, a terminal address with its `SatUtInfo`. -/
abbrev UtInfoItem_t : Type := Address × SatUtInfo

/-- The random variable `m_raChRandomIndex` with its attribute `Max` (`Min` is `0`) and the
outputs that its generator is still going to produce. -/
structure RaChRandomIndex where
  m_max : Nat
  m_draws : List Draw
deriving DecidableEq

/-- Embedding of the members of `SatBeamScheduler` that the embedded methods use.

`m_utInfos` (a map from address to `Ptr<SatUtInfo>`) and `m_utSortedInfos` (a list of pairs
of address and `Ptr<SatUtInfo>`) point to the same `SatUtInfo` objects: `AddUt` puts one
pointer into both and nothing removes an entry.  The objects are stored once, in
`m_utSortedInfos`; `m_utInfos` holds the keys of the map in ascending order, and the pointer
of a key is the object stored with that address in `m_utSortedInfos`.

`m_raChRandomIndex` is `none` until `Initialize` creates the random variable.
`m_currentSequence` is declared in the header, which is not among the sources, and is never
written. -/
structure SatBeamScheduler where
  m_beamId : Nat
  m_superFrameCounter : Nat
  m_currentSequence : Nat
  m_utInfos : List Address
  m_utSortedInfos : List UtInfoItem_t
  m_totalSlotsLeft : Nat
  m_cnoEstimatorMode : EstimationMode_t
  m_cnoEstimationWindow : Int
  m_maxTwoWayPropagationDelay : Int
  m_maxTBTPTxAndProcessingDelay : Int
  m_maxBbFrameSize : Nat
  m_raChRandomIndex : Option RaChRandomIndex
deriving DecidableEq

/-- The clock and the return-link time keeper as the scheduler reads them at one call:
`Now ().GetInteger ()`, `Singleton<SatRtnLinkTime>::Get ()->GetNextSuperFrameCount (seqId)` and
`GetNextSuperFrameStartTime (seqId).GetInteger ()`. -/
structure SatRtnLinkTime where
  Now : Int
  GetNextSuperFrameCount : Nat → Nat
  GetNextSuperFrameStartTime : Nat → Int

/-- The state that the constructor `SatBeamScheduler ()` builds, for given values of the four
attributes and of `m_currentSequence`. -/
def SatBeamScheduler.create (cnoEstimatorMode : EstimationMode_t) (cnoEstimationWindow : Int)
    (maxTwoWayPropagationDelay maxTBTPTxAndProcessingDelay : Int) (currentSequence : Nat) :
    SatBeamScheduler :=
  { m_beamId := 0
    m_superFrameCounter := 0
    m_currentSequence := currentSequence
    m_utInfos := []
    m_utSortedInfos := []
    m_totalSlotsLeft := 0
    m_cnoEstimatorMode := cnoEstimatorMode
    m_cnoEstimationWindow := cnoEstimationWindow
    m_maxTwoWayPropagationDelay := maxTwoWayPropagationDelay
    m_maxTBTPTxAndProcessingDelay := maxTBTPTxAndProcessingDelay
    m_maxBbFrameSize := 0
    m_raChRandomIndex := none }

/-! ## Beam scheduler: terminals -/

/-- Embedding of `SatBeamScheduler::SatUtInfo::GetCnoEstimation`. -/
def SatUtInfo.GetCnoEstimation (u : SatUtInfo) : Option ℚ :=
  u.m_cnoEstimator.GetCnoEstimation

/-- Embedding of `SatBeamScheduler::SatUtInfo::AddCnoSample`. -/
def SatUtInfo.AddCnoSample (u : SatUtInfo) (sample : ℚ) : SatUtInfo :=
  { u with m_cnoEstimator := u.m_cnoEstimator.AddSample sample }

/-- Embedding of `SatBeamScheduler::SatUtInfo::AddCrMsg`. -/
def SatUtInfo.AddCrMsg (u : SatUtInfo) (crMsg : SatCrMessage) : SatUtInfo :=
  { u with m_crContainer := u.m_crContainer ++ [crMsg] }

/-- The `switch` of `UpdateDamaEntriesFromCrs` for one descriptor. -/
def applyDescriptor (damaEntry : SatDamaEntry)
    (descriptor : (Nat × SatCapacityAllocationCategory_t) × Nat) : SatDamaEntry :=
  match descriptor.1.2 with
  | .DA_RBDC => damaEntry.UpdateRbdcInKbps descriptor.1.1 descriptor.2
  | .DA_VBDC => damaEntry.UpdateVbdcInBytes descriptor.1.1 descriptor.2
  | .DA_AVBDC => damaEntry.SetVbdcInBytes descriptor.1.1 descriptor.2
  | .DA_CRA => damaEntry

/-- Embedding of `SatBeamScheduler::SatUtInfo::UpdateDamaEntriesFromCrs`. -/
def SatUtInfo.UpdateDamaEntriesFromCrs (u : SatUtInfo) : SatUtInfo :=
  { u with
    m_damaEntry := u.m_crContainer.foldl
      (fun damaEntry crMsg => crMsg.m_requestData.foldl applyDescriptor damaEntry)
      u.m_damaEntry
    m_crContainer := [] }

/-- Embedding of `SatBeamScheduler::CompareCno`; `none` is the NaN estimate. -/
def CompareCno (first second : UtInfoItem_t) : Bool :=
  let cnoFirst := first.2.GetCnoEstimation
  let cnoSecond := second.2.GetCnoEstimation
  match cnoFirst with
  | some a =>
    match cnoSecond with
    | none => false
    | some b => decide (a < b)
  | none => false

/-- Embedding of `SatBeamScheduler::CreateCnoEstimator`. -/
def CreateCnoEstimator (s : SatBeamScheduler) : Run SatCnoEstimator :=
  match s.m_cnoEstimatorMode with
  | .LAST | .MINIMUM | .AVERAGE =>
    .ok { m_mode := s.m_cnoEstimatorMode, m_window := s.m_cnoEstimationWindow, m_samples := [] }
  | .OTHER _ => .error (.fatal "Not supported C/N0 estimation mode!!!")

/-- A call `m_utInfos[utId]->...`: the `SatUtInfo` object of the terminal is replaced by `f`
of it. -/
def updateUtInfo (s : SatBeamScheduler) (utId : Address) (f : SatUtInfo → SatUtInfo) :
    SatBeamScheduler :=
  { s with m_utSortedInfos :=
      s.m_utSortedInfos.map (fun item => if item.1 = utId then (item.1, f item.2) else item) }

/-- Embedding of `SatBeamScheduler::AddUt`.  The result comes with the state in which the
call ended, also when it ended with a fatal error.  `m_utInfos.insert` leaves the map as it
is when the key is present.  A dereferenced null `Ptr` ends the run in ns-3. -/
def AddUt (s : SatBeamScheduler) (utId : Address) (llsConf : SatLowerLayerServiceConf) :
    Run Nat × SatBeamScheduler :=
  let damaEntry := SatDamaEntry.create llsConf
  match CreateCnoEstimator s with
  | .error e => (.error e, s)
  | .ok cnoEstimator =>
    let utInfo : SatUtInfo :=
      { m_damaEntry := damaEntry, m_cnoEstimator := cnoEstimator, m_crContainer := [] }
    if utId ∈ s.m_utInfos then
      (.error (.fatal ("UT (Address: " ++ toString utId ++ ") already added to Beam scheduler.")),
        s)
    else
      let s := { s with m_utInfos := s.m_utInfos.orderedInsert (fun a b => a ≤ b) utId
                        m_utSortedInfos := s.m_utSortedInfos ++ [(utId, utInfo)] }
      match s.m_raChRandomIndex with
      | none => (.error (.fatal "Attempted to dereference zero pointer"), s)
      | some randomIndex =>
        match randomIndex.m_draws with
        | [] => (.error .outOfDraws, s)
        | d :: ds =>
          (.ok (GetInteger 0 randomIndex.m_max d),
            { s with m_raChRandomIndex := some { randomIndex with m_draws := ds } })

/-- Embedding of `SatBeamScheduler::UpdateUtCno`, with `NS_ASSERT` in effect. -/
def UpdateUtCno (s : SatBeamScheduler) (utId : Address) (cno : ℚ) :
    Run Unit × SatBeamScheduler :=
  if utId ∈ s.m_utInfos then
    (.ok (), updateUtInfo s utId (fun u => u.AddCnoSample cno))
  else
    (.error (.fatal "NS_ASSERT (result != m_utInfos.end ())"), s)

/-- Embedding of `SatBeamScheduler::UtCrReceived`, with `NS_ASSERT` in effect. -/
def UtCrReceived (s : SatBeamScheduler) (utId : Address) (crMsg : SatCrMessage) :
    Run Unit × SatBeamScheduler :=
  if utId ∈ s.m_utInfos then
    (.ok (), updateUtInfo s utId (fun u => u.AddCrMsg crMsg))
  else
    (.error (.fatal "NS_ASSERT (result != m_utInfos.end ())"), s)

/-- Embedding of `SatBeamScheduler::Initialize`, with the effects of the call; `draws` are
the outputs that the generator of the new random variable is going to produce.  The send
callback and `maxRcCount` only reach collaborators and are left out.  The quotient
`totalDelay.GetInteger () / seq->GetDuration (0).GetInteger ()` is the truncating division of
`int64_t`; a duration of zero is outside the embedding. -/
def Initialize (clock : SatRtnLinkTime) (s : SatBeamScheduler) (beamId : Nat)
    (seq : SatSuperframeSeq) (maxFrameSizeInBytes : Nat) (draws : List Draw) :
    Run Unit × SatBeamScheduler × List SchedulerEffect :=
  let totalDelay := s.m_maxTwoWayPropagationDelay + s.m_maxTBTPTxAndProcessingDelay
  let sfCountOffset := toUint32 (Int.tdiv totalDelay (seq.GetDuration 0) + 1)
  let raChannelCount := (seq.GetSuperframeConf s.m_currentSequence).GetRaChannelCount
  let maxIndex := if raChannelCount > 0 then raChannelCount - 1 else 0
  let s := { s with
    m_beamId := beamId
    m_maxBbFrameSize := maxFrameSizeInBytes
    m_superFrameCounter :=
      (clock.GetNextSuperFrameCount s.m_currentSequence + sfCountOffset) % 4294967296
    m_raChRandomIndex := some { m_max := maxIndex, m_draws := draws } }
  let txTime := clock.GetNextSuperFrameStartTime s.m_currentSequence
  if txTime > clock.Now then
    let delay := txTime - clock.Now
    (.ok (), s, [.SimulatorSchedule (clock.Now + delay)])
  else
    (.error (.fatal "Trying to schedule a superframe in the past!"), s, [])

/-! ## Beam scheduler: the cycle -/

/-- One element travelling through the counters of `std::list::sort`: the carry is merged
into every non-empty counter it meets and is put into the first empty one. -/
def sortCarry {α : Type} (le : α → α → Bool) : List α → List (List α) → List (List α)
  | carry, [] => [carry]
  | carry, counter :: counters =>
    if counter.isEmpty then carry :: counters
    else [] :: sortCarry le (List.merge counter carry le) counters

/-- Model of `std::list::sort (comp)` as the GNU C++ library implements it (the library is
not part of the repository): a bottom-up merge sort that moves the elements one by one into
a row of counters and merges the counters at the end.  `counter.merge (carry, comp)` takes
an element of `carry` before an element of `counter` only when `comp` says it is less. -/
def listSort {α : Type} (comp : α → α → Bool) (l : List α) : List α :=
  let le := fun a b => !comp b a
  match l.foldl (fun counters x => sortCarry le [x] counters) [] with
  | [] => []
  | counter :: counters => counters.foldl (fun acc c => List.merge c acc le) counter

/-- Embedding of `SatBeamScheduler::UpdateDamaEntries`: every terminal of `m_utInfos`, in map
order, has its queued capacity requests applied and its persistence counters decremented.
The three byte totals that the method also computes are not read in this file and are left
out. -/
def UpdateDamaEntries (s : SatBeamScheduler) : SatBeamScheduler :=
  s.m_utInfos.foldl
    (fun s utId => updateUtInfo s utId (fun u =>
      let u := u.UpdateDamaEntriesFromCrs
      { u with m_damaEntry :=
          u.m_damaEntry.DecrementDynamicRatePersistence.DecrementVolumeBacklogPersistence }))
    s

/-- The allocation request that `DoPreResourceAllocation` builds for one terminal: one item
per resource class `i < GetRcCount ()`, tagged with the address of the terminal. -/
def buildAllocReq (item : UtInfoItem_t) : SatFrameAllocReq :=
  let damaEntry := item.2.m_damaEntry
  { m_reqPerRc := (List.range damaEntry.GetRcCount).map (fun i =>
      { m_craInKbps := damaEntry.GetCraInKbps i
        m_minRbdcInKbps := damaEntry.GetMinRbdcInKbps i
        m_rbdcInKbps := damaEntry.GetRbdcInKbps i
        m_vbdcBytes := damaEntry.GetVbdcInBytes i })
    m_address := item.1 }

/-- Embedding of `SatBeamScheduler::DoPreResourceAllocation`, with the calls it makes to the
frame allocator.  The iterator `m_currentUt` is not read in this file and is left out. -/
def DoPreResourceAllocation (s : SatBeamScheduler) : SatBeamScheduler × List SchedulerEffect :=
  let s := { s with m_totalSlotsLeft := 0 }
  if s.m_utInfos.length > 0 then
    let s := { s with m_utSortedInfos := listSort CompareCno s.m_utSortedInfos }
    (s, [SchedulerEffect.RemoveAllocations] ++
        s.m_utSortedInfos.map
          (fun item => SchedulerEffect.AllocateToFrame item.2.GetCnoEstimation (buildAllocReq item)) ++
        [SchedulerEffect.AllocateSymbols])
  else
    (s, [])

/-- The local `uint16_t timeSlotCount` of the loop of `AddRaChannels` for the channel `i`:
the time slot count of the frame `uint8_t frameId` of the channel divided by its carrier
count. -/
def raChannelTimeSlotCount (superFrameConf : SatSuperframeConf) (i : Nat) : Nat :=
  let frameId := superFrameConf.GetRaChannelFrameId i % 256
  let frameConf := superFrameConf.GetFrameConf frameId
  (frameConf.m_timeSlotCount / frameConf.m_carrierCount) % 65536

/-- The body of the `for` loop of `AddRaChannels` for the channel `i`.  The container is
`filled ++ [tbtpToFill]`: `tbtpToFill` points to its last element throughout. -/
def addRaChannel (superFrameConf : SatSuperframeConf) (fmt : SatTbtpFormat)
    (maxBbFrameSize : Nat) (acc : List SatTbtpMessage × SatTbtpMessage) (i : Nat) :
    List SatTbtpMessage × SatTbtpMessage :=
  let timeSlotCount := raChannelTimeSlotCount superFrameConf i
  if timeSlotCount > 0 then
    let acc :=
      if acc.2.GetSizeInBytes fmt + fmt.m_tbtpTimeSlotInfoSizeInBytes * timeSlotCount
          > maxBbFrameSize then
        let newTbtp := (SatTbtpMessage.create acc.2.m_superframeSeqId).SetSuperframeCounter
          acc.2.m_superframeCounter
        (acc.1 ++ [acc.2], newTbtp)
      else
        acc
    (acc.1, acc.2.SetRaChannel i (superFrameConf.GetRaChannelFrameId i) timeSlotCount)
  else
    acc

/-- Embedding of `SatBeamScheduler::AddRaChannels`; the result is the container after the
call. -/
def AddRaChannels (seq : SatSuperframeSeq) (fmt : SatTbtpFormat) (s : SatBeamScheduler)
    (tbtpContainer : List SatTbtpMessage) : Run (List SatTbtpMessage) :=
  match tbtpContainer.getLast? with
  | none => .error (.fatal "TBTP container must contain at least one message.")
  | some tbtpToFill =>
    let superFrameConf := seq.GetSuperframeConf s.m_currentSequence
    let acc := (List.range superFrameConf.GetRaChannelCount).foldl
      (addRaChannel superFrameConf fmt s.m_maxBbFrameSize) (tbtpContainer.dropLast, tbtpToFill)
    .ok (acc.1 ++ [acc.2])

/-- Embedding of `SatBeamScheduler::Schedule`, one run of the cycle at the time `now`, with
its effects in their order. -/
def Schedule (now : Int) (seq : SatSuperframeSeq) (fmt : SatTbtpFormat)
    (frameAllocator : SatFrameAllocator) (s : SatBeamScheduler) :
    Run Unit × SatBeamScheduler × List SchedulerEffect :=
  let reschedule :=
    SchedulerEffect.SimulatorSchedule (now + seq.GetDuration s.m_currentSequence)
  if s.m_utInfos.length > 0 then
    let s := UpdateDamaEntries s
    let (s, allocation) := DoPreResourceAllocation s
    let firstTbtp :=
      (SatTbtpMessage.create s.m_currentSequence).SetSuperframeCounter s.m_superFrameCounter
    let s := { s with m_superFrameCounter := (s.m_superFrameCounter + 1) % 4294967296 }
    match AddRaChannels seq fmt s [firstTbtp] with
    | .error e => (.error e, s, allocation)
    | .ok tbtps =>
      let generated := frameAllocator.GenerateTimeSlots tbtps s.m_maxBbFrameSize
      (.ok (), s,
        allocation ++ [SchedulerEffect.GenerateTimeSlots tbtps s.m_maxBbFrameSize] ++
          generated.map SchedulerEffect.Send ++ [reschedule])
  else
    (.ok (), s, [reschedule])

/-! ## Random access configuration: construction -/

/-- Embedding of `SatRandomAccessConf::DoSlottedAlohaVariableSanityCheck`. -/
def DoSlottedAlohaVariableSanityCheck (conf : SatRandomAccessConf) : Run Unit :=
  if conf.m_slottedAlohaControlRandomizationIntervalInMilliSeconds < 1 then
    .error (.fatal "SatRandomAccessConf::DoSlottedAlohaVariableSanityCheck - m_slottedAlohaControlRandomizationIntervalInMilliSeconds < 1")
  else
    .ok ()

/-- The allocation channel that one round of the `for` loop of the constructor
`SatRandomAccessConf (llsConf, superframeSeq)` builds from a random-access service, as it is
when the sanity check of the round is called: a channel of the default constructor on which
the setters of the round were called, each storing its argument.  The raw backoff
probability `r` is promoted to `int` by `r - 1`, and `std::pow (2,16)` is `65536`.
`SetCrdsaPayloadBytes` writes a member that no embedded method reads; it is left out, and
with it the parameter `superframeSeq`. -/
def createAllocationChannel (entry : SatLowerLayerServiceRaEntry) :
    SatRandomAccessAllocationChannel :=
  { zeroChannel with
    m_crdsaMaxUniquePayloadPerBlock := entry.m_maximumUniquePayloadPerBlock
    m_crdsaMaxConsecutiveBlocksAccessed := entry.m_maximumConsecutiveBlockAccessed
    m_crdsaMinIdleBlocks := entry.m_minimumIdleBlock
    m_crdsaNumOfInstances := entry.m_numberOfInstances
    m_crdsaBackoffProbability :=
      (((entry.m_backOffProbability : Int) - 1 : Int) : ℚ) * (1 / ((2 : ℚ) ^ 16 - 2))
    m_crdsaBackoffTime := entry.m_backOffTimeInMilliSeconds
    m_crdsaMinRandomizationValue := 0
    m_crdsaMaxRandomizationValue := 79
    m_crdsaMaximumBackoffProbability := 0.2 }

/-- The `for (i = 0; i < m_allocationChannelCount; i++)` loop of the constructor over the
random-access services that are still to come: each round builds its channel and runs
`DoCrdsaVariableSanityCheck` on it. -/
def createAllocationChannels :
    List SatLowerLayerServiceRaEntry → Run (List SatRandomAccessAllocationChannel)
  | [] => pure []
  | entry :: rest => do
    let allocationChannel := createAllocationChannel entry
    DoCrdsaVariableSanityCheck allocationChannel
    let channels ← createAllocationChannels rest
    pure (allocationChannel :: channels)

/-- Embedding of the constructor `SatRandomAccessConf (llsConf, superframeSeq)`. -/
def SatRandomAccessConf.create (llsConf : SatLowerLayerServiceConf) : Run SatRandomAccessConf :=
  let m_allocationChannelCount := llsConf.m_raServiceEntries.length
  if m_allocationChannelCount < 1 then
    .error (.fatal "SatRandomAccessConf::SatRandomAccessConf - No random access allocation channel")
  else do
    let conf : SatRandomAccessConf :=
      { m_slottedAlohaControlRandomizationIntervalInMilliSeconds :=
          llsConf.m_defaultControlRandomizationInterval
        m_allocationChannelConf := [] }
    DoSlottedAlohaVariableSanityCheck conf
    let channels ← createAllocationChannels llsConf.m_raServiceEntries
    pure { conf with m_allocationChannelConf := channels }

/-! ## Random access: the parameter setters -/

/-- Modelled from the spec: `SatRandomAccessConf::SetSlottedAlohaControlRandomizationInterval`,
a setter of the header, which is not among the sources.  It stores its argument in
`m_slottedAlohaControlRandomizationIntervalInMilliSeconds`.  The argument is a `double` and
the member is embedded as the whole number that the generator receives: the integer part of
the argument, `0` for a negative argument.  The stored number is below `1` exactly when the
argument is, so the sanity check decides as it does on the `double`. -/
def SatRandomAccessConf.SetSlottedAlohaControlRandomizationInterval (conf : SatRandomAccessConf)
    (controlRandomizationInterval : ℚ) : SatRandomAccessConf :=
  { conf with m_slottedAlohaControlRandomizationIntervalInMilliSeconds :=
      (Int.tdiv controlRandomizationInterval.num controlRandomizationInterval.den).toNat }

/-- Embedding of `SatRandomAccess::SlottedAlohaSetControlRandomizationInterval`. -/
def SlottedAlohaSetControlRandomizationInterval (s : SatRandomAccess)
    (controlRandomizationInterval : ℚ) : Run SatRandomAccess :=
  if s.m_randomAccessModel = .RA_SLOTTED_ALOHA ∨ s.m_randomAccessModel = .RA_ANY_AVAILABLE then do
    let conf := s.m_randomAccessConf.SetSlottedAlohaControlRandomizationInterval
      controlRandomizationInterval
    let s := { s with m_randomAccessConf := conf }
    DoSlottedAlohaVariableSanityCheck s.m_randomAccessConf
    pure s
  else
    .error (.fatal "SatRandomAccess::SlottedAlohaSetRandomizationParameters - Wrong random access model in use")

/-- Embedding of `SatRandomAccess::CrdsaSetLoadControlParameters`; each setter of the channel
stores its argument. -/
def CrdsaSetLoadControlParameters (s : SatRandomAccess) (allocationChannel : Nat)
    (backoffProbability : ℚ) (backoffTime : Nat) : Run SatRandomAccess :=
  if s.m_randomAccessModel = .RA_CRDSA ∨ s.m_randomAccessModel = .RA_ANY_AVAILABLE then do
    let s ← updateChannel s allocationChannel
      (fun c => { c with m_crdsaBackoffProbability := backoffProbability })
    let s ← updateChannel s allocationChannel
      (fun c => { c with m_crdsaBackoffTime := backoffTime })
    let c ← GetAllocationChannelConfiguration s.m_randomAccessConf allocationChannel
    DoCrdsaVariableSanityCheck c
    pure s
  else
    .error (.fatal "SatRandomAccess::CrdsaSetLoadControlParameters - Wrong random access model in use")

/-- Embedding of `SatRandomAccess::CrdsaSetMaximumBackoffProbability`. -/
def CrdsaSetMaximumBackoffProbability (s : SatRandomAccess) (allocationChannel : Nat)
    (maximumBackoffProbability : ℚ) : Run SatRandomAccess :=
  if s.m_randomAccessModel = .RA_CRDSA ∨ s.m_randomAccessModel = .RA_ANY_AVAILABLE then do
    let s ← updateChannel s allocationChannel
      (fun c => { c with m_crdsaMaximumBackoffProbability := maximumBackoffProbability })
    let c ← GetAllocationChannelConfiguration s.m_randomAccessConf allocationChannel
    DoCrdsaVariableSanityCheck c
    pure s
  else
    .error (.fatal "SatRandomAccess::CrdsaSetMaximumBackoffProbability - Wrong random access model in use")

/-- Embedding of `SatRandomAccess::CrdsaSetRandomizationParameters`. -/
def CrdsaSetRandomizationParameters (s : SatRandomAccess) (allocationChannel : Nat)
    (minRandomizationValue maxRandomizationValue numOfInstances : Nat) : Run SatRandomAccess :=
  if s.m_randomAccessModel = .RA_CRDSA ∨ s.m_randomAccessModel = .RA_ANY_AVAILABLE then do
    let s ← updateChannel s allocationChannel
      (fun c => { c with m_crdsaMinRandomizationValue := minRandomizationValue })
    let s ← updateChannel s allocationChannel
      (fun c => { c with m_crdsaMaxRandomizationValue := maxRandomizationValue })
    let s ← updateChannel s allocationChannel
      (fun c => { c with m_crdsaNumOfInstances := numOfInstances })
    let c ← GetAllocationChannelConfiguration s.m_randomAccessConf allocationChannel
    DoCrdsaVariableSanityCheck c
    pure s
  else
    .error (.fatal "SatRandomAccess::CrdsaSetRandomizationParameters - Wrong random access model in use")

/-- Embedding of `SatRandomAccess::CrdsaSetMaximumDataRateLimitationParameters`. -/
def CrdsaSetMaximumDataRateLimitationParameters (s : SatRandomAccess) (allocationChannel : Nat)
    (maxUniquePayloadPerBlock maxConsecutiveBlocksAccessed minIdleBlocks : Nat) :
    Run SatRandomAccess :=
  if s.m_randomAccessModel = .RA_CRDSA ∨ s.m_randomAccessModel = .RA_ANY_AVAILABLE then do
    let s ← updateChannel s allocationChannel
      (fun c => { c with m_crdsaMaxUniquePayloadPerBlock := maxUniquePayloadPerBlock })
    let s ← updateChannel s allocationChannel
      (fun c => { c with m_crdsaMaxConsecutiveBlocksAccessed := maxConsecutiveBlocksAccessed })
    let s ← updateChannel s allocationChannel
      (fun c => { c with m_crdsaMinIdleBlocks := minIdleBlocks })
    let c ← GetAllocationChannelConfiguration s.m_randomAccessConf allocationChannel
    DoCrdsaVariableSanityCheck c
    pure s
  else
    .error (.fatal "SatRandomAccess::CrdsaSetMaximumDataRateLimitationParameters - Wrong random access model in use")

/-! ## CRDSA: the record of a slot preparation -/

/-- What one run of the `for` loop of `CrdsaPrepareToTransmit` did: how many rounds it
entered (the attempts), in how many of them it called `CrdsaRandomizeTxOpportunities`, and
whether it left through the `break` that follows `CrdsaSetBackoffTimer`. -/
structure PrepareTrace where
  attempts : Nat
  randomizations : Nat
  backoff : Bool
deriving DecidableEq

/-- The `for` loop of `CrdsaPrepareToTransmit` once more, with `n` rounds still to run, this
time returning the record of the run instead of the results: the same calls in the same
order as in `prepareLoop`, so that the generator outputs are used in the same way. -/
def prepareLoopTrace (t : Instant) (allocationChannel : Nat) :
    Nat → SatRandomAccess → RandomAccessResults_s → Run PrepareTrace
  | 0, _, _ => pure { attempts := 0, randomizations := 0, backoff := false }
  | n + 1, s, results => do
    let (doBackoff, s) ← CrdsaDoBackoff s allocationChannel
    if doBackoff then
      let _ ← CrdsaSetBackoffTimer t s allocationChannel
      pure { attempts := 1, randomizations := 0, backoff := true }
    else
      let (d, s) ← nextDraw s
      if GetValue01 d < 0.2 then
        pure { attempts := 1, randomizations := 0, backoff := false }
      else if (← CrdsaIsAllocationChannelFree s allocationChannel) then
        let (crdsaResult, s) ←
          match crdsaResultFind results.crdsaResult allocationChannel with
          | none => do
            let (tx, s) ← CrdsaRandomizeTxOpportunities s allocationChannel ∅
            pure (crdsaResultInsert allocationChannel tx results.crdsaResult, s)
          | some old => do
            let (tx, s) ← CrdsaRandomizeTxOpportunities s allocationChannel old
            pure (crdsaResultAssign allocationChannel tx results.crdsaResult, s)
        let results := { results with crdsaResult := crdsaResult
                                      resultType := .RA_CRDSA_TX_OPPORTUNITY }
        let (empty, s) ← AreBuffersEmpty s
        let s := if empty then { s with m_crdsaNewData := true } else s
        let trace ← prepareLoopTrace t allocationChannel n s results
        pure { trace with attempts := trace.attempts + 1
                          randomizations := trace.randomizations + 1 }
      else
        let trace ← prepareLoopTrace t allocationChannel n s results
        pure { trace with attempts := trace.attempts + 1 }

/-- The record of the loop of a call `CrdsaPrepareToTransmit (allocationChannel)`, whose
bound is `limit`, the maximum number of unique payloads per block of the channel. -/
def CrdsaPrepareToTransmitTrace (t : Instant) (s : SatRandomAccess) (allocationChannel : Nat) :
    Run PrepareTrace := do
  let c ← GetAllocationChannelConfiguration s.m_randomAccessConf allocationChannel
  let limit := c.m_crdsaMaxUniquePayloadPerBlock
  prepareLoopTrace t allocationChannel limit s RandomAccessResults_s.doNothing

/-- Consecutive calls of `UtCrReceived` for the terminal `utId`, one for each message of
`crMsgs` in the order of the list; the state after the last call. -/
def UtCrReceivedAll (s : SatBeamScheduler) (utId : Address) (crMsgs : List SatCrMessage) :
    SatBeamScheduler :=
  crMsgs.foldl (fun s crMsg => (UtCrReceived s utId crMsg).2) s

/-- The local `totalDelay` of `Initialize`:
`m_maxTwoWayPropagationDelay + m_maxTBTPTxAndProcessingDelay`. -/
def SatBeamScheduler.totalDelay (s : SatBeamScheduler) : Int :=
  s.m_maxTwoWayPropagationDelay + s.m_maxTBTPTxAndProcessingDelay

/-! ## Concrete inputs used by the witnesses -/

/-- A channel with the range `0 .. 79` and the maximum backoff probability `0.2` that the
constructor of `SatRandomAccessConf` sets, three instances, at most two unique payloads per
block, backoff probability `0.1` and a backoff time of 500 ms. -/
def exampleChannel : SatRandomAccessAllocationChannel :=
  { zeroChannel with
    m_crdsaMaxRandomizationValue := 79
    m_crdsaNumOfInstances := 3
    m_crdsaMinIdleBlocks := 2
    m_crdsaBackoffTime := 500
    m_crdsaBackoffProbability := 1 / 10
    m_crdsaMaximumBackoffProbability := 1 / 5
    m_crdsaMaxUniquePayloadPerBlock := 2
    m_crdsaMaxConsecutiveBlocksAccessed := 2 }

/-- A configuration with two channels, the second of them in a forced idle period. -/
def exampleConf : SatRandomAccessConf :=
  { m_slottedAlohaControlRandomizationIntervalInMilliSeconds := 10
    m_allocationChannelConf := [exampleChannel, { exampleChannel with m_crdsaIdleBlocksLeft := 3 }] }

/-- The draw `1 / 2`. -/
def Draw.half : Draw := ⟨1, 2, by decide⟩

/-- The draw `k / 80` for `k < 80`, which `GetInteger (0, 79)` turns into the slot `k`. -/
def Draw.slot (k : Nat) (h : k < 80) : Draw := ⟨k, 80, h⟩

/-- Four draws that `GetInteger (0, 79)` turns into the slots `0, 1, 1, 79`. -/
def exampleSlotDraws : List Draw :=
  [Draw.slot 0 (by decide), Draw.slot 1 (by decide), Draw.slot 1 (by decide),
    Draw.slot 79 (by decide)]

/-- Draws on which `DoCrdsa` for channel `0` of `exampleConf` passes the first backoff draw,
prepares the slots `0, 1, 79` in its first attempt and backs off in its second attempt. -/
def exampleCrdsaDraws : List Draw :=
  [Draw.half, Draw.half, Draw.half] ++ exampleSlotDraws ++
    [Draw.half, ⟨1, 20, by decide⟩]

/-- A scheduler as its constructor builds it, with the default values of the attributes
(estimation mode `LAST`, window 1000, delays 560 and 100, in milliseconds). -/
def exampleScheduler : SatBeamScheduler :=
  SatBeamScheduler.create .LAST 1000 560 100 0

/-- A superframe sequence with superframes of 100 ms and three random-access channels: the
channel `i` uses the frame `i`, which has `20 * i` time slots on two carriers. -/
def exampleSeq : SatSuperframeSeq :=
  { GetDuration := fun _ => 100
    GetSuperframeConf := fun _ =>
      { GetRaChannelCount := 3
        GetRaChannelFrameId := fun i => i
        GetFrameConf := fun frameId =>
          { m_timeSlotCount := 20 * frameId, m_carrierCount := 2 } } }

/-- A clock at time `0` with the next superframe, number 5, starting at time `30`. -/
def exampleClock : SatRtnLinkTime :=
  { Now := 0, GetNextSuperFrameCount := fun _ => 5, GetNextSuperFrameStartTime := fun _ => 30 }

/-- A service profile with one resource class: constant rate 10, minimum dynamic rate 20. -/
def exampleLlsConf : SatLowerLayerServiceConf :=
  { m_daServices := [(10, 20)], m_dynamicRatePersistence := 3, m_volumeBacklogPersistence := 3 }

/-- The example scheduler after `Initialize` for a frame size of 50 bytes. -/
def exampleInitialized : SatBeamScheduler :=
  (Initialize exampleClock exampleScheduler 7 exampleSeq 50 [Draw.half, Draw.half]).2.1

/-- The initialized example scheduler after the registration of the terminal `42`. -/
def exampleOneUt : SatBeamScheduler :=
  (AddUt exampleInitialized 42 exampleLlsConf).2

/-- Schedule messages with a body of 5 bytes and 2 bytes per slot. -/
def exampleFormat : SatTbtpFormat :=
  { m_tbtpBodySizeInBytes := 5, m_tbtpTimeSlotInfoSizeInBytes := 2 }

/-- A frame allocator that emits no data-access slot and returns the container as it is. -/
def exampleAllocator : SatFrameAllocator :=
  { GenerateTimeSlots := fun tbtpContainer _ => tbtpContainer }

/-- The ranked-list entry of a terminal that has the given quality samples. -/
def exampleUt (utId : Address) (samples : List ℚ) : UtInfoItem_t :=
  (utId,
    { m_damaEntry := SatDamaEntry.create exampleLlsConf
      m_cnoEstimator := { m_mode := .LAST, m_window := 1000, m_samples := samples }
      m_crContainer := [] })

/-- A scheduler with four registered terminals whose quality estimates are, in the order of
the ranked list, `3`, `4`, unknown and `1`. -/
def exampleFourUts : SatBeamScheduler :=
  { exampleInitialized with
    m_utInfos := [1, 2, 3, 4]
    m_utSortedInfos := [exampleUt 1 [3], exampleUt 2 [4], exampleUt 3 [], exampleUt 4 [1]] }

/-- A random-access service with the raw backoff probability `1` and a backoff time of
50 ms: three instances, at most three unique payloads per block, six consecutive blocks and
two idle blocks. -/
def exampleRaEntry : SatLowerLayerServiceRaEntry :=
  { m_maximumUniquePayloadPerBlock := 3, m_maximumConsecutiveBlockAccessed := 6,
    m_minimumIdleBlock := 2, m_numberOfInstances := 3, m_backOffProbability := 1,
    m_backOffTimeInMilliSeconds := 50 }

/-- A service profile with two random-access services, the second one with the raw backoff
probability `65535`, and a default control randomization interval of 100 ms. -/
def exampleRaLlsConf : SatLowerLayerServiceConf :=
  { exampleLlsConf with
    m_raServiceEntries := [exampleRaEntry, { exampleRaEntry with m_backOffProbability := 65535 }]
    m_defaultControlRandomizationInterval := 100 }

/-- The draw `0`. -/
def Draw.zero : Draw := ⟨0, 1, by decide⟩

/-- The draw `1 / 10`. -/
def Draw.tenth : Draw := ⟨1, 10, by decide⟩

/-- The draw `1 / 20`. -/
def Draw.twentieth : Draw := ⟨1, 20, by decide⟩

/-- A configuration with one channel, which is forced to idle after every block it used
(at most one consecutive block, two idle blocks). -/
def exampleForcingConf : SatRandomAccessConf :=
  { m_slottedAlohaControlRandomizationIntervalInMilliSeconds := 10
    m_allocationChannelConf := [{ exampleChannel with m_crdsaMaxConsecutiveBlocksAccessed := 1 }] }

/-- Draws on which a first `DoCrdsa` backs off in its first attempt, and a second one prepares
the slots `5, 6, 7` and finds no candidate in its second attempt. -/
def exampleIdleDraws : List Draw :=
  [Draw.twentieth, Draw.half, Draw.half, Draw.slot 5 (by decide), Draw.slot 6 (by decide),
    Draw.slot 7 (by decide), Draw.zero, Draw.half, Draw.tenth]

/-- Draws on which `DoCrdsa` passes the initial backoff draw, prepares the slots `0, 1, 79`
with data left in the buffers and finds no candidate in its second attempt, followed by
`exampleIdleDraws`. -/
def exampleForcingDraws : List Draw :=
  [Draw.half, Draw.half, Draw.half] ++ exampleSlotDraws ++ [Draw.zero, Draw.half, Draw.tenth] ++
    exampleIdleDraws

/-- The engine state after `DoCrdsa` at time `0` on `exampleForcingConf` with
`exampleForcingDraws`: the channel has just been forced to idle for two blocks. -/
def exampleForcedState : SatRandomAccess :=
  { m_uniformRandomVariable := exampleIdleDraws
    m_randomAccessModel := .RA_CRDSA
    m_randomAccessConf :=
      { exampleForcingConf with m_allocationChannelConf :=
          [{ exampleChannel with m_crdsaMaxConsecutiveBlocksAccessed := 1
                                 m_crdsaIdleBlocksLeft := 2 }] }
    m_numOfAllocationChannels := 1
    m_crdsaNewData := false }

/-- A capacity request with a rate-based descriptor of 64 kbps and a volume-based one of 100
bytes, both for the resource class `0`. -/
def exampleCrMessage : SatCrMessage :=
  { m_requestData := [((0, .DA_RBDC), 64), ((0, .DA_VBDC), 100)] }

/-- A terminal with two queued capacity requests, the second one an absolute-volume request
of 7 bytes followed by a descriptor of the type `DA_CRA`. -/
def exampleQueuedUt : SatUtInfo :=
  { (exampleUt 42 []).2 with
    m_crContainer := [exampleCrMessage, { m_requestData := [((0, .DA_AVBDC), 7), ((0, .DA_CRA), 9)] }] }

/-- Draws on which a first `DoCrdsa` passes the initial backoff draw, prepares the slots
`0, 1, 79` with data left in the buffers and finds no candidate in its second attempt, and a
second `DoCrdsa` neither backs off nor finds a candidate. -/
def exampleRetuneDraws : List Draw :=
  [Draw.half, Draw.half, Draw.half] ++ exampleSlotDraws ++ [Draw.zero, Draw.half, Draw.tenth] ++
    [Draw.half, Draw.tenth]

/-! ## Definitions written from the specification -/

/-- The channel with its idle-blocks-left counter lowered by one, a counter at zero staying
at zero; every other member is kept. -/
def lowerIdle (c : SatRandomAccessAllocationChannel) : SatRandomAccessAllocationChannel :=
  { c with m_crdsaIdleBlocksLeft := c.m_crdsaIdleBlocksLeft - 1 }

/-- The engine state with the list of allocation channels replaced. -/
def withChannels (s : SatRandomAccess) (l : List SatRandomAccessAllocationChannel) :
    SatRandomAccess :=
  { s with m_randomAccessConf := { s.m_randomAccessConf with m_allocationChannelConf := l } }

/-- The engine state with the idle-blocks-left counter of every channel lowered by one. -/
def lowerIdleOfAll (s : SatRandomAccess) : SatRandomAccess :=
  withChannels s (s.m_randomAccessConf.m_allocationChannelConf.map lowerIdle)

/-- Whether an effect is an event that enqueues a run of the cycle. -/
def SchedulerEffect.isSimulatorSchedule : SchedulerEffect → Bool
  | .SimulatorSchedule _ => true
  | _ => false

/-- The announcement that an instance without size limit carries for the random-access
channel `i`: channel index, frame id and the slot count, which is the time slot count of the
frame divided (integer division) by its carrier count; no announcement for a slot count of
zero. -/
def raAnnouncement (superFrameConf : SatSuperframeConf) (i : Nat) : Option (Nat × Nat × Nat) :=
  let frameId := superFrameConf.GetRaChannelFrameId i
  let frameConf := superFrameConf.GetFrameConf frameId
  let slotCount := frameConf.m_timeSlotCount / frameConf.m_carrierCount
  if slotCount = 0 then none else some (i, frameId, slotCount)

/-- The announcements of all configured random-access channels, in channel-index order. -/
def raAnnouncements (superFrameConf : SatSuperframeConf) : List (Nat × Nat × Nat) :=
  (List.range superFrameConf.GetRaChannelCount).filterMap (raAnnouncement superFrameConf)

/-- The engine state with the allocation channel of the given index replaced. -/
def withChannel (s : SatRandomAccess) (allocationChannel : Nat)
    (c : SatRandomAccessAllocationChannel) : SatRandomAccess :=
  withChannels s (s.m_randomAccessConf.m_allocationChannelConf.set allocationChannel c)

/-- The channel with its backoff timer armed at the instant `t`: the backoff release time is
the current time plus the backoff time of the channel, which is in milliseconds, converted
to seconds, and the idle-blocks-left counter is lowered by one. -/
def armBackoff (t : Instant) (c : SatRandomAccessAllocationChannel) :
    SatRandomAccessAllocationChannel :=
  lowerIdle { c with m_crdsaBackoffReleaseTime := t.now + c.m_crdsaBackoffTime / 1000 }

/-- The results of a slot preparation in which `k` randomizations of `instances` slots
each were made for the channel `ch`: no Slotted ALOHA delay; for `k = 0` no opportunity and
no slot; for `k > 0` a CRDSA opportunity whose only entry is a set of `k * instances` slots
for `ch`. -/
def PreparedResult (ch instances k : Nat) (results : RandomAccessResults_s) : Prop :=
  results.slottedAlohaResult = none ∧
  ((k = 0 ∧ results.resultType = .RA_DO_NOTHING ∧ results.crdsaResult = []) ∨
   (0 < k ∧ results.resultType = .RA_CRDSA_TX_OPPORTUNITY ∧
     ∃ tx : Finset Nat, results.crdsaResult = [(ch, tx)] ∧ tx.card = k * instances))

/-- What `CrdsaPrepareToTransmit` makes of the channel: the timer is armed if the loop left
through the backoff, and the idle-blocks-left counter is lowered at the end. -/
def PrepareTrace.channelAfter (tr : PrepareTrace) (t : Instant)
    (c : SatRandomAccessAllocationChannel) : SatRandomAccessAllocationChannel :=
  lowerIdle (if tr.backoff then armBackoff t c else c)

/-- What `CrdsaIncreaseConsecutiveBlocksUsed` makes of the channel: the
consecutive-blocks-used counter goes up by one, and when it has reached the maximum the
idle-blocks-left counter is set to the minimum number of idle blocks and the counter to
zero. -/
def increaseConsecutiveBlocksUsed (c : SatRandomAccessAllocationChannel) :
    SatRandomAccessAllocationChannel :=
  let c := { c with m_crdsaNumOfConsecutiveBlocksUsed :=
    (c.m_crdsaNumOfConsecutiveBlocksUsed + 1) % 4294967296 }
  if c.m_crdsaNumOfConsecutiveBlocksUsed ≥ c.m_crdsaMaxConsecutiveBlocksAccessed then
    { c with m_crdsaIdleBlocksLeft := c.m_crdsaMinIdleBlocks
             m_crdsaNumOfConsecutiveBlocksUsed := 0 }
  else
    c

/-- The part of `DoCrdsa` that runs once the initial backoff is out of the way:
`CrdsaPrepareToTransmit` followed by the update of the consecutive-blocks-used counter
according to the result type. -/
def slotPreparation (t : Instant) (s : SatRandomAccess) (allocationChannel : Nat) :
    Run (RandomAccessResults_s × SatRandomAccess) := do
  let (results, s) ← CrdsaPrepareToTransmit t s allocationChannel
  if results.resultType = .RA_CRDSA_TX_OPPORTUNITY then
    let s ← CrdsaIncreaseConsecutiveBlocksUsed s allocationChannel
    pure (results, s)
  else if results.resultType = .RA_DO_NOTHING then
    let s ← updateChannel s allocationChannel
      (fun c => { c with m_crdsaNumOfConsecutiveBlocksUsed := 0 })
    pure (results, s)
  else
    pure (results, s)

/-- Consecutive calls of `DoCrdsa` for one channel at the given instants, nothing else
touching the engine in between; the results come in the order of the calls. -/
def DoCrdsaCalls (allocationChannel : Nat) :
    List Instant → SatRandomAccess → Run (List RandomAccessResults_s × SatRandomAccess)
  | [], s => pure ([], s)
  | t :: ts, s => do
    let (results, s) ← DoCrdsa t s allocationChannel
    let (rest, s) ← DoCrdsaCalls allocationChannel ts s
    pure (results :: rest, s)

/-- The equivalence that the comparator `CompareCno` induces, as the specification words it:
`a` and `b` are equivalent when neither `CompareCno (a, b)` nor `CompareCno (b, a)`. -/
def equivalentCno (a b : UtInfoItem_t) : Prop :=
  CompareCno a b = false ∧ CompareCno b a = false

instance (a b : UtInfoItem_t) : Decidable (equivalentCno a b) := by
  unfold equivalentCno; infer_instance

/-- The descriptors of a request queue in the order the specification gives: the requests in
arrival order and, within each request, the descriptors as listed. -/
def queuedDescriptors (queue : List SatCrMessage) :
    List ((Nat × SatCapacityAllocationCategory_t) × Nat) :=
  (queue.map (fun crMsg => crMsg.m_requestData)).flatten

/-- The effect of a list of descriptors on a demand entry as the specification describes it:
one descriptor after the other, a rate-based one through the RBDC update, a volume-based one
through the accumulating VBDC update, an absolute-volume one through the VBDC overwrite, each
with the RC index and the value of the descriptor; a descriptor of another type leaves the
entry as it is. -/
def applyInOrder (damaEntry : SatDamaEntry) :
    List ((Nat × SatCapacityAllocationCategory_t) × Nat) → SatDamaEntry
  | [] => damaEntry
  | ((rcIndex, .DA_RBDC), value) :: rest =>
    applyInOrder (damaEntry.UpdateRbdcInKbps rcIndex value) rest
  | ((rcIndex, .DA_VBDC), value) :: rest =>
    applyInOrder (damaEntry.UpdateVbdcInBytes rcIndex value) rest
  | ((rcIndex, .DA_AVBDC), value) :: rest =>
    applyInOrder (damaEntry.SetVbdcInBytes rcIndex value) rest
  | ((_, .DA_CRA), _) :: rest => applyInOrder damaEntry rest

/-- The states of the scheduler that the specification speaks of as reachable: the state the
constructor builds, and the state in which a call of `Initialize`, `AddUt`, `UpdateUtCno`,
`UtCrReceived` or of the cycle `Schedule` ends when it starts in a reachable state. -/
inductive SatBeamScheduler.Reachable : SatBeamScheduler → Prop where
  | created (cnoEstimatorMode : EstimationMode_t) (cnoEstimationWindow : Int)
      (maxTwoWayPropagationDelay maxTBTPTxAndProcessingDelay : Int) (currentSequence : Nat) :
      Reachable (SatBeamScheduler.create cnoEstimatorMode cnoEstimationWindow
        maxTwoWayPropagationDelay maxTBTPTxAndProcessingDelay currentSequence)
  | initialized (clock : SatRtnLinkTime) (s : SatBeamScheduler) (beamId : Nat)
      (seq : SatSuperframeSeq) (maxFrameSizeInBytes : Nat) (draws : List Draw) :
      Reachable s → Reachable (Initialize clock s beamId seq maxFrameSizeInBytes draws).2.1
  | added (s : SatBeamScheduler) (utId : Address) (llsConf : SatLowerLayerServiceConf) :
      Reachable s → Reachable (AddUt s utId llsConf).2
  | cnoUpdated (s : SatBeamScheduler) (utId : Address) (cno : ℚ) :
      Reachable s → Reachable (UpdateUtCno s utId cno).2
  | crReceived (s : SatBeamScheduler) (utId : Address) (crMsg : SatCrMessage) :
      Reachable s → Reachable (UtCrReceived s utId crMsg).2
  | scheduled (now : Int) (seq : SatSuperframeSeq) (fmt : SatTbtpFormat)
      (frameAllocator : SatFrameAllocator) (s : SatBeamScheduler) :
      Reachable s → Reachable (Schedule now seq fmt frameAllocator s).2.1

/-- The registry and the ranked list hold the same terminal addresses, each exactly once. -/
def SatBeamScheduler.sameAddresses (s : SatBeamScheduler) : Prop :=
  (s.m_utSortedInfos.map Prod.fst).Perm s.m_utInfos ∧ s.m_utInfos.Nodup

/-- What the specification asks of a channel configuration that survived a check: at least
one instance and the seven sanity conditions. -/
def SatRandomAccessAllocationChannel.passesSanity (c : SatRandomAccessAllocationChannel) : Prop :=
  1 ≤ c.m_crdsaNumOfInstances ∧ SpecSevenConditions c

/-- The condition of the specification on one random-access service for the constructor of
`SatRandomAccessConf` to succeed: `1 ≤ instances ≤ 79`, a raw backoff value `r` with
`1 ≤ r ≤ 65535`, and a backoff time that is not negative. -/
def entryAccepted (entry : SatLowerLayerServiceRaEntry) : Prop :=
  (1 ≤ entry.m_numberOfInstances ∧ entry.m_numberOfInstances ≤ 79) ∧
  (1 ≤ entry.m_backOffProbability ∧ entry.m_backOffProbability ≤ 65535) ∧
  (0 : ℚ) ≤ (entry.m_backOffTimeInMilliSeconds : ℚ)

/-- The values of the draw range `lo .. hi` of a channel that are not yet in the set
`txOpportunities`: the free values of which the specification speaks. -/
def freeValues (lo hi : Nat) (txOpportunities : Finset Nat) : Finset Nat :=
  Finset.Icc lo hi \ txOpportunities

/-- A generator output that `GetInteger (lo, hi)` turns into the value `v` of the range:
the point `(v - lo) / (hi + 1 - lo)`. -/
def slotDraw (lo hi v : Nat) : Draw :=
  if h : lo ≤ v ∧ v ≤ hi then ⟨v - lo, hi + 1 - lo, by omega⟩ else ⟨0, 1, by decide⟩

/-- What one call of `DoRandomAccess` or `DoCrdsa` at the instant `t` may make of a channel
`c`: the configured members are kept; the consecutive-blocks-used counter is kept, is zero or
is below the maximum; the idle-blocks-left counter has not gone up or is the minimum number
of idle blocks; the backoff release time is kept, or it was not after the current time and
is now the current time plus the backoff time in seconds. -/
def ChannelStep (t : Instant) (c c2 : SatRandomAccessAllocationChannel) : Prop :=
  (c2.m_crdsaMinRandomizationValue = c.m_crdsaMinRandomizationValue ∧
    c2.m_crdsaMaxRandomizationValue = c.m_crdsaMaxRandomizationValue ∧
    c2.m_crdsaNumOfInstances = c.m_crdsaNumOfInstances ∧
    c2.m_crdsaMinIdleBlocks = c.m_crdsaMinIdleBlocks ∧
    c2.m_crdsaBackoffTime = c.m_crdsaBackoffTime ∧
    c2.m_crdsaBackoffProbability = c.m_crdsaBackoffProbability ∧
    c2.m_crdsaMaximumBackoffProbability = c.m_crdsaMaximumBackoffProbability ∧
    c2.m_crdsaMaxUniquePayloadPerBlock = c.m_crdsaMaxUniquePayloadPerBlock ∧
    c2.m_crdsaMaxConsecutiveBlocksAccessed = c.m_crdsaMaxConsecutiveBlocksAccessed) ∧
  (c2.m_crdsaNumOfConsecutiveBlocksUsed = c.m_crdsaNumOfConsecutiveBlocksUsed ∨
    c2.m_crdsaNumOfConsecutiveBlocksUsed = 0 ∨
    c2.m_crdsaNumOfConsecutiveBlocksUsed < c.m_crdsaMaxConsecutiveBlocksAccessed) ∧
  (c2.m_crdsaIdleBlocksLeft ≤ c.m_crdsaIdleBlocksLeft ∨
    c2.m_crdsaIdleBlocksLeft = c.m_crdsaMinIdleBlocks) ∧
  (c2.m_crdsaBackoffReleaseTime = c.m_crdsaBackoffReleaseTime ∨
    (c.m_crdsaBackoffReleaseTime ≤ t.now ∧
      c2.m_crdsaBackoffReleaseTime = t.now + c.m_crdsaBackoffTime / 1000))

/-- The relation `ChannelStep` for every channel of the engine, the channel count and the
random access model being kept. -/
def EngineStep (t : Instant) (s s2 : SatRandomAccess) : Prop :=
  s2.m_numOfAllocationChannels = s.m_numOfAllocationChannels ∧
  s2.m_randomAccessModel = s.m_randomAccessModel ∧
  List.Forall₂ (ChannelStep t) s.m_randomAccessConf.m_allocationChannelConf
    s2.m_randomAccessConf.m_allocationChannelConf

/-- The channel `c2` is `c` with an idle-blocks-left counter that has not gone up. -/
def LoweredOnly (c c2 : SatRandomAccessAllocationChannel) : Prop :=
  c2 = { c with m_crdsaIdleBlocksLeft := c2.m_crdsaIdleBlocksLeft } ∧
  c2.m_crdsaIdleBlocksLeft ≤ c.m_crdsaIdleBlocksLeft

/-- One call of the engine by its user: `DoRandomAccess` or `DoCrdsa` for an allocation
channel at an instant. -/
inductive RandomAccessCall where
  | randomAccess (t : Instant) (allocationChannel : Nat)
  | crdsa (t : Instant) (allocationChannel : Nat)
deriving DecidableEq

/-- The instant of a call. -/
def RandomAccessCall.instant : RandomAccessCall → Instant
  | .randomAccess t _ => t
  | .crdsa t _ => t

/-- The engine state after one call; the results of the call are dropped. -/
def runCall (s : SatRandomAccess) (call : RandomAccessCall) : Run SatRandomAccess :=
  match call with
  | .randomAccess t allocationChannel => do
    let (_, s) ← DoRandomAccess t s allocationChannel
    pure s
  | .crdsa t allocationChannel => do
    let (_, s) ← DoCrdsa t s allocationChannel
    pure s

/-- The engine state after consecutive calls, nothing else touching the engine in between. -/
def runCalls (calls : List RandomAccessCall) (s : SatRandomAccess) : Run SatRandomAccess :=
  calls.foldlM runCall s

/-- The two bounds of the specification on the counters of a channel: consecutive blocks
used below the maximum, idle blocks left at most the minimum number of idle blocks. -/
def countersWithinLimits (c : SatRandomAccessAllocationChannel) : Prop :=
  c.m_crdsaNumOfConsecutiveBlocksUsed < c.m_crdsaMaxConsecutiveBlocksAccessed ∧
  c.m_crdsaIdleBlocksLeft ≤ c.m_crdsaMinIdleBlocks

/-! ## Theorems -/

/-- C1: whenever at least one of the seven listed conditions is violated,
`DoCrdsaVariableSanityCheck` ends with a fatal error. -/
theorem sanityCheck_rejects_violation (c : SatRandomAccessAllocationChannel)
    (h : ¬ SpecSevenConditions c) :
    ∃ msg, DoCrdsaVariableSanityCheck c = .error (.fatal msg) := by
  unfold DoCrdsaVariableSanityCheck
  split_ifs with h1 h2 h3 h4 h5 h6 h7
  all_goals first
    | exact ⟨_, rfl⟩
    | (exfalso; apply h; unfold SpecSevenConditions
       push_neg at h1 h2 h3 h4 h5 h6 h7
       exact ⟨h1.1, h1.2, h2, h4, h5, ⟨h6.1, h6.2⟩, ⟨h7.1, h7.2⟩⟩)

/-- Witness for C1: a channel with `min = 5 > max = 3` violates the conditions and is rejected. -/
theorem sanityCheck_rejects_violation_witness :
    ¬ SpecSevenConditions { zeroChannel with m_crdsaMinRandomizationValue := 5,
                                             m_crdsaMaxRandomizationValue := 3 } ∧
    ∃ msg, DoCrdsaVariableSanityCheck { zeroChannel with m_crdsaMinRandomizationValue := 5,
                                                         m_crdsaMaxRandomizationValue := 3 }
      = .error (.fatal msg) :=
  ⟨by decide, sanityCheck_rejects_violation _ (by decide)⟩

/-- Counterexample to C2 as stated: the all-zero channel satisfies all seven listed
conditions, yet the check rejects it through its `instances < 1` test. -/
theorem sanityCheck_seven_not_sufficient :
    SpecSevenConditions zeroChannel ∧
    DoCrdsaVariableSanityCheck zeroChannel =
      .error (.fatal
        "SatRandomAccessAllocationChannel::DoCrdsaVariableSanityCheck - instances < 1") := by
  constructor
  · decide
  · rfl

/-- C2 (amended): `DoCrdsaVariableSanityCheck` accepts exactly the configurations that satisfy
the seven listed conditions and also have at least one instance; no further condition can make
it reject. -/
theorem sanityCheck_accepts_iff (c : SatRandomAccessAllocationChannel) :
    DoCrdsaVariableSanityCheck c = .ok () ↔
      (SpecSevenConditions c ∧ 1 ≤ c.m_crdsaNumOfInstances) := by
  unfold DoCrdsaVariableSanityCheck SpecSevenConditions
  split_ifs with h1 h2 h3 h4 h5 h6 h7
  case neg =>
    push_neg at h1 h2 h3 h4 h5 h6 h7
    simp only [true_iff]
    exact ⟨⟨h1.1, h1.2, h2, h4, h5, ⟨h6.1, h6.2⟩, ⟨h7.1, h7.2⟩⟩, h3⟩
  all_goals
    simp only [reduceCtorEq, false_iff]
    rintro ⟨⟨a1, a2, a3, a4, a5, ⟨a6, a7⟩, ⟨a8, a9⟩⟩, a10⟩
    first
      | omega
      | linarith
      | (rcases h6 with h6 | h6 <;> linarith)
      | (rcases h7 with h7 | h7 <;> linarith)

theorem GetInteger_ge (lo hi : Nat) (d : Draw) : lo ≤ GetInteger lo hi d := by
  unfold GetInteger; exact Nat.le_add_right _ _

theorem GetInteger_le (lo hi : Nat) (d : Draw) (h : lo ≤ hi) : GetInteger lo hi d ≤ hi := by
  unfold GetInteger
  have hden : 0 < d.den := Nat.lt_of_le_of_lt (Nat.zero_le _) d.lt
  have hm : 0 < hi + 1 - lo := by omega
  have : d.num * (hi + 1 - lo) / d.den < hi + 1 - lo := by
    rw [Nat.div_lt_iff_lt_mul hden]
    rw [Nat.mul_comm]
    exact Nat.mul_lt_mul_of_pos_left d.lt hm
  omega

theorem randomizeLoop_ok (instances lo hi : Nat) :
    ∀ (ds : List Draw) (k : Nat) (tx res : Finset Nat) (rest : List Draw),
      randomizeLoop instances lo hi ds k tx = .ok (res, rest) → k ≤ instances →
        tx ⊆ res ∧ res.card + k = tx.card + instances ∧
        (∀ x ∈ res, x ∈ tx ∨ ∃ d ∈ ds, x = GetInteger lo hi d) := by
  intro ds
  induction ds with
  | nil =>
    intro k tx res rest h hk
    unfold randomizeLoop at h
    split_ifs at h with hlt
    simp only [Except.ok.injEq, Prod.mk.injEq] at h
    obtain ⟨rfl, -⟩ := h
    refine ⟨Finset.Subset.refl _, by omega, fun x hx => Or.inl hx⟩
  | cons d ds ih =>
    intro k tx res rest h hk
    unfold randomizeLoop at h
    dsimp only at h
    split_ifs at h with hlt hmem
    · rw [Finset.insert_eq_of_mem hmem] at h
      obtain ⟨h1, h2, h3⟩ := ih k tx res rest h hk
      refine ⟨h1, h2, fun x hx => ?_⟩
      rcases h3 x hx with h | ⟨e, he, hxe⟩
      · exact Or.inl h
      · exact Or.inr ⟨e, List.mem_cons_of_mem _ he, hxe⟩
    · obtain ⟨h1, h2, h3⟩ := ih (k + 1) _ res rest h (by omega)
      rw [Finset.card_insert_of_not_mem hmem] at h2
      refine ⟨fun x hx => h1 (Finset.mem_insert_of_mem hx), by omega, fun x hx => ?_⟩
      rcases h3 x hx with h | ⟨e, he, hxe⟩
      · rcases Finset.mem_insert.mp h with h | h
        · exact Or.inr ⟨d, List.mem_cons_self _ _, h⟩
        · exact Or.inl h
      · exact Or.inr ⟨e, List.mem_cons_of_mem _ he, hxe⟩
    · simp only [Except.ok.injEq, Prod.mk.injEq] at h
      obtain ⟨rfl, -⟩ := h
      refine ⟨Finset.Subset.refl _, by omega, fun x hx => Or.inl hx⟩

theorem CrdsaRandomizeTxOpportunities_ok (s s2 : SatRandomAccess) (ch : Nat)
    (tx out : Finset Nat)
    (h : CrdsaRandomizeTxOpportunities s ch tx = .ok (out, s2)) :
    ∃ c, GetAllocationChannelConfiguration s.m_randomAccessConf ch = .ok c ∧
      ∃ rest, randomizeLoop (toUint32 c.m_crdsaNumOfInstances)
        (toUint32 c.m_crdsaMinRandomizationValue) (toUint32 c.m_crdsaMaxRandomizationValue)
        s.m_uniformRandomVariable 0 tx = .ok (out, rest) ∧
        s2 = { s with m_uniformRandomVariable := rest } := by
  unfold CrdsaRandomizeTxOpportunities at h
  cases hc : GetAllocationChannelConfiguration s.m_randomAccessConf ch with
  | error e => simp [hc, bind, Except.bind] at h
  | ok c =>
    simp only [hc, bind, Except.bind] at h
    cases hl : randomizeLoop (toUint32 c.m_crdsaNumOfInstances)
        (toUint32 c.m_crdsaMinRandomizationValue) (toUint32 c.m_crdsaMaxRandomizationValue)
        s.m_uniformRandomVariable 0 tx with
    | error e => simp [hl] at h
    | ok p =>
      obtain ⟨r, rest⟩ := p
      simp only [hl, pure, Except.pure, Except.ok.injEq, Prod.mk.injEq] at h
      obtain ⟨rfl, rfl⟩ := h
      exact ⟨c, rfl, rest, hl, rfl⟩


theorem toUint32_of_range (x : Int) (h0 : 0 ≤ x) (h1 : x < 4294967296) :
    (toUint32 x : Int) = x := by
  unfold toUint32
  rw [Int.emod_eq_of_lt h0 h1, Int.toNat_of_nonneg h0]

/-- C3: when `CrdsaRandomizeTxOpportunities` returns, the returned set has exactly
`instances` elements that were not in the input set (`instances` being the `uint32_t` local of
the source, equal to the configured number of instances whenever that is a `uint32_t` value);
for the empty input set the result has exactly `instances` elements, which are pairwise
distinct as elements of a set. -/
theorem CrdsaRandomizeTxOpportunities_adds_instances (s s2 : SatRandomAccess) (ch : Nat)
    (tx out : Finset Nat) (c : SatRandomAccessAllocationChannel)
    (hc : GetAllocationChannelConfiguration s.m_randomAccessConf ch = .ok c)
    (h : CrdsaRandomizeTxOpportunities s ch tx = .ok (out, s2)) :
    (out \ tx).card = toUint32 c.m_crdsaNumOfInstances ∧
    (tx = ∅ → out.card = toUint32 c.m_crdsaNumOfInstances) ∧
    (0 ≤ c.m_crdsaNumOfInstances → c.m_crdsaNumOfInstances < 4294967296 →
      ((out \ tx).card : Int) = c.m_crdsaNumOfInstances) := by
  obtain ⟨c2, hc2, rest, hl, -⟩ := CrdsaRandomizeTxOpportunities_ok s s2 ch tx out h
  rw [hc] at hc2
  cases hc2
  obtain ⟨hsub, hcard, -⟩ := randomizeLoop_ok _ _ _ _ _ _ _ _ hl (Nat.zero_le _)
  have hdiff : (out \ tx).card = toUint32 c.m_crdsaNumOfInstances := by
    rw [Finset.card_sdiff hsub]; omega
  refine ⟨hdiff, ?_, ?_⟩
  · intro he
    subst he
    simpa using hdiff
  · intro h0 h1
    rw [hdiff]
    exact toUint32_of_range _ h0 h1

/-- Witness for C3: on the empty set and the draws for the slots `0, 1, 1, 79` the call returns
the three slots `0, 1, 79`. -/
theorem CrdsaRandomizeTxOpportunities_adds_instances_witness :
    CrdsaRandomizeTxOpportunities (SatRandomAccess.create exampleConf .RA_CRDSA exampleSlotDraws)
        0 ∅ = .ok ({0, 1, 79}, SatRandomAccess.create exampleConf .RA_CRDSA []) ∧
    (({0, 1, 79} : Finset Nat) \ ∅).card = toUint32 exampleChannel.m_crdsaNumOfInstances ∧
    ((∅ : Finset Nat) = ∅ →
      ({0, 1, 79} : Finset Nat).card = toUint32 exampleChannel.m_crdsaNumOfInstances) ∧
    (0 ≤ exampleChannel.m_crdsaNumOfInstances →
      exampleChannel.m_crdsaNumOfInstances < 4294967296 →
      (((({0, 1, 79} : Finset Nat) \ ∅).card : Nat) : Int) =
        exampleChannel.m_crdsaNumOfInstances) :=
  ⟨by decide!,
   CrdsaRandomizeTxOpportunities_adds_instances
     (SatRandomAccess.create exampleConf .RA_CRDSA exampleSlotDraws)
     (SatRandomAccess.create exampleConf .RA_CRDSA []) 0 ∅ {0, 1, 79} exampleChannel
     (by decide!) (by decide!)⟩

/-- Counterexample to C4 as stated: with the range `0 .. 79` the draw `79 / 80` makes
`CrdsaRandomizeTxOpportunities` add the slot `79`, which is not strictly below the maximum
randomization value `79`. -/
theorem CrdsaRandomizeTxOpportunities_reaches_max :
    CrdsaRandomizeTxOpportunities (SatRandomAccess.create exampleConf .RA_CRDSA exampleSlotDraws)
        0 ∅ = .ok ({0, 1, 79}, SatRandomAccess.create exampleConf .RA_CRDSA []) ∧
    GetAllocationChannelConfiguration exampleConf 0 = .ok exampleChannel ∧
    (79 : Nat) ∈ ({0, 1, 79} : Finset Nat) \ ∅ ∧
    ¬ (((79 : Nat) : Int) < exampleChannel.m_crdsaMaxRandomizationValue) := by
  refine ⟨by decide!, by decide!, by decide, by decide⟩

/-- C4 (amended): for a channel whose range ends are `uint32_t` values with `min ≤ max`, every
slot index that `CrdsaRandomizeTxOpportunities` adds lies in the closed range `[min, max]`. -/
theorem CrdsaRandomizeTxOpportunities_slots_in_closed_range (s s2 : SatRandomAccess) (ch : Nat)
    (tx out : Finset Nat) (c : SatRandomAccessAllocationChannel)
    (hc : GetAllocationChannelConfiguration s.m_randomAccessConf ch = .ok c)
    (h : CrdsaRandomizeTxOpportunities s ch tx = .ok (out, s2))
    (hmin : 0 ≤ c.m_crdsaMinRandomizationValue)
    (hle : c.m_crdsaMinRandomizationValue ≤ c.m_crdsaMaxRandomizationValue)
    (hmax : c.m_crdsaMaxRandomizationValue < 4294967296) :
    ∀ slot ∈ out \ tx, c.m_crdsaMinRandomizationValue ≤ (slot : Int) ∧
      (slot : Int) ≤ c.m_crdsaMaxRandomizationValue := by
  obtain ⟨c2, hc2, rest, hl, -⟩ := CrdsaRandomizeTxOpportunities_ok s s2 ch tx out h
  rw [hc] at hc2
  cases hc2
  obtain ⟨-, -, hfrom⟩ := randomizeLoop_ok _ _ _ _ _ _ _ _ hl (Nat.zero_le _)
  intro slot hslot
  rw [Finset.mem_sdiff] at hslot
  rcases hfrom slot hslot.1 with hin | ⟨d, -, hd⟩
  · exact absurd hin hslot.2
  · have e1 := toUint32_of_range c.m_crdsaMinRandomizationValue hmin (by omega)
    have e2 := toUint32_of_range c.m_crdsaMaxRandomizationValue (by omega) hmax
    have hle2 : toUint32 c.m_crdsaMinRandomizationValue
        ≤ toUint32 c.m_crdsaMaxRandomizationValue := by omega
    have g1 := GetInteger_ge (toUint32 c.m_crdsaMinRandomizationValue)
      (toUint32 c.m_crdsaMaxRandomizationValue) d
    have g2 := GetInteger_le (toUint32 c.m_crdsaMinRandomizationValue)
      (toUint32 c.m_crdsaMaxRandomizationValue) d hle2
    rw [← hd] at g1 g2
    omega

/-- Witness for C4 (amended): the slots `0, 1, 79` added for the range `0 .. 79`. -/
theorem CrdsaRandomizeTxOpportunities_slots_in_closed_range_witness :
    CrdsaRandomizeTxOpportunities (SatRandomAccess.create exampleConf .RA_CRDSA exampleSlotDraws)
        0 ∅ = .ok ({0, 1, 79}, SatRandomAccess.create exampleConf .RA_CRDSA []) ∧
    ∀ slot ∈ ({0, 1, 79} : Finset Nat) \ ∅,
      exampleChannel.m_crdsaMinRandomizationValue ≤ (slot : Int) ∧
      (slot : Int) ≤ exampleChannel.m_crdsaMaxRandomizationValue :=
  ⟨by decide!,
   CrdsaRandomizeTxOpportunities_slots_in_closed_range
     (SatRandomAccess.create exampleConf .RA_CRDSA exampleSlotDraws)
     (SatRandomAccess.create exampleConf .RA_CRDSA []) 0 ∅ {0, 1, 79} exampleChannel
     (by decide!) (by decide!) (by decide) (by decide) (by decide)⟩

/-- C5: the set that `CrdsaRandomizeTxOpportunities` returns contains every element of its
input set, so a result that is fed back in as the input never loses a slot. -/
theorem CrdsaRandomizeTxOpportunities_never_shrinks (s s2 : SatRandomAccess) (ch : Nat)
    (tx out : Finset Nat)
    (h : CrdsaRandomizeTxOpportunities s ch tx = .ok (out, s2)) :
    tx ⊆ out := by
  obtain ⟨c, -, rest, hl, -⟩ := CrdsaRandomizeTxOpportunities_ok s s2 ch tx out h
  exact (randomizeLoop_ok _ _ _ _ _ _ _ _ hl (Nat.zero_le _)).1

/-- Witness for C5: the input set `{1, 40}` is kept while the slots `0, 79` and a third one
are added. -/
theorem CrdsaRandomizeTxOpportunities_never_shrinks_witness :
    CrdsaRandomizeTxOpportunities
        (SatRandomAccess.create exampleConf .RA_CRDSA (exampleSlotDraws ++ [Draw.slot 5 (by decide)]))
        0 {1, 40} = .ok ({0, 1, 5, 40, 79}, SatRandomAccess.create exampleConf .RA_CRDSA []) ∧
    ({1, 40} : Finset Nat) ⊆ {0, 1, 5, 40, 79} :=
  ⟨by decide!,
   CrdsaRandomizeTxOpportunities_never_shrinks
     (SatRandomAccess.create exampleConf .RA_CRDSA (exampleSlotDraws ++ [Draw.slot 5 (by decide)]))
     (SatRandomAccess.create exampleConf .RA_CRDSA []) 0 {1, 40} {0, 1, 5, 40, 79}
     (by decide!)⟩

theorem Run_bind_ok {α β : Type} (x : Run α) (f : α → Run β) (b : β)
    (h : (x >>= f) = .ok b) : ∃ a, x = .ok a ∧ f a = .ok b := by
  cases x with
  | error e => simp [bind, Except.bind] at h
  | ok a => exact ⟨a, rfl, h⟩

theorem DoSlottedAloha_dama (t : Instant) (s : SatRandomAccess) (h : t.isDamaAvailable = true) :
    DoSlottedAloha t s = .ok (RandomAccessResults_s.doNothing, s) := by
  simp [DoSlottedAloha, h, pure, Except.pure]

theorem DoSlottedAloha_noDama (t : Instant) (s : SatRandomAccess) (d : Draw) (ds : List Draw)
    (h : t.isDamaAvailable = false) (hd : s.m_uniformRandomVariable = d :: ds) :
    DoSlottedAloha t s = .ok
      ({ resultType := .RA_SLOTTED_ALOHA_TX_OPPORTUNITY
         slottedAlohaResult := some (GetInteger 0
           s.m_randomAccessConf.m_slottedAlohaControlRandomizationIntervalInMilliSeconds d)
         crdsaResult := [] },
       { s with m_uniformRandomVariable := ds }) := by
  simp [DoSlottedAloha, h, SlottedAlohaRandomizeReleaseTime, nextDraw, hd, bind, Except.bind,
    pure, Except.pure, RandomAccessResults_s.doNothing]

theorem DoSlottedAloha_noDama_empty (t : Instant) (s : SatRandomAccess)
    (h : t.isDamaAvailable = false) (hd : s.m_uniformRandomVariable = []) :
    DoSlottedAloha t s = .error .outOfDraws := by
  simp [DoSlottedAloha, h, SlottedAlohaRandomizeReleaseTime, nextDraw, hd, bind, Except.bind]


theorem IsCrdsaAllocationChannelFree_eq (t : Instant) (s : SatRandomAccess) (ch : Nat)
    (c : SatRandomAccessAllocationChannel)
    (hc : GetAllocationChannelConfiguration s.m_randomAccessConf ch = .ok c) :
    IsCrdsaAllocationChannelFree t s ch = .ok (decide (t.now ≥ c.m_crdsaBackoffReleaseTime)) := by
  simp [IsCrdsaAllocationChannelFree, hc, bind, Except.bind, pure, Except.pure]

theorem IsCrdsaBackoffProbabilityTooHigh_eq (s : SatRandomAccess) (ch : Nat)
    (c : SatRandomAccessAllocationChannel)
    (hc : GetAllocationChannelConfiguration s.m_randomAccessConf ch = .ok c) :
    IsCrdsaBackoffProbabilityTooHigh s ch =
      .ok (decide (c.m_crdsaBackoffProbability ≥ c.m_crdsaMaximumBackoffProbability)) := by
  simp [IsCrdsaBackoffProbabilityTooHigh, hc, bind, Except.bind, pure, Except.pure]

theorem GetAllocationChannelConfiguration_ok_iff (conf : SatRandomAccessConf) (i : Nat)
    (c : SatRandomAccessAllocationChannel) :
    GetAllocationChannelConfiguration conf i = .ok c ↔
      conf.m_allocationChannelConf[i]? = some c := by
  unfold GetAllocationChannelConfiguration
  cases h : conf.m_allocationChannelConf[i]? <;> simp

theorem lowerIdle_of_zero (c : SatRandomAccessAllocationChannel)
    (h : c.m_crdsaIdleBlocksLeft = 0) : lowerIdle c = c := by
  cases c
  simp only [lowerIdle] at *
  simp [h]

theorem CrdsaReduceIdleBlocks_eq (s : SatRandomAccess) (i : Nat)
    (c : SatRandomAccessAllocationChannel)
    (hc : GetAllocationChannelConfiguration s.m_randomAccessConf i = .ok c) :
    CrdsaReduceIdleBlocks s i =
      .ok (withChannels s (s.m_randomAccessConf.m_allocationChannelConf.set i (lowerIdle c))) := by
  have hi := (GetAllocationChannelConfiguration_ok_iff _ _ _).mp hc
  by_cases h0 : c.m_crdsaIdleBlocksLeft > 0
  · simp [CrdsaReduceIdleBlocks, updateChannel, hc, bind, Except.bind, pure, Except.pure, h0,
      withChannels, lowerIdle]
  · have hz : c.m_crdsaIdleBlocksLeft = 0 := by omega
    have hset : s.m_randomAccessConf.m_allocationChannelConf.set i c
        = s.m_randomAccessConf.m_allocationChannelConf := by
      apply List.ext_getElem?
      intro j
      rw [List.getElem?_set]
      split_ifs with hij hlt
      · subst hij; exact hi.symm
      · subst hij; rw [List.getElem?_eq_none (by omega)]
      · rfl
    simp [CrdsaReduceIdleBlocks, hc, bind, Except.bind, pure, Except.pure, hz,
      withChannels, lowerIdle_of_zero c hz, hset]

theorem stepList_set {α : Type} (f : α → α) :
    ∀ (l : List α) (k : Nat) (a : α), l[k]? = some a →
      ((l.take k).map f ++ l.drop k).set k (f a) = (l.take (k + 1)).map f ++ l.drop (k + 1) := by
  intro l
  induction l with
  | nil => intro k a h; simp at h
  | cons x xs ih =>
    intro k a h
    cases k with
    | zero => simp at h; simp [h]
    | succ k =>
      simp at h
      simpa using ih k a h

theorem stepList_get {α : Type} (f : α → α) :
    ∀ (l : List α) (k : Nat), ((l.take k).map f ++ l.drop k)[k]? = l[k]? := by
  intro l
  induction l with
  | nil => intro k; simp
  | cons x xs ih =>
    intro k
    cases k with
    | zero => simp
    | succ k => simpa using ih k

theorem reduceIdle_fold (s : SatRandomAccess) :
    ∀ k, k ≤ s.m_randomAccessConf.m_allocationChannelConf.length →
      (List.range k).foldlM CrdsaReduceIdleBlocks s =
        .ok (withChannels s
          ((s.m_randomAccessConf.m_allocationChannelConf.take k).map lowerIdle ++
            s.m_randomAccessConf.m_allocationChannelConf.drop k)) := by
  intro k
  induction k with
  | zero =>
    intro _
    simp [withChannels, pure, Except.pure]
  | succ k ih =>
    intro hk
    have hlt : k < s.m_randomAccessConf.m_allocationChannelConf.length := by omega
    rw [List.range_succ, List.foldlM_append, ih (by omega)]
    have hget : (s.m_randomAccessConf.m_allocationChannelConf)[k]?
        = some (s.m_randomAccessConf.m_allocationChannelConf[k]) := List.getElem?_eq_getElem hlt
    have hc : GetAllocationChannelConfiguration
        (withChannels s
          ((s.m_randomAccessConf.m_allocationChannelConf.take k).map lowerIdle ++
            s.m_randomAccessConf.m_allocationChannelConf.drop k)).m_randomAccessConf k
        = .ok (s.m_randomAccessConf.m_allocationChannelConf[k]) := by
      rw [GetAllocationChannelConfiguration_ok_iff]
      simp only [withChannels]
      rw [stepList_get, hget]
    simp only [bind, Except.bind, List.foldlM_cons, List.foldlM_nil]
    rw [CrdsaReduceIdleBlocks_eq _ _ _ hc]
    simp only [withChannels, pure, Except.pure]
    rw [stepList_set lowerIdle _ _ _ hget]

theorem CrdsaReduceIdleBlocksForAllAllocationChannels_eq (s : SatRandomAccess)
    (hwf : s.m_numOfAllocationChannels = s.m_randomAccessConf.m_allocationChannelConf.length) :
    CrdsaReduceIdleBlocksForAllAllocationChannels s = .ok (lowerIdleOfAll s) := by
  unfold CrdsaReduceIdleBlocksForAllAllocationChannels
  rw [hwf, reduceIdle_fold s _ (Nat.le_refl _)]
  simp [lowerIdleOfAll]


theorem prepareLoop_resultType (t : Instant) (ch : Nat) :
    ∀ (n : Nat) (s : SatRandomAccess) (results r : RandomAccessResults_s) (s2 : SatRandomAccess),
      prepareLoop t ch n s results = .ok (r, s2) →
      results.resultType ≠ .RA_SLOTTED_ALOHA_TX_OPPORTUNITY →
      r.resultType ≠ .RA_SLOTTED_ALOHA_TX_OPPORTUNITY := by
  intro n
  induction n with
  | zero =>
    intro s results r s2 h hne
    simp only [prepareLoop, pure, Except.pure, Except.ok.injEq, Prod.mk.injEq] at h
    rw [← h.1]; exact hne
  | succ n ih =>
    intro s results r s2 h hne
    simp only [prepareLoop, bind, Except.bind, pure, Except.pure] at h
    repeat' split at h
    all_goals first
      | contradiction
      | (simp only [Except.ok.injEq, Prod.mk.injEq] at h; rw [← h.1]; exact hne)
      | exact ih _ _ _ _ h hne
      | (refine ih _ _ _ _ h ?_; simp)

theorem CrdsaPrepareToTransmit_resultType (t : Instant) (ch : Nat) (s s2 : SatRandomAccess)
    (r : RandomAccessResults_s) (h : CrdsaPrepareToTransmit t s ch = .ok (r, s2)) :
    r.resultType ≠ .RA_SLOTTED_ALOHA_TX_OPPORTUNITY := by
  simp only [CrdsaPrepareToTransmit, bind, Except.bind, pure, Except.pure] at h
  repeat' split at h
  all_goals first
    | contradiction
    | (simp only [Except.ok.injEq, Prod.mk.injEq] at h
       rename_i hp _ _ _
       rw [← h.1]
       exact prepareLoop_resultType t ch _ _ _ _ _ hp (by simp [RandomAccessResults_s.doNothing]))

theorem DoCrdsa_resultType (t : Instant) (ch : Nat) (s s2 : SatRandomAccess)
    (r : RandomAccessResults_s) (h : DoCrdsa t s ch = .ok (r, s2)) :
    r.resultType ≠ .RA_SLOTTED_ALOHA_TX_OPPORTUNITY := by
  simp only [DoCrdsa, bind, Except.bind, pure, Except.pure] at h
  repeat' split at h
  all_goals first
    | contradiction
    | (simp only [Except.ok.injEq, Prod.mk.injEq] at h
       obtain ⟨rfl, rfl⟩ := h
       first
         | (simp [RandomAccessResults_s.doNothing]; done)
         | (intro hsa
            have := CrdsaPrepareToTransmit_resultType t ch _ _ _ ‹CrdsaPrepareToTransmit _ _ _ = _›
            exact this hsa))


theorem DoSlottedAloha_state (t : Instant) (s s1 : SatRandomAccess) (r : RandomAccessResults_s)
    (h : DoSlottedAloha t s = .ok (r, s1)) :
    s1.m_randomAccessConf = s.m_randomAccessConf ∧
    s1.m_numOfAllocationChannels = s.m_numOfAllocationChannels ∧
    s1.m_randomAccessModel = s.m_randomAccessModel ∧
    s1.m_crdsaNewData = s.m_crdsaNewData ∧
    r.resultType ≠ .RA_CRDSA_TX_OPPORTUNITY := by
  cases hd : t.isDamaAvailable with
  | true =>
    rw [DoSlottedAloha_dama t s hd] at h
    simp only [Except.ok.injEq, Prod.mk.injEq] at h
    obtain ⟨rfl, rfl⟩ := h
    simp [RandomAccessResults_s.doNothing]
  | false =>
    cases hl : s.m_uniformRandomVariable with
    | nil =>
      rw [DoSlottedAloha_noDama_empty t s hd hl] at h
      cases h
    | cons d ds =>
      rw [DoSlottedAloha_noDama t s d ds hd hl] at h
      simp only [Except.ok.injEq, Prod.mk.injEq] at h
      obtain ⟨rfl, rfl⟩ := h
      simp

theorem DoRandomAccess_anyAvailable_busy (t : Instant) (s : SatRandomAccess) (ch : Nat)
    (c : SatRandomAccessAllocationChannel)
    (hm : s.m_randomAccessModel = .RA_ANY_AVAILABLE)
    (hc : GetAllocationChannelConfiguration s.m_randomAccessConf ch = .ok c)
    (hf : t.isFrameStart = true)
    (hn : ¬ (c.m_crdsaBackoffReleaseTime ≤ t.now ∧
        c.m_crdsaBackoffProbability < c.m_crdsaMaximumBackoffProbability)) :
    DoRandomAccess t s ch = (do
      let (results, s1) ← DoSlottedAloha t s
      let s2 ← CrdsaReduceIdleBlocksForAllAllocationChannels s1
      pure (results, s2)) := by
  simp only [not_and, not_lt] at hn
  by_cases hr : c.m_crdsaBackoffReleaseTime ≤ t.now
  · have hp := hn hr
    simp [DoRandomAccess, hm, hf, IsCrdsaAllocationChannelFree_eq t s ch c hc,
      IsCrdsaBackoffProbabilityTooHigh_eq s ch c hc, bind, Except.bind, pure, Except.pure,
      hr, hp]
  · simp [DoRandomAccess, hm, hf, IsCrdsaAllocationChannelFree_eq t s ch c hc,
      bind, Except.bind, pure, Except.pure, hr]

/-- C6: in both-available mode `DoRandomAccess` is `DoCrdsa` (same result, same state change)
when the instant is a frame start, the current time is at or past the backoff release time of
the channel and its backoff probability is strictly below its maximum backoff probability; in
every other case it runs `DoSlottedAloha` (followed, at a frame start, by the reduction of the
idle blocks of all channels). -/
theorem DoRandomAccess_anyAvailable_crdsa_iff (t : Instant) (s : SatRandomAccess) (ch : Nat)
    (c : SatRandomAccessAllocationChannel)
    (hm : s.m_randomAccessModel = .RA_ANY_AVAILABLE)
    (hc : GetAllocationChannelConfiguration s.m_randomAccessConf ch = .ok c) :
    ((t.isFrameStart = true ∧ c.m_crdsaBackoffReleaseTime ≤ t.now ∧
        c.m_crdsaBackoffProbability < c.m_crdsaMaximumBackoffProbability) →
      DoRandomAccess t s ch = DoCrdsa t s ch) ∧
    (t.isFrameStart = false → DoRandomAccess t s ch = DoSlottedAloha t s) ∧
    ((t.isFrameStart = true ∧ ¬ (c.m_crdsaBackoffReleaseTime ≤ t.now ∧
        c.m_crdsaBackoffProbability < c.m_crdsaMaximumBackoffProbability)) →
      DoRandomAccess t s ch = (do
        let (results, s1) ← DoSlottedAloha t s
        let s2 ← CrdsaReduceIdleBlocksForAllAllocationChannels s1
        pure (results, s2))) := by
  refine ⟨?_, ?_, ?_⟩
  · rintro ⟨hf, hr, hp⟩
    have hp2 : ¬ (c.m_crdsaMaximumBackoffProbability ≤ c.m_crdsaBackoffProbability) :=
      not_le.mpr hp
    simp [DoRandomAccess, hm, hf, IsCrdsaAllocationChannelFree_eq t s ch c hc,
      IsCrdsaBackoffProbabilityTooHigh_eq s ch c hc, bind, Except.bind, pure, Except.pure,
      hr, hp2]
  · intro hf
    simp [DoRandomAccess, hm, hf]
  · rintro ⟨hf, hn⟩
    exact DoRandomAccess_anyAvailable_busy t s ch c hm hc hf hn

/-- Witness for C6: at a frame start at time `0`, with release time `0` and backoff probability
`0.1 < 0.2`, `DoRandomAccess` is `DoCrdsa` and returns a CRDSA opportunity. -/
theorem DoRandomAccess_anyAvailable_crdsa_iff_witness :
    ((Instant.current 0).isFrameStart = true ∧
      exampleChannel.m_crdsaBackoffReleaseTime ≤ (Instant.current 0).now ∧
      exampleChannel.m_crdsaBackoffProbability < exampleChannel.m_crdsaMaximumBackoffProbability) ∧
    DoRandomAccess (Instant.current 0)
        (SatRandomAccess.create exampleConf .RA_ANY_AVAILABLE exampleCrdsaDraws) 0 =
      DoCrdsa (Instant.current 0)
        (SatRandomAccess.create exampleConf .RA_ANY_AVAILABLE exampleCrdsaDraws) 0 ∧
    (DoRandomAccess (Instant.current 0)
        (SatRandomAccess.create exampleConf .RA_ANY_AVAILABLE exampleCrdsaDraws) 0).map
          (fun p => (p.1.resultType, p.1.crdsaResult)) =
      .ok (.RA_CRDSA_TX_OPPORTUNITY, [(0, {0, 1, 79})]) :=
  ⟨by decide!,
   (DoRandomAccess_anyAvailable_crdsa_iff (Instant.current 0)
      (SatRandomAccess.create exampleConf .RA_ANY_AVAILABLE exampleCrdsaDraws) 0 exampleChannel
      rfl (by decide!)).1 (by decide!),
   by decide!⟩

/-- C7: in both-available mode at a frame start, when the queried channel is still in backoff
or its backoff probability is not below the maximum, `DoRandomAccess` returns the result of
`DoSlottedAloha` and lowers the idle-blocks-left counter of every allocation channel by one
(zero staying zero), every other member of every channel being kept.  The state is one built
by the constructor: `m_numOfAllocationChannels` is the number of configured channels. -/
theorem DoRandomAccess_anyAvailable_lowers_all_idle (t : Instant) (s : SatRandomAccess)
    (ch : Nat) (c : SatRandomAccessAllocationChannel)
    (hm : s.m_randomAccessModel = .RA_ANY_AVAILABLE)
    (hf : t.isFrameStart = true)
    (hc : GetAllocationChannelConfiguration s.m_randomAccessConf ch = .ok c)
    (hn : t.now < c.m_crdsaBackoffReleaseTime ∨
      c.m_crdsaMaximumBackoffProbability ≤ c.m_crdsaBackoffProbability)
    (hwf : s.m_numOfAllocationChannels = s.m_randomAccessConf.m_allocationChannelConf.length) :
    DoRandomAccess t s ch = (DoSlottedAloha t s).map (fun p => (p.1, lowerIdleOfAll p.2)) ∧
    ∀ r s2, DoRandomAccess t s ch = .ok (r, s2) →
      (∃ s1, DoSlottedAloha t s = .ok (r, s1)) ∧
      s2.m_randomAccessConf.m_allocationChannelConf =
        s.m_randomAccessConf.m_allocationChannelConf.map lowerIdle := by
  have hcond : ¬ (c.m_crdsaBackoffReleaseTime ≤ t.now ∧
      c.m_crdsaBackoffProbability < c.m_crdsaMaximumBackoffProbability) := by
    rintro ⟨h1, h2⟩
    rcases hn with hn | hn
    · exact absurd h1 (not_le.mpr hn)
    · exact absurd h2 (not_lt.mpr hn)
  have hrun := DoRandomAccess_anyAvailable_busy t s ch c hm hc hf hcond
  have heq : DoRandomAccess t s ch =
      (DoSlottedAloha t s).map (fun p => (p.1, lowerIdleOfAll p.2)) := by
    rw [hrun]
    cases hsa : DoSlottedAloha t s with
    | error e => rfl
    | ok p =>
      obtain ⟨r, s1⟩ := p
      obtain ⟨h1, h2, -, -, -⟩ := DoSlottedAloha_state t s s1 r hsa
      have hwf1 : s1.m_numOfAllocationChannels
          = s1.m_randomAccessConf.m_allocationChannelConf.length := by
        rw [h1, h2, hwf]
      simp only [bind, Except.bind, Except.map, pure, Except.pure]
      rw [CrdsaReduceIdleBlocksForAllAllocationChannels_eq s1 hwf1]
  refine ⟨heq, ?_⟩
  intro r s2 h
  rw [heq] at h
  cases hsa : DoSlottedAloha t s with
  | error e => rw [hsa] at h; cases h
  | ok p =>
    obtain ⟨r1, s1⟩ := p
    rw [hsa] at h
    simp only [Except.map, Except.ok.injEq, Prod.mk.injEq] at h
    obtain ⟨rfl, rfl⟩ := h
    obtain ⟨h1, -, -, -, -⟩ := DoSlottedAloha_state t s s1 r1 hsa
    exact ⟨⟨s1, rfl⟩, by simp [lowerIdleOfAll, withChannels, h1]⟩

/-- Witness for C7: the second channel of `exampleConf` with a maximum backoff probability
equal to its backoff probability; the Slotted ALOHA delay `5` is returned and the idle blocks
`0, 3` of the two channels become `0, 2`. -/
theorem DoRandomAccess_anyAvailable_lowers_all_idle_witness :
    DoRandomAccess (Instant.current 0)
        (SatRandomAccess.create
          { exampleConf with m_allocationChannelConf :=
              [exampleChannel, { exampleChannel with m_crdsaIdleBlocksLeft := 3
                                                     m_crdsaMaximumBackoffProbability := 1 / 10 }] }
          .RA_ANY_AVAILABLE [Draw.half]) 1 =
      .ok ({ resultType := .RA_SLOTTED_ALOHA_TX_OPPORTUNITY
             slottedAlohaResult := some 5
             crdsaResult := [] },
           SatRandomAccess.create
             { exampleConf with m_allocationChannelConf :=
                 [exampleChannel, { exampleChannel with m_crdsaIdleBlocksLeft := 2
                                                        m_crdsaMaximumBackoffProbability := 1 / 10 }] }
             .RA_ANY_AVAILABLE []) ∧
    DoRandomAccess (Instant.current 0)
        (SatRandomAccess.create
          { exampleConf with m_allocationChannelConf :=
              [exampleChannel, { exampleChannel with m_crdsaIdleBlocksLeft := 3
                                                     m_crdsaMaximumBackoffProbability := 1 / 10 }] }
          .RA_ANY_AVAILABLE [Draw.half]) 1 =
      (DoSlottedAloha (Instant.current 0)
        (SatRandomAccess.create
          { exampleConf with m_allocationChannelConf :=
              [exampleChannel, { exampleChannel with m_crdsaIdleBlocksLeft := 3
                                                     m_crdsaMaximumBackoffProbability := 1 / 10 }] }
          .RA_ANY_AVAILABLE [Draw.half])).map (fun p => (p.1, lowerIdleOfAll p.2)) :=
  ⟨by decide!,
   (DoRandomAccess_anyAvailable_lowers_all_idle (Instant.current 0)
      (SatRandomAccess.create
        { exampleConf with m_allocationChannelConf :=
            [exampleChannel, { exampleChannel with m_crdsaIdleBlocksLeft := 3
                                                   m_crdsaMaximumBackoffProbability := 1 / 10 }] }
        .RA_ANY_AVAILABLE [Draw.half]) 1
      { exampleChannel with m_crdsaIdleBlocksLeft := 3
                            m_crdsaMaximumBackoffProbability := 1 / 10 }
      rfl rfl (by decide!) (Or.inr (by decide!)) rfl).1⟩

/-- C8: in CRDSA-only mode `DoRandomAccess` returns what `DoCrdsa` returns (with the same
state change) at a frame start; off a frame start it returns no-opportunity and leaves the
whole state, so all channel runtime state, unchanged; it never returns a Slotted ALOHA
opportunity. -/
theorem DoRandomAccess_crdsaOnly (t : Instant) (s : SatRandomAccess) (ch : Nat)
    (hm : s.m_randomAccessModel = .RA_CRDSA) :
    (t.isFrameStart = true → DoRandomAccess t s ch = DoCrdsa t s ch) ∧
    (t.isFrameStart = false →
      DoRandomAccess t s ch = .ok (RandomAccessResults_s.doNothing, s)) ∧
    (∀ r s2, DoRandomAccess t s ch = .ok (r, s2) →
      r.resultType ≠ .RA_SLOTTED_ALOHA_TX_OPPORTUNITY) := by
  have h1 : t.isFrameStart = true → DoRandomAccess t s ch = DoCrdsa t s ch := by
    intro hf
    simp [DoRandomAccess, hm, hf]
  have h2 : t.isFrameStart = false →
      DoRandomAccess t s ch = .ok (RandomAccessResults_s.doNothing, s) := by
    intro hf
    simp [DoRandomAccess, hm, hf, pure, Except.pure]
  refine ⟨h1, h2, ?_⟩
  intro r s2 h
  cases hf : t.isFrameStart with
  | true =>
    rw [h1 hf] at h
    exact DoCrdsa_resultType t ch s s2 r h
  | false =>
    rw [h2 hf] at h
    simp only [Except.ok.injEq, Prod.mk.injEq] at h
    rw [← h.1]
    simp [RandomAccessResults_s.doNothing]

/-- Witness for C8: off a frame start nothing happens; at a frame start the CRDSA opportunity of
`DoCrdsa` with the slots `0, 1, 79` is returned. -/
theorem DoRandomAccess_crdsaOnly_witness :
    DoRandomAccess { now := 0, isFrameStart := false, isDamaAvailable := false }
        (SatRandomAccess.create exampleConf .RA_CRDSA exampleCrdsaDraws) 0 =
      .ok (RandomAccessResults_s.doNothing,
        SatRandomAccess.create exampleConf .RA_CRDSA exampleCrdsaDraws) ∧
    DoRandomAccess (Instant.current 0)
        (SatRandomAccess.create exampleConf .RA_CRDSA exampleCrdsaDraws) 0 =
      DoCrdsa (Instant.current 0)
        (SatRandomAccess.create exampleConf .RA_CRDSA exampleCrdsaDraws) 0 ∧
    (DoCrdsa (Instant.current 0)
        (SatRandomAccess.create exampleConf .RA_CRDSA exampleCrdsaDraws) 0).map
          (fun p => (p.1.resultType, p.1.crdsaResult)) =
      .ok (.RA_CRDSA_TX_OPPORTUNITY, [(0, {0, 1, 79})]) :=
  ⟨(DoRandomAccess_crdsaOnly { now := 0, isFrameStart := false, isDamaAvailable := false }
      (SatRandomAccess.create exampleConf .RA_CRDSA exampleCrdsaDraws) 0 rfl).2.1 rfl,
   (DoRandomAccess_crdsaOnly (Instant.current 0)
      (SatRandomAccess.create exampleConf .RA_CRDSA exampleCrdsaDraws) 0 rfl).1 rfl,
   by decide!⟩

/-- C9: in Slotted-ALOHA-only mode `DoRandomAccess` is `DoSlottedAloha` at every instant: a
returned result is never a CRDSA opportunity and the configuration, so the runtime state of
every allocation channel, is unchanged. -/
theorem DoRandomAccess_slottedAlohaOnly (t : Instant) (s : SatRandomAccess) (ch : Nat)
    (hm : s.m_randomAccessModel = .RA_SLOTTED_ALOHA) :
    DoRandomAccess t s ch = DoSlottedAloha t s ∧
    ∀ r s2, DoRandomAccess t s ch = .ok (r, s2) →
      r.resultType ≠ .RA_CRDSA_TX_OPPORTUNITY ∧
      s2.m_randomAccessConf = s.m_randomAccessConf := by
  have h1 : DoRandomAccess t s ch = DoSlottedAloha t s := by
    simp [DoRandomAccess, hm]
  refine ⟨h1, ?_⟩
  intro r s2 h
  rw [h1] at h
  obtain ⟨hconf, -, -, -, hne⟩ := DoSlottedAloha_state t s s2 r h
  exact ⟨hne, hconf⟩

/-- Witness for C9: off a frame start and at a frame start alike, the Slotted ALOHA delay `5`
is returned and the configuration is kept. -/
theorem DoRandomAccess_slottedAlohaOnly_witness :
    DoRandomAccess { now := 7, isFrameStart := false, isDamaAvailable := false }
        (SatRandomAccess.create exampleConf .RA_SLOTTED_ALOHA [Draw.half]) 1 =
      .ok ({ resultType := .RA_SLOTTED_ALOHA_TX_OPPORTUNITY
             slottedAlohaResult := some 5
             crdsaResult := [] },
           SatRandomAccess.create exampleConf .RA_SLOTTED_ALOHA []) ∧
    DoRandomAccess (Instant.current 7)
        (SatRandomAccess.create exampleConf .RA_SLOTTED_ALOHA [Draw.half]) 1 =
      DoSlottedAloha (Instant.current 7)
        (SatRandomAccess.create exampleConf .RA_SLOTTED_ALOHA [Draw.half]) :=
  ⟨by decide!,
   (DoRandomAccess_slottedAlohaOnly (Instant.current 7)
      (SatRandomAccess.create exampleConf .RA_SLOTTED_ALOHA [Draw.half]) 1 rfl).1⟩

/-- C10: `DoSlottedAloha` returns no-opportunity (and keeps the state) when scheduled capacity
is available; when none is available and the generator yields a draw, it returns a Slotted
ALOHA opportunity whose release delay `d` satisfies `0 ≤ d ≤ controlRandomizationInterval`; so
a returned result is a Slotted ALOHA opportunity exactly when no scheduled capacity is
available. -/
theorem DoSlottedAloha_opportunity_iff (t : Instant) (s : SatRandomAccess) :
    (t.isDamaAvailable = true →
      DoSlottedAloha t s = .ok (RandomAccessResults_s.doNothing, s)) ∧
    (t.isDamaAvailable = false → ∀ d ds, s.m_uniformRandomVariable = d :: ds →
      ∃ delay, 0 ≤ delay ∧
        delay ≤ s.m_randomAccessConf.m_slottedAlohaControlRandomizationIntervalInMilliSeconds ∧
        DoSlottedAloha t s = .ok
          ({ resultType := .RA_SLOTTED_ALOHA_TX_OPPORTUNITY
             slottedAlohaResult := some delay
             crdsaResult := [] },
           { s with m_uniformRandomVariable := ds })) ∧
    (∀ r s2, DoSlottedAloha t s = .ok (r, s2) →
      (r.resultType = .RA_SLOTTED_ALOHA_TX_OPPORTUNITY ↔ t.isDamaAvailable = false) ∧
      (r.resultType = .RA_SLOTTED_ALOHA_TX_OPPORTUNITY →
        ∃ delay, r.slottedAlohaResult = some delay ∧ 0 ≤ delay ∧
          delay ≤ s.m_randomAccessConf.m_slottedAlohaControlRandomizationIntervalInMilliSeconds) ∧
      (t.isDamaAvailable = true → r.resultType = .RA_DO_NOTHING)) := by
  refine ⟨DoSlottedAloha_dama t s, ?_, ?_⟩
  · intro hd d ds hl
    exact ⟨_, Nat.zero_le _, GetInteger_le 0 _ d (Nat.zero_le _),
      DoSlottedAloha_noDama t s d ds hd hl⟩
  · intro r s2 h
    cases hd : t.isDamaAvailable with
    | true =>
      rw [DoSlottedAloha_dama t s hd] at h
      simp only [Except.ok.injEq, Prod.mk.injEq] at h
      obtain ⟨rfl, rfl⟩ := h
      simp [RandomAccessResults_s.doNothing]
    | false =>
      cases hl : s.m_uniformRandomVariable with
      | nil =>
        rw [DoSlottedAloha_noDama_empty t s hd hl] at h
        cases h
      | cons d ds =>
        rw [DoSlottedAloha_noDama t s d ds hd hl] at h
        simp only [Except.ok.injEq, Prod.mk.injEq] at h
        obtain ⟨rfl, rfl⟩ := h
        simp only [true_iff, forall_const, reduceCtorEq, false_implies, and_true, true_and]
        exact ⟨_, rfl, Nat.zero_le _, GetInteger_le 0 _ d (Nat.zero_le _)⟩

/-- Witness for C10: with no scheduled capacity, the interval `10` and the draw `1 / 2`, the
release delay is `5`. -/
theorem DoSlottedAloha_opportunity_iff_witness :
    DoSlottedAloha (Instant.current 0)
        (SatRandomAccess.create exampleConf .RA_ANY_AVAILABLE [Draw.half]) =
      .ok ({ resultType := .RA_SLOTTED_ALOHA_TX_OPPORTUNITY
             slottedAlohaResult := some 5
             crdsaResult := [] },
           SatRandomAccess.create exampleConf .RA_ANY_AVAILABLE []) ∧
    ((RandomAccessTxOpportunities_t.RA_SLOTTED_ALOHA_TX_OPPORTUNITY =
        .RA_SLOTTED_ALOHA_TX_OPPORTUNITY ↔ (Instant.current 0).isDamaAvailable = false) ∧
     (RandomAccessTxOpportunities_t.RA_SLOTTED_ALOHA_TX_OPPORTUNITY =
        .RA_SLOTTED_ALOHA_TX_OPPORTUNITY →
        ∃ delay, some 5 = some delay ∧ 0 ≤ delay ∧
          delay ≤ exampleConf.m_slottedAlohaControlRandomizationIntervalInMilliSeconds) ∧
     ((Instant.current 0).isDamaAvailable = true →
        RandomAccessTxOpportunities_t.RA_SLOTTED_ALOHA_TX_OPPORTUNITY = .RA_DO_NOTHING)) :=
  ⟨by decide!,
   (DoSlottedAloha_opportunity_iff (Instant.current 0)
      (SatRandomAccess.create exampleConf .RA_ANY_AVAILABLE [Draw.half])).2.2
      { resultType := .RA_SLOTTED_ALOHA_TX_OPPORTUNITY
        slottedAlohaResult := some 5
        crdsaResult := [] }
      (SatRandomAccess.create exampleConf .RA_ANY_AVAILABLE []) (by decide!)⟩

/-- C11: `AddUt` for an address that is already registered ends with a fatal error, and the
state in which it ends is the state before the call: the registry, the ranked list and the
demand entry, estimator and request queue of every registered terminal are as they were. -/
theorem AddUt_already_registered (s : SatBeamScheduler) (utId : Address)
    (llsConf : SatLowerLayerServiceConf) (h : utId ∈ s.m_utInfos) :
    (∃ msg, (AddUt s utId llsConf).1 = .error (.fatal msg)) ∧
    (AddUt s utId llsConf).2 = s := by
  unfold AddUt
  cases hest : CreateCnoEstimator s with
  | error e =>
    refine ⟨?_, rfl⟩
    unfold CreateCnoEstimator at hest
    split at hest
    · cases hest
    · cases hest
    · cases hest
    · exact ⟨_, by cases hest; rfl⟩
  | ok est =>
    dsimp only
    rw [if_pos h]
    exact ⟨⟨_, rfl⟩, rfl⟩

/-- Witness for C11: the terminal `42` is registered, and registering it again, with another
service profile, fails and leaves the state as the first registration left it. -/
theorem AddUt_already_registered_witness :
    (AddUt exampleInitialized 42 exampleLlsConf).1 = .ok 1 ∧
    (42 : Address) ∈ exampleOneUt.m_utInfos ∧
    (∃ msg, (AddUt exampleOneUt 42 { exampleLlsConf with m_daServices := [] }).1
      = .error (.fatal msg)) ∧
    (AddUt exampleOneUt 42 { exampleLlsConf with m_daServices := [] }).2 = exampleOneUt :=
  ⟨by decide!, by decide!,
   AddUt_already_registered exampleOneUt 42 { exampleLlsConf with m_daServices := [] }
     (by decide!)⟩

theorem AddUt_ok (s : SatBeamScheduler) (utId : Address) (llsConf : SatLowerLayerServiceConf)
    (i : Nat) (h : (AddUt s utId llsConf).1 = .ok i) :
    ∃ randomIndex d ds, s.m_raChRandomIndex = some randomIndex ∧
      randomIndex.m_draws = d :: ds ∧ i = GetInteger 0 randomIndex.m_max d ∧
      (AddUt s utId llsConf).2.m_raChRandomIndex = some { randomIndex with m_draws := ds } := by
  unfold AddUt at h ⊢
  cases hest : CreateCnoEstimator s with
  | error e => simp [hest] at h
  | ok est =>
    simp only [hest] at h ⊢
    by_cases hmem : utId ∈ s.m_utInfos
    · simp [hmem] at h
    · simp only [hmem, if_false] at h ⊢
      cases hrv : s.m_raChRandomIndex with
      | none => simp [hrv] at h
      | some randomIndex =>
        simp only [hrv] at h ⊢
        cases hd : randomIndex.m_draws with
        | nil => simp [hd] at h
        | cons d ds =>
          simp only [hd, Except.ok.injEq] at h ⊢
          exact ⟨randomIndex, d, ds, rfl, hd, h.symm, rfl⟩

theorem AddUt_returns (s : SatBeamScheduler) (utId : Address)
    (llsConf : SatLowerLayerServiceConf) (est : SatCnoEstimator) (randomIndex : RaChRandomIndex)
    (d : Draw) (ds : List Draw) (hfresh : utId ∉ s.m_utInfos)
    (hest : CreateCnoEstimator s = .ok est) (hrv : s.m_raChRandomIndex = some randomIndex)
    (hd : randomIndex.m_draws = d :: ds) :
    (AddUt s utId llsConf).1 = .ok (GetInteger 0 randomIndex.m_max d) := by
  unfold AddUt
  simp only [hest, hfresh, if_false, hrv, hd]

/-- C12: `Initialize` gives the random variable the range `0 .. N - 1` for a beam with `N ≥ 1`
random-access channels and the range `0 .. 0` for a beam without one; with that range every
value that `AddUt` returns is `0` when `N = 0` and an index `i` with `0 ≤ i ≤ N - 1` when
`N ≥ 1`, `AddUt` keeps the range, and `AddUt` does return a value for a new address when a
draw is left. -/
theorem AddUt_raChannelIndex_range (clock : SatRtnLinkTime) (s : SatBeamScheduler)
    (beamId : Nat) (seq : SatSuperframeSeq) (maxFrameSizeInBytes : Nat) (draws : List Draw) :
    ∃ randomIndex,
      (Initialize clock s beamId seq maxFrameSizeInBytes draws).2.1.m_raChRandomIndex
        = some randomIndex ∧
      randomIndex.m_max = (seq.GetSuperframeConf s.m_currentSequence).GetRaChannelCount - 1 ∧
      randomIndex.m_draws = draws ∧
      ∀ (s2 : SatBeamScheduler) (randomIndex2 : RaChRandomIndex),
        s2.m_raChRandomIndex = some randomIndex2 →
        randomIndex2.m_max = (seq.GetSuperframeConf s.m_currentSequence).GetRaChannelCount - 1 →
        ∀ (utId : Address) (llsConf : SatLowerLayerServiceConf),
          (∀ i, (AddUt s2 utId llsConf).1 = .ok i →
            ((seq.GetSuperframeConf s.m_currentSequence).GetRaChannelCount = 0 → i = 0) ∧
            (1 ≤ (seq.GetSuperframeConf s.m_currentSequence).GetRaChannelCount →
              0 ≤ i ∧ i ≤ (seq.GetSuperframeConf s.m_currentSequence).GetRaChannelCount - 1) ∧
            ∃ randomIndex3, (AddUt s2 utId llsConf).2.m_raChRandomIndex = some randomIndex3 ∧
              randomIndex3.m_max = randomIndex2.m_max) ∧
          (utId ∉ s2.m_utInfos → (∃ est, CreateCnoEstimator s2 = .ok est) →
            randomIndex2.m_draws ≠ [] → ∃ i, (AddUt s2 utId llsConf).1 = .ok i) := by
  refine ⟨{ m_max := if (seq.GetSuperframeConf s.m_currentSequence).GetRaChannelCount > 0
              then (seq.GetSuperframeConf s.m_currentSequence).GetRaChannelCount - 1 else 0,
            m_draws := draws }, ?_, ?_, rfl, ?_⟩
  · unfold Initialize
    dsimp only
    split_ifs <;> rfl
  · dsimp only
    split_ifs with hpos
    · rfl
    · omega
  · intro s2 randomIndex2 hrv hmax utId llsConf
    constructor
    · intro i hi
      obtain ⟨r, d, ds, hr, -, hval, hstate⟩ := AddUt_ok s2 utId llsConf i hi
      rw [hrv] at hr
      cases hr
      have hle := GetInteger_le 0 randomIndex2.m_max d (Nat.zero_le _)
      rw [← hval, hmax] at hle
      refine ⟨fun h0 => by omega, fun _ => ⟨Nat.zero_le _, hle⟩, _, hstate, rfl⟩
    · rintro hfresh ⟨est, hest⟩ hne
      cases hd : randomIndex2.m_draws with
      | nil => exact absurd hd hne
      | cons d ds => exact ⟨_, AddUt_returns s2 utId llsConf est randomIndex2 d ds hfresh hest hrv hd⟩

/-- Witness for C12: the example beam has three random-access channels; `Initialize` sets the
range `0 .. 2` and the registration of the terminal `42` returns the index `1`. -/
theorem AddUt_raChannelIndex_range_witness :
    (AddUt exampleInitialized 42 exampleLlsConf).1 = .ok 1 ∧
    ∃ randomIndex,
      (Initialize exampleClock exampleScheduler 7 exampleSeq 50
        [Draw.half, Draw.half]).2.1.m_raChRandomIndex = some randomIndex ∧
      randomIndex.m_max = 3 - 1 ∧
      ∀ i, (AddUt exampleInitialized 42 exampleLlsConf).1 = .ok i → 0 ≤ i ∧ i ≤ 3 - 1 := by
  refine ⟨by decide!, ?_⟩
  obtain ⟨randomIndex, h1, h2, -, h4⟩ := AddUt_raChannelIndex_range exampleClock exampleScheduler 7
    exampleSeq 50 [Draw.half, Draw.half]
  refine ⟨randomIndex, h1, h2, fun i hi => ?_⟩
  exact ((h4 exampleInitialized randomIndex h1 h2 42 exampleLlsConf).1 i hi).2.1 (by decide)

/-- C20: `UpdateUtCno` and `UtCrReceived` end with the failed assertion exactly when the
address is not registered, and then the state in which they end is the state before the
call; for a registered address both succeed. -/
theorem UpdateUtCno_UtCrReceived_fail_iff (s : SatBeamScheduler) (utId : Address) (cno : ℚ)
    (crMsg : SatCrMessage) :
    ((∃ msg, (UpdateUtCno s utId cno).1 = .error (.fatal msg)) ↔ utId ∉ s.m_utInfos) ∧
    ((∃ msg, (UtCrReceived s utId crMsg).1 = .error (.fatal msg)) ↔ utId ∉ s.m_utInfos) ∧
    (utId ∉ s.m_utInfos →
      (UpdateUtCno s utId cno).2 = s ∧ (UtCrReceived s utId crMsg).2 = s) ∧
    (utId ∈ s.m_utInfos →
      (UpdateUtCno s utId cno).1 = .ok () ∧ (UtCrReceived s utId crMsg).1 = .ok ()) := by
  unfold UpdateUtCno UtCrReceived
  by_cases h : utId ∈ s.m_utInfos
  · simp [h]
  · simp [h]

/-- Witness for C20: with only the terminal `42` registered, both calls fail for the address
`41` and leave the state as it is, and both succeed for the address `42`. -/
theorem UpdateUtCno_UtCrReceived_fail_iff_witness :
    ((41 : Address) ∉ exampleOneUt.m_utInfos ∧
      (UpdateUtCno exampleOneUt 41 12).2 = exampleOneUt ∧
      (UtCrReceived exampleOneUt 41 { m_requestData := [((0, .DA_RBDC), 64)] }).2
        = exampleOneUt) ∧
    ((42 : Address) ∈ exampleOneUt.m_utInfos ∧
      (UpdateUtCno exampleOneUt 42 12).1 = .ok () ∧
      (UtCrReceived exampleOneUt 42 { m_requestData := [((0, .DA_RBDC), 64)] }).1 = .ok ()) :=
  ⟨⟨by decide!,
    (UpdateUtCno_UtCrReceived_fail_iff exampleOneUt 41 12
      { m_requestData := [((0, .DA_RBDC), 64)] }).2.2.1 (by decide!)⟩,
   ⟨by decide!,
    (UpdateUtCno_UtCrReceived_fail_iff exampleOneUt 42 12
      { m_requestData := [((0, .DA_RBDC), 64)] }).2.2.2 (by decide!)⟩⟩

theorem updateUtInfo_fields (s : SatBeamScheduler) (utId : Address) (f : SatUtInfo → SatUtInfo) :
    (updateUtInfo s utId f).m_superFrameCounter = s.m_superFrameCounter ∧
    (updateUtInfo s utId f).m_currentSequence = s.m_currentSequence ∧
    (updateUtInfo s utId f).m_utInfos = s.m_utInfos ∧
    (updateUtInfo s utId f).m_maxBbFrameSize = s.m_maxBbFrameSize ∧
    (updateUtInfo s utId f).m_utSortedInfos.map Prod.fst = s.m_utSortedInfos.map Prod.fst := by
  refine ⟨rfl, rfl, rfl, rfl, ?_⟩
  simp only [updateUtInfo, List.map_map]
  apply List.map_congr_left
  intro item _
  simp only [Function.comp]
  split_ifs <;> rfl

theorem foldl_updateUtInfo_fields (g : SatUtInfo → SatUtInfo) :
    ∀ (keys : List Address) (s : SatBeamScheduler),
      (keys.foldl (fun s utId => updateUtInfo s utId g) s).m_superFrameCounter
        = s.m_superFrameCounter ∧
      (keys.foldl (fun s utId => updateUtInfo s utId g) s).m_currentSequence
        = s.m_currentSequence ∧
      (keys.foldl (fun s utId => updateUtInfo s utId g) s).m_utInfos = s.m_utInfos ∧
      (keys.foldl (fun s utId => updateUtInfo s utId g) s).m_maxBbFrameSize
        = s.m_maxBbFrameSize ∧
      (keys.foldl (fun s utId => updateUtInfo s utId g) s).m_utSortedInfos.map Prod.fst
        = s.m_utSortedInfos.map Prod.fst := by
  intro keys
  induction keys with
  | nil => intro s; exact ⟨rfl, rfl, rfl, rfl, rfl⟩
  | cons k ks ih =>
    intro s
    obtain ⟨a1, a2, a3, a4, a5⟩ := ih (updateUtInfo s k g)
    obtain ⟨b1, b2, b3, b4, b5⟩ := updateUtInfo_fields s k g
    simp only [List.foldl_cons]
    exact ⟨a1.trans b1, a2.trans b2, a3.trans b3, a4.trans b4, a5.trans b5⟩

theorem UpdateDamaEntries_fields (s : SatBeamScheduler) :
    (UpdateDamaEntries s).m_superFrameCounter = s.m_superFrameCounter ∧
    (UpdateDamaEntries s).m_currentSequence = s.m_currentSequence ∧
    (UpdateDamaEntries s).m_utInfos = s.m_utInfos ∧
    (UpdateDamaEntries s).m_maxBbFrameSize = s.m_maxBbFrameSize ∧
    (UpdateDamaEntries s).m_utSortedInfos.map Prod.fst = s.m_utSortedInfos.map Prod.fst :=
  foldl_updateUtInfo_fields _ s.m_utInfos s

theorem DoPreResourceAllocation_fields (s : SatBeamScheduler) :
    (DoPreResourceAllocation s).1.m_superFrameCounter = s.m_superFrameCounter ∧
    (DoPreResourceAllocation s).1.m_currentSequence = s.m_currentSequence ∧
    (DoPreResourceAllocation s).1.m_utInfos = s.m_utInfos ∧
    (DoPreResourceAllocation s).1.m_maxBbFrameSize = s.m_maxBbFrameSize := by
  unfold DoPreResourceAllocation
  dsimp only
  split_ifs <;> exact ⟨rfl, rfl, rfl, rfl⟩

theorem DoPreResourceAllocation_effects (s : SatBeamScheduler) (h : s.m_utInfos ≠ []) :
    (DoPreResourceAllocation s).2 =
      [SchedulerEffect.RemoveAllocations] ++
        (DoPreResourceAllocation s).1.m_utSortedInfos.map
          (fun item => SchedulerEffect.AllocateToFrame item.2.GetCnoEstimation
            (buildAllocReq item)) ++
        [SchedulerEffect.AllocateSymbols] ∧
    (DoPreResourceAllocation s).1.m_utSortedInfos = listSort CompareCno s.m_utSortedInfos := by
  have hpos : s.m_utInfos.length > 0 := List.length_pos.mpr h
  unfold DoPreResourceAllocation
  dsimp only
  rw [if_pos hpos]
  exact ⟨rfl, rfl⟩

theorem AddRaChannels_ok (seq : SatSuperframeSeq) (fmt : SatTbtpFormat) (s : SatBeamScheduler)
    (filled : List SatTbtpMessage) (t : SatTbtpMessage) :
    AddRaChannels seq fmt s (filled ++ [t]) =
      .ok (((List.range (seq.GetSuperframeConf s.m_currentSequence).GetRaChannelCount).foldl
          (addRaChannel (seq.GetSuperframeConf s.m_currentSequence) fmt s.m_maxBbFrameSize)
          (filled, t)).1 ++
        [((List.range (seq.GetSuperframeConf s.m_currentSequence).GetRaChannelCount).foldl
          (addRaChannel (seq.GetSuperframeConf s.m_currentSequence) fmt s.m_maxBbFrameSize)
          (filled, t)).2]) := by
  unfold AddRaChannels
  simp

theorem Schedule_with_terminals (now : Int) (seq : SatSuperframeSeq) (fmt : SatTbtpFormat)
    (frameAllocator : SatFrameAllocator) (s : SatBeamScheduler) (h : s.m_utInfos ≠ []) :
    ∃ s2 tbtps,
      Schedule now seq fmt frameAllocator s =
        (.ok (), s2,
         (DoPreResourceAllocation (UpdateDamaEntries s)).2 ++
           [SchedulerEffect.GenerateTimeSlots tbtps s.m_maxBbFrameSize] ++
           (frameAllocator.GenerateTimeSlots tbtps s.m_maxBbFrameSize).map SchedulerEffect.Send ++
           [SchedulerEffect.SimulatorSchedule (now + seq.GetDuration s.m_currentSequence)]) ∧
      AddRaChannels seq fmt s2
        [(SatTbtpMessage.create s.m_currentSequence).SetSuperframeCounter s.m_superFrameCounter]
        = .ok tbtps ∧
      s2.m_superFrameCounter = (s.m_superFrameCounter + 1) % 4294967296 ∧
      s2.m_currentSequence = s.m_currentSequence ∧
      s2.m_maxBbFrameSize = s.m_maxBbFrameSize ∧
      s2.m_utInfos = s.m_utInfos ∧
      s2.m_utSortedInfos = (DoPreResourceAllocation (UpdateDamaEntries s)).1.m_utSortedInfos := by
  have hpos : s.m_utInfos.length > 0 := List.length_pos.mpr h
  obtain ⟨u1, u2, u3, u4, -⟩ := UpdateDamaEntries_fields s
  obtain ⟨d1, d2, d3, d4⟩ := DoPreResourceAllocation_fields (UpdateDamaEntries s)
  cases hD : DoPreResourceAllocation (UpdateDamaEntries s) with
  | mk s1 allocation =>
    rw [hD] at d1 d2 d3 d4
    simp only at d1 d2 d3 d4
    have hok := AddRaChannels_ok seq fmt
      { s1 with m_superFrameCounter := (s1.m_superFrameCounter + 1) % 4294967296 } []
      ((SatTbtpMessage.create s1.m_currentSequence).SetSuperframeCounter s1.m_superFrameCounter)
    rw [List.nil_append] at hok
    obtain ⟨tbtps, htb⟩ : ∃ tbtps, AddRaChannels seq fmt
        { s1 with m_superFrameCounter := (s1.m_superFrameCounter + 1) % 4294967296 }
        [(SatTbtpMessage.create s1.m_currentSequence).SetSuperframeCounter
          s1.m_superFrameCounter] = .ok tbtps := ⟨_, hok⟩
    refine ⟨{ s1 with m_superFrameCounter := (s1.m_superFrameCounter + 1) % 4294967296 }, tbtps,
      ?_, ?_, ?_, ?_, ?_, ?_, rfl⟩
    · unfold Schedule
      rw [if_pos hpos]
      simp only [hD, htb]
      rw [d4, u4]
    · rw [← u2, ← d2, ← u1, ← d1]
      exact htb
    · simp only [d1, u1]
    · exact d2.trans u2
    · exact d4.trans u4
    · exact d3.trans u3

theorem allocation_effects_filter (l : List UtInfoItem_t) (p : SchedulerEffect → Bool)
    (hp : ∀ cno req, p (SchedulerEffect.AllocateToFrame cno req) = false) :
    (l.map (fun item => SchedulerEffect.AllocateToFrame item.2.GetCnoEstimation
      (buildAllocReq item))).filter p = [] := by
  rw [List.filter_eq_nil_iff]
  intro e he
  obtain ⟨item, -, rfl⟩ := List.mem_map.mp he
  simp [hp]

theorem send_effects_filter (l : List SatTbtpMessage) (p : SchedulerEffect → Bool)
    (hp : ∀ m, p (SchedulerEffect.Send m) = false) :
    (l.map SchedulerEffect.Send).filter p = [] := by
  rw [List.filter_eq_nil_iff]
  intro e he
  obtain ⟨m, -, rfl⟩ := List.mem_map.mp he
  simp [hp]

/-- C13: for every scheduler state, with or without registered terminals, one run of the
cycle ends normally and enqueues exactly one further run of the cycle, due at the current
time plus one superframe duration; it is the last thing the run does. -/
theorem Schedule_reschedules_once (now : Int) (seq : SatSuperframeSeq) (fmt : SatTbtpFormat)
    (frameAllocator : SatFrameAllocator) (s : SatBeamScheduler) :
    (Schedule now seq fmt frameAllocator s).1 = .ok () ∧
    (Schedule now seq fmt frameAllocator s).2.2.filter SchedulerEffect.isSimulatorSchedule =
      [SchedulerEffect.SimulatorSchedule (now + seq.GetDuration s.m_currentSequence)] ∧
    (Schedule now seq fmt frameAllocator s).2.2.getLast? =
      some (SchedulerEffect.SimulatorSchedule (now + seq.GetDuration s.m_currentSequence)) := by
  by_cases h : s.m_utInfos = []
  · unfold Schedule
    simp [h, SchedulerEffect.isSimulatorSchedule]
  · obtain ⟨s2, tbtps, hrun, -⟩ := Schedule_with_terminals now seq fmt frameAllocator s h
    have hU : (UpdateDamaEntries s).m_utInfos ≠ [] := by
      rw [(UpdateDamaEntries_fields s).2.2.1]; exact h
    rw [hrun]
    refine ⟨rfl, ?_, ?_⟩
    · rw [(DoPreResourceAllocation_effects (UpdateDamaEntries s) hU).1]
      simp only [List.filter_append]
      rw [allocation_effects_filter _ _ (fun _ _ => rfl),
        send_effects_filter _ _ (fun _ => rfl)]
      rfl
    · exact List.getLast?_eq_some_iff.mpr ⟨_, rfl⟩

theorem foldl_range_invariant {β : Type} (f : β → Nat → β) (P : Nat → β → Prop) (b0 : β)
    (n : Nat) (h0 : P 0 b0) (hstep : ∀ k b, k < n → P k b → P (k + 1) (f b k)) :
    P n ((List.range n).foldl f b0) := by
  induction n with
  | zero => simpa using h0
  | succ n ih =>
    rw [List.range_succ, List.foldl_append]
    simp only [List.foldl_cons, List.foldl_nil]
    exact hstep n _ (Nat.lt_succ_self n)
      (ih (fun k b hk hP => hstep k b (Nat.lt_succ_of_lt hk) hP))

theorem addRaChannel_cases (superFrameConf : SatSuperframeConf) (fmt : SatTbtpFormat)
    (maxBbFrameSize : Nat) (acc : List SatTbtpMessage × SatTbtpMessage) (i : Nat) :
    (raChannelTimeSlotCount superFrameConf i = 0 ∧
      addRaChannel superFrameConf fmt maxBbFrameSize acc i = acc) ∨
    (0 < raChannelTimeSlotCount superFrameConf i ∧
      acc.2.GetSizeInBytes fmt +
        fmt.m_tbtpTimeSlotInfoSizeInBytes * raChannelTimeSlotCount superFrameConf i
          ≤ maxBbFrameSize ∧
      addRaChannel superFrameConf fmt maxBbFrameSize acc i =
        (acc.1, acc.2.SetRaChannel i (superFrameConf.GetRaChannelFrameId i)
          (raChannelTimeSlotCount superFrameConf i))) ∨
    (0 < raChannelTimeSlotCount superFrameConf i ∧
      maxBbFrameSize < acc.2.GetSizeInBytes fmt +
        fmt.m_tbtpTimeSlotInfoSizeInBytes * raChannelTimeSlotCount superFrameConf i ∧
      addRaChannel superFrameConf fmt maxBbFrameSize acc i =
        (acc.1 ++ [acc.2],
          ((SatTbtpMessage.create acc.2.m_superframeSeqId).SetSuperframeCounter
            acc.2.m_superframeCounter).SetRaChannel i (superFrameConf.GetRaChannelFrameId i)
              (raChannelTimeSlotCount superFrameConf i))) := by
  unfold addRaChannel
  dsimp only
  by_cases h0 : raChannelTimeSlotCount superFrameConf i > 0
  · rw [if_pos h0]
    by_cases hbig : acc.2.GetSizeInBytes fmt +
        fmt.m_tbtpTimeSlotInfoSizeInBytes * raChannelTimeSlotCount superFrameConf i
          > maxBbFrameSize
    · rw [if_pos hbig]
      exact Or.inr (Or.inr ⟨h0, hbig, rfl⟩)
    · rw [if_neg hbig]
      exact Or.inr (Or.inl ⟨h0, not_lt.mp hbig, rfl⟩)
  · rw [if_neg h0]
    exact Or.inl ⟨by omega, rfl⟩

/-- The announcement that the loop of `AddRaChannels` sets for the channel `i`, if any. -/
theorem addRaChannel_flatten (superFrameConf : SatSuperframeConf) (fmt : SatTbtpFormat)
    (maxBbFrameSize : Nat) (acc : List SatTbtpMessage × SatTbtpMessage) (i : Nat) :
    (((addRaChannel superFrameConf fmt maxBbFrameSize acc i).1 ++
        [(addRaChannel superFrameConf fmt maxBbFrameSize acc i).2]).map
          (fun m => m.m_raChannels)).flatten =
      ((acc.1 ++ [acc.2]).map (fun m => m.m_raChannels)).flatten ++
        (if raChannelTimeSlotCount superFrameConf i = 0 then []
         else [(i, superFrameConf.GetRaChannelFrameId i,
                raChannelTimeSlotCount superFrameConf i)]) := by
  rcases addRaChannel_cases superFrameConf fmt maxBbFrameSize acc i with
    ⟨h0, heq⟩ | ⟨h0, -, heq⟩ | ⟨h0, -, heq⟩
  · rw [heq, if_pos h0, List.append_nil]
  · rw [heq, if_neg (by omega)]
    simp [SatTbtpMessage.SetRaChannel]
  · rw [heq, if_neg (by omega)]
    simp [SatTbtpMessage.SetRaChannel, SatTbtpMessage.SetSuperframeCounter,
      SatTbtpMessage.create]

theorem AddRaChannels_flatten (seq : SatSuperframeSeq) (fmt : SatTbtpFormat)
    (s : SatBeamScheduler) (filled : List SatTbtpMessage) (t : SatTbtpMessage) :
    ∃ out, AddRaChannels seq fmt s (filled ++ [t]) = .ok out ∧
      (out.map (fun m => m.m_raChannels)).flatten =
        ((filled ++ [t]).map (fun m => m.m_raChannels)).flatten ++
          (List.range (seq.GetSuperframeConf s.m_currentSequence).GetRaChannelCount).filterMap
            (fun i =>
              if raChannelTimeSlotCount (seq.GetSuperframeConf s.m_currentSequence) i = 0
              then none
              else some (i, (seq.GetSuperframeConf s.m_currentSequence).GetRaChannelFrameId i,
                raChannelTimeSlotCount (seq.GetSuperframeConf s.m_currentSequence) i)) := by
  refine ⟨_, AddRaChannels_ok seq fmt s filled t, ?_⟩
  apply foldl_range_invariant
    (addRaChannel (seq.GetSuperframeConf s.m_currentSequence) fmt s.m_maxBbFrameSize)
    (fun k acc => ((acc.1 ++ [acc.2]).map (fun m => m.m_raChannels)).flatten =
        ((filled ++ [t]).map (fun m => m.m_raChannels)).flatten ++
          (List.range k).filterMap
            (fun i =>
              if raChannelTimeSlotCount (seq.GetSuperframeConf s.m_currentSequence) i = 0
              then none
              else some (i, (seq.GetSuperframeConf s.m_currentSequence).GetRaChannelFrameId i,
                raChannelTimeSlotCount (seq.GetSuperframeConf s.m_currentSequence) i)))
  · simp
  · intro k acc _ hP
    rw [addRaChannel_flatten, hP, List.range_succ, List.filterMap_append, List.append_assoc]
    congr 1
    congr 1
    by_cases h0 : raChannelTimeSlotCount (seq.GetSuperframeConf s.m_currentSequence) k = 0
    · simp [h0]
    · simp [h0]

/-- C16: for every maximum message size, the announcements that `AddRaChannels` places, read
across the instances of the container in their order, are the announcements that were there
before followed by exactly the list `raAnnouncements`: one entry (channel index, frame id,
time slot count divided by carrier count) for each configured channel with a non-zero slot
count, in channel-index order.  So no entry has a slot count of zero and the total of the
announced slots is that of `raAnnouncements`, whatever the size limit.  Frame ids and frame
time slot counts are `uint8_t` and `uint16_t` values. -/
theorem AddRaChannels_announcements (seq : SatSuperframeSeq) (fmt : SatTbtpFormat)
    (s : SatBeamScheduler) (filled : List SatTbtpMessage) (t : SatTbtpMessage)
    (hframe : ∀ i, i < (seq.GetSuperframeConf s.m_currentSequence).GetRaChannelCount →
      (seq.GetSuperframeConf s.m_currentSequence).GetRaChannelFrameId i < 256)
    (hslots : ∀ i, i < (seq.GetSuperframeConf s.m_currentSequence).GetRaChannelCount →
      ((seq.GetSuperframeConf s.m_currentSequence).GetFrameConf
        ((seq.GetSuperframeConf s.m_currentSequence).GetRaChannelFrameId i)).m_timeSlotCount
          < 65536) :
    ∃ out, AddRaChannels seq fmt s (filled ++ [t]) = .ok out ∧
      (out.map (fun m => m.m_raChannels)).flatten =
        ((filled ++ [t]).map (fun m => m.m_raChannels)).flatten ++
          raAnnouncements (seq.GetSuperframeConf s.m_currentSequence) ∧
      (∀ e ∈ raAnnouncements (seq.GetSuperframeConf s.m_currentSequence), e.2.2 ≠ 0) ∧
      (((out.map (fun m => m.m_raChannels)).flatten).map (fun e => e.2.2)).sum =
        ((((filled ++ [t]).map (fun m => m.m_raChannels)).flatten).map (fun e => e.2.2)).sum +
          ((raAnnouncements (seq.GetSuperframeConf s.m_currentSequence)).map
            (fun e => e.2.2)).sum := by
  obtain ⟨out, hout, hflat⟩ := AddRaChannels_flatten seq fmt s filled t
  have hsame : (List.range (seq.GetSuperframeConf s.m_currentSequence).GetRaChannelCount).filterMap
      (fun i =>
        if raChannelTimeSlotCount (seq.GetSuperframeConf s.m_currentSequence) i = 0
        then none
        else some (i, (seq.GetSuperframeConf s.m_currentSequence).GetRaChannelFrameId i,
          raChannelTimeSlotCount (seq.GetSuperframeConf s.m_currentSequence) i))
      = raAnnouncements (seq.GetSuperframeConf s.m_currentSequence) := by
    unfold raAnnouncements
    apply List.filterMap_congr
    intro i hi
    have hi2 := List.mem_range.mp hi
    have h1 := hframe i hi2
    have h2 := hslots i hi2
    have hcount : raChannelTimeSlotCount (seq.GetSuperframeConf s.m_currentSequence) i =
        ((seq.GetSuperframeConf s.m_currentSequence).GetFrameConf
          ((seq.GetSuperframeConf s.m_currentSequence).GetRaChannelFrameId i)).m_timeSlotCount /
        ((seq.GetSuperframeConf s.m_currentSequence).GetFrameConf
          ((seq.GetSuperframeConf s.m_currentSequence).GetRaChannelFrameId i)).m_carrierCount := by
      unfold raChannelTimeSlotCount
      dsimp only
      rw [Nat.mod_eq_of_lt h1]
      exact Nat.mod_eq_of_lt (Nat.lt_of_le_of_lt (Nat.div_le_self _ _) h2)
    unfold raAnnouncement
    dsimp only
    rw [hcount]
  rw [hsame] at hflat
  refine ⟨out, hout, hflat, ?_, ?_⟩
  · intro e he
    unfold raAnnouncements at he
    obtain ⟨i, -, hi⟩ := List.mem_filterMap.mp he
    unfold raAnnouncement at hi
    dsimp only at hi
    split_ifs at hi with h0
    cases hi
    exact h0
  · rw [hflat, List.map_append, List.sum_append]

/-- Witness for C16: the example beam; the channel `0` has no slot and is not announced, the
channels `1` and `2` are announced with 10 and 20 slots, in two instances for a frame size of
50 bytes. -/
theorem AddRaChannels_announcements_witness :
    AddRaChannels exampleSeq exampleFormat exampleInitialized
        ([] ++ [SatTbtpMessage.create 0]) =
      .ok [{ m_superframeSeqId := 0, m_superframeCounter := 0,
             m_raChannels := [(1, 1, 10)], m_assignedSlotCount := 10 },
           { m_superframeSeqId := 0, m_superframeCounter := 0,
             m_raChannels := [(2, 2, 20)], m_assignedSlotCount := 20 }] ∧
    raAnnouncements (exampleSeq.GetSuperframeConf exampleInitialized.m_currentSequence) =
      [(1, 1, 10), (2, 2, 20)] ∧
    ∃ out, AddRaChannels exampleSeq exampleFormat exampleInitialized
        ([] ++ [SatTbtpMessage.create 0]) = .ok out ∧
      (out.map (fun m => m.m_raChannels)).flatten =
        ((([] : List SatTbtpMessage) ++ [SatTbtpMessage.create 0]).map
          (fun m => m.m_raChannels)).flatten ++
          raAnnouncements (exampleSeq.GetSuperframeConf exampleInitialized.m_currentSequence) := by
  refine ⟨by decide!, by decide!, ?_⟩
  obtain ⟨out, h1, h2, -, -⟩ := AddRaChannels_announcements exampleSeq exampleFormat
    exampleInitialized [] (SatTbtpMessage.create 0)
    (fun i hi => by
      have h3 : i < 3 := hi
      show i < 256
      omega)
    (fun i hi => by
      have h3 : i < 3 := hi
      show 20 * i < 65536
      omega)
  exact ⟨out, h1, h2⟩

theorem AddRaChannels_structure (seq : SatSuperframeSeq) (fmt : SatTbtpFormat)
    (s : SatBeamScheduler) (filled : List SatTbtpMessage) (t : SatTbtpMessage) :
    ∃ first rest, AddRaChannels seq fmt s (filled ++ [t]) = .ok (filled ++ first :: rest) ∧
      first.m_superframeSeqId = t.m_superframeSeqId ∧
      first.m_superframeCounter = t.m_superframeCounter ∧
      (∃ added, first.m_raChannels = t.m_raChannels ++ added) ∧
      ∀ m ∈ rest, m.m_superframeSeqId = t.m_superframeSeqId ∧
        m.m_superframeCounter = t.m_superframeCounter := by
  have hinv := foldl_range_invariant
    (addRaChannel (seq.GetSuperframeConf s.m_currentSequence) fmt s.m_maxBbFrameSize)
    (fun _ acc =>
      (acc.2.m_superframeSeqId = t.m_superframeSeqId ∧
        acc.2.m_superframeCounter = t.m_superframeCounter) ∧
      ((acc.1 = filled ∧ ∃ added, acc.2.m_raChannels = t.m_raChannels ++ added) ∨
       (∃ first mid, acc.1 = filled ++ first :: mid ∧
          first.m_superframeSeqId = t.m_superframeSeqId ∧
          first.m_superframeCounter = t.m_superframeCounter ∧
          (∃ added, first.m_raChannels = t.m_raChannels ++ added) ∧
          ∀ m ∈ mid, m.m_superframeSeqId = t.m_superframeSeqId ∧
            m.m_superframeCounter = t.m_superframeCounter)))
    (filled, t) (seq.GetSuperframeConf s.m_currentSequence).GetRaChannelCount
    ⟨⟨rfl, rfl⟩, Or.inl ⟨rfl, [], by simp⟩⟩
    (by
      intro k acc _ hP
      obtain ⟨⟨hs, hc⟩, hshape⟩ := hP
      rcases addRaChannel_cases (seq.GetSuperframeConf s.m_currentSequence) fmt
        s.m_maxBbFrameSize acc k with ⟨-, heq⟩ | ⟨-, -, heq⟩ | ⟨-, -, heq⟩
      · rw [heq]; exact ⟨⟨hs, hc⟩, hshape⟩
      · rw [heq]
        refine ⟨⟨hs, hc⟩, ?_⟩
        rcases hshape with ⟨h1, added, hadd⟩ | hright
        · exact Or.inl ⟨h1, added ++
            [(k, (seq.GetSuperframeConf s.m_currentSequence).GetRaChannelFrameId k,
              raChannelTimeSlotCount (seq.GetSuperframeConf s.m_currentSequence) k)], by
            simp [SatTbtpMessage.SetRaChannel, hadd]⟩
        · exact Or.inr hright
      · rw [heq]
        refine ⟨⟨hs, hc⟩, Or.inr ?_⟩
        rcases hshape with ⟨h1, hadd⟩ | ⟨first, mid, h1, f1, f2, f3, f4⟩
        · exact ⟨acc.2, [], by simp [h1], hs, hc, hadd, by simp⟩
        · refine ⟨first, mid ++ [acc.2], by simp [h1], f1, f2, f3, ?_⟩
          intro m hm
          rcases List.mem_append.mp hm with hm | hm
          · exact f4 m hm
          · rw [List.mem_singleton.mp hm]; exact ⟨hs, hc⟩)
  have hok := AddRaChannels_ok seq fmt s filled t
  generalize hacc : (List.range (seq.GetSuperframeConf s.m_currentSequence).GetRaChannelCount).foldl
    (addRaChannel (seq.GetSuperframeConf s.m_currentSequence) fmt s.m_maxBbFrameSize)
    (filled, t) = acc at hinv hok
  rw [hok]
  obtain ⟨⟨hs, hc⟩, hshape⟩ := hinv
  rcases hshape with ⟨h1, hadd⟩ | ⟨first, mid, h1, f1, f2, f3, f4⟩
  · exact ⟨acc.2, [], by rw [h1], hs, hc, hadd, by simp⟩
  · refine ⟨first, mid ++ [acc.2], by rw [h1]; simp, f1, f2, f3, ?_⟩
    intro m hm
    rcases List.mem_append.mp hm with hm | hm
    · exact f4 m hm
    · rw [List.mem_singleton.mp hm]; exact ⟨hs, hc⟩

/-- C15: `AddRaChannels` keeps every instance that was in the container at its place, the
last of them continued with further announcements, and every instance it appends carries the
superframe counter and the superframe sequence id of that last instance; in a cycle with at
least one registered terminal the container that results starts with an instance stamped
with the value that the superframe counter had at the start of the cycle, and all its
instances carry that counter and the current sequence id. -/
theorem AddRaChannels_appends_same_counter (now : Int) (seq : SatSuperframeSeq)
    (fmt : SatTbtpFormat) (frameAllocator : SatFrameAllocator) (s : SatBeamScheduler) :
    (∀ (filled : List SatTbtpMessage) (t : SatTbtpMessage),
      ∃ first rest, AddRaChannels seq fmt s (filled ++ [t]) = .ok (filled ++ first :: rest) ∧
        first.m_superframeSeqId = t.m_superframeSeqId ∧
        first.m_superframeCounter = t.m_superframeCounter ∧
        (∃ added, first.m_raChannels = t.m_raChannels ++ added) ∧
        ∀ m ∈ rest, m.m_superframeSeqId = t.m_superframeSeqId ∧
          m.m_superframeCounter = t.m_superframeCounter) ∧
    (s.m_utInfos ≠ [] →
      ∃ first rest,
        SchedulerEffect.GenerateTimeSlots (first :: rest) s.m_maxBbFrameSize
          ∈ (Schedule now seq fmt frameAllocator s).2.2 ∧
        first.m_superframeCounter = s.m_superFrameCounter ∧
        first.m_superframeSeqId = s.m_currentSequence ∧
        ∀ m ∈ rest, m.m_superframeCounter = s.m_superFrameCounter ∧
          m.m_superframeSeqId = s.m_currentSequence) := by
  refine ⟨AddRaChannels_structure seq fmt s, ?_⟩
  intro h
  obtain ⟨s2, tbtps, hrun, htb, -⟩ := Schedule_with_terminals now seq fmt frameAllocator s h
  obtain ⟨first, rest, hout, f1, f2, -, f4⟩ := AddRaChannels_structure seq fmt s2 []
    ((SatTbtpMessage.create s.m_currentSequence).SetSuperframeCounter s.m_superFrameCounter)
  rw [List.nil_append, htb] at hout
  simp only [Except.ok.injEq, List.nil_append] at hout
  subst hout
  refine ⟨first, rest, ?_, f2, f1, fun m hm => ⟨(f4 m hm).2, (f4 m hm).1⟩⟩
  rw [hrun]
  simp

/-- Witness for C15: with the terminal `42` registered and the counter at 12, the cycle hands
two instances to the allocator, both with the counter 12 and the sequence id 0. -/
theorem AddRaChannels_appends_same_counter_witness :
    exampleOneUt.m_utInfos ≠ [] ∧ exampleOneUt.m_superFrameCounter = 12 ∧
    SchedulerEffect.GenerateTimeSlots
        [{ m_superframeSeqId := 0, m_superframeCounter := 12,
           m_raChannels := [(1, 1, 10)], m_assignedSlotCount := 10 },
         { m_superframeSeqId := 0, m_superframeCounter := 12,
           m_raChannels := [(2, 2, 20)], m_assignedSlotCount := 20 }] 50
      ∈ (Schedule 30 exampleSeq exampleFormat exampleAllocator exampleOneUt).2.2 ∧
    ∃ first rest,
      SchedulerEffect.GenerateTimeSlots (first :: rest) exampleOneUt.m_maxBbFrameSize
        ∈ (Schedule 30 exampleSeq exampleFormat exampleAllocator exampleOneUt).2.2 ∧
      first.m_superframeCounter = exampleOneUt.m_superFrameCounter ∧
      first.m_superframeSeqId = exampleOneUt.m_currentSequence ∧
      ∀ m ∈ rest, m.m_superframeCounter = exampleOneUt.m_superFrameCounter ∧
        m.m_superframeSeqId = exampleOneUt.m_currentSequence :=
  ⟨by decide!, by decide!, by decide!,
   (AddRaChannels_appends_same_counter 30 exampleSeq exampleFormat exampleAllocator
      exampleOneUt).2 (by decide!)⟩

/-- Counterexample to C17 as stated: with a maximum size of 20 bytes, a body of 5 bytes and
2 bytes per slot, the announcement of the 10 slots of channel `1` is put into a new instance,
whose size of 25 bytes is above the maximum. -/
theorem AddRaChannels_exceeds_maximum :
    AddRaChannels exampleSeq exampleFormat { exampleInitialized with m_maxBbFrameSize := 20 }
        [SatTbtpMessage.create 0] =
      .ok [SatTbtpMessage.create 0,
           { m_superframeSeqId := 0, m_superframeCounter := 0,
             m_raChannels := [(1, 1, 10)], m_assignedSlotCount := 10 },
           { m_superframeSeqId := 0, m_superframeCounter := 0,
             m_raChannels := [(2, 2, 20)], m_assignedSlotCount := 20 }] ∧
    SatTbtpMessage.GetSizeInBytes exampleFormat
        { m_superframeSeqId := 0, m_superframeCounter := 0,
          m_raChannels := [(1, 1, 10)], m_assignedSlotCount := 10 } = 25 ∧
    ¬ (25 ≤ ({ exampleInitialized with m_maxBbFrameSize := 20 } : SatBeamScheduler).m_maxBbFrameSize) := by
  refine ⟨by decide!, by decide!, by decide!⟩

/-- C17 (amended): when every instance of the container is within the maximum size at first
and the announcement of each channel fits into an instance without slots, no instance of
the container is above the maximum size after `AddRaChannels`. -/
theorem AddRaChannels_within_maximum (seq : SatSuperframeSeq) (fmt : SatTbtpFormat)
    (s : SatBeamScheduler) (filled : List SatTbtpMessage) (t : SatTbtpMessage)
    (hin : ∀ m ∈ filled ++ [t], m.GetSizeInBytes fmt ≤ s.m_maxBbFrameSize)
    (hfit : ∀ i, i < (seq.GetSuperframeConf s.m_currentSequence).GetRaChannelCount →
      fmt.m_tbtpBodySizeInBytes + fmt.m_tbtpTimeSlotInfoSizeInBytes *
        raChannelTimeSlotCount (seq.GetSuperframeConf s.m_currentSequence) i
          ≤ s.m_maxBbFrameSize) :
    ∃ out, AddRaChannels seq fmt s (filled ++ [t]) = .ok out ∧
      ∀ m ∈ out, m.GetSizeInBytes fmt ≤ s.m_maxBbFrameSize := by
  refine ⟨_, AddRaChannels_ok seq fmt s filled t, ?_⟩
  apply foldl_range_invariant
    (addRaChannel (seq.GetSuperframeConf s.m_currentSequence) fmt s.m_maxBbFrameSize)
    (fun _ acc => ∀ m ∈ acc.1 ++ [acc.2], m.GetSizeInBytes fmt ≤ s.m_maxBbFrameSize)
  · exact hin
  · intro k acc hk hP
    rcases addRaChannel_cases (seq.GetSuperframeConf s.m_currentSequence) fmt
      s.m_maxBbFrameSize acc k with ⟨-, heq⟩ | ⟨-, hsmall, heq⟩ | ⟨-, -, heq⟩
    · rw [heq]; exact hP
    · rw [heq]
      intro m hm
      rcases List.mem_append.mp hm with hm | hm
      · exact hP m (List.mem_append_left _ hm)
      · rw [List.mem_singleton.mp hm]
        simp only [SatTbtpMessage.GetSizeInBytes, SatTbtpMessage.SetRaChannel] at hsmall ⊢
        rw [Nat.mul_add]
        omega
    · rw [heq]
      intro m hm
      rcases List.mem_append.mp hm with hm | hm
      · exact hP m hm
      · rw [List.mem_singleton.mp hm]
        have := hfit k hk
        simp only [SatTbtpMessage.GetSizeInBytes, SatTbtpMessage.SetRaChannel,
          SatTbtpMessage.SetSuperframeCounter, SatTbtpMessage.create, Nat.zero_add]
        exact this

/-- Witness for C17 (amended): with the maximum size of 50 bytes the two instances have 25 and
45 bytes. -/
theorem AddRaChannels_within_maximum_witness :
    AddRaChannels exampleSeq exampleFormat exampleInitialized ([] ++ [SatTbtpMessage.create 0]) =
      .ok [{ m_superframeSeqId := 0, m_superframeCounter := 0,
             m_raChannels := [(1, 1, 10)], m_assignedSlotCount := 10 },
           { m_superframeSeqId := 0, m_superframeCounter := 0,
             m_raChannels := [(2, 2, 20)], m_assignedSlotCount := 20 }] ∧
    ∃ out, AddRaChannels exampleSeq exampleFormat exampleInitialized
        ([] ++ [SatTbtpMessage.create 0]) = .ok out ∧
      ∀ m ∈ out, m.GetSizeInBytes exampleFormat ≤ exampleInitialized.m_maxBbFrameSize :=
  ⟨by decide!,
   AddRaChannels_within_maximum exampleSeq exampleFormat exampleInitialized []
     (SatTbtpMessage.create 0)
     (by decide!)
     (fun i hi => by
        have h3 : i < 3 := hi
        have h0 : i = 0 ∨ i = 1 ∨ i = 2 := by omega
        rcases h0 with rfl | rfl | rfl <;> decide!)⟩

/-- Evaluation for C18: the ranking step leaves the terminals with the estimates `3`, `4`,
unknown, `1` in that order, so that the terminal with the estimate `3` stays in front of the
terminal with the strictly lower estimate `1`. -/
theorem DoPreResourceAllocation_leaves_unsorted :
    (DoPreResourceAllocation exampleFourUts).1.m_utSortedInfos.map
        (fun item => (item.1, item.2.GetCnoEstimation)) =
      [(1, some 3), (2, some 4), (3, none), (4, some 1)] := by
  decide!

theorem sortCarry_perm {α : Type} (le : α → α → Bool) :
    ∀ (counters : List (List α)) (carry : List α),
      (sortCarry le carry counters).flatten.Perm (carry ++ counters.flatten) := by
  intro counters
  induction counters with
  | nil => intro carry; simp [sortCarry]
  | cons c cs ih =>
    intro carry
    unfold sortCarry
    by_cases hc : c.isEmpty = true
    · rw [if_pos hc]
      have hnil : c = [] := List.isEmpty_iff.mp hc
      subst hnil
      simp
    · rw [if_neg hc]
      simp only [List.flatten_cons, List.nil_append]
      refine (ih (List.merge c carry le)).trans ?_
      refine ((List.merge_perm_append le).append_right cs.flatten).trans ?_
      rw [← List.append_assoc carry c cs.flatten]
      exact (List.perm_append_comm).append_right cs.flatten

theorem sortCounters_perm {α : Type} (le : α → α → Bool) :
    ∀ (l : List α) (counters : List (List α)),
      (l.foldl (fun counters x => sortCarry le [x] counters) counters).flatten.Perm
        (counters.flatten ++ l) := by
  intro l
  induction l with
  | nil => intro counters; simp
  | cons x xs ih =>
    intro counters
    simp only [List.foldl_cons]
    refine (ih _).trans ?_
    refine ((sortCarry_perm le counters [x]).append_right xs).trans ?_
    simp only [List.singleton_append, List.cons_append]
    exact List.perm_middle.symm

theorem mergeCounters_perm {α : Type} (le : α → α → Bool) :
    ∀ (counters : List (List α)) (acc : List α),
      (counters.foldl (fun acc c => List.merge c acc le) acc).Perm (acc ++ counters.flatten) := by
  intro counters
  induction counters with
  | nil => intro acc; simp
  | cons c cs ih =>
    intro acc
    simp only [List.foldl_cons, List.flatten_cons]
    refine (ih _).trans ?_
    refine ((List.merge_perm_append le).append_right cs.flatten).trans ?_
    rw [← List.append_assoc]
    exact (List.perm_append_comm).append_right cs.flatten

theorem listSort_perm {α : Type} (comp : α → α → Bool) (l : List α) :
    (listSort comp l).Perm l := by
  unfold listSort
  have h := sortCounters_perm (fun a b => !comp b a) l []
  simp only [List.flatten_nil, List.nil_append] at h
  dsimp only
  cases hc : l.foldl (fun counters x => sortCarry (fun a b => !comp b a) [x] counters) [] with
  | nil =>
    rw [hc] at h
    simpa using h
  | cons c cs =>
    rw [hc] at h
    exact (mergeCounters_perm _ cs c).trans (by simpa using h)

theorem createAllocationChannels_eq_map :
    ∀ (entries : List SatLowerLayerServiceRaEntry)
      (channels : List SatRandomAccessAllocationChannel),
      createAllocationChannels entries = .ok channels →
      channels = entries.map createAllocationChannel := by
  intro entries
  induction entries with
  | nil =>
    intro channels h
    simp only [createAllocationChannels, pure, Except.pure, Except.ok.injEq] at h
    simp [← h]
  | cons e rest ih =>
    intro channels h
    simp only [createAllocationChannels, bind, Except.bind, pure, Except.pure] at h
    repeat' split at h
    all_goals first
      | contradiction
      | (simp only [Except.ok.injEq] at h
         rename_i hr
         rw [← h, ih _ hr]; simp)

theorem SatRandomAccessConf_create_channels (llsConf : SatLowerLayerServiceConf)
    (conf : SatRandomAccessConf) (h : SatRandomAccessConf.create llsConf = .ok conf) :
    conf.m_allocationChannelConf = llsConf.m_raServiceEntries.map createAllocationChannel := by
  simp only [SatRandomAccessConf.create, bind, Except.bind, pure, Except.pure] at h
  repeat' split at h
  all_goals first
    | contradiction
    | (simp only [Except.ok.injEq] at h
       rename_i hr
       rw [← h]
       exact createAllocationChannels_eq_map _ _ hr)

theorem createAllocationChannel_probability (entry : SatLowerLayerServiceRaEntry) :
    (createAllocationChannel entry).m_crdsaBackoffProbability =
      ((entry.m_backOffProbability : ℚ) - 1) / 65534 := by
  simp only [createAllocationChannel]
  push_cast
  norm_num
  ring

/-- C21: for every raw backoff value `r` of a random-access service, the channel that the
constructor of `SatRandomAccessConf` builds for it has the backoff probability
`(r - 1) / 65534` as an exact rational, and so has the channel of the configuration that the
constructor returns; `r = 1` gives `0`, `r = 65535` gives `1`, and every `r` with
`1 ≤ r ≤ 65535` gives a probability in `[0, 1]`. -/
theorem SatRandomAccessConf_create_backoffProbability (llsConf : SatLowerLayerServiceConf)
    (i : Nat) (entry : SatLowerLayerServiceRaEntry)
    (he : llsConf.m_raServiceEntries[i]? = some entry) :
    (createAllocationChannel entry).m_crdsaBackoffProbability =
      ((entry.m_backOffProbability : ℚ) - 1) / 65534 ∧
    (∀ conf, SatRandomAccessConf.create llsConf = .ok conf →
      ∃ c, conf.m_allocationChannelConf[i]? = some c ∧
        c.m_crdsaBackoffProbability = ((entry.m_backOffProbability : ℚ) - 1) / 65534) ∧
    (entry.m_backOffProbability = 1 →
      (createAllocationChannel entry).m_crdsaBackoffProbability = 0) ∧
    (entry.m_backOffProbability = 65535 →
      (createAllocationChannel entry).m_crdsaBackoffProbability = 1) ∧
    (1 ≤ entry.m_backOffProbability → entry.m_backOffProbability ≤ 65535 →
      0 ≤ (createAllocationChannel entry).m_crdsaBackoffProbability ∧
      (createAllocationChannel entry).m_crdsaBackoffProbability ≤ 1) := by
  have hp := createAllocationChannel_probability entry
  refine ⟨hp, ?_, ?_, ?_, ?_⟩
  · intro conf h
    refine ⟨createAllocationChannel entry, ?_, hp⟩
    rw [SatRandomAccessConf_create_channels llsConf conf h, List.getElem?_map, he]; rfl
  · intro h1; rw [hp, h1]; norm_num
  · intro h1; rw [hp, h1]; norm_num
  · intro h1 h2
    rw [hp]
    have a1 : (1 : ℚ) ≤ (entry.m_backOffProbability : ℚ) := by exact_mod_cast h1
    have a2 : (entry.m_backOffProbability : ℚ) ≤ 65535 := by exact_mod_cast h2
    constructor
    · apply div_nonneg <;> linarith
    · rw [div_le_one (by norm_num)]; linarith

/-- Witness for C21: the constructor accepts the example profile, and the channel of its
second service, whose raw backoff value is `65535`, has the backoff probability `1`, which
lies in `[0, 1]`. -/
theorem SatRandomAccessConf_create_backoffProbability_witness :
    (∃ conf, SatRandomAccessConf.create exampleRaLlsConf = .ok conf ∧
      ∃ c, conf.m_allocationChannelConf[1]? = some c ∧
        c.m_crdsaBackoffProbability = ((65535 : Nat) - 1 : ℚ) / 65534 ∧
        c.m_crdsaBackoffProbability = 1 ∧
        0 ≤ c.m_crdsaBackoffProbability ∧ c.m_crdsaBackoffProbability ≤ 1) := by
  have h := SatRandomAccessConf_create_backoffProbability exampleRaLlsConf 1
    { exampleRaEntry with m_backOffProbability := 65535 } rfl
  have hok : SatRandomAccessConf.create exampleRaLlsConf =
      .ok { m_slottedAlohaControlRandomizationIntervalInMilliSeconds := 100
            m_allocationChannelConf := exampleRaLlsConf.m_raServiceEntries.map
              createAllocationChannel } := by decide!
  refine ⟨_, hok, ?_⟩
  obtain ⟨c, hc, hcp⟩ := h.2.1 _ hok
  have hc2 : c = createAllocationChannel { exampleRaEntry with m_backOffProbability := 65535 } := by
    have : (exampleRaLlsConf.m_raServiceEntries.map createAllocationChannel)[1]? =
        some (createAllocationChannel { exampleRaEntry with m_backOffProbability := 65535 }) := rfl
    rw [this] at hc
    exact (Option.some.inj hc).symm
  refine ⟨c, hc, hcp, ?_, ?_⟩
  · rw [hc2]; exact h.2.2.2.1 rfl
  · rw [hc2]; exact h.2.2.2.2 (by decide) (by decide)

theorem updateChannel_eq (s : SatRandomAccess) (ch : Nat) (c : SatRandomAccessAllocationChannel)
    (f : SatRandomAccessAllocationChannel → SatRandomAccessAllocationChannel)
    (hc : GetAllocationChannelConfiguration s.m_randomAccessConf ch = .ok c) :
    updateChannel s ch f = .ok (withChannel s ch (f c)) := by
  simp [updateChannel, hc, bind, Except.bind, pure, Except.pure, withChannel, withChannels]

theorem withChannel_get (s : SatRandomAccess) (ch : Nat) (c c2 : SatRandomAccessAllocationChannel)
    (hc : GetAllocationChannelConfiguration s.m_randomAccessConf ch = .ok c) :
    GetAllocationChannelConfiguration (withChannel s ch c2).m_randomAccessConf ch = .ok c2 := by
  rw [GetAllocationChannelConfiguration_ok_iff] at hc ⊢
  have hlt : ch < s.m_randomAccessConf.m_allocationChannelConf.length := by
    by_contra hn
    rw [List.getElem?_eq_none (by omega)] at hc
    cases hc
  simp [withChannel, withChannels, List.getElem?_set, hlt]

theorem withChannel_withChannel (s : SatRandomAccess) (ch : Nat)
    (c1 c2 : SatRandomAccessAllocationChannel) :
    withChannel (withChannel s ch c1) ch c2 = withChannel s ch c2 := by
  simp [withChannel, withChannels, List.set_set]

theorem SetSlottedAlohaControlRandomizationInterval_check (conf : SatRandomAccessConf)
    (controlRandomizationInterval : ℚ) :
    DoSlottedAlohaVariableSanityCheck
        (conf.SetSlottedAlohaControlRandomizationInterval controlRandomizationInterval) = .ok () ↔
      1 ≤ controlRandomizationInterval := by
  have hden : (0 : Int) < (controlRandomizationInterval.den : Int) := by
    exact_mod_cast controlRandomizationInterval.den_pos
  have hone : controlRandomizationInterval < 1 ↔
      controlRandomizationInterval.num < (controlRandomizationInterval.den : Int) :=
    Rat.lt_one_iff_num_lt_denom
  have hstored : (Int.tdiv controlRandomizationInterval.num
      (controlRandomizationInterval.den : Int)).toNat < 1 ↔
      controlRandomizationInterval.num < (controlRandomizationInterval.den : Int) := by
    rcases lt_or_le controlRandomizationInterval.num 0 with hneg | hpos
    · have h1 : Int.tdiv controlRandomizationInterval.num
          (controlRandomizationInterval.den : Int) ≤ 0 := by
        have h2 : 0 ≤ Int.tdiv (-controlRandomizationInterval.num)
            (controlRandomizationInterval.den : Int) :=
          Int.tdiv_nonneg (by omega) hden.le
        rw [Int.neg_tdiv] at h2
        omega
      constructor
      · intro _; omega
      · intro _; omega
    · rw [Int.tdiv_eq_ediv hpos hden.le]
      constructor
      · intro h
        have h0 : controlRandomizationInterval.num / (controlRandomizationInterval.den : Int) ≤ 0 := by
          omega
        by_contra hge
        have : 1 ≤ controlRandomizationInterval.num / (controlRandomizationInterval.den : Int) := by
          rw [Int.le_ediv_iff_mul_le hden]; omega
        omega
      · intro h
        rw [Int.ediv_eq_zero_of_lt hpos h]
        decide
  unfold DoSlottedAlohaVariableSanityCheck SatRandomAccessConf.SetSlottedAlohaControlRandomizationInterval
  simp only []
  split_ifs with hlt
  · simp only [reduceCtorEq, false_iff, not_le]
    exact hone.mpr (hstored.mp hlt)
  · simp only [true_iff]
    by_contra hx
    exact hlt (hstored.mpr (hone.mp (not_le.mp hx)))

/-- C22: each of the four CRDSA parameter setters ends with a fatal error when the access mode
is neither CRDSA-only nor both-available, and `SlottedAlohaSetControlRandomizationInterval`
does when the mode is neither Slotted-ALOHA-only nor both-available.  In an allowed mode a
setter stores the given values and then runs the sanity check on the configuration that
holds them: it returns the state with the stored values exactly when the check passes, and
ends with the fatal error of the check otherwise; for the Slotted ALOHA interval the check
passes exactly when the given interval is at least `1`. -/
theorem setters_check_mode_then_sanity (s : SatRandomAccess) (ch : Nat) (c : SatRandomAccessAllocationChannel)
    (hc : GetAllocationChannelConfiguration s.m_randomAccessConf ch = .ok c)
    (backoffProbability maximumBackoffProbability controlRandomizationInterval : ℚ)
    (backoffTime minRandomizationValue maxRandomizationValue numOfInstances
      maxUniquePayloadPerBlock maxConsecutiveBlocksAccessed minIdleBlocks : Nat) :
    (¬ (s.m_randomAccessModel = .RA_CRDSA ∨ s.m_randomAccessModel = .RA_ANY_AVAILABLE) →
      CrdsaSetLoadControlParameters s ch backoffProbability backoffTime = .error (.fatal
        "SatRandomAccess::CrdsaSetLoadControlParameters - Wrong random access model in use") ∧
      CrdsaSetMaximumBackoffProbability s ch maximumBackoffProbability = .error (.fatal
        "SatRandomAccess::CrdsaSetMaximumBackoffProbability - Wrong random access model in use") ∧
      CrdsaSetRandomizationParameters s ch minRandomizationValue maxRandomizationValue
          numOfInstances = .error (.fatal
        "SatRandomAccess::CrdsaSetRandomizationParameters - Wrong random access model in use") ∧
      CrdsaSetMaximumDataRateLimitationParameters s ch maxUniquePayloadPerBlock
          maxConsecutiveBlocksAccessed minIdleBlocks = .error (.fatal
        "SatRandomAccess::CrdsaSetMaximumDataRateLimitationParameters - Wrong random access model in use")) ∧
    (¬ (s.m_randomAccessModel = .RA_SLOTTED_ALOHA ∨ s.m_randomAccessModel = .RA_ANY_AVAILABLE) →
      SlottedAlohaSetControlRandomizationInterval s controlRandomizationInterval = .error (.fatal
        "SatRandomAccess::SlottedAlohaSetRandomizationParameters - Wrong random access model in use")) ∧
    ((s.m_randomAccessModel = .RA_CRDSA ∨ s.m_randomAccessModel = .RA_ANY_AVAILABLE) →
      CrdsaSetLoadControlParameters s ch backoffProbability backoffTime =
        (DoCrdsaVariableSanityCheck
            { c with m_crdsaBackoffProbability := backoffProbability
                     m_crdsaBackoffTime := backoffTime }).map
          (fun _ => withChannel s ch
            { c with m_crdsaBackoffProbability := backoffProbability
                     m_crdsaBackoffTime := backoffTime }) ∧
      CrdsaSetMaximumBackoffProbability s ch maximumBackoffProbability =
        (DoCrdsaVariableSanityCheck
            { c with m_crdsaMaximumBackoffProbability := maximumBackoffProbability }).map
          (fun _ => withChannel s ch
            { c with m_crdsaMaximumBackoffProbability := maximumBackoffProbability }) ∧
      CrdsaSetRandomizationParameters s ch minRandomizationValue maxRandomizationValue
          numOfInstances =
        (DoCrdsaVariableSanityCheck
            { c with m_crdsaMinRandomizationValue := minRandomizationValue
                     m_crdsaMaxRandomizationValue := maxRandomizationValue
                     m_crdsaNumOfInstances := numOfInstances }).map
          (fun _ => withChannel s ch
            { c with m_crdsaMinRandomizationValue := minRandomizationValue
                     m_crdsaMaxRandomizationValue := maxRandomizationValue
                     m_crdsaNumOfInstances := numOfInstances }) ∧
      CrdsaSetMaximumDataRateLimitationParameters s ch maxUniquePayloadPerBlock
          maxConsecutiveBlocksAccessed minIdleBlocks =
        (DoCrdsaVariableSanityCheck
            { c with m_crdsaMaxUniquePayloadPerBlock := maxUniquePayloadPerBlock
                     m_crdsaMaxConsecutiveBlocksAccessed := maxConsecutiveBlocksAccessed
                     m_crdsaMinIdleBlocks := minIdleBlocks }).map
          (fun _ => withChannel s ch
            { c with m_crdsaMaxUniquePayloadPerBlock := maxUniquePayloadPerBlock
                     m_crdsaMaxConsecutiveBlocksAccessed := maxConsecutiveBlocksAccessed
                     m_crdsaMinIdleBlocks := minIdleBlocks })) ∧
    ((s.m_randomAccessModel = .RA_SLOTTED_ALOHA ∨ s.m_randomAccessModel = .RA_ANY_AVAILABLE) →
      SlottedAlohaSetControlRandomizationInterval s controlRandomizationInterval =
        (DoSlottedAlohaVariableSanityCheck
            (s.m_randomAccessConf.SetSlottedAlohaControlRandomizationInterval
              controlRandomizationInterval)).map
          (fun _ => { s with m_randomAccessConf :=
            (s.m_randomAccessConf.SetSlottedAlohaControlRandomizationInterval
              controlRandomizationInterval) }) ∧
      ((∃ s2, SlottedAlohaSetControlRandomizationInterval s controlRandomizationInterval =
          .ok s2) ↔ 1 ≤ controlRandomizationInterval)) := by
  refine ⟨fun hm => ⟨?_, ?_, ?_, ?_⟩, fun hm => ?_, fun hm => ⟨?_, ?_, ?_, ?_⟩, fun hm => ?_⟩
  · simp only [CrdsaSetLoadControlParameters, if_neg hm]
  · simp only [CrdsaSetMaximumBackoffProbability, if_neg hm]
  · simp only [CrdsaSetRandomizationParameters, if_neg hm]
  · simp only [CrdsaSetMaximumDataRateLimitationParameters, if_neg hm]
  · simp only [SlottedAlohaSetControlRandomizationInterval, if_neg hm]
  · simp only [CrdsaSetLoadControlParameters, if_pos hm, bind, Except.bind]
    rw [updateChannel_eq s ch c _ hc]
    simp only []
    rw [updateChannel_eq _ ch _ _ (withChannel_get s ch c _ hc), withChannel_withChannel]
    simp only []
    rw [withChannel_get s ch c _ hc]
    simp only []
    cases DoCrdsaVariableSanityCheck _ <;> rfl
  · simp only [CrdsaSetMaximumBackoffProbability, if_pos hm, bind, Except.bind]
    rw [updateChannel_eq s ch c _ hc]
    simp only []
    rw [withChannel_get s ch c _ hc]
    simp only []
    cases DoCrdsaVariableSanityCheck _ <;> rfl
  · simp only [CrdsaSetRandomizationParameters, if_pos hm, bind, Except.bind]
    rw [updateChannel_eq s ch c _ hc]
    simp only []
    rw [updateChannel_eq _ ch _ _ (withChannel_get s ch c _ hc), withChannel_withChannel]
    simp only []
    rw [updateChannel_eq _ ch _ _ (withChannel_get s ch c _ hc), withChannel_withChannel]
    simp only []
    rw [withChannel_get s ch c _ hc]
    simp only []
    cases DoCrdsaVariableSanityCheck _ <;> rfl
  · simp only [CrdsaSetMaximumDataRateLimitationParameters, if_pos hm, bind, Except.bind]
    rw [updateChannel_eq s ch c _ hc]
    simp only []
    rw [updateChannel_eq _ ch _ _ (withChannel_get s ch c _ hc), withChannel_withChannel]
    simp only []
    rw [updateChannel_eq _ ch _ _ (withChannel_get s ch c _ hc), withChannel_withChannel]
    simp only []
    rw [withChannel_get s ch c _ hc]
    simp only []
    cases DoCrdsaVariableSanityCheck _ <;> rfl
  · have heq : SlottedAlohaSetControlRandomizationInterval s controlRandomizationInterval =
        (DoSlottedAlohaVariableSanityCheck
            (s.m_randomAccessConf.SetSlottedAlohaControlRandomizationInterval
              controlRandomizationInterval)).map
          (fun _ => { s with m_randomAccessConf :=
            (s.m_randomAccessConf.SetSlottedAlohaControlRandomizationInterval
              controlRandomizationInterval) }) := by
      simp only [SlottedAlohaSetControlRandomizationInterval, if_pos hm, bind, Except.bind]
      cases DoSlottedAlohaVariableSanityCheck _ <;> rfl
    refine ⟨heq, ?_⟩
    rw [heq, ← SetSlottedAlohaControlRandomizationInterval_check s.m_randomAccessConf
      controlRandomizationInterval]
    cases DoSlottedAlohaVariableSanityCheck
        (s.m_randomAccessConf.SetSlottedAlohaControlRandomizationInterval
          controlRandomizationInterval) with
    | error e => simp [Except.map]
    | ok u => simp [Except.map]


/-- Witness for C22: in CRDSA-only mode, on channel `0` of the example configuration, the load
control setter stores the probability `1 / 2` and the time 100 and succeeds, the setter of
the maximum backoff probability is fatal for the value `3 / 2`, which the sanity check
rejects, and the Slotted ALOHA setter is fatal because of the mode. -/
theorem setters_check_mode_then_sanity_witness :
    CrdsaSetLoadControlParameters (SatRandomAccess.create exampleConf .RA_CRDSA []) 0 (1 / 2) 100 =
      .ok (withChannel (SatRandomAccess.create exampleConf .RA_CRDSA []) 0
        { exampleChannel with m_crdsaBackoffProbability := 1 / 2, m_crdsaBackoffTime := 100 }) ∧
    CrdsaSetMaximumBackoffProbability (SatRandomAccess.create exampleConf .RA_CRDSA []) 0 (3 / 2) =
      .error (.fatal "SatRandomAccessAllocationChannel::CrdsaDoVariableSanityCheck - m_crdsaMaximumBackoffProbability < 0.0 || m_crdsaMaximumBackoffProbability > 1.0") ∧
    SlottedAlohaSetControlRandomizationInterval
        (SatRandomAccess.create exampleConf .RA_CRDSA []) 20 =
      .error (.fatal "SatRandomAccess::SlottedAlohaSetRandomizationParameters - Wrong random access model in use") := by
  have h := setters_check_mode_then_sanity (SatRandomAccess.create exampleConf .RA_CRDSA []) 0
    exampleChannel rfl (1 / 2) (3 / 2) 20 100 0 79 3 2 2 2
  have hm : (SatRandomAccess.create exampleConf .RA_CRDSA []).m_randomAccessModel = .RA_CRDSA ∨
      (SatRandomAccess.create exampleConf .RA_CRDSA []).m_randomAccessModel = .RA_ANY_AVAILABLE :=
    Or.inl rfl
  refine ⟨(h.2.2.1 hm).1.trans ?_, (h.2.2.1 hm).2.1.trans ?_, h.2.1 (by decide)⟩
  · decide!
  · decide!

theorem CrdsaReduceIdleBlocks_withChannel (s : SatRandomAccess) (ch : Nat)
    (c : SatRandomAccessAllocationChannel)
    (hc : GetAllocationChannelConfiguration s.m_randomAccessConf ch = .ok c) :
    CrdsaReduceIdleBlocks s ch = .ok (withChannel s ch (lowerIdle c)) :=
  CrdsaReduceIdleBlocks_eq s ch c hc

theorem CrdsaSetBackoffTimer_eq (t : Instant) (s : SatRandomAccess) (ch : Nat)
    (c : SatRandomAccessAllocationChannel)
    (hc : GetAllocationChannelConfiguration s.m_randomAccessConf ch = .ok c) :
    CrdsaSetBackoffTimer t s ch = .ok (withChannel s ch (armBackoff t c)) := by
  simp only [CrdsaSetBackoffTimer, bind, Except.bind]
  rw [updateChannel_eq s ch c _ hc]
  simp only []
  rw [CrdsaReduceIdleBlocks_withChannel _ ch _ (withChannel_get s ch c _ hc),
    withChannel_withChannel]
  rfl

theorem CrdsaHasBackoffTimePassed_eq (t : Instant) (s : SatRandomAccess) (ch : Nat)
    (c : SatRandomAccessAllocationChannel)
    (hc : GetAllocationChannelConfiguration s.m_randomAccessConf ch = .ok c) :
    CrdsaHasBackoffTimePassed t s ch = .ok (decide (c.m_crdsaBackoffReleaseTime ≤ t.now)) := by
  simp only [CrdsaHasBackoffTimePassed, IsCrdsaAllocationChannelFree_eq t s ch c hc, bind,
    Except.bind, pure, Except.pure]
  by_cases h : c.m_crdsaBackoffReleaseTime ≤ t.now <;> simp [h]

theorem CrdsaDoBackoff_eq (s : SatRandomAccess) (ch : Nat)
    (c : SatRandomAccessAllocationChannel) (d : Draw) (ds : List Draw)
    (hc : GetAllocationChannelConfiguration s.m_randomAccessConf ch = .ok c)
    (hd : s.m_uniformRandomVariable = d :: ds) :
    CrdsaDoBackoff s ch =
      .ok (decide (GetValue01 d < c.m_crdsaBackoffProbability),
        { s with m_uniformRandomVariable := ds }) := by
  simp [CrdsaDoBackoff, hc, nextDraw, hd, bind, Except.bind, pure, Except.pure]

theorem withChannel_channels_ne (s : SatRandomAccess) (ch j : Nat)
    (c : SatRandomAccessAllocationChannel) (hj : j ≠ ch) :
    (withChannel s ch c).m_randomAccessConf.m_allocationChannelConf[j]? =
      s.m_randomAccessConf.m_allocationChannelConf[j]? := by
  simp only [withChannel, withChannels]
  rw [List.getElem?_set_ne (Ne.symm hj)]

theorem DoCrdsa_blocked_eq (t : Instant) (s : SatRandomAccess) (ch : Nat)
    (c : SatRandomAccessAllocationChannel)
    (hc : GetAllocationChannelConfiguration s.m_randomAccessConf ch = .ok c)
    (h : t.now < c.m_crdsaBackoffReleaseTime ∨ t.isDamaAvailable = true) :
    DoCrdsa t s ch = .ok (RandomAccessResults_s.doNothing, withChannel s ch (lowerIdle c)) := by
  simp only [DoCrdsa, CrdsaHasBackoffTimePassed_eq t s ch c hc, bind, Except.bind,
    CrdsaReduceIdleBlocks_withChannel s ch c hc, pure, Except.pure]
  rcases h with h | h
  · have : ¬ c.m_crdsaBackoffReleaseTime ≤ t.now := not_le.mpr h
    simp [this]
  · by_cases hp : c.m_crdsaBackoffReleaseTime ≤ t.now <;> simp [hp, h]

/-- C27: if the current time is before the backoff release time of the channel, or scheduled
(DAMA) capacity is known to be available, `DoCrdsa` returns the no-opportunity result and the
state in which the channel has its idle-blocks-left counter lowered by one (a counter at zero
stays at zero); the consecutive-blocks-used counter and the backoff release time of the
channel, the new-data flag and every other channel are as before. -/
theorem DoCrdsa_blocked_lowers_idle (t : Instant) (s : SatRandomAccess) (ch : Nat)
    (c : SatRandomAccessAllocationChannel)
    (hc : GetAllocationChannelConfiguration s.m_randomAccessConf ch = .ok c)
    (h : t.now < c.m_crdsaBackoffReleaseTime ∨ t.isDamaAvailable = true) :
    DoCrdsa t s ch = .ok (RandomAccessResults_s.doNothing, withChannel s ch (lowerIdle c)) ∧
    RandomAccessResults_s.doNothing.resultType = .RA_DO_NOTHING ∧
    GetAllocationChannelConfiguration (withChannel s ch (lowerIdle c)).m_randomAccessConf ch =
      .ok (lowerIdle c) ∧
    (lowerIdle c).m_crdsaIdleBlocksLeft = c.m_crdsaIdleBlocksLeft - 1 ∧
    (lowerIdle c).m_crdsaNumOfConsecutiveBlocksUsed = c.m_crdsaNumOfConsecutiveBlocksUsed ∧
    (lowerIdle c).m_crdsaBackoffReleaseTime = c.m_crdsaBackoffReleaseTime ∧
    (withChannel s ch (lowerIdle c)).m_crdsaNewData = s.m_crdsaNewData ∧
    ∀ j, j ≠ ch →
      (withChannel s ch (lowerIdle c)).m_randomAccessConf.m_allocationChannelConf[j]? =
        s.m_randomAccessConf.m_allocationChannelConf[j]? := by
  have hrun := DoCrdsa_blocked_eq t s ch c hc h
  have hget := withChannel_get s ch c (lowerIdle c) hc
  refine ⟨hrun, rfl, hget, rfl, rfl, rfl, rfl, ?_⟩
  intro j hj
  exact withChannel_channels_ne s ch j _ hj

/-- Witness for C27: with scheduled capacity available, `DoCrdsa` on channel `1` of the example
configuration, whose idle-blocks-left counter is `3`, returns no opportunity and lowers that
counter to `2`. -/
theorem DoCrdsa_blocked_lowers_idle_witness :
    DoCrdsa { now := 1, isFrameStart := true, isDamaAvailable := true }
        (SatRandomAccess.create exampleConf .RA_CRDSA []) 1 =
      .ok (RandomAccessResults_s.doNothing,
        withChannels (SatRandomAccess.create exampleConf .RA_CRDSA [])
          [exampleChannel, { exampleChannel with m_crdsaIdleBlocksLeft := 2 }]) :=
  (DoCrdsa_blocked_lowers_idle { now := 1, isFrameStart := true, isDamaAvailable := true }
    (SatRandomAccess.create exampleConf .RA_CRDSA []) 1
    { exampleChannel with m_crdsaIdleBlocksLeft := 3 } rfl (Or.inr rfl)).1

/-- C30: `CompareCno (first, second)` is false whenever the estimate of one of the two terminals
is unknown; when both are known it is true exactly when the estimate of `first` is strictly
less than that of `second`.  So a terminal of unknown quality is never ranked as less than a
terminal and no terminal is ranked as less than it, and the comparator is irreflexive and
asymmetric. -/
theorem CompareCno_unknown_never_less :
    (∀ first second : UtInfoItem_t,
      first.2.GetCnoEstimation = none ∨ second.2.GetCnoEstimation = none →
        CompareCno first second = false) ∧
    (∀ (first second : UtInfoItem_t) (a b : ℚ),
      first.2.GetCnoEstimation = some a → second.2.GetCnoEstimation = some b →
        (CompareCno first second = true ↔ a < b)) ∧
    (∀ first : UtInfoItem_t, CompareCno first first = false) ∧
    (∀ first second : UtInfoItem_t,
      CompareCno first second = true → CompareCno second first = false) := by
  refine ⟨?_, ?_, ?_, ?_⟩
  · intro first second h
    unfold CompareCno
    rcases h with h | h
    · simp [h]
    · cases hf : first.2.GetCnoEstimation <;> simp [h]
  · intro first second a b ha hb
    unfold CompareCno
    simp [ha, hb]
  · intro first
    unfold CompareCno
    cases hf : first.2.GetCnoEstimation <;> simp
  · intro first second h
    unfold CompareCno at h ⊢
    cases hf : first.2.GetCnoEstimation <;> cases hs : second.2.GetCnoEstimation <;>
      simp [hf, hs] at h ⊢
    exact le_of_lt h

/-- Witness for C30: a terminal with the estimate `3` is ranked below one with the estimate
`4` and not the other way round, and a terminal without samples is ranked below nobody and
nobody below it. -/
theorem CompareCno_unknown_never_less_witness :
    (CompareCno (exampleUt 1 [3]) (exampleUt 2 [4]) = true ↔ (3 : ℚ) < 4) ∧
    CompareCno (exampleUt 3 []) (exampleUt 1 [3]) = false ∧
    CompareCno (exampleUt 1 [3]) (exampleUt 3 []) = false ∧
    CompareCno (exampleUt 2 [4]) (exampleUt 1 [3]) = false :=
  ⟨CompareCno_unknown_never_less.2.1 (exampleUt 1 [3]) (exampleUt 2 [4]) 3 4 rfl rfl,
   CompareCno_unknown_never_less.1 (exampleUt 3 []) (exampleUt 1 [3]) (Or.inl rfl),
   CompareCno_unknown_never_less.1 (exampleUt 1 [3]) (exampleUt 3 []) (Or.inr rfl),
   CompareCno_unknown_never_less.2.2.2 (exampleUt 1 [3]) (exampleUt 2 [4])
     ((CompareCno_unknown_never_less.2.1 (exampleUt 1 [3]) (exampleUt 2 [4]) 3 4 rfl rfl).mpr (by norm_num))⟩

/-- C23: for a superframe sequence whose first superframe has a duration other than zero (the
source divides by it), `Initialize` ends with a fatal error exactly when the start time of
the next superframe is not strictly later than the current time, and then it schedules
nothing; otherwise it succeeds and schedules the first run of the cycle after the delay
"start time minus current time", which is strictly positive. -/
theorem Initialize_fatal_iff_not_future (clock : SatRtnLinkTime) (s : SatBeamScheduler) (beamId : Nat)
    (seq : SatSuperframeSeq) (maxFrameSizeInBytes : Nat) (draws : List Draw)
    (_hdur : seq.GetDuration 0 ≠ 0) :
    ((∃ msg, (Initialize clock s beamId seq maxFrameSizeInBytes draws).1 = .error (.fatal msg)) ↔
      ¬ (clock.Now < clock.GetNextSuperFrameStartTime s.m_currentSequence)) ∧
    (¬ (clock.Now < clock.GetNextSuperFrameStartTime s.m_currentSequence) →
      (Initialize clock s beamId seq maxFrameSizeInBytes draws).1 =
        .error (.fatal "Trying to schedule a superframe in the past!") ∧
      (Initialize clock s beamId seq maxFrameSizeInBytes draws).2.2 = []) ∧
    (clock.Now < clock.GetNextSuperFrameStartTime s.m_currentSequence →
      (Initialize clock s beamId seq maxFrameSizeInBytes draws).1 = .ok () ∧
      (Initialize clock s beamId seq maxFrameSizeInBytes draws).2.2 =
        [.SimulatorSchedule (clock.Now +
          (clock.GetNextSuperFrameStartTime s.m_currentSequence - clock.Now))] ∧
      0 < clock.GetNextSuperFrameStartTime s.m_currentSequence - clock.Now) := by
  by_cases h : clock.Now < clock.GetNextSuperFrameStartTime s.m_currentSequence
  · have hgt : clock.GetNextSuperFrameStartTime s.m_currentSequence > clock.Now := h
    refine ⟨?_, fun hn => absurd h hn, fun _ => ⟨?_, ?_, by omega⟩⟩
    · simp [Initialize, hgt]
    · simp [Initialize, hgt]
    · simp [Initialize, hgt]
  · have hgt : ¬ clock.GetNextSuperFrameStartTime s.m_currentSequence > clock.Now := h
    refine ⟨?_, fun _ => ⟨?_, ?_⟩, fun hp => absurd hp h⟩
    · simp [Initialize, hgt]
    · simp [Initialize, hgt]
    · simp [Initialize, hgt]

/-- Witness for C23: at time `0` with the next superframe starting at `30`, `Initialize`
schedules the first run after the delay `30`; at time `30` it is fatal. -/
theorem Initialize_fatal_iff_not_future_witness :
    (Initialize exampleClock exampleScheduler 7 exampleSeq 50 []).1 = .ok () ∧
    (Initialize exampleClock exampleScheduler 7 exampleSeq 50 []).2.2 =
      [.SimulatorSchedule (0 + (30 - 0))] ∧
    (0 : Int) < 30 - 0 ∧
    (Initialize { exampleClock with Now := 30 } exampleScheduler 7 exampleSeq 50 []).1 =
      .error (.fatal "Trying to schedule a superframe in the past!") :=
  ⟨((Initialize_fatal_iff_not_future exampleClock exampleScheduler 7 exampleSeq 50 [] (by decide)).2.2
      (by decide)).1,
   ((Initialize_fatal_iff_not_future exampleClock exampleScheduler 7 exampleSeq 50 [] (by decide)).2.2
      (by decide)).2.1,
   ((Initialize_fatal_iff_not_future exampleClock exampleScheduler 7 exampleSeq 50 [] (by decide)).2.2
      (by decide)).2.2,
   ((Initialize_fatal_iff_not_future { exampleClock with Now := 30 } exampleScheduler 7 exampleSeq 50 []
      (by decide)).2.1 (by decide)).1⟩

theorem CrdsaIsAllocationChannelFree_eq (s : SatRandomAccess) (ch : Nat)
    (c : SatRandomAccessAllocationChannel)
    (hc : GetAllocationChannelConfiguration s.m_randomAccessConf ch = .ok c) :
    CrdsaIsAllocationChannelFree s ch = .ok (decide (c.m_crdsaIdleBlocksLeft = 0)) := by
  simp only [CrdsaIsAllocationChannelFree, hc, bind, Except.bind, pure, Except.pure]
  by_cases h : c.m_crdsaIdleBlocksLeft > 0
  · have : c.m_crdsaIdleBlocksLeft ≠ 0 := by omega
    simp [h, this]
  · have : c.m_crdsaIdleBlocksLeft = 0 := by omega
    simp [this]

theorem AreBuffersEmpty_ok (s s2 : SatRandomAccess) (b : Bool)
    (h : AreBuffersEmpty s = .ok (b, s2)) :
    ∃ d ds, s.m_uniformRandomVariable = d :: ds ∧ s2 = { s with m_uniformRandomVariable := ds } := by
  cases hd : s.m_uniformRandomVariable with
  | nil => simp [AreBuffersEmpty, nextDraw, hd, bind, Except.bind] at h
  | cons d ds =>
    simp only [AreBuffersEmpty, nextDraw, hd, bind, Except.bind, pure, Except.pure,
      Except.ok.injEq, Prod.mk.injEq] at h
    exact ⟨d, ds, rfl, h.2.symm⟩

theorem CrdsaRandomizeTxOpportunities_card (s s3 : SatRandomAccess) (ch : Nat)
    (c : SatRandomAccessAllocationChannel) (tx out : Finset Nat)
    (hc : GetAllocationChannelConfiguration s.m_randomAccessConf ch = .ok c)
    (hr : CrdsaRandomizeTxOpportunities s ch tx = .ok (out, s3)) :
    (∃ ds, s3 = { s with m_uniformRandomVariable := ds }) ∧
    out.card = tx.card + toUint32 c.m_crdsaNumOfInstances := by
  obtain ⟨c2, hc2, rest, hl, hs3⟩ := CrdsaRandomizeTxOpportunities_ok s s3 ch tx out hr
  rw [hc] at hc2
  cases hc2
  have := (randomizeLoop_ok _ _ _ _ _ _ _ _ hl (Nat.zero_le _)).2.1
  exact ⟨⟨rest, hs3⟩, by omega⟩

theorem PreparedResult_insert (ch instances k : Nat) (results : RandomAccessResults_s)
    (out : Finset Nat) (hf : crdsaResultFind results.crdsaResult ch = none)
    (hcard : out.card = (∅ : Finset Nat).card + instances)
    (hk : PreparedResult ch instances k results) :
    PreparedResult ch instances (k + 1)
      { results with crdsaResult := crdsaResultInsert ch out results.crdsaResult
                     resultType := .RA_CRDSA_TX_OPPORTUNITY } := by
  obtain ⟨hsa, hk⟩ := hk
  refine ⟨hsa, Or.inr ⟨Nat.succ_pos k, rfl, ?_⟩⟩
  rcases hk with ⟨rfl, -, hnil⟩ | ⟨-, -, tx, htx, -⟩
  · refine ⟨out, ?_, ?_⟩
    · simp [hnil, crdsaResultInsert]
    · simpa using hcard
  · rw [htx] at hf
    simp [crdsaResultFind, List.lookup] at hf

theorem PreparedResult_assign (ch instances k : Nat) (results : RandomAccessResults_s)
    (old out : Finset Nat) (hf : crdsaResultFind results.crdsaResult ch = some old)
    (hcard : out.card = old.card + instances)
    (hk : PreparedResult ch instances k results) :
    PreparedResult ch instances (k + 1)
      { results with crdsaResult := crdsaResultAssign ch out results.crdsaResult
                     resultType := .RA_CRDSA_TX_OPPORTUNITY } := by
  obtain ⟨hsa, hk⟩ := hk
  refine ⟨hsa, Or.inr ⟨Nat.succ_pos k, rfl, ?_⟩⟩
  rcases hk with ⟨-, -, hnil⟩ | ⟨-, -, tx, htx, hcardtx⟩
  · rw [hnil] at hf
    simp [crdsaResultFind, List.lookup] at hf
  · rw [htx] at hf
    simp [crdsaResultFind, List.lookup] at hf
    subst hf
    refine ⟨out, ?_, ?_⟩
    · simp [htx, crdsaResultAssign]
    · rw [hcard, hcardtx]; ring

theorem prepareLoop_trace (t : Instant) (ch : Nat) (c : SatRandomAccessAllocationChannel) :
    ∀ (n : Nat) (s : SatRandomAccess) (results r : RandomAccessResults_s) (s2 : SatRandomAccess),
      GetAllocationChannelConfiguration s.m_randomAccessConf ch = .ok c →
      prepareLoop t ch n s results = .ok (r, s2) →
      ∃ tr, prepareLoopTrace t ch n s results = .ok tr ∧
        tr.attempts ≤ n ∧ tr.randomizations ≤ tr.attempts ∧
        s2.m_randomAccessConf =
          (if tr.backoff then (withChannel s ch (armBackoff t c)).m_randomAccessConf
           else s.m_randomAccessConf) ∧
        s2.m_randomAccessModel = s.m_randomAccessModel ∧
        s2.m_numOfAllocationChannels = s.m_numOfAllocationChannels ∧
        (0 < c.m_crdsaIdleBlocksLeft → r = results ∧ tr.randomizations = 0) ∧
        (∀ k, PreparedResult ch (toUint32 c.m_crdsaNumOfInstances) k results →
          PreparedResult ch (toUint32 c.m_crdsaNumOfInstances) (k + tr.randomizations) r) := by
  intro n
  induction n with
  | zero =>
    intro s results r s2 hc h
    simp only [prepareLoop, pure, Except.pure, Except.ok.injEq, Prod.mk.injEq] at h
    obtain ⟨rfl, rfl⟩ := h
    exact ⟨{ attempts := 0, randomizations := 0, backoff := false }, rfl, Nat.le_refl _,
      Nat.le_refl _, rfl, rfl, rfl, fun _ => ⟨rfl, rfl⟩, fun k hk => hk⟩
  | succ n ih =>
    intro s results r s2 hc h
    cases hd : s.m_uniformRandomVariable with
    | nil =>
      simp [prepareLoop, CrdsaDoBackoff, hc, nextDraw, hd, bind, Except.bind] at h
    | cons d ds =>
      have hB := CrdsaDoBackoff_eq s ch c d ds hc hd
      have hc1 : GetAllocationChannelConfiguration
          ({ s with m_uniformRandomVariable := ds } : SatRandomAccess).m_randomAccessConf ch =
          .ok c := hc
      by_cases hb : GetValue01 d < c.m_crdsaBackoffProbability
      · have hS := CrdsaSetBackoffTimer_eq t _ ch c hc1
        simp only [prepareLoop, hB, hb, hS, bind, Except.bind, pure, Except.pure, decide_True,
          if_true, Except.ok.injEq, Prod.mk.injEq] at h
        obtain ⟨rfl, rfl⟩ := h
        refine ⟨{ attempts := 1, randomizations := 0, backoff := true }, ?_,
          Nat.succ_le_succ (Nat.zero_le n), Nat.zero_le _, rfl, rfl, rfl, fun _ => ⟨rfl, rfl⟩, fun k hk => hk⟩
        simp only [prepareLoopTrace, hB, hb, hS, bind, Except.bind, pure, Except.pure,
          decide_True, if_true]
      · unfold prepareLoop at h
        obtain ⟨⟨b, s1⟩, h1, h⟩ := Run_bind_ok _ _ _ h
        rw [hB] at h1
        simp only [Except.ok.injEq, Prod.mk.injEq] at h1
        obtain ⟨rfl, rfl⟩ := h1
        simp only [hb, decide_False, Bool.false_eq_true, if_false] at h
        cases ds with
        | nil => simp [nextDraw, bind, Except.bind] at h
        | cons d2 ds2 =>
          have hN : nextDraw ({ s with m_uniformRandomVariable := d2 :: ds2 } : SatRandomAccess) =
              .ok (d2, { s with m_uniformRandomVariable := ds2 }) := rfl
          have hc2 : GetAllocationChannelConfiguration
              ({ s with m_uniformRandomVariable := ds2 } : SatRandomAccess).m_randomAccessConf ch =
              .ok c := hc
          have hF := CrdsaIsAllocationChannelFree_eq _ ch c hc2
          rw [hN] at h
          simp only [bind, Except.bind] at h
          by_cases h2 : GetValue01 d2 < 0.2
          · simp only [h2, if_true, pure, Except.pure, Except.ok.injEq, Prod.mk.injEq] at h
            obtain ⟨rfl, rfl⟩ := h
            refine ⟨{ attempts := 1, randomizations := 0, backoff := false }, ?_,
              Nat.succ_le_succ (Nat.zero_le n), Nat.zero_le _, rfl, rfl, rfl,
              fun _ => ⟨rfl, rfl⟩, fun k hk => hk⟩
            simp [prepareLoopTrace, hB, hb, hN, h2, bind, Except.bind, pure, Except.pure]
          · simp only [h2, if_false, hF] at h
            by_cases hidle : c.m_crdsaIdleBlocksLeft = 0
            · simp only [hidle, decide_True, if_true] at h
              have hidle0 : ¬ 0 < c.m_crdsaIdleBlocksLeft := by omega
              cases hf : crdsaResultFind results.crdsaResult ch with
              | none =>
                rw [hf] at h
                simp only [] at h
                cases hR : CrdsaRandomizeTxOpportunities
                    ({ s with m_uniformRandomVariable := ds2 } : SatRandomAccess) ch ∅ with
                | error e => rw [hR] at h; cases h
                | ok p =>
                  obtain ⟨out, s3⟩ := p
                  rw [hR] at h
                  simp only [pure, Except.pure] at h
                  obtain ⟨⟨ds3, rfl⟩, hcard⟩ :=
                    CrdsaRandomizeTxOpportunities_card _ _ ch c _ _ hc2 hR
                  cases hA : AreBuffersEmpty
                      ({ s with m_uniformRandomVariable := ds3 } : SatRandomAccess) with
                  | error e => rw [hA] at h; cases h
                  | ok q =>
                    obtain ⟨em, s4⟩ := q
                    rw [hA] at h
                    simp only [] at h
                    obtain ⟨d4, ds4, -, rfl⟩ := AreBuffersEmpty_ok _ _ _ hA
                    cases em
                    all_goals
                      simp only [Bool.false_eq_true, if_false, if_true] at h
                      obtain ⟨tr, htr, ha, hra, hconf, hmodel, hnum, -, hprep⟩ :=
                        ih _ _ _ _ (by exact hc) h
                      refine ⟨{ tr with attempts := tr.attempts + 1
                                        randomizations := tr.randomizations + 1 }, ?_,
                        Nat.succ_le_succ ha, Nat.succ_le_succ hra, hconf, hmodel, hnum,
                        fun hpos => absurd hpos hidle0, fun k hk => ?_⟩
                      · simp [prepareLoopTrace, hB, hb, hN, h2, hF, hidle, hf, hR, hA, htr, bind,
                          Except.bind, pure, Except.pure]
                      · have := hprep (k + 1) (PreparedResult_insert ch _ k results out hf hcard hk)
                        rw [Nat.add_right_comm] at this
                        exact this
              | some old =>
                rw [hf] at h
                simp only [] at h
                cases hR : CrdsaRandomizeTxOpportunities
                    ({ s with m_uniformRandomVariable := ds2 } : SatRandomAccess) ch old with
                | error e => rw [hR] at h; cases h
                | ok p =>
                  obtain ⟨out, s3⟩ := p
                  rw [hR] at h
                  simp only [pure, Except.pure] at h
                  obtain ⟨⟨ds3, rfl⟩, hcard⟩ :=
                    CrdsaRandomizeTxOpportunities_card _ _ ch c _ _ hc2 hR
                  cases hA : AreBuffersEmpty
                      ({ s with m_uniformRandomVariable := ds3 } : SatRandomAccess) with
                  | error e => rw [hA] at h; cases h
                  | ok q =>
                    obtain ⟨em, s4⟩ := q
                    rw [hA] at h
                    simp only [] at h
                    obtain ⟨d4, ds4, -, rfl⟩ := AreBuffersEmpty_ok _ _ _ hA
                    cases em
                    all_goals
                      simp only [Bool.false_eq_true, if_false, if_true] at h
                      obtain ⟨tr, htr, ha, hra, hconf, hmodel, hnum, -, hprep⟩ :=
                        ih _ _ _ _ (by exact hc) h
                      refine ⟨{ tr with attempts := tr.attempts + 1
                                        randomizations := tr.randomizations + 1 }, ?_,
                        Nat.succ_le_succ ha, Nat.succ_le_succ hra, hconf, hmodel, hnum,
                        fun hpos => absurd hpos hidle0, fun k hk => ?_⟩
                      · simp [prepareLoopTrace, hB, hb, hN, h2, hF, hidle, hf, hR, hA, htr, bind,
                          Except.bind, pure, Except.pure]
                      · have := hprep (k + 1)
                          (PreparedResult_assign ch _ k results old out hf hcard hk)
                        rw [Nat.add_right_comm] at this
                        exact this
            · simp only [hidle, decide_False, Bool.false_eq_true, if_false] at h
              obtain ⟨tr, htr, ha, hra, hconf, hmodel, hnum, hidl, hprep⟩ := ih _ _ _ _ hc2 h
              refine ⟨{ tr with attempts := tr.attempts + 1 }, ?_, Nat.succ_le_succ ha,
                Nat.le_succ_of_le hra, hconf, hmodel, hnum, hidl, hprep⟩
              simp [prepareLoopTrace, hB, hb, hN, h2, hF, hidle, htr, bind, Except.bind, pure,
                Except.pure]

theorem PreparedResult_doNothing (ch instances : Nat) :
    PreparedResult ch instances 0 RandomAccessResults_s.doNothing :=
  ⟨rfl, Or.inl ⟨rfl, rfl, rfl⟩⟩

theorem withChannel_of_conf (s s1 : SatRandomAccess) (ch : Nat)
    (c1 c2 : SatRandomAccessAllocationChannel)
    (h : s1.m_randomAccessConf = (withChannel s ch c1).m_randomAccessConf) :
    (withChannel s1 ch c2).m_randomAccessConf = (withChannel s ch c2).m_randomAccessConf := by
  simp only [withChannel, withChannels] at h ⊢
  rw [h]
  simp [List.set_set]

theorem withChannel_self (s : SatRandomAccess) (ch : Nat) (c : SatRandomAccessAllocationChannel)
    (hc : GetAllocationChannelConfiguration s.m_randomAccessConf ch = .ok c) :
    withChannel s ch c = s := by
  have hi := (GetAllocationChannelConfiguration_ok_iff _ _ _).mp hc
  have hset : s.m_randomAccessConf.m_allocationChannelConf.set ch c
      = s.m_randomAccessConf.m_allocationChannelConf := by
    apply List.ext_getElem?
    intro j
    rw [List.getElem?_set]
    split_ifs with hij hlt
    · subst hij; exact hi.symm
    · subst hij; rw [List.getElem?_eq_none (by omega)]
    · rfl
  simp [withChannel, withChannels, hset]

theorem CrdsaPrepareToTransmit_trace (t : Instant) (s s2 : SatRandomAccess) (ch : Nat)
    (c : SatRandomAccessAllocationChannel) (r : RandomAccessResults_s)
    (hc : GetAllocationChannelConfiguration s.m_randomAccessConf ch = .ok c)
    (h : CrdsaPrepareToTransmit t s ch = .ok (r, s2)) :
    ∃ tr, CrdsaPrepareToTransmitTrace t s ch = .ok tr ∧
      tr.attempts ≤ c.m_crdsaMaxUniquePayloadPerBlock ∧
      tr.randomizations ≤ tr.attempts ∧
      s2.m_randomAccessConf = (withChannel s ch (tr.channelAfter t c)).m_randomAccessConf ∧
      s2.m_randomAccessModel = s.m_randomAccessModel ∧
      s2.m_numOfAllocationChannels = s.m_numOfAllocationChannels ∧
      (0 < c.m_crdsaIdleBlocksLeft →
        r = RandomAccessResults_s.doNothing ∧ tr.randomizations = 0) ∧
      PreparedResult ch (toUint32 c.m_crdsaNumOfInstances) tr.randomizations r := by
  unfold CrdsaPrepareToTransmit at h
  rw [hc] at h
  simp only [bind, Except.bind] at h
  cases hp : prepareLoop t ch c.m_crdsaMaxUniquePayloadPerBlock s
      RandomAccessResults_s.doNothing with
  | error e => rw [hp] at h; cases h
  | ok p =>
    obtain ⟨r1, s1⟩ := p
    rw [hp] at h
    simp only [] at h
    obtain ⟨tr, htr, ha, hra, hconf, hmodel, hnum, hidle, hprep⟩ :=
      prepareLoop_trace t ch c _ _ _ _ _ hc hp
    have hc1 : GetAllocationChannelConfiguration s1.m_randomAccessConf ch =
        .ok (if tr.backoff then armBackoff t c else c) := by
      rw [hconf]
      cases tr.backoff
      · simpa using hc
      · simpa using withChannel_get s ch c _ hc
    rw [CrdsaReduceIdleBlocks_withChannel s1 ch _ hc1] at h
    simp only [pure, Except.pure, Except.ok.injEq, Prod.mk.injEq] at h
    obtain ⟨rfl, rfl⟩ := h
    refine ⟨tr, ?_, ha, hra, ?_, hmodel, hnum, hidle, ?_⟩
    · simp only [CrdsaPrepareToTransmitTrace, hc, bind, Except.bind]
      exact htr
    · unfold PrepareTrace.channelAfter
      cases hb : tr.backoff
      · rw [hb] at hconf
        simp only [Bool.false_eq_true, if_false] at hconf ⊢
        simp only [withChannel, withChannels, hconf]
      · rw [hb] at hconf
        simp only [if_true] at hconf ⊢
        exact withChannel_of_conf s s1 ch _ _ hconf
    · simpa using hprep 0 (PreparedResult_doNothing ch _)

theorem CrdsaIncreaseConsecutiveBlocksUsed_eq (s : SatRandomAccess) (ch : Nat)
    (c : SatRandomAccessAllocationChannel)
    (hc : GetAllocationChannelConfiguration s.m_randomAccessConf ch = .ok c) :
    CrdsaIncreaseConsecutiveBlocksUsed s ch =
      .ok (withChannel s ch (increaseConsecutiveBlocksUsed c)) := by
  simp only [CrdsaIncreaseConsecutiveBlocksUsed, bind, Except.bind]
  rw [updateChannel_eq s ch c _ hc]
  simp only []
  rw [withChannel_get s ch c _ hc]
  simp only []
  unfold increaseConsecutiveBlocksUsed
  simp only []
  split_ifs with hge
  · rw [updateChannel_eq _ ch _ _ (withChannel_get s ch c _ hc), withChannel_withChannel]
    simp only []
    rw [updateChannel_eq _ ch _ _ (withChannel_get s ch c _ hc), withChannel_withChannel]
  · rfl

theorem PreparedResult_resultType (ch instances k : Nat) (r : RandomAccessResults_s)
    (h : PreparedResult ch instances k r) :
    (r.resultType = .RA_CRDSA_TX_OPPORTUNITY ↔ 0 < k) ∧
    (r.resultType = .RA_DO_NOTHING ↔ k = 0) := by
  obtain ⟨-, h⟩ := h
  rcases h with ⟨rfl, ht, -⟩ | ⟨hk, ht, -⟩
  · simp [ht]
  · have : k ≠ 0 := by omega
    simp [ht, hk, this]

theorem slotPreparation_spec (t : Instant) (s s2 : SatRandomAccess) (ch : Nat)
    (c : SatRandomAccessAllocationChannel) (r : RandomAccessResults_s)
    (hc : GetAllocationChannelConfiguration s.m_randomAccessConf ch = .ok c)
    (h : slotPreparation t s ch = .ok (r, s2)) :
    ∃ tr, CrdsaPrepareToTransmitTrace t s ch = .ok tr ∧
      tr.attempts ≤ c.m_crdsaMaxUniquePayloadPerBlock ∧
      tr.randomizations ≤ tr.attempts ∧
      PreparedResult ch (toUint32 c.m_crdsaNumOfInstances) tr.randomizations r ∧
      (0 < c.m_crdsaIdleBlocksLeft → r = RandomAccessResults_s.doNothing) ∧
      s2.m_randomAccessConf =
        (withChannel s ch
          (if r.resultType = .RA_CRDSA_TX_OPPORTUNITY then
            increaseConsecutiveBlocksUsed (tr.channelAfter t c)
           else { tr.channelAfter t c with m_crdsaNumOfConsecutiveBlocksUsed := 0 })).m_randomAccessConf ∧
      s2.m_randomAccessModel = s.m_randomAccessModel ∧
      s2.m_numOfAllocationChannels = s.m_numOfAllocationChannels := by
  unfold slotPreparation at h
  obtain ⟨⟨r1, s1⟩, hp, h⟩ := Run_bind_ok _ _ _ h
  obtain ⟨tr, htr, ha, hra, hconf, hmodel, hnum, hidle, hprep⟩ :=
    CrdsaPrepareToTransmit_trace t s s1 ch c r1 hc hp
  have hc1 : GetAllocationChannelConfiguration s1.m_randomAccessConf ch =
      .ok (tr.channelAfter t c) := by
    rw [hconf]; exact withChannel_get s ch c _ hc
  have htype := PreparedResult_resultType _ _ _ _ hprep
  simp only [] at h
  by_cases hopp : r1.resultType = .RA_CRDSA_TX_OPPORTUNITY
  · simp only [hopp, if_true, CrdsaIncreaseConsecutiveBlocksUsed_eq s1 ch _ hc1, bind,
      Except.bind, pure, Except.pure, Except.ok.injEq, Prod.mk.injEq] at h
    obtain ⟨rfl, rfl⟩ := h
    refine ⟨tr, htr, ha, hra, hprep, fun hpos => (hidle hpos).1, ?_, hmodel, hnum⟩
    rw [if_pos hopp]
    exact withChannel_of_conf s s1 ch _ _ hconf
  · have hnothing : r1.resultType = .RA_DO_NOTHING := by
      have hk : ¬ 0 < tr.randomizations := fun hk => hopp (htype.1.mpr hk)
      exact htype.2.mpr (by omega)
    simp only [hopp, if_false, hnothing, if_true, updateChannel_eq s1 ch _ _ hc1, bind,
      Except.bind, pure, Except.pure, Except.ok.injEq, Prod.mk.injEq] at h
    obtain ⟨rfl, rfl⟩ := h
    refine ⟨tr, htr, ha, hra, hprep, fun hpos => (hidle hpos).1, ?_, hmodel, hnum⟩
    rw [if_neg hopp]
    exact withChannel_of_conf s s1 ch _ _ hconf

theorem DoCrdsa_flag_clear (t : Instant) (s : SatRandomAccess) (ch : Nat)
    (c : SatRandomAccessAllocationChannel)
    (hc : GetAllocationChannelConfiguration s.m_randomAccessConf ch = .ok c)
    (hrel : c.m_crdsaBackoffReleaseTime ≤ t.now) (hdama : t.isDamaAvailable = false)
    (hflag : s.m_crdsaNewData = false) :
    DoCrdsa t s ch = slotPreparation t s ch := by
  simp only [DoCrdsa, slotPreparation, CrdsaHasBackoffTimePassed_eq t s ch c hc, hrel, hdama,
    hflag, bind, Except.bind, decide_True, if_true, Bool.not_false, Bool.false_eq_true, if_false]

theorem DoCrdsa_flag_set (t : Instant) (s : SatRandomAccess) (ch : Nat)
    (c : SatRandomAccessAllocationChannel) (d : Draw) (ds : List Draw)
    (hc : GetAllocationChannelConfiguration s.m_randomAccessConf ch = .ok c)
    (hrel : c.m_crdsaBackoffReleaseTime ≤ t.now) (hdama : t.isDamaAvailable = false)
    (hflag : s.m_crdsaNewData = true) (hd : s.m_uniformRandomVariable = d :: ds) :
    (GetValue01 d < c.m_crdsaBackoffProbability →
      DoCrdsa t s ch = .ok (RandomAccessResults_s.doNothing,
        withChannel { s with m_crdsaNewData := false, m_uniformRandomVariable := ds } ch
          { armBackoff t c with m_crdsaNumOfConsecutiveBlocksUsed := 0 })) ∧
    (¬ GetValue01 d < c.m_crdsaBackoffProbability →
      DoCrdsa t s ch =
        slotPreparation t { s with m_crdsaNewData := false, m_uniformRandomVariable := ds } ch) := by
  have hc1 : GetAllocationChannelConfiguration
      ({ s with m_crdsaNewData := false } : SatRandomAccess).m_randomAccessConf ch = .ok c := hc
  have hB := CrdsaDoBackoff_eq { s with m_crdsaNewData := false } ch c d ds hc1 hd
  have hc2 : GetAllocationChannelConfiguration
      ({ s with m_crdsaNewData := false, m_uniformRandomVariable := ds } :
        SatRandomAccess).m_randomAccessConf ch = .ok c := hc
  constructor
  · intro hb
    have hS := CrdsaSetBackoffTimer_eq t _ ch c hc2
    simp only [DoCrdsa, CrdsaHasBackoffTimePassed_eq t s ch c hc, hrel, hdama, hflag, hB, hb,
      bind, Except.bind, decide_True, if_true, Bool.not_false, pure, Except.pure]
    rw [hS]
    simp only [RandomAccessResults_s.doNothing, if_false, if_true]
    simp only [reduceCtorEq, if_false, if_true]
    rw [updateChannel_eq _ ch _ _ (withChannel_get _ ch c _ hc2), withChannel_withChannel]
  · intro hb
    simp only [DoCrdsa, slotPreparation, CrdsaHasBackoffTimePassed_eq t s ch c hc, hrel, hdama,
      hflag, hB, hb, bind, Except.bind, decide_True, decide_False, if_true, Bool.not_false,
      Bool.false_eq_true, if_false]

theorem armBackoff_fields (t : Instant) (c : SatRandomAccessAllocationChannel) :
    (armBackoff t c).m_crdsaIdleBlocksLeft = c.m_crdsaIdleBlocksLeft - 1 ∧
    (armBackoff t c).m_crdsaBackoffReleaseTime = t.now + c.m_crdsaBackoffTime / 1000 ∧
    (armBackoff t c).m_crdsaMinIdleBlocks = c.m_crdsaMinIdleBlocks ∧
    (armBackoff t c).m_crdsaMaxConsecutiveBlocksAccessed = c.m_crdsaMaxConsecutiveBlocksAccessed ∧
    (armBackoff t c).m_crdsaNumOfConsecutiveBlocksUsed = c.m_crdsaNumOfConsecutiveBlocksUsed :=
  ⟨rfl, rfl, rfl, rfl, rfl⟩

theorem channelAfter_fields (tr : PrepareTrace) (t : Instant)
    (c : SatRandomAccessAllocationChannel) :
    c.m_crdsaIdleBlocksLeft ≤ (tr.channelAfter t c).m_crdsaIdleBlocksLeft + 2 ∧
    (tr.channelAfter t c).m_crdsaMinIdleBlocks = c.m_crdsaMinIdleBlocks ∧
    (tr.channelAfter t c).m_crdsaMaxConsecutiveBlocksAccessed =
      c.m_crdsaMaxConsecutiveBlocksAccessed ∧
    (tr.channelAfter t c).m_crdsaNumOfConsecutiveBlocksUsed =
      c.m_crdsaNumOfConsecutiveBlocksUsed := by
  cases hb : tr.backoff <;>
    simp [PrepareTrace.channelAfter, hb, lowerIdle, armBackoff] <;> omega

theorem DoCrdsa_flag_set_nil (t : Instant) (s : SatRandomAccess) (ch : Nat)
    (c : SatRandomAccessAllocationChannel)
    (hc : GetAllocationChannelConfiguration s.m_randomAccessConf ch = .ok c)
    (hrel : c.m_crdsaBackoffReleaseTime ≤ t.now) (hdama : t.isDamaAvailable = false)
    (hflag : s.m_crdsaNewData = true) (hd : s.m_uniformRandomVariable = []) :
    DoCrdsa t s ch = .error .outOfDraws := by
  have hc1 : GetAllocationChannelConfiguration
      ({ s with m_crdsaNewData := false } : SatRandomAccess).m_randomAccessConf ch = .ok c := hc
  simp [DoCrdsa, CrdsaHasBackoffTimePassed_eq t s ch c hc, hrel, hdama, hflag, CrdsaDoBackoff,
    hc1, nextDraw, hd, bind, Except.bind]

theorem slotPreparation_while_idle (t : Instant) (s s2 : SatRandomAccess) (ch : Nat)
    (c : SatRandomAccessAllocationChannel) (r : RandomAccessResults_s)
    (hc : GetAllocationChannelConfiguration s.m_randomAccessConf ch = .ok c)
    (hidle : 0 < c.m_crdsaIdleBlocksLeft)
    (h : slotPreparation t s ch = .ok (r, s2)) :
    r.resultType = .RA_DO_NOTHING ∧
    ∃ c2, GetAllocationChannelConfiguration s2.m_randomAccessConf ch = .ok c2 ∧
      c.m_crdsaIdleBlocksLeft ≤ c2.m_crdsaIdleBlocksLeft + 2 := by
  obtain ⟨tr, -, -, -, -, hnothing, hconf, -, -⟩ := slotPreparation_spec t s s2 ch c r hc h
  have hr := hnothing hidle
  subst hr
  have : ¬ RandomAccessResults_s.doNothing.resultType = .RA_CRDSA_TX_OPPORTUNITY := by
    simp [RandomAccessResults_s.doNothing]
  rw [if_neg this] at hconf
  refine ⟨rfl, { tr.channelAfter t c with m_crdsaNumOfConsecutiveBlocksUsed := 0 }, ?_, ?_⟩
  · rw [hconf]; exact withChannel_get s ch c _ hc
  · exact (channelAfter_fields tr t c).1

theorem DoCrdsa_while_idle (t : Instant) (s s2 : SatRandomAccess) (ch : Nat)
    (c : SatRandomAccessAllocationChannel) (r : RandomAccessResults_s)
    (hc : GetAllocationChannelConfiguration s.m_randomAccessConf ch = .ok c)
    (hidle : 0 < c.m_crdsaIdleBlocksLeft)
    (h : DoCrdsa t s ch = .ok (r, s2)) :
    r.resultType = .RA_DO_NOTHING ∧
    ∃ c2, GetAllocationChannelConfiguration s2.m_randomAccessConf ch = .ok c2 ∧
      c.m_crdsaIdleBlocksLeft ≤ c2.m_crdsaIdleBlocksLeft + 2 := by
  by_cases hblocked : t.now < c.m_crdsaBackoffReleaseTime ∨ t.isDamaAvailable = true
  · rw [(DoCrdsa_blocked_eq t s ch c hc hblocked)] at h
    simp only [Except.ok.injEq, Prod.mk.injEq] at h
    obtain ⟨rfl, rfl⟩ := h
    refine ⟨rfl, _, withChannel_get s ch c _ hc, ?_⟩
    simp only [lowerIdle]; omega
  · simp only [not_or, not_lt, Bool.not_eq_true] at hblocked
    obtain ⟨hrel, hdama⟩ := hblocked
    cases hflag : s.m_crdsaNewData with
    | false =>
      rw [DoCrdsa_flag_clear t s ch c hc hrel hdama hflag] at h
      exact slotPreparation_while_idle t s s2 ch c r hc hidle h
    | true =>
      cases hd : s.m_uniformRandomVariable with
      | nil =>
        rw [DoCrdsa_flag_set_nil t s ch c hc hrel hdama hflag hd] at h
        cases h
      | cons d ds =>
        obtain ⟨h1, h2⟩ := DoCrdsa_flag_set t s ch c d ds hc hrel hdama hflag hd
        by_cases hb : GetValue01 d < c.m_crdsaBackoffProbability
        · rw [h1 hb] at h
          simp only [Except.ok.injEq, Prod.mk.injEq] at h
          obtain ⟨rfl, rfl⟩ := h
          refine ⟨rfl, _, withChannel_get _ ch c _ hc, ?_⟩
          simp only [armBackoff, lowerIdle]; omega
        · rw [h2 hb] at h
          exact slotPreparation_while_idle t _ s2 ch c r (by exact hc) hidle h

theorem DoCrdsaCalls_length (ch : Nat) :
    ∀ (ts : List Instant) (s s2 : SatRandomAccess) (rs : List RandomAccessResults_s),
      DoCrdsaCalls ch ts s = .ok (rs, s2) → rs.length = ts.length := by
  intro ts
  induction ts with
  | nil =>
    intro s s2 rs h
    simp only [DoCrdsaCalls, pure, Except.pure, Except.ok.injEq, Prod.mk.injEq] at h
    obtain ⟨rfl, -⟩ := h
    rfl
  | cons t ts ih =>
    intro s s2 rs h
    unfold DoCrdsaCalls at h
    obtain ⟨⟨r1, s1⟩, h1, h⟩ := Run_bind_ok _ _ _ h
    simp only [] at h
    obtain ⟨⟨rest, s3⟩, hrest, h⟩ := Run_bind_ok _ _ _ h
    simp only [pure, Except.pure, Except.ok.injEq, Prod.mk.injEq] at h
    obtain ⟨rfl, rfl⟩ := h
    simp [ih s1 s3 rest hrest]

theorem DoCrdsaCalls_while_idle (ch : Nat) :
    ∀ (ts : List Instant) (s s2 : SatRandomAccess) (c : SatRandomAccessAllocationChannel)
      (rs : List RandomAccessResults_s),
      GetAllocationChannelConfiguration s.m_randomAccessConf ch = .ok c →
      DoCrdsaCalls ch ts s = .ok (rs, s2) →
      ∀ j r, rs[j]? = some r → 2 * j < c.m_crdsaIdleBlocksLeft →
        r.resultType = .RA_DO_NOTHING := by
  intro ts
  induction ts with
  | nil =>
    intro s s2 c rs _ h
    simp only [DoCrdsaCalls, pure, Except.pure, Except.ok.injEq, Prod.mk.injEq] at h
    obtain ⟨rfl, -⟩ := h
    exact fun j r hj => by simp at hj
  | cons t ts ih =>
    intro s s2 c rs hc h j r hj hlt
    unfold DoCrdsaCalls at h
    obtain ⟨⟨r1, s1⟩, h1, h⟩ := Run_bind_ok _ _ _ h
    simp only [] at h
    obtain ⟨⟨rest, s3⟩, hrest, h⟩ := Run_bind_ok _ _ _ h
    simp only [pure, Except.pure, Except.ok.injEq, Prod.mk.injEq] at h
    obtain ⟨rfl, rfl⟩ := h
    have hidle : 0 < c.m_crdsaIdleBlocksLeft := by omega
    obtain ⟨hr1, c2, hc2, hle⟩ := DoCrdsa_while_idle t s s1 ch c r1 hc hidle h1
    cases j with
    | zero =>
      simp only [List.getElem?_cons_zero, Option.some.injEq] at hj
      rw [← hj]; exact hr1
    | succ j =>
      simp only [List.getElem?_cons_succ] at hj
      exact ih s1 s3 c2 rest hc2 hrest j r hj (by omega)

theorem increaseConsecutiveBlocksUsed_fields (c : SatRandomAccessAllocationChannel) :
    (c.m_crdsaMaxConsecutiveBlocksAccessed ≤
        (c.m_crdsaNumOfConsecutiveBlocksUsed + 1) % 4294967296 →
      (increaseConsecutiveBlocksUsed c).m_crdsaIdleBlocksLeft = c.m_crdsaMinIdleBlocks ∧
      (increaseConsecutiveBlocksUsed c).m_crdsaNumOfConsecutiveBlocksUsed = 0) ∧
    ((c.m_crdsaNumOfConsecutiveBlocksUsed + 1) % 4294967296 <
        c.m_crdsaMaxConsecutiveBlocksAccessed →
      (increaseConsecutiveBlocksUsed c).m_crdsaIdleBlocksLeft = c.m_crdsaIdleBlocksLeft ∧
      (increaseConsecutiveBlocksUsed c).m_crdsaNumOfConsecutiveBlocksUsed =
        (c.m_crdsaNumOfConsecutiveBlocksUsed + 1) % 4294967296) := by
  unfold increaseConsecutiveBlocksUsed
  constructor
  · intro h
    simp only [ge_iff_le, h, if_true, and_self]
  · intro h
    have : ¬ c.m_crdsaMaxConsecutiveBlocksAccessed ≤
        (c.m_crdsaNumOfConsecutiveBlocksUsed + 1) % 4294967296 := by omega
    simp only [ge_iff_le, this, if_false, and_self]

theorem DoCrdsa_opportunity_slotPreparation (t : Instant) (s s2 : SatRandomAccess) (ch : Nat)
    (c : SatRandomAccessAllocationChannel) (r : RandomAccessResults_s)
    (hc : GetAllocationChannelConfiguration s.m_randomAccessConf ch = .ok c)
    (h : DoCrdsa t s ch = .ok (r, s2)) (hopp : r.resultType = .RA_CRDSA_TX_OPPORTUNITY) :
    ∃ s1 : SatRandomAccess, s1.m_randomAccessConf = s.m_randomAccessConf ∧
      slotPreparation t s1 ch = .ok (r, s2) := by
  have hne : RandomAccessResults_s.doNothing.resultType ≠ .RA_CRDSA_TX_OPPORTUNITY := by
    simp [RandomAccessResults_s.doNothing]
  by_cases hblocked : t.now < c.m_crdsaBackoffReleaseTime ∨ t.isDamaAvailable = true
  · rw [(DoCrdsa_blocked_eq t s ch c hc hblocked)] at h
    simp only [Except.ok.injEq, Prod.mk.injEq] at h
    rw [← h.1] at hopp
    exact absurd hopp hne
  · simp only [not_or, not_lt, Bool.not_eq_true] at hblocked
    obtain ⟨hrel, hdama⟩ := hblocked
    cases hflag : s.m_crdsaNewData with
    | false =>
      rw [DoCrdsa_flag_clear t s ch c hc hrel hdama hflag] at h
      exact ⟨s, rfl, h⟩
    | true =>
      cases hd : s.m_uniformRandomVariable with
      | nil =>
        rw [DoCrdsa_flag_set_nil t s ch c hc hrel hdama hflag hd] at h
        cases h
      | cons d ds =>
        obtain ⟨h1, h2⟩ := DoCrdsa_flag_set t s ch c d ds hc hrel hdama hflag hd
        by_cases hb : GetValue01 d < c.m_crdsaBackoffProbability
        · rw [h1 hb] at h
          simp only [Except.ok.injEq, Prod.mk.injEq] at h
          rw [← h.1] at hopp
          exact absurd hopp hne
        · rw [h2 hb] at h
          exact ⟨{ s with m_crdsaNewData := false, m_uniformRandomVariable := ds }, rfl, h⟩

/-- Evaluation for C24: channel `1` of the example configuration has the idle-blocks-left
counter `3`; with the draw `1 / 20`, which triggers the backoff in the first attempt of the
loop, `CrdsaPrepareToTransmit` leaves the counter at `1`, not at `3 - 1`: the counter is
lowered by `CrdsaSetBackoffTimer` and once more at the end of the run.  On the same channel
and with the same draw the backoff that `DoCrdsa` triggers before the slot preparation (the
new-data path, which also goes through `CrdsaSetBackoffTimer`) leaves the counter at
`3 - 1`. -/
theorem CrdsaPrepareToTransmit_decrements_twice :
    GetAllocationChannelConfiguration exampleConf 1 =
      .ok { exampleChannel with m_crdsaIdleBlocksLeft := 3 } ∧
    (CrdsaPrepareToTransmit (Instant.current 0)
        (SatRandomAccess.create exampleConf .RA_CRDSA [Draw.twentieth]) 1).map
      (fun p => (p.1.resultType,
        p.2.m_randomAccessConf.m_allocationChannelConf.map (fun c => c.m_crdsaIdleBlocksLeft))) =
      .ok (.RA_DO_NOTHING, [0, 1]) ∧
    (1 : Nat) ≠ 3 - 1 ∧
    (DoCrdsa (Instant.current 0)
        (SatRandomAccess.create exampleConf .RA_CRDSA [Draw.twentieth]) 1).map
      (fun p => (p.1.resultType,
        p.2.m_randomAccessConf.m_allocationChannelConf.map (fun c => c.m_crdsaIdleBlocksLeft))) =
      .ok (.RA_DO_NOTHING, [0, 2]) := by
  refine ⟨rfl, by decide!, by decide, by decide!⟩

/-- What the present code of `CrdsaPrepareToTransmit` does to the counter, for every run that
returns: the idle-blocks-left counter of the channel is its value before the run lowered by
one if no attempt triggered the backoff, and lowered by two if one did (once with the arming
of the timer, once at the end of the run), never below zero; in the first case nothing else
of the channel has changed, in the second the backoff release time is the current time plus
the backoff time.  The second case is the behaviour that the evaluation for C24 shows. -/
theorem CrdsaPrepareToTransmit_lowers_idle (t : Instant) (s s2 : SatRandomAccess) (ch : Nat)
    (c : SatRandomAccessAllocationChannel) (r : RandomAccessResults_s)
    (hc : GetAllocationChannelConfiguration s.m_randomAccessConf ch = .ok c)
    (h : CrdsaPrepareToTransmit t s ch = .ok (r, s2)) :
    ∃ tr c2, CrdsaPrepareToTransmitTrace t s ch = .ok tr ∧
      GetAllocationChannelConfiguration s2.m_randomAccessConf ch = .ok c2 ∧
      (tr.backoff = false →
        c2 = lowerIdle c ∧ c2.m_crdsaIdleBlocksLeft = c.m_crdsaIdleBlocksLeft - 1) ∧
      (tr.backoff = true →
        c2 = lowerIdle (armBackoff t c) ∧
        c2.m_crdsaIdleBlocksLeft = c.m_crdsaIdleBlocksLeft - 2 ∧
        c2.m_crdsaBackoffReleaseTime = t.now + c.m_crdsaBackoffTime / 1000) := by
  obtain ⟨tr, htr, -, -, hconf, -, -, -, -⟩ := CrdsaPrepareToTransmit_trace t s s2 ch c r hc h
  refine ⟨tr, tr.channelAfter t c, htr, ?_, ?_, ?_⟩
  · rw [hconf]; exact withChannel_get s ch c _ hc
  · intro hb
    have hch : tr.channelAfter t c = lowerIdle c := by
      simp [PrepareTrace.channelAfter, hb]
    rw [hch]
    exact ⟨rfl, rfl⟩
  · intro hb
    have hch : tr.channelAfter t c = lowerIdle (armBackoff t c) := by
      simp [PrepareTrace.channelAfter, hb]
    rw [hch]
    refine ⟨rfl, ?_, rfl⟩
    simp only [lowerIdle, armBackoff]
    omega

/-- An instance of `CrdsaPrepareToTransmit_lowers_idle`: on channel `1` of the example
configuration with the draw `1 / 20` the loop leaves through the backoff, and the counter
goes from `3` to `3 - 2`. -/
theorem CrdsaPrepareToTransmit_lowers_idle_witness :
    ∃ tr c2,
      CrdsaPrepareToTransmitTrace (Instant.current 0)
        (SatRandomAccess.create exampleConf .RA_CRDSA [Draw.twentieth]) 1 = .ok tr ∧
      tr.backoff = true ∧
      GetAllocationChannelConfiguration
        (withChannels (SatRandomAccess.create exampleConf .RA_CRDSA [])
          [exampleChannel,
            { exampleChannel with m_crdsaIdleBlocksLeft := 1
                                  m_crdsaBackoffReleaseTime := 1 / 2 }]).m_randomAccessConf 1 =
        .ok c2 ∧
      c2.m_crdsaIdleBlocksLeft = 3 - 2 ∧ c2.m_crdsaBackoffReleaseTime = 0 + 500 / 1000 := by
  have hrun : CrdsaPrepareToTransmit (Instant.current 0)
      (SatRandomAccess.create exampleConf .RA_CRDSA [Draw.twentieth]) 1 =
      .ok (RandomAccessResults_s.doNothing,
        withChannels (SatRandomAccess.create exampleConf .RA_CRDSA [])
          [exampleChannel,
            { exampleChannel with m_crdsaIdleBlocksLeft := 1
                                  m_crdsaBackoffReleaseTime := 1 / 2 }]) := by decide!
  obtain ⟨tr, c2, htr, hc2, -, hb⟩ := CrdsaPrepareToTransmit_lowers_idle (Instant.current 0)
    (SatRandomAccess.create exampleConf .RA_CRDSA [Draw.twentieth]) _ 1
    { exampleChannel with m_crdsaIdleBlocksLeft := 3 } _ rfl hrun
  have htb : tr.backoff = true := by
    have : CrdsaPrepareToTransmitTrace (Instant.current 0)
        (SatRandomAccess.create exampleConf .RA_CRDSA [Draw.twentieth]) 1 =
        .ok { attempts := 1, randomizations := 0, backoff := true } := by decide!
    rw [this] at htr
    simp only [Except.ok.injEq] at htr
    rw [← htr]
  exact ⟨tr, c2, htr, htb, hc2, (hb htb).2.1, (hb htb).2.2⟩

/-- Evaluation for C25: the channel of `exampleForcingConf` has `minIdleBlocks = 2`; the call
at time `0` returns a CRDSA opportunity and forces the idle period (the counters are `0` and
`2` after it); of the next two calls, at the times `1` and `2`, the first backs off during
its slot preparation, which lowers the idle counter twice, and the second returns a CRDSA
opportunity, inside the idle period of two blocks. -/
theorem DoCrdsa_opportunity_in_idle_period :
    GetAllocationChannelConfiguration exampleForcingConf 0 =
      .ok { exampleChannel with m_crdsaMaxConsecutiveBlocksAccessed := 1 } ∧
    ({ exampleChannel with m_crdsaMaxConsecutiveBlocksAccessed := 1 } :
      SatRandomAccessAllocationChannel).m_crdsaMinIdleBlocks = 2 ∧
    (DoCrdsa (Instant.current 0)
        (SatRandomAccess.create exampleForcingConf .RA_CRDSA exampleForcingDraws) 0).map
      (fun p => (p.1.resultType, p.2.m_randomAccessConf.m_allocationChannelConf.map
        (fun c => (c.m_crdsaNumOfConsecutiveBlocksUsed, c.m_crdsaIdleBlocksLeft)))) =
      .ok (.RA_CRDSA_TX_OPPORTUNITY, [(0, 2)]) ∧
    (DoCrdsaCalls 0 [Instant.current 0, Instant.current 1, Instant.current 2]
        (SatRandomAccess.create exampleForcingConf .RA_CRDSA exampleForcingDraws)).map
      (fun p => p.1.map (fun r => r.resultType)) =
      .ok [.RA_CRDSA_TX_OPPORTUNITY, .RA_DO_NOTHING, .RA_CRDSA_TX_OPPORTUNITY] := by
  refine ⟨rfl, rfl, by decide!, by decide!⟩

/-- What the present code guarantees of the forced idle period: after a `DoCrdsa` call that
returns a CRDSA opportunity and with it makes the consecutive-blocks-used counter reach the
maximum, the idle-blocks-left counter is `minIdleBlocks` and the consecutive-blocks-used
counter is zero; and of the `DoCrdsa` calls that follow on that channel, at whatever instants
and with whatever draws, the call number `j` (counted from zero) returns no opportunity
whenever `2 * j < minIdleBlocks`.  The factor two is the double decrement that the evaluation
for C24 shows; it is why the evaluation for C25 finds an opportunity inside the period. -/
theorem DoCrdsaCalls_idle_period (t0 : Instant) (ts : List Instant) (s s1 s2 : SatRandomAccess)
    (ch : Nat) (c : SatRandomAccessAllocationChannel) (r0 : RandomAccessResults_s)
    (rs : List RandomAccessResults_s)
    (hc : GetAllocationChannelConfiguration s.m_randomAccessConf ch = .ok c)
    (h0 : DoCrdsa t0 s ch = .ok (r0, s1))
    (hopp : r0.resultType = .RA_CRDSA_TX_OPPORTUNITY)
    (hmax : c.m_crdsaMaxConsecutiveBlocksAccessed ≤
      (c.m_crdsaNumOfConsecutiveBlocksUsed + 1) % 4294967296)
    (hcalls : DoCrdsaCalls ch ts s1 = .ok (rs, s2)) :
    (∃ c1, GetAllocationChannelConfiguration s1.m_randomAccessConf ch = .ok c1 ∧
      c1.m_crdsaIdleBlocksLeft = c.m_crdsaMinIdleBlocks ∧
      c1.m_crdsaNumOfConsecutiveBlocksUsed = 0) ∧
    rs.length = ts.length ∧
    ∀ j r, rs[j]? = some r → 2 * j < c.m_crdsaMinIdleBlocks →
      r.resultType = .RA_DO_NOTHING := by
  obtain ⟨sp, hsp, hprep⟩ := DoCrdsa_opportunity_slotPreparation t0 s s1 ch c r0 hc h0 hopp
  have hcp : GetAllocationChannelConfiguration sp.m_randomAccessConf ch = .ok c := by
    rw [hsp]; exact hc
  obtain ⟨tr, -, -, -, -, -, hconf, -, -⟩ := slotPreparation_spec t0 sp s1 ch c r0 hcp hprep
  rw [if_pos hopp] at hconf
  have hc1 : GetAllocationChannelConfiguration s1.m_randomAccessConf ch =
      .ok (increaseConsecutiveBlocksUsed (tr.channelAfter t0 c)) := by
    rw [hconf]; exact withChannel_get sp ch c _ hcp
  obtain ⟨-, hmin, hmx, hused⟩ := channelAfter_fields tr t0 c
  have hf := (increaseConsecutiveBlocksUsed_fields (tr.channelAfter t0 c)).1
    (by rw [hmx, hused]; exact hmax)
  rw [hmin] at hf
  refine ⟨⟨_, hc1, hf.1, hf.2⟩, DoCrdsaCalls_length ch ts s1 s2 rs hcalls, fun j r hj hlt => ?_⟩
  exact DoCrdsaCalls_while_idle ch ts s1 s2 _ rs hc1 hcalls j r hj (by rw [hf.1]; exact hlt)

/-- An instance of `DoCrdsaCalls_idle_period`: after the forcing call of the example, the
first of the next calls returns no opportunity (`2 * 0 < 2`), while the run shows that the
second one does return a CRDSA opportunity. -/
theorem DoCrdsaCalls_idle_period_witness :
    DoCrdsa (Instant.current 0)
        (SatRandomAccess.create exampleForcingConf .RA_CRDSA exampleForcingDraws) 0 =
      .ok ({ resultType := .RA_CRDSA_TX_OPPORTUNITY, slottedAlohaResult := none,
             crdsaResult := [(0, {0, 1, 79})] }, exampleForcedState) ∧
    (DoCrdsaCalls 0 [Instant.current 1, Instant.current 2] exampleForcedState).map
      (fun p => p.1.map (fun r => r.resultType)) =
      .ok [.RA_DO_NOTHING, .RA_CRDSA_TX_OPPORTUNITY] ∧
    ∀ rs s2,
      DoCrdsaCalls 0 [Instant.current 1, Instant.current 2] exampleForcedState = .ok (rs, s2) →
      ∀ r, rs[0]? = some r → r.resultType = .RA_DO_NOTHING := by
  have h0 : DoCrdsa (Instant.current 0)
      (SatRandomAccess.create exampleForcingConf .RA_CRDSA exampleForcingDraws) 0 =
      .ok ({ resultType := .RA_CRDSA_TX_OPPORTUNITY, slottedAlohaResult := none,
             crdsaResult := [(0, {0, 1, 79})] }, exampleForcedState) := by decide!
  refine ⟨h0, by decide!, fun rs s2 hcalls r hr => ?_⟩
  exact (DoCrdsaCalls_idle_period (Instant.current 0) [Instant.current 1, Instant.current 2]
    (SatRandomAccess.create exampleForcingConf .RA_CRDSA exampleForcingDraws) _ s2 0
    { exampleChannel with m_crdsaMaxConsecutiveBlocksAccessed := 1 } _ rs rfl h0 rfl
    (by decide) hcalls).2.2 0 r hr (by decide)

theorem Draw_value_range (d : Draw) : 0 ≤ GetValue01 d ∧ GetValue01 d < 1 := by
  unfold GetValue01 Draw.value
  have hden : (0 : ℚ) < (d.den : ℚ) := by
    exact_mod_cast Nat.lt_of_le_of_lt (Nat.zero_le _) d.lt
  have hnum : (d.num : ℚ) < (d.den : ℚ) := by exact_mod_cast d.lt
  constructor
  · exact div_nonneg (by exact_mod_cast Nat.zero_le _) hden.le
  · rw [div_lt_one hden]; exact hnum

/-- C28: let the backoff release time be reached and no scheduled capacity be known.  With
the new-data flag set, `DoCrdsa` clears the flag and takes one draw `u` of `[0, 1)`: if `u`
is below the backoff probability of the channel it returns no opportunity without a slot
preparation, with the backoff release time at the current time plus the backoff time of the
channel (milliseconds, converted to seconds) and the idle-blocks-left counter lowered once;
otherwise it goes on to the slot preparation, with the flag cleared and the draw used.  With
the flag clear it goes to the slot preparation at once, without a draw. -/
theorem DoCrdsa_initial_backoff (t : Instant) (s : SatRandomAccess) (ch : Nat)
    (c : SatRandomAccessAllocationChannel)
    (hc : GetAllocationChannelConfiguration s.m_randomAccessConf ch = .ok c)
    (hrel : c.m_crdsaBackoffReleaseTime ≤ t.now) (hdama : t.isDamaAvailable = false) :
    (s.m_crdsaNewData = true → ∀ d ds, s.m_uniformRandomVariable = d :: ds →
      (0 ≤ GetValue01 d ∧ GetValue01 d < 1) ∧
      (GetValue01 d < c.m_crdsaBackoffProbability →
        DoCrdsa t s ch = .ok (RandomAccessResults_s.doNothing,
          withChannel { s with m_crdsaNewData := false, m_uniformRandomVariable := ds } ch
            { armBackoff t c with m_crdsaNumOfConsecutiveBlocksUsed := 0 }) ∧
        RandomAccessResults_s.doNothing.resultType = .RA_DO_NOTHING ∧
        (armBackoff t c).m_crdsaBackoffReleaseTime = t.now + c.m_crdsaBackoffTime / 1000 ∧
        (armBackoff t c).m_crdsaIdleBlocksLeft = c.m_crdsaIdleBlocksLeft - 1) ∧
      (¬ GetValue01 d < c.m_crdsaBackoffProbability →
        DoCrdsa t s ch =
          slotPreparation t { s with m_crdsaNewData := false, m_uniformRandomVariable := ds } ch)) ∧
    (s.m_crdsaNewData = false → DoCrdsa t s ch = slotPreparation t s ch) := by
  refine ⟨fun hflag d ds hd => ⟨Draw_value_range d, fun hb => ⟨?_, rfl, rfl, rfl⟩, fun hb => ?_⟩,
    fun hflag => DoCrdsa_flag_clear t s ch c hc hrel hdama hflag⟩
  · exact (DoCrdsa_flag_set t s ch c d ds hc hrel hdama hflag hd).1 hb
  · exact (DoCrdsa_flag_set t s ch c d ds hc hrel hdama hflag hd).2 hb

/-- Witness for C28: on channel `0` of the example configuration at time `0`, the draw `1 / 20`
triggers the initial backoff (release time `0 + 500 / 1000`), and the draw `1 / 2` does not:
the call then is the slot preparation on the remaining draws. -/
theorem DoCrdsa_initial_backoff_witness :
    DoCrdsa (Instant.current 0)
        (SatRandomAccess.create exampleConf .RA_CRDSA [Draw.twentieth]) 0 =
      .ok (RandomAccessResults_s.doNothing,
        withChannel { SatRandomAccess.create exampleConf .RA_CRDSA [] with m_crdsaNewData := false }
          0 { exampleChannel with m_crdsaBackoffReleaseTime := 0 + 500 / 1000 }) ∧
    DoCrdsa (Instant.current 0) (SatRandomAccess.create exampleConf .RA_CRDSA exampleCrdsaDraws) 0 =
      slotPreparation (Instant.current 0)
        { SatRandomAccess.create exampleConf .RA_CRDSA
            ([Draw.half, Draw.half] ++ exampleSlotDraws ++ [Draw.half, Draw.twentieth]) with
          m_crdsaNewData := false } 0 :=
  ⟨(((DoCrdsa_initial_backoff (Instant.current 0)
      (SatRandomAccess.create exampleConf .RA_CRDSA [Draw.twentieth]) 0 exampleChannel rfl
      (by decide!) rfl).1 rfl Draw.twentieth [] rfl).2.1 (by decide!)).1,
   ((DoCrdsa_initial_backoff (Instant.current 0)
      (SatRandomAccess.create exampleConf .RA_CRDSA exampleCrdsaDraws) 0 exampleChannel rfl
      (by decide!) rfl).1 rfl Draw.half _ rfl).2.2 (by decide!)⟩

/-- C26: let `DoCrdsa` reach the slot preparation (release time reached, no scheduled
capacity, and the flag clear or the initial draw not below the backoff probability), with
the consecutive-blocks-used counter below the largest `uint32_t` value.  If the result is a
CRDSA opportunity (for a channel with at least one instance: exactly if slots were
produced), the counter becomes its old value plus one when that is below the maximum, and
otherwise the idle-blocks-left counter becomes `minIdleBlocks` and the counter zero; if the
result is no opportunity, no slot was produced and the counter becomes zero. -/
theorem DoCrdsa_counts_consecutive_blocks (t : Instant) (s s2 : SatRandomAccess) (ch : Nat)
    (c : SatRandomAccessAllocationChannel) (r : RandomAccessResults_s)
    (hc : GetAllocationChannelConfiguration s.m_randomAccessConf ch = .ok c)
    (hrel : c.m_crdsaBackoffReleaseTime ≤ t.now) (hdama : t.isDamaAvailable = false)
    (hreach : s.m_crdsaNewData = false ∨
      ∃ d ds, s.m_uniformRandomVariable = d :: ds ∧ ¬ GetValue01 d < c.m_crdsaBackoffProbability)
    (hrange : c.m_crdsaNumOfConsecutiveBlocksUsed + 1 < 4294967296)
    (h : DoCrdsa t s ch = .ok (r, s2)) :
    ∃ c2, GetAllocationChannelConfiguration s2.m_randomAccessConf ch = .ok c2 ∧
      (1 ≤ toUint32 c.m_crdsaNumOfInstances →
        (r.resultType = .RA_CRDSA_TX_OPPORTUNITY ↔
          ∃ tx : Finset Nat, r.crdsaResult = [(ch, tx)] ∧ tx.Nonempty)) ∧
      (r.resultType = .RA_CRDSA_TX_OPPORTUNITY →
        (c.m_crdsaNumOfConsecutiveBlocksUsed + 1 < c.m_crdsaMaxConsecutiveBlocksAccessed →
          c2.m_crdsaNumOfConsecutiveBlocksUsed = c.m_crdsaNumOfConsecutiveBlocksUsed + 1) ∧
        (c.m_crdsaMaxConsecutiveBlocksAccessed ≤ c.m_crdsaNumOfConsecutiveBlocksUsed + 1 →
          c2.m_crdsaIdleBlocksLeft = c.m_crdsaMinIdleBlocks ∧
          c2.m_crdsaNumOfConsecutiveBlocksUsed = 0)) ∧
      (r.resultType ≠ .RA_CRDSA_TX_OPPORTUNITY →
        r.crdsaResult = [] ∧ c2.m_crdsaNumOfConsecutiveBlocksUsed = 0) := by
  have hprep : ∃ sp : SatRandomAccess, sp.m_randomAccessConf = s.m_randomAccessConf ∧
      slotPreparation t sp ch = .ok (r, s2) := by
    cases hflag : s.m_crdsaNewData with
    | false =>
      rw [DoCrdsa_flag_clear t s ch c hc hrel hdama hflag] at h
      exact ⟨s, rfl, h⟩
    | true =>
      rcases hreach with hf | ⟨d, ds, hd, hb⟩
      · rw [hflag] at hf; cases hf
      · rw [(DoCrdsa_flag_set t s ch c d ds hc hrel hdama hflag hd).2 hb] at h
        exact ⟨{ s with m_crdsaNewData := false, m_uniformRandomVariable := ds }, rfl, h⟩
  obtain ⟨sp, hsp, hprep⟩ := hprep
  have hcp : GetAllocationChannelConfiguration sp.m_randomAccessConf ch = .ok c := by
    rw [hsp]; exact hc
  obtain ⟨tr, -, -, -, hres, -, hconf, -, -⟩ := slotPreparation_spec t sp s2 ch c r hcp hprep
  obtain ⟨-, hmin, hmx, hused⟩ := channelAfter_fields tr t c
  have hmod : (c.m_crdsaNumOfConsecutiveBlocksUsed + 1) % 4294967296 =
      c.m_crdsaNumOfConsecutiveBlocksUsed + 1 := Nat.mod_eq_of_lt hrange
  have hinc := increaseConsecutiveBlocksUsed_fields (tr.channelAfter t c)
  rw [hmin, hmx, hused, hmod] at hinc
  refine ⟨_, by rw [hconf]; exact withChannel_get sp ch c _ hcp, ?_, ?_, ?_⟩
  · intro hinst
    obtain ⟨-, hk⟩ := hres
    rcases hk with ⟨-, ht, hnil⟩ | ⟨hk, ht, tx, htx, hcard⟩
    · simp [ht, hnil]
    · simp only [ht, true_iff]
      refine ⟨tx, htx, Finset.card_pos.mp ?_⟩
      rw [hcard]
      exact Nat.mul_pos hk hinst
  · intro hopp
    rw [if_pos hopp]
    exact ⟨fun hlt => (hinc.2 hlt).2, fun hge => hinc.1 hge⟩
  · intro hopp
    rw [if_neg hopp]
    refine ⟨?_, rfl⟩
    obtain ⟨-, hk⟩ := hres
    rcases hk with ⟨-, -, hnil⟩ | ⟨-, ht, -⟩
    · exact hnil
    · exact absurd ht hopp

/-- Witness for C26: the example run prepares the slots `0, 1, 79` on channel `0`, whose
counter goes from `0` to `0 + 1`, which is below the maximum `2`. -/
theorem DoCrdsa_counts_consecutive_blocks_witness :
    DoCrdsa (Instant.current 0) (SatRandomAccess.create exampleConf .RA_CRDSA exampleCrdsaDraws) 0 =
      .ok ({ resultType := .RA_CRDSA_TX_OPPORTUNITY, slottedAlohaResult := none,
             crdsaResult := [(0, {0, 1, 79})] },
        withChannels (SatRandomAccess.create exampleConf .RA_CRDSA [])
          [{ exampleChannel with m_crdsaBackoffReleaseTime := 1 / 2
                                 m_crdsaNumOfConsecutiveBlocksUsed := 1 },
           { exampleChannel with m_crdsaIdleBlocksLeft := 3 }]) ∧
    ∃ c2, GetAllocationChannelConfiguration
        (withChannels (SatRandomAccess.create exampleConf .RA_CRDSA [])
          [{ exampleChannel with m_crdsaBackoffReleaseTime := 1 / 2
                                 m_crdsaNumOfConsecutiveBlocksUsed := 1 },
           { exampleChannel with m_crdsaIdleBlocksLeft := 3 }]).m_randomAccessConf 0 = .ok c2 ∧
      c2.m_crdsaNumOfConsecutiveBlocksUsed = 0 + 1 := by
  have hrun : DoCrdsa (Instant.current 0)
      (SatRandomAccess.create exampleConf .RA_CRDSA exampleCrdsaDraws) 0 =
      .ok ({ resultType := .RA_CRDSA_TX_OPPORTUNITY, slottedAlohaResult := none,
             crdsaResult := [(0, {0, 1, 79})] },
        withChannels (SatRandomAccess.create exampleConf .RA_CRDSA [])
          [{ exampleChannel with m_crdsaBackoffReleaseTime := 1 / 2
                                 m_crdsaNumOfConsecutiveBlocksUsed := 1 },
           { exampleChannel with m_crdsaIdleBlocksLeft := 3 }]) := by decide!
  obtain ⟨c2, hc2, -, hopp, -⟩ := DoCrdsa_counts_consecutive_blocks (Instant.current 0)
    (SatRandomAccess.create exampleConf .RA_CRDSA exampleCrdsaDraws) _ 0 exampleChannel _ rfl
    (by decide!) rfl (Or.inr ⟨Draw.half, _, rfl, by decide!⟩) (by decide) hrun
  exact ⟨hrun, c2, hc2, (hopp rfl).1 (by decide)⟩

/-- C29: when `CrdsaPrepareToTransmit` returns, its loop made at most
`maxUniquePayloadPerBlock` attempts; the result is a CRDSA opportunity or no opportunity, it
holds slots for the queried channel only, and their number is `k` times the number of
instances, `k` being the number of randomizations, which is at most the number of attempts;
the result is a CRDSA opportunity exactly if `k > 0`, which for a channel with at least one
instance (the sanity check sees to that) is exactly if the slot set is not empty; and if
the idle-blocks-left counter is above zero on entry, the result is no opportunity without
a slot. -/
theorem CrdsaPrepareToTransmit_slots (t : Instant) (s s2 : SatRandomAccess) (ch : Nat)
    (c : SatRandomAccessAllocationChannel) (r : RandomAccessResults_s)
    (hc : GetAllocationChannelConfiguration s.m_randomAccessConf ch = .ok c)
    (h : CrdsaPrepareToTransmit t s ch = .ok (r, s2)) :
    ∃ tr, CrdsaPrepareToTransmitTrace t s ch = .ok tr ∧
      tr.attempts ≤ c.m_crdsaMaxUniquePayloadPerBlock ∧
      tr.randomizations ≤ tr.attempts ∧
      (r.resultType = .RA_CRDSA_TX_OPPORTUNITY ∨ r.resultType = .RA_DO_NOTHING) ∧
      (∀ p ∈ r.crdsaResult, p.1 = ch) ∧
      ((crdsaResultFind r.crdsaResult ch).getD ∅).card =
        tr.randomizations * toUint32 c.m_crdsaNumOfInstances ∧
      (r.resultType = .RA_CRDSA_TX_OPPORTUNITY ↔ 0 < tr.randomizations) ∧
      (1 ≤ c.m_crdsaNumOfInstances → c.m_crdsaNumOfInstances < 4294967296 →
        (r.resultType = .RA_CRDSA_TX_OPPORTUNITY ↔
          ((crdsaResultFind r.crdsaResult ch).getD ∅).Nonempty) ∧
        ((((crdsaResultFind r.crdsaResult ch).getD ∅).card : Nat) : Int) =
          (tr.randomizations : Int) * c.m_crdsaNumOfInstances) ∧
      (0 < c.m_crdsaIdleBlocksLeft →
        r = RandomAccessResults_s.doNothing ∧ tr.randomizations = 0) := by
  obtain ⟨tr, htr, ha, hra, -, -, -, hidle, hres⟩ :=
    CrdsaPrepareToTransmit_trace t s s2 ch c r hc h
  have htype := PreparedResult_resultType _ _ _ _ hres
  have hcard : ((crdsaResultFind r.crdsaResult ch).getD ∅).card =
      tr.randomizations * toUint32 c.m_crdsaNumOfInstances ∧
      (∀ p ∈ r.crdsaResult, p.1 = ch) ∧
      (r.resultType = .RA_CRDSA_TX_OPPORTUNITY ∨ r.resultType = .RA_DO_NOTHING) := by
    obtain ⟨-, hk⟩ := hres
    rcases hk with ⟨h0, ht, hnil⟩ | ⟨hk, ht, tx, htx, hcard⟩
    · simp [hnil, h0, ht, crdsaResultFind]
    · simp [htx, hcard, ht, crdsaResultFind, List.lookup]
  refine ⟨tr, htr, ha, hra, hcard.2.2, hcard.2.1, hcard.1, htype.1, ?_, hidle⟩
  intro h1 h2
  have hinst : ((toUint32 c.m_crdsaNumOfInstances : Nat) : Int) = c.m_crdsaNumOfInstances :=
    toUint32_of_range _ (by omega) h2
  have hpos : 0 < toUint32 c.m_crdsaNumOfInstances := by omega
  constructor
  · rw [htype.1, ← Finset.card_pos, hcard.1]
    constructor
    · intro hk; exact Nat.mul_pos hk hpos
    · intro hk
      by_contra hz
      have : tr.randomizations = 0 := by omega
      rw [this] at hk
      simp at hk
  · rw [hcard.1]
    push_cast
    rw [hinst]

/-- Witness for C29: on channel `0` of the example configuration, which allows two payloads
per block, the run makes two attempts and one randomization and returns the three slots
`0, 1, 79`. -/
theorem CrdsaPrepareToTransmit_slots_witness :
    CrdsaPrepareToTransmit (Instant.current 0)
        (SatRandomAccess.create exampleConf .RA_CRDSA exampleCrdsaDraws.tail) 0 =
      .ok ({ resultType := .RA_CRDSA_TX_OPPORTUNITY, slottedAlohaResult := none,
             crdsaResult := [(0, {0, 1, 79})] },
        withChannels (SatRandomAccess.create exampleConf .RA_CRDSA [])
          [{ exampleChannel with m_crdsaBackoffReleaseTime := 1 / 2 },
           { exampleChannel with m_crdsaIdleBlocksLeft := 3 }]) ∧
    CrdsaPrepareToTransmitTrace (Instant.current 0)
        (SatRandomAccess.create exampleConf .RA_CRDSA exampleCrdsaDraws.tail) 0 =
      .ok { attempts := 2, randomizations := 1, backoff := true } ∧
    ∃ tr : PrepareTrace, tr.attempts ≤ 2 ∧
      ((crdsaResultFind [(0, ({0, 1, 79} : Finset Nat))] 0).getD ∅).card =
        tr.randomizations * 3 := by
  have hrun : CrdsaPrepareToTransmit (Instant.current 0)
      (SatRandomAccess.create exampleConf .RA_CRDSA exampleCrdsaDraws.tail) 0 =
      .ok ({ resultType := .RA_CRDSA_TX_OPPORTUNITY, slottedAlohaResult := none,
             crdsaResult := [(0, {0, 1, 79})] },
        withChannels (SatRandomAccess.create exampleConf .RA_CRDSA [])
          [{ exampleChannel with m_crdsaBackoffReleaseTime := 1 / 2 },
           { exampleChannel with m_crdsaIdleBlocksLeft := 3 }]) := by decide!
  obtain ⟨tr, -, ha, -, -, -, hcard, -⟩ := CrdsaPrepareToTransmit_slots (Instant.current 0)
    (SatRandomAccess.create exampleConf .RA_CRDSA exampleCrdsaDraws.tail) _ 0 exampleChannel _
    rfl hrun
  exact ⟨hrun, by decide!, tr, ha, hcard⟩

theorem CompareCno_known (first second : UtInfoItem_t) (a b : ℚ)
    (ha : first.2.GetCnoEstimation = some a) (hb : second.2.GetCnoEstimation = some b) :
    CompareCno first second = decide (a < b) := by
  unfold CompareCno
  simp [ha, hb]

theorem CompareCno_unknown_left (first second : UtInfoItem_t)
    (h : first.2.GetCnoEstimation = none) : CompareCno first second = false := by
  unfold CompareCno
  simp [h]

theorem CompareCno_unknown_right (first second : UtInfoItem_t)
    (h : second.2.GetCnoEstimation = none) : CompareCno first second = false := by
  unfold CompareCno
  cases hf : first.2.GetCnoEstimation <;> simp [h]

/-- C31: the equivalence that `CompareCno` induces is not transitive once an unknown estimate
takes part: for two terminals with distinct known estimates `x`, `y` and a terminal `u` with
an unknown one, the first is equivalent to `u` and `u` to the second, but the two are not
equivalent to each other.  Among terminals with known estimates `CompareCno` is a strict weak
ordering: irreflexive, asymmetric, transitive, with a transitive equivalence, which is
equality of the estimates. -/
theorem CompareCno_not_strict_weak :
    (∀ (a b u : UtInfoItem_t) (x y : ℚ),
      a.2.GetCnoEstimation = some x → b.2.GetCnoEstimation = some y →
      u.2.GetCnoEstimation = none → x ≠ y →
        equivalentCno a u ∧ equivalentCno u b ∧ ¬ equivalentCno a b) ∧
    (∀ (a b c : UtInfoItem_t) (x y z : ℚ),
      a.2.GetCnoEstimation = some x → b.2.GetCnoEstimation = some y →
      c.2.GetCnoEstimation = some z →
        CompareCno a a = false ∧
        (CompareCno a b = true → CompareCno b a = false) ∧
        (CompareCno a b = true → CompareCno b c = true → CompareCno a c = true) ∧
        (equivalentCno a b → equivalentCno b c → equivalentCno a c) ∧
        (equivalentCno a b ↔ x = y)) := by
  constructor
  · intro a b u x y ha hb hu hxy
    refine ⟨⟨CompareCno_unknown_right a u hu, CompareCno_unknown_left u a hu⟩,
      ⟨CompareCno_unknown_left u b hu, CompareCno_unknown_right b u hu⟩, ?_⟩
    intro h
    unfold equivalentCno at h
    rw [CompareCno_known a b x y ha hb, CompareCno_known b a y x hb ha] at h
    simp only [decide_eq_false_iff_not, not_lt] at h
    exact hxy (le_antisymm h.2 h.1)
  · intro a b c x y z ha hb hc
    have hab := CompareCno_known a b x y ha hb
    have hba := CompareCno_known b a y x hb ha
    have hbc := CompareCno_known b c y z hb hc
    have hcb := CompareCno_known c b z y hc hb
    have hac := CompareCno_known a c x z ha hc
    have hca := CompareCno_known c a z x hc ha
    have haa := CompareCno_known a a x x ha ha
    unfold equivalentCno
    rw [hab, hba, hbc, hcb, hac, hca, haa]
    simp only [decide_eq_true_eq, decide_eq_false_iff_not, not_lt, lt_self_iff_false,
      decide_False, true_and]
    refine ⟨fun h => le_of_lt h, fun h1 h2 => lt_trans h1 h2, ?_, ?_⟩
    · intro h1 h2
      exact ⟨le_trans h2.1 h1.1, le_trans h1.2 h2.2⟩
    · constructor
      · intro h; exact le_antisymm h.2 h.1
      · intro h; exact ⟨h.ge, h.le⟩

/-- Witness for C31: terminals with the estimates `3`, `4` and unknown, and a second terminal
with the estimate `3`. -/
theorem CompareCno_not_strict_weak_witness :
    equivalentCno (exampleUt 1 [3]) (exampleUt 3 []) ∧
    equivalentCno (exampleUt 3 []) (exampleUt 2 [4]) ∧
    ¬ equivalentCno (exampleUt 1 [3]) (exampleUt 2 [4]) ∧
    (equivalentCno (exampleUt 1 [3]) (exampleUt 4 [3]) ↔ (3 : ℚ) = 3) :=
  ⟨(CompareCno_not_strict_weak.1 (exampleUt 1 [3]) (exampleUt 2 [4]) (exampleUt 3 []) 3 4
      rfl rfl rfl (by norm_num)).1,
   (CompareCno_not_strict_weak.1 (exampleUt 1 [3]) (exampleUt 2 [4]) (exampleUt 3 []) 3 4
      rfl rfl rfl (by norm_num)).2.1,
   (CompareCno_not_strict_weak.1 (exampleUt 1 [3]) (exampleUt 2 [4]) (exampleUt 3 []) 3 4
      rfl rfl rfl (by norm_num)).2.2,
   (CompareCno_not_strict_weak.2 (exampleUt 1 [3]) (exampleUt 4 [3]) (exampleUt 2 [4]) 3 3 4
      rfl rfl rfl).2.2.2.2⟩

theorem foldl_updateUtInfo_mem (g : SatUtInfo → SatUtInfo) (P : SatUtInfo → Prop)
    (hg : ∀ u, P (g u)) :
    ∀ (keys : List Address) (s : SatBeamScheduler),
      ∀ item ∈ (keys.foldl (fun s utId => updateUtInfo s utId g) s).m_utSortedInfos,
        item.1 ∈ keys → P item.2 := by
  intro keys
  induction keys using List.reverseRecOn with
  | nil => intro s item _ hk; simp at hk
  | append_singleton keys k ih =>
    intro s item hitem hk
    rw [List.foldl_append] at hitem
    simp only [List.foldl_cons, List.foldl_nil, updateUtInfo, List.mem_map] at hitem
    obtain ⟨old, hold, heq⟩ := hitem
    by_cases ha : old.1 = k
    · rw [if_pos ha] at heq
      rw [← heq]
      exact hg _
    · rw [if_neg ha] at heq
      subst heq
      refine ih s old hold ?_
      rcases List.mem_append.mp hk with h | h
      · exact h
      · simp only [List.mem_singleton] at h
        exact absurd h ha

theorem UpdateDamaEntries_queues (s : SatBeamScheduler) :
    ∀ item ∈ (UpdateDamaEntries s).m_utSortedInfos,
      item.1 ∈ s.m_utInfos → item.2.m_crContainer = [] := by
  unfold UpdateDamaEntries
  exact foldl_updateUtInfo_mem _ (fun u => u.m_crContainer = []) (fun u => rfl) s.m_utInfos s

theorem applyInOrder_eq_foldl :
    ∀ (descriptors : List ((Nat × SatCapacityAllocationCategory_t) × Nat))
      (damaEntry : SatDamaEntry),
      applyInOrder damaEntry descriptors = descriptors.foldl applyDescriptor damaEntry := by
  intro descriptors
  induction descriptors with
  | nil => intro e; rfl
  | cons d ds ih =>
    intro e
    obtain ⟨⟨i, ty⟩, v⟩ := d
    cases ty <;> simp only [applyInOrder, List.foldl_cons, applyDescriptor, ih]

theorem foldl_requests_flatten :
    ∀ (queue : List SatCrMessage) (damaEntry : SatDamaEntry),
      queue.foldl (fun damaEntry crMsg => crMsg.m_requestData.foldl applyDescriptor damaEntry)
        damaEntry =
      (queuedDescriptors queue).foldl applyDescriptor damaEntry := by
  intro queue
  induction queue with
  | nil => intro e; rfl
  | cons m ms ih =>
    intro e
    simp only [List.foldl_cons, queuedDescriptors, List.map_cons, List.flatten_cons,
      List.foldl_append]
    exact ih _

/-- C32: `UpdateDamaEntriesFromCrs` leaves the demand entry that results from applying the
descriptors of the queued requests one after the other, requests in arrival order and the
descriptors of a request in their listed order, each through the update of its type with its
RC index and value, a descriptor of another type changing nothing.  Afterwards the queue is
empty and the estimator is untouched, so a second run changes nothing; and after the
`UpdateDamaEntries` step of a cycle the queue of every registered terminal is empty. -/
theorem UpdateDamaEntriesFromCrs_in_order (u : SatUtInfo) (s : SatBeamScheduler) :
    u.UpdateDamaEntriesFromCrs.m_damaEntry =
      applyInOrder u.m_damaEntry (queuedDescriptors u.m_crContainer) ∧
    (∀ (crMsg : SatCrMessage) (rest : List SatCrMessage),
      queuedDescriptors (crMsg :: rest) = crMsg.m_requestData ++ queuedDescriptors rest) ∧
    u.UpdateDamaEntriesFromCrs.m_crContainer = [] ∧
    u.UpdateDamaEntriesFromCrs.m_cnoEstimator = u.m_cnoEstimator ∧
    u.UpdateDamaEntriesFromCrs.UpdateDamaEntriesFromCrs = u.UpdateDamaEntriesFromCrs ∧
    (∀ item ∈ (UpdateDamaEntries s).m_utSortedInfos,
      item.1 ∈ s.m_utInfos → item.2.m_crContainer = []) := by
  refine ⟨?_, fun crMsg rest => rfl, rfl, rfl, ?_, UpdateDamaEntries_queues s⟩
  · rw [applyInOrder_eq_foldl]
    simp only [SatUtInfo.UpdateDamaEntriesFromCrs]
    exact foldl_requests_flatten _ _
  · simp only [SatUtInfo.UpdateDamaEntriesFromCrs, List.foldl_nil]

/-- Witness for C32: a terminal with two queued requests, and the scheduler with the terminal
`42` after one received request. -/
theorem UpdateDamaEntriesFromCrs_in_order_witness :
    exampleQueuedUt.UpdateDamaEntriesFromCrs.m_damaEntry =
      applyInOrder exampleQueuedUt.m_damaEntry
        [((0, .DA_RBDC), 64), ((0, .DA_VBDC), 100), ((0, .DA_AVBDC), 7), ((0, .DA_CRA), 9)] ∧
    exampleQueuedUt.UpdateDamaEntriesFromCrs.m_crContainer = [] ∧
    (∀ item ∈ (UpdateDamaEntries (UtCrReceived exampleOneUt 42 exampleCrMessage).2).m_utSortedInfos,
      item.1 ∈ (UtCrReceived exampleOneUt 42 exampleCrMessage).2.m_utInfos →
        item.2.m_crContainer = []) :=
  ⟨(UpdateDamaEntriesFromCrs_in_order exampleQueuedUt
      (UtCrReceived exampleOneUt 42 exampleCrMessage).2).1,
   (UpdateDamaEntriesFromCrs_in_order exampleQueuedUt
      (UtCrReceived exampleOneUt 42 exampleCrMessage).2).2.2.1,
   (UpdateDamaEntriesFromCrs_in_order exampleQueuedUt
      (UtCrReceived exampleOneUt 42 exampleCrMessage).2).2.2.2.2.2⟩

theorem updateUtInfo_getElem (s : SatBeamScheduler) (utId : Address) (f : SatUtInfo → SatUtInfo)
    (i : Nat) :
    (updateUtInfo s utId f).m_utSortedInfos[i]? =
      (s.m_utSortedInfos[i]?).map
        (fun item => if item.1 = utId then (item.1, f item.2) else item) := by
  simp only [updateUtInfo, List.getElem?_map]

theorem UtCrReceived_registered (s : SatBeamScheduler) (utId : Address) (crMsg : SatCrMessage)
    (h : utId ∈ s.m_utInfos) :
    UtCrReceived s utId crMsg = (.ok (), updateUtInfo s utId (fun u => u.AddCrMsg crMsg)) := by
  simp only [UtCrReceived, if_pos h]

theorem UtCrReceivedAll_getElem (utId : Address) :
    ∀ (crMsgs : List SatCrMessage) (s : SatBeamScheduler), utId ∈ s.m_utInfos →
      (UtCrReceivedAll s utId crMsgs).m_utInfos = s.m_utInfos ∧
      ∀ i : Nat, (UtCrReceivedAll s utId crMsgs).m_utSortedInfos[i]? =
        (s.m_utSortedInfos[i]?).map (fun item : UtInfoItem_t =>
          if item.1 = utId then
            (item.1, { item.2 with m_crContainer := item.2.m_crContainer ++ crMsgs })
          else item) := by
  intro crMsgs
  induction crMsgs with
  | nil =>
    intro s _
    refine ⟨rfl, fun i => ?_⟩
    simp only [UtCrReceivedAll, List.foldl_nil, List.append_nil]
    cases s.m_utSortedInfos[i]? with
    | none => rfl
    | some item => simp
  | cons m ms ih =>
    intro s h
    have hstep : UtCrReceivedAll s utId (m :: ms) =
        UtCrReceivedAll (updateUtInfo s utId (fun u => u.AddCrMsg m)) utId ms := by
      simp only [UtCrReceivedAll, List.foldl_cons, UtCrReceived_registered s utId m h]
    have hreg : utId ∈ (updateUtInfo s utId (fun u => u.AddCrMsg m)).m_utInfos := h
    obtain ⟨h1, h2⟩ := ih _ hreg
    rw [hstep]
    refine ⟨h1, fun i => ?_⟩
    rw [h2 i, updateUtInfo_getElem]
    cases s.m_utSortedInfos[i]? with
    | none => rfl
    | some item =>
      simp only [Option.map_some']
      by_cases ha : item.1 = utId
      · simp [ha, SatUtInfo.AddCrMsg, List.append_assoc]
      · simp [ha]

/-- C33: `UtCrReceived` for a registered terminal succeeds and appends the message at the end
of the request queue of that terminal; the registry and the addresses of the ranked list in
their order stay as they are, and so do every demand entry, every estimator and the queue of
every other terminal.  Hence after the calls for the messages `crMsgs` the queue of the
terminal is the old queue followed by `crMsgs` in arrival order. -/
theorem UtCrReceived_appends (s : SatBeamScheduler) (utId : Address) (crMsg : SatCrMessage)
    (h : utId ∈ s.m_utInfos) :
    (UtCrReceived s utId crMsg).1 = .ok () ∧
    (UtCrReceived s utId crMsg).2.m_utInfos = s.m_utInfos ∧
    (UtCrReceived s utId crMsg).2.m_utSortedInfos.map Prod.fst =
      s.m_utSortedInfos.map Prod.fst ∧
    (∀ (i : Nat) (item : UtInfoItem_t), s.m_utSortedInfos[i]? = some item →
      ∃ item2, (UtCrReceived s utId crMsg).2.m_utSortedInfos[i]? = some item2 ∧
        item2.1 = item.1 ∧
        item2.2.m_damaEntry = item.2.m_damaEntry ∧
        item2.2.m_cnoEstimator = item.2.m_cnoEstimator ∧
        (item.1 = utId → item2.2.m_crContainer = item.2.m_crContainer ++ [crMsg]) ∧
        (item.1 ≠ utId → item2.2.m_crContainer = item.2.m_crContainer)) ∧
    (∀ (crMsgs : List SatCrMessage) (i : Nat) (item : UtInfoItem_t),
      s.m_utSortedInfos[i]? = some item →
      item.1 = utId →
      ∃ item2, (UtCrReceivedAll s utId crMsgs).m_utSortedInfos[i]? = some item2 ∧
        item2.2.m_crContainer = item.2.m_crContainer ++ crMsgs) := by
  have heq := UtCrReceived_registered s utId crMsg h
  have hf := updateUtInfo_fields s utId (fun u => u.AddCrMsg crMsg)
  rw [heq]
  refine ⟨rfl, hf.2.2.1, hf.2.2.2.2, ?_, ?_⟩
  · intro i item hi
    by_cases ha : item.1 = utId
    · refine ⟨(item.1, item.2.AddCrMsg crMsg), ?_, rfl, rfl, rfl, fun _ => rfl,
        fun hne => absurd ha hne⟩
      show (updateUtInfo s utId _).m_utSortedInfos[i]? = _
      rw [updateUtInfo_getElem, hi]
      simp [ha]
    · refine ⟨item, ?_, rfl, rfl, rfl, fun he => absurd he ha, fun _ => rfl⟩
      show (updateUtInfo s utId _).m_utSortedInfos[i]? = _
      rw [updateUtInfo_getElem, hi]
      simp [ha]
  · intro crMsgs i item hi ha
    refine ⟨(item.1, { item.2 with m_crContainer := item.2.m_crContainer ++ crMsgs }), ?_, rfl⟩
    rw [(UtCrReceivedAll_getElem utId crMsgs s h).2 i, hi]
    simp only [Option.map_some', ha, if_true]

/-- Witness for C33: the message `exampleCrMessage` for the registered terminal `42`. -/
theorem UtCrReceived_appends_witness :
    (UtCrReceived exampleOneUt 42 exampleCrMessage).1 = .ok () ∧
    (UtCrReceived exampleOneUt 42 exampleCrMessage).2.m_utInfos = exampleOneUt.m_utInfos ∧
    (UtCrReceived exampleOneUt 42 exampleCrMessage).2.m_utSortedInfos.map Prod.fst =
      exampleOneUt.m_utSortedInfos.map Prod.fst :=
  ⟨(UtCrReceived_appends exampleOneUt 42 exampleCrMessage (by decide)).1,
   (UtCrReceived_appends exampleOneUt 42 exampleCrMessage (by decide)).2.1,
   (UtCrReceived_appends exampleOneUt 42 exampleCrMessage (by decide)).2.2.1⟩

theorem AddUt_lists (s : SatBeamScheduler) (utId : Address) (llsConf : SatLowerLayerServiceConf) :
    ((AddUt s utId llsConf).2.m_utInfos = s.m_utInfos ∧
      (AddUt s utId llsConf).2.m_utSortedInfos = s.m_utSortedInfos ∧
      ∀ i, (AddUt s utId llsConf).1 ≠ .ok i) ∨
    (utId ∉ s.m_utInfos ∧
      (AddUt s utId llsConf).2.m_utInfos = s.m_utInfos.orderedInsert (fun a b => a ≤ b) utId ∧
      ∃ info : SatUtInfo, info.m_crContainer = [] ∧
        info.m_damaEntry = SatDamaEntry.create llsConf ∧
        (AddUt s utId llsConf).2.m_utSortedInfos = s.m_utSortedInfos ++ [(utId, info)]) := by
  have hinfo : ∀ est : SatCnoEstimator,
      ({ m_damaEntry := SatDamaEntry.create llsConf, m_cnoEstimator := est,
         m_crContainer := [] } : SatUtInfo).m_crContainer = [] := fun _ => rfl
  unfold AddUt
  cases hest : CreateCnoEstimator s with
  | error e => left; simp
  | ok est =>
    by_cases hmem : utId ∈ s.m_utInfos
    · left; simp [hmem]
    · right
      refine ⟨hmem, ?_⟩
      cases hrv : s.m_raChRandomIndex with
      | none =>
        simp only [if_neg hmem, hrv]
        exact ⟨trivial, _, hinfo est, rfl, rfl⟩
      | some rv =>
        cases hd : rv.m_draws with
        | nil =>
          simp only [if_neg hmem, hrv, hd]
          exact ⟨trivial, _, hinfo est, rfl, rfl⟩
        | cons d ds =>
          simp only [if_neg hmem, hrv, hd]
          exact ⟨trivial, _, hinfo est, rfl, rfl⟩

theorem Schedule_lists (now : Int) (seq : SatSuperframeSeq) (fmt : SatTbtpFormat)
    (frameAllocator : SatFrameAllocator) (s : SatBeamScheduler) :
    (Schedule now seq fmt frameAllocator s).2.1.m_utInfos = s.m_utInfos ∧
    (Schedule now seq fmt frameAllocator s).2.1.m_utSortedInfos.Perm
      (UpdateDamaEntries s).m_utSortedInfos := by
  by_cases h : s.m_utInfos = []
  · have hlen : ¬ s.m_utInfos.length > 0 := by simp [h]
    have hup : UpdateDamaEntries s = s := by
      simp [UpdateDamaEntries, h]
    have hS : Schedule now seq fmt frameAllocator s =
        (.ok (), s, [SchedulerEffect.SimulatorSchedule
          (now + seq.GetDuration s.m_currentSequence)]) := by
      simp only [Schedule, if_neg hlen]
    rw [hS, hup]
    exact ⟨rfl, List.Perm.refl _⟩
  · obtain ⟨s2, tbtps, heq, -, -, -, -, hreg, hsorted⟩ :=
      Schedule_with_terminals now seq fmt frameAllocator s h
    rw [heq]
    refine ⟨hreg, ?_⟩
    show s2.m_utSortedInfos.Perm _
    rw [hsorted]
    have hne : (UpdateDamaEntries s).m_utInfos ≠ [] := by
      rw [(UpdateDamaEntries_fields s).2.2.1]; exact h
    rw [(DoPreResourceAllocation_effects _ hne).2]
    exact listSort_perm _ _

theorem Reachable_sameAddresses (s : SatBeamScheduler) (h : s.Reachable) : s.sameAddresses := by
  induction h with
  | created mode window d1 d2 seqId =>
    exact ⟨List.Perm.refl _, List.nodup_nil⟩
  | initialized clock s beamId seq maxSize draws _ ih =>
    have h1 : (Initialize clock s beamId seq maxSize draws).2.1.m_utInfos = s.m_utInfos := by
      unfold Initialize; simp only []; split_ifs <;> rfl
    have h2 : (Initialize clock s beamId seq maxSize draws).2.1.m_utSortedInfos =
        s.m_utSortedInfos := by
      unfold Initialize; simp only []; split_ifs <;> rfl
    unfold SatBeamScheduler.sameAddresses
    rw [h1, h2]; exact ih
  | added s utId llsConf _ ih =>
    unfold SatBeamScheduler.sameAddresses at ih ⊢
    rcases AddUt_lists s utId llsConf with ⟨h1, h2, -⟩ | ⟨hfresh, h1, info, -, -, h2⟩
    · rw [h1, h2]; exact ih
    · rw [h1, h2]
      have hperm := List.perm_orderedInsert (fun a b : Address => a ≤ b) utId s.m_utInfos
      constructor
      · rw [List.map_append]
        refine List.Perm.trans ?_ hperm.symm
        refine List.Perm.trans (List.perm_append_comm) ?_
        exact List.Perm.cons utId ih.1
      · exact (hperm.nodup_iff).mpr (List.nodup_cons.mpr ⟨hfresh, ih.2⟩)
  | cnoUpdated s utId cno _ ih =>
    unfold SatBeamScheduler.sameAddresses at ih ⊢
    unfold UpdateUtCno
    split_ifs
    · have hf := updateUtInfo_fields s utId (fun u => u.AddCnoSample cno)
      simp only []
      rw [hf.2.2.1, hf.2.2.2.2]; exact ih
    · exact ih
  | crReceived s utId crMsg _ ih =>
    unfold SatBeamScheduler.sameAddresses at ih ⊢
    unfold UtCrReceived
    split_ifs
    · have hf := updateUtInfo_fields s utId (fun u => u.AddCrMsg crMsg)
      simp only []
      rw [hf.2.2.1, hf.2.2.2.2]; exact ih
    · exact ih
  | scheduled now seq fmt frameAllocator s _ ih =>
    unfold SatBeamScheduler.sameAddresses at ih ⊢
    obtain ⟨h1, h2⟩ := Schedule_lists now seq fmt frameAllocator s
    rw [h1]
    refine ⟨?_, ih.2⟩
    refine List.Perm.trans (h2.map Prod.fst) ?_
    rw [(UpdateDamaEntries_fields s).2.2.2.2]
    exact ih.1

/-- C34: a successful `AddUt (a)` finds `a` unregistered, registers it, and appends it with
an empty request queue and a fresh demand entry at the end of the ranked list, whose earlier
elements keep their order.  In every reachable state the addresses of the ranked list are a
permutation of the registry, no address occurs twice in either, and an address is registered
exactly when it is ranked.  The ranking step `DoPreResourceAllocation` only permutes the
ranked list and leaves the registry as it is. -/
theorem AddUt_ranked_last_same_addresses :
    (∀ (s : SatBeamScheduler) (utId : Address) (llsConf : SatLowerLayerServiceConf) (i : Nat),
      (AddUt s utId llsConf).1 = .ok i →
        utId ∉ s.m_utInfos ∧
        (∀ a, a ∈ (AddUt s utId llsConf).2.m_utInfos ↔ a = utId ∨ a ∈ s.m_utInfos) ∧
        ∃ info : SatUtInfo, info.m_crContainer = [] ∧
          info.m_damaEntry = SatDamaEntry.create llsConf ∧
          (AddUt s utId llsConf).2.m_utSortedInfos = s.m_utSortedInfos ++ [(utId, info)]) ∧
    (∀ s : SatBeamScheduler, s.Reachable →
      (s.m_utSortedInfos.map Prod.fst).Perm s.m_utInfos ∧
      s.m_utInfos.Nodup ∧
      (s.m_utSortedInfos.map Prod.fst).Nodup ∧
      ∀ a, a ∈ s.m_utInfos ↔ a ∈ s.m_utSortedInfos.map Prod.fst) ∧
    (∀ s : SatBeamScheduler,
      (DoPreResourceAllocation s).1.m_utSortedInfos.Perm s.m_utSortedInfos ∧
      (DoPreResourceAllocation s).1.m_utInfos = s.m_utInfos) := by
  refine ⟨?_, ?_, ?_⟩
  · intro s utId llsConf i hok
    rcases AddUt_lists s utId llsConf with ⟨-, -, hne⟩ | ⟨hfresh, h1, info, hq, hd, h2⟩
    · exact absurd hok (hne i)
    · refine ⟨hfresh, fun a => ?_, info, hq, hd, h2⟩
      rw [h1, List.mem_orderedInsert]
  · intro s hs
    obtain ⟨hperm, hnodup⟩ := Reachable_sameAddresses s hs
    exact ⟨hperm, hnodup, hperm.nodup_iff.mpr hnodup, fun a => (hperm.mem_iff).symm⟩
  · intro s
    refine ⟨?_, (DoPreResourceAllocation_fields s).2.2.1⟩
    by_cases h : s.m_utInfos = []
    · have hlen : ¬ s.m_utInfos.length > 0 := by simp [h]
      simp only [DoPreResourceAllocation, if_neg hlen]
      exact List.Perm.refl _
    · rw [(DoPreResourceAllocation_effects s h).2]
      exact listSort_perm _ _

/-- Witness for C34: the registration of the terminal `42` with the initialized example
scheduler. -/
theorem AddUt_ranked_last_same_addresses_witness :
    (∃ info : SatUtInfo, info.m_crContainer = [] ∧
      exampleOneUt.m_utSortedInfos = exampleInitialized.m_utSortedInfos ++ [(42, info)]) ∧
    (exampleOneUt.m_utSortedInfos.map Prod.fst).Perm exampleOneUt.m_utInfos ∧
    exampleOneUt.m_utInfos.Nodup := by
  have hreach : exampleOneUt.Reachable :=
    SatBeamScheduler.Reachable.added exampleInitialized 42 exampleLlsConf
      (SatBeamScheduler.Reachable.initialized exampleClock exampleScheduler 7 exampleSeq 50
        [Draw.half, Draw.half] (SatBeamScheduler.Reachable.created .LAST 1000 560 100 0))
  have h := AddUt_ranked_last_same_addresses
  obtain ⟨-, -, info, hq, -, hlist⟩ := h.1 exampleInitialized 42 exampleLlsConf 1 (by decide)
  exact ⟨⟨info, hq, hlist⟩, (h.2.1 exampleOneUt hreach).1, (h.2.1 exampleOneUt hreach).2.1⟩

theorem Initialize_counter (clock : SatRtnLinkTime) (s : SatBeamScheduler) (beamId : Nat)
    (seq : SatSuperframeSeq) (maxFrameSizeInBytes : Nat) (draws : List Draw) :
    (Initialize clock s beamId seq maxFrameSizeInBytes draws).2.1.m_superFrameCounter =
      (clock.GetNextSuperFrameCount s.m_currentSequence +
        toUint32 (Int.tdiv s.totalDelay (seq.GetDuration 0) + 1)) % 4294967296 := by
  unfold Initialize SatBeamScheduler.totalDelay
  simp only []
  split_ifs <;> rfl

/-- Counterexample to C35 as stated: with delays of 500 and 100 and superframes of 100 the
total delay 600 is six whole superframes, so the least `n` with `n × 100 ≥ 600` is `6`, yet
`Initialize` adds `7` to the next superframe count `5`. -/
theorem Initialize_adds_one_superframe_more :
    (SatBeamScheduler.create .LAST 1000 500 100 0).totalDelay = 600 ∧
    exampleSeq.GetDuration 0 = 100 ∧
    ((600 : Int) ≤ 6 * 100 ∧ ∀ m : Nat, (600 : Int) ≤ m * 100 → 6 ≤ m) ∧
    exampleClock.GetNextSuperFrameCount 0 = 5 ∧
    (Initialize exampleClock (SatBeamScheduler.create .LAST 1000 500 100 0) 7 exampleSeq 50
      []).2.1.m_superFrameCounter = 5 + 7 := by
  refine ⟨by decide, rfl, ⟨by decide, fun m hm => by omega⟩, rfl, by decide⟩

/-- C35 (amended): for a total delay that is not negative, a positive superframe duration and
a quotient that fits `uint32_t`, the offset `n` that `Initialize` adds to the next superframe
count is the whole quotient of the total delay by the duration plus one, that is the least
`n` with `n × duration > total delay`.  It is the total delay rounded up to whole
superframes exactly when the duration does not divide the total delay; when it does, the
offset is one superframe more than the total delay. -/
theorem Initialize_offset (clock : SatRtnLinkTime) (s : SatBeamScheduler) (beamId : Nat)
    (seq : SatSuperframeSeq) (maxFrameSizeInBytes : Nat) (draws : List Draw)
    (hdelay : 0 ≤ s.totalDelay) (hdur : 0 < seq.GetDuration 0)
    (hfit : s.totalDelay / seq.GetDuration 0 + 1 < 4294967296) :
    ∃ n : Nat,
      (Initialize clock s beamId seq maxFrameSizeInBytes draws).2.1.m_superFrameCounter =
        (clock.GetNextSuperFrameCount s.m_currentSequence + n) % 4294967296 ∧
      (n : Int) = s.totalDelay / seq.GetDuration 0 + 1 ∧
      s.totalDelay < n * seq.GetDuration 0 ∧
      (∀ m : Nat, s.totalDelay < m * seq.GetDuration 0 → n ≤ m) ∧
      (¬ seq.GetDuration 0 ∣ s.totalDelay →
        ∀ m : Nat, s.totalDelay ≤ m * seq.GetDuration 0 → n ≤ m) ∧
      (seq.GetDuration 0 ∣ s.totalDelay →
        s.totalDelay = (n - 1 : Int) * seq.GetDuration 0) := by
  have hq : 0 ≤ s.totalDelay / seq.GetDuration 0 := Int.ediv_nonneg hdelay hdur.le
  have ht : Int.tdiv s.totalDelay (seq.GetDuration 0) = s.totalDelay / seq.GetDuration 0 :=
    Int.tdiv_eq_ediv hdelay hdur.le
  have hn : ((toUint32 (s.totalDelay / seq.GetDuration 0 + 1) : Nat) : Int) =
      s.totalDelay / seq.GetDuration 0 + 1 := toUint32_of_range _ (by omega) hfit
  have hlt : s.totalDelay < (s.totalDelay / seq.GetDuration 0 + 1) * seq.GetDuration 0 :=
    Int.lt_ediv_add_one_mul_self _ hdur
  refine ⟨toUint32 (s.totalDelay / seq.GetDuration 0 + 1), ?_, hn, ?_, ?_, ?_, ?_⟩
  · rw [Initialize_counter, ht]
  · rw [hn]; exact hlt
  · intro m hm
    have : s.totalDelay / seq.GetDuration 0 < m := Int.ediv_lt_of_lt_mul hdur hm
    have h2 : ((toUint32 (s.totalDelay / seq.GetDuration 0 + 1) : Nat) : Int) ≤ m := by
      rw [hn]; omega
    exact_mod_cast h2
  · intro hndvd m hm
    have hne : s.totalDelay ≠ m * seq.GetDuration 0 := by
      intro he
      exact hndvd ⟨m, by rw [he]; ring⟩
    have hm2 : s.totalDelay < m * seq.GetDuration 0 := lt_of_le_of_ne hm hne
    have : s.totalDelay / seq.GetDuration 0 < m := Int.ediv_lt_of_lt_mul hdur hm2
    have h2 : ((toUint32 (s.totalDelay / seq.GetDuration 0 + 1) : Nat) : Int) ≤ m := by
      rw [hn]; omega
    exact_mod_cast h2
  · intro hdvd
    rw [hn]
    have := Int.ediv_mul_cancel hdvd
    rw [add_sub_cancel_right]
    exact this.symm

/-- Witness for C35: the example scheduler with a total delay of 660 and superframes of 100,
where the offset `7` is the delay rounded up. -/
theorem Initialize_offset_witness :
    ∃ n : Nat,
      (Initialize exampleClock exampleScheduler 7 exampleSeq 50 []).2.1.m_superFrameCounter =
        (5 + n) % 4294967296 ∧
      (n : Int) = 660 / 100 + 1 ∧ (660 : Int) < n * 100 ∧
      (∀ m : Nat, (660 : Int) ≤ m * 100 → n ≤ m) := by
  obtain ⟨n, h1, h2, h3, -, h5, -⟩ := Initialize_offset exampleClock exampleScheduler 7
    exampleSeq 50 [] (by decide) (by decide) (by decide)
  exact ⟨n, h1, h2, h3, h5 (by decide)⟩

theorem DoCrdsaVariableSanityCheck_ok_iff (c : SatRandomAccessAllocationChannel) :
    DoCrdsaVariableSanityCheck c = .ok () ↔ c.passesSanity := by
  unfold DoCrdsaVariableSanityCheck SatRandomAccessAllocationChannel.passesSanity
    SpecSevenConditions
  split_ifs with h1 h2 h3 h4 h5 h6 h7
  case neg =>
    push_neg at h1 h2 h3 h4 h5 h6 h7
    simp only [true_iff]
    exact ⟨h3, h1.1, h1.2, h2, h4, h5, ⟨h6.1, h6.2⟩, ⟨h7.1, h7.2⟩⟩
  all_goals
    simp only [reduceCtorEq, false_iff]
    rintro ⟨a10, a1, a2, a3, a4, a5, ⟨a6, a7⟩, ⟨a8, a9⟩⟩
    first
      | omega
      | linarith
      | (rcases h6 with h6 | h6 <;> linarith)
      | (rcases h7 with h7 | h7 <;> linarith)

theorem createAllocationChannel_passesSanity (entry : SatLowerLayerServiceRaEntry) :
    (createAllocationChannel entry).passesSanity ↔ entryAccepted entry := by
  have hp := createAllocationChannel_probability entry
  unfold SatRandomAccessAllocationChannel.passesSanity SpecSevenConditions entryAccepted
  rw [hp]
  simp only [createAllocationChannel]
  have hr0 : (0 : ℚ) ≤ ((entry.m_backOffProbability : ℚ) - 1) / 65534 ↔
      1 ≤ entry.m_backOffProbability := by
    rw [le_div_iff₀ (by norm_num : (0 : ℚ) < 65534), zero_mul, sub_nonneg]
    exact_mod_cast Iff.rfl
  have hr1 : ((entry.m_backOffProbability : ℚ) - 1) / 65534 ≤ 1 ↔
      entry.m_backOffProbability ≤ 65535 := by
    rw [div_le_iff₀ (by norm_num : (0 : ℚ) < 65534), one_mul, sub_le_iff_le_add]
    norm_num
  rw [hr0, hr1]
  have hbt : (0 : ℚ) ≤ (entry.m_backOffTimeInMilliSeconds : ℚ) := Nat.cast_nonneg _
  constructor
  · rintro ⟨a1, -, -, -, a4, -, ⟨a6, a7⟩, -⟩
    refine ⟨⟨by exact_mod_cast a1, ?_⟩, ⟨a6, a7⟩, hbt⟩
    have : (entry.m_numberOfInstances : Int) ≤ 79 - 0 := a4
    omega
  · rintro ⟨⟨a1, a2⟩, ⟨a6, a7⟩, -⟩
    refine ⟨by exact_mod_cast a1, le_refl _, by norm_num, by norm_num, ?_, hbt, ⟨a6, a7⟩,
      by norm_num, by norm_num⟩
    show (entry.m_numberOfInstances : Int) ≤ 79 - 0
    omega

theorem createAllocationChannels_ok_iff :
    ∀ entries : List SatLowerLayerServiceRaEntry,
      (∃ channels, createAllocationChannels entries = .ok channels) ↔
        ∀ entry ∈ entries, entryAccepted entry := by
  intro entries
  induction entries with
  | nil => simp [createAllocationChannels, pure, Except.pure]
  | cons e rest ih =>
    have he : DoCrdsaVariableSanityCheck (createAllocationChannel e) = .ok () ↔
        entryAccepted e := by
      rw [DoCrdsaVariableSanityCheck_ok_iff, createAllocationChannel_passesSanity]
    simp only [List.mem_cons, forall_eq_or_imp, ← ih, ← he]
    simp only [createAllocationChannels, bind, Except.bind, pure, Except.pure]
    cases h1 : DoCrdsaVariableSanityCheck (createAllocationChannel e) with
    | error err => simp
    | ok u =>
      cases h2 : createAllocationChannels rest with
      | error err => simp
      | ok channels => simp

theorem SatRandomAccessConf_create_ok_iff (llsConf : SatLowerLayerServiceConf) :
    (∃ conf, SatRandomAccessConf.create llsConf = .ok conf) ↔
      1 ≤ llsConf.m_raServiceEntries.length ∧
      1 ≤ llsConf.m_defaultControlRandomizationInterval ∧
      ∀ entry ∈ llsConf.m_raServiceEntries, entryAccepted entry := by
  rw [← createAllocationChannels_ok_iff]
  simp only [SatRandomAccessConf.create, DoSlottedAlohaVariableSanityCheck, bind, Except.bind,
    pure, Except.pure]
  by_cases hn : llsConf.m_raServiceEntries.length < 1
  · simp only [if_pos hn]
    constructor
    · rintro ⟨conf, h⟩; cases h
    · rintro ⟨h, -⟩; omega
  · simp only [if_neg hn]
    by_cases hi : llsConf.m_defaultControlRandomizationInterval < 1
    · simp only [if_pos hi]
      constructor
      · rintro ⟨conf, h⟩; cases h
      · rintro ⟨-, h, -⟩; omega
    · simp only [if_neg hi]
      cases h2 : createAllocationChannels llsConf.m_raServiceEntries with
      | error err =>
        constructor
        · rintro ⟨conf, h⟩; cases h
        · rintro ⟨-, -, channels, h⟩; cases h
      | ok channels =>
        constructor
        · intro _; exact ⟨by omega, by omega, channels, rfl⟩
        · intro _; exact ⟨_, rfl⟩

theorem SatRandomAccessConf_create_passesSanity (llsConf : SatLowerLayerServiceConf)
    (conf : SatRandomAccessConf) (h : SatRandomAccessConf.create llsConf = .ok conf) :
    ∀ c ∈ conf.m_allocationChannelConf, c.passesSanity := by
  have hall := ((SatRandomAccessConf_create_ok_iff llsConf).mp ⟨conf, h⟩).2.2
  rw [SatRandomAccessConf_create_channels llsConf conf h]
  intro c hc
  obtain ⟨entry, he, rfl⟩ := List.mem_map.mp hc
  exact (createAllocationChannel_passesSanity entry).mpr (hall entry he)

theorem updateChannel_ok (s s1 : SatRandomAccess) (ch : Nat)
    (f : SatRandomAccessAllocationChannel → SatRandomAccessAllocationChannel)
    (h : updateChannel s ch f = .ok s1) :
    ∃ c, GetAllocationChannelConfiguration s.m_randomAccessConf ch = .ok c ∧
      s1 = withChannel s ch (f c) := by
  cases hc : GetAllocationChannelConfiguration s.m_randomAccessConf ch with
  | error e =>
    simp [updateChannel, hc, bind, Except.bind] at h
  | ok c =>
    rw [updateChannel_eq s ch c f hc] at h
    exact ⟨c, rfl, (Except.ok.inj h).symm⟩

theorem withChannel_passesSanity (s : SatRandomAccess) (ch : Nat)
    (c : SatRandomAccessAllocationChannel)
    (hs : ∀ c ∈ s.m_randomAccessConf.m_allocationChannelConf, c.passesSanity)
    (hc : c.passesSanity) :
    ∀ c2 ∈ (withChannel s ch c).m_randomAccessConf.m_allocationChannelConf, c2.passesSanity := by
  intro c2 h2
  simp only [withChannel, withChannels] at h2
  rcases List.mem_or_eq_of_mem_set h2 with h | h
  · exact hs c2 h
  · rw [h]; exact hc

theorem setter_tail (s s2 : SatRandomAccess) (ch : Nat)
    (h : (do
      let c ← GetAllocationChannelConfiguration s.m_randomAccessConf ch
      DoCrdsaVariableSanityCheck c
      (pure s : Run SatRandomAccess)) = .ok s2) :
    s2 = s ∧ ∃ c, GetAllocationChannelConfiguration s.m_randomAccessConf ch = .ok c ∧
      c.passesSanity := by
  obtain ⟨c, hc, h⟩ := Run_bind_ok _ _ _ h
  obtain ⟨u, hu, h⟩ := Run_bind_ok _ _ _ h
  simp only [pure, Except.pure, Except.ok.injEq] at h
  exact ⟨h.symm, c, hc, (DoCrdsaVariableSanityCheck_ok_iff c).mp hu⟩


theorem updateChannel_withChannel_ok (s s2 : SatRandomAccess) (ch : Nat)
    (c0 c1 : SatRandomAccessAllocationChannel)
    (f : SatRandomAccessAllocationChannel → SatRandomAccessAllocationChannel)
    (hc0 : GetAllocationChannelConfiguration s.m_randomAccessConf ch = .ok c0)
    (h : updateChannel (withChannel s ch c1) ch f = .ok s2) :
    s2 = withChannel s ch (f c1) := by
  rw [updateChannel_eq _ ch c1 f (withChannel_get s ch c0 c1 hc0), withChannel_withChannel] at h
  exact (Except.ok.inj h).symm

theorem setter_end (s s2 : SatRandomAccess) (ch : Nat)
    (c0 c1 : SatRandomAccessAllocationChannel)
    (hc0 : GetAllocationChannelConfiguration s.m_randomAccessConf ch = .ok c0)
    (hs : ∀ c ∈ s.m_randomAccessConf.m_allocationChannelConf, c.passesSanity)
    (h : (do
      let c ← GetAllocationChannelConfiguration (withChannel s ch c1).m_randomAccessConf ch
      DoCrdsaVariableSanityCheck c
      (pure (withChannel s ch c1) : Run SatRandomAccess)) = .ok s2) :
    ∀ c ∈ s2.m_randomAccessConf.m_allocationChannelConf, c.passesSanity := by
  obtain ⟨h2, c, hc, hp⟩ := setter_tail _ _ _ h
  rw [withChannel_get s ch c0 c1 hc0] at hc
  rw [h2]
  have hcc : c1 = c := Except.ok.inj hc
  exact withChannel_passesSanity s ch c1 hs (hcc ▸ hp)

theorem CrdsaSetLoadControlParameters_passesSanity (s s2 : SatRandomAccess) (ch : Nat)
    (backoffProbability : ℚ) (backoffTime : Nat)
    (hs : ∀ c ∈ s.m_randomAccessConf.m_allocationChannelConf, c.passesSanity)
    (h : CrdsaSetLoadControlParameters s ch backoffProbability backoffTime = .ok s2) :
    ∀ c ∈ s2.m_randomAccessConf.m_allocationChannelConf, c.passesSanity := by
  unfold CrdsaSetLoadControlParameters at h
  split_ifs at h with hm
  obtain ⟨s1, h1, h⟩ := Run_bind_ok _ _ _ h
  obtain ⟨c0, hc0, rfl⟩ := updateChannel_ok _ _ _ _ h1
  obtain ⟨s1, h1, h⟩ := Run_bind_ok _ _ _ h
  have := updateChannel_withChannel_ok _ _ _ c0 _ _ hc0 h1
  subst this
  exact setter_end s s2 ch c0 _ hc0 hs h

theorem CrdsaSetMaximumBackoffProbability_passesSanity (s s2 : SatRandomAccess) (ch : Nat)
    (maximumBackoffProbability : ℚ)
    (hs : ∀ c ∈ s.m_randomAccessConf.m_allocationChannelConf, c.passesSanity)
    (h : CrdsaSetMaximumBackoffProbability s ch maximumBackoffProbability = .ok s2) :
    ∀ c ∈ s2.m_randomAccessConf.m_allocationChannelConf, c.passesSanity := by
  unfold CrdsaSetMaximumBackoffProbability at h
  split_ifs at h with hm
  obtain ⟨s1, h1, h⟩ := Run_bind_ok _ _ _ h
  obtain ⟨c0, hc0, rfl⟩ := updateChannel_ok _ _ _ _ h1
  exact setter_end s s2 ch c0 _ hc0 hs h

theorem CrdsaSetRandomizationParameters_passesSanity (s s2 : SatRandomAccess) (ch : Nat)
    (minRandomizationValue maxRandomizationValue numOfInstances : Nat)
    (hs : ∀ c ∈ s.m_randomAccessConf.m_allocationChannelConf, c.passesSanity)
    (h : CrdsaSetRandomizationParameters s ch minRandomizationValue maxRandomizationValue
      numOfInstances = .ok s2) :
    ∀ c ∈ s2.m_randomAccessConf.m_allocationChannelConf, c.passesSanity := by
  unfold CrdsaSetRandomizationParameters at h
  split_ifs at h with hm
  obtain ⟨s1, h1, h⟩ := Run_bind_ok _ _ _ h
  obtain ⟨c0, hc0, rfl⟩ := updateChannel_ok _ _ _ _ h1
  obtain ⟨s1, h1, h⟩ := Run_bind_ok _ _ _ h
  have := updateChannel_withChannel_ok _ _ _ c0 _ _ hc0 h1
  subst this
  obtain ⟨s1, h1, h⟩ := Run_bind_ok _ _ _ h
  have := updateChannel_withChannel_ok _ _ _ c0 _ _ hc0 h1
  subst this
  exact setter_end s s2 ch c0 _ hc0 hs h

theorem CrdsaSetMaximumDataRateLimitationParameters_passesSanity (s s2 : SatRandomAccess)
    (ch : Nat) (maxUniquePayloadPerBlock maxConsecutiveBlocksAccessed minIdleBlocks : Nat)
    (hs : ∀ c ∈ s.m_randomAccessConf.m_allocationChannelConf, c.passesSanity)
    (h : CrdsaSetMaximumDataRateLimitationParameters s ch maxUniquePayloadPerBlock
      maxConsecutiveBlocksAccessed minIdleBlocks = .ok s2) :
    ∀ c ∈ s2.m_randomAccessConf.m_allocationChannelConf, c.passesSanity := by
  unfold CrdsaSetMaximumDataRateLimitationParameters at h
  split_ifs at h with hm
  obtain ⟨s1, h1, h⟩ := Run_bind_ok _ _ _ h
  obtain ⟨c0, hc0, rfl⟩ := updateChannel_ok _ _ _ _ h1
  obtain ⟨s1, h1, h⟩ := Run_bind_ok _ _ _ h
  have := updateChannel_withChannel_ok _ _ _ c0 _ _ hc0 h1
  subst this
  obtain ⟨s1, h1, h⟩ := Run_bind_ok _ _ _ h
  have := updateChannel_withChannel_ok _ _ _ c0 _ _ hc0 h1
  subst this
  exact setter_end s s2 ch c0 _ hc0 hs h

/-- C37: the constructor of `SatRandomAccessConf` succeeds exactly when there is at least one
random-access service, the default control randomization interval is at least 1 ms, and
every service has `1 ≤ instances ≤ 79`, a raw backoff value `r` with `1 ≤ r ≤ 65535` and a
backoff time that is not negative.  Every channel of a configuration that the constructor
returns has at least one instance and meets the seven sanity conditions, and a successful
call of one of the four CRDSA setters of `SatRandomAccess` keeps this for every channel. -/
theorem SatRandomAccessConf_create_succeeds_iff (llsConf : SatLowerLayerServiceConf) :
    ((∃ conf, SatRandomAccessConf.create llsConf = .ok conf) ↔
      1 ≤ llsConf.m_raServiceEntries.length ∧
      1 ≤ llsConf.m_defaultControlRandomizationInterval ∧
      ∀ entry ∈ llsConf.m_raServiceEntries,
        (1 ≤ entry.m_numberOfInstances ∧ entry.m_numberOfInstances ≤ 79) ∧
        (1 ≤ entry.m_backOffProbability ∧ entry.m_backOffProbability ≤ 65535) ∧
        (0 : ℚ) ≤ (createAllocationChannel entry).m_crdsaBackoffTime) ∧
    (∀ conf, SatRandomAccessConf.create llsConf = .ok conf →
      ∀ c ∈ conf.m_allocationChannelConf, 1 ≤ c.m_crdsaNumOfInstances ∧ SpecSevenConditions c) ∧
    (∀ (s s2 : SatRandomAccess) (allocationChannel : Nat),
      (∀ c ∈ s.m_randomAccessConf.m_allocationChannelConf,
        1 ≤ c.m_crdsaNumOfInstances ∧ SpecSevenConditions c) →
      ((∃ (backoffProbability : ℚ) (backoffTime : Nat),
          CrdsaSetLoadControlParameters s allocationChannel backoffProbability backoffTime
            = .ok s2) ∨
        (∃ maximumBackoffProbability : ℚ,
          CrdsaSetMaximumBackoffProbability s allocationChannel maximumBackoffProbability
            = .ok s2) ∨
        (∃ minRandomizationValue maxRandomizationValue numOfInstances : Nat,
          CrdsaSetRandomizationParameters s allocationChannel minRandomizationValue
            maxRandomizationValue numOfInstances = .ok s2) ∨
        (∃ maxUniquePayloadPerBlock maxConsecutiveBlocksAccessed minIdleBlocks : Nat,
          CrdsaSetMaximumDataRateLimitationParameters s allocationChannel
            maxUniquePayloadPerBlock maxConsecutiveBlocksAccessed minIdleBlocks = .ok s2)) →
      ∀ c ∈ s2.m_randomAccessConf.m_allocationChannelConf,
        1 ≤ c.m_crdsaNumOfInstances ∧ SpecSevenConditions c) := by
  refine ⟨SatRandomAccessConf_create_ok_iff llsConf,
    SatRandomAccessConf_create_passesSanity llsConf, ?_⟩
  intro s s2 ch hs h
  rcases h with ⟨p, bt, h⟩ | ⟨p, h⟩ | ⟨lo, hi, n, h⟩ | ⟨u, m, i, h⟩
  · exact CrdsaSetLoadControlParameters_passesSanity s s2 ch p bt hs h
  · exact CrdsaSetMaximumBackoffProbability_passesSanity s s2 ch p hs h
  · exact CrdsaSetRandomizationParameters_passesSanity s s2 ch lo hi n hs h
  · exact CrdsaSetMaximumDataRateLimitationParameters_passesSanity s s2 ch u m i hs h


/-- Witness for C37: the service profile `exampleRaLlsConf` with two services, and the
setter `CrdsaSetMaximumBackoffProbability` on the engine built for `exampleConf`. -/
theorem SatRandomAccessConf_create_succeeds_iff_witness :
    (∃ conf, SatRandomAccessConf.create exampleRaLlsConf = .ok conf ∧
      ∀ c ∈ conf.m_allocationChannelConf,
        1 ≤ c.m_crdsaNumOfInstances ∧ SpecSevenConditions c) ∧
    (∃ s2, CrdsaSetMaximumBackoffProbability (SatRandomAccess.create exampleConf .RA_CRDSA [])
        0 (1 / 2) = .ok s2 ∧
      ∀ c ∈ s2.m_randomAccessConf.m_allocationChannelConf,
        1 ≤ c.m_crdsaNumOfInstances ∧ SpecSevenConditions c) := by
  have h := SatRandomAccessConf_create_succeeds_iff exampleRaLlsConf
  have hex : ∀ entry ∈ exampleRaLlsConf.m_raServiceEntries,
      (1 ≤ entry.m_numberOfInstances ∧ entry.m_numberOfInstances ≤ 79) ∧
      (1 ≤ entry.m_backOffProbability ∧ entry.m_backOffProbability ≤ 65535) ∧
      (0 : ℚ) ≤ (createAllocationChannel entry).m_crdsaBackoffTime := by
    intro entry he
    simp only [exampleRaLlsConf, List.mem_cons, List.mem_singleton, List.not_mem_nil,
      or_false] at he
    rcases he with rfl | rfl <;>
      exact ⟨⟨by decide, by decide⟩, ⟨by decide, by decide⟩, by
        simp only [createAllocationChannel]; exact Nat.cast_nonneg _⟩
  obtain ⟨conf, hconf⟩ := h.1.mpr ⟨by decide, by decide, hex⟩
  have hs2 : CrdsaSetMaximumBackoffProbability (SatRandomAccess.create exampleConf .RA_CRDSA [])
      0 (1 / 2) = .ok (withChannel (SatRandomAccess.create exampleConf .RA_CRDSA []) 0
        { exampleChannel with m_crdsaMaximumBackoffProbability := 1 / 2 }) := by decide!
  refine ⟨⟨conf, hconf, h.2.1 conf hconf⟩, _, hs2, ?_⟩
  refine h.2.2 (SatRandomAccess.create exampleConf .RA_CRDSA []) _ 0 ?_
    (Or.inr (Or.inl ⟨1 / 2, hs2⟩))
  intro c hc
  simp only [SatRandomAccess.create, exampleConf, List.mem_cons, List.mem_singleton,
    List.not_mem_nil, or_false] at hc
  rcases hc with rfl | rfl <;> exact ⟨by decide, by decide!⟩

theorem GetInteger_slotDraw (lo hi v : Nat) (h1 : lo ≤ v) (h2 : v ≤ hi) :
    GetInteger lo hi (slotDraw lo hi v) = v := by
  unfold GetInteger slotDraw
  rw [dif_pos ⟨h1, h2⟩]
  simp only []
  rw [Nat.mul_div_cancel _ (by omega : 0 < hi + 1 - lo)]
  omega

theorem randomizeLoop_slotDraws (instances lo hi : Nat) :
    ∀ (vs : List Nat) (k : Nat) (tx : Finset Nat), vs.Nodup →
      (∀ v ∈ vs, lo ≤ v ∧ v ≤ hi ∧ v ∉ tx) → k + vs.length = instances →
      randomizeLoop instances lo hi (vs.map (slotDraw lo hi)) k tx = .ok (tx ∪ vs.toFinset, []) := by
  intro vs
  induction vs with
  | nil =>
    intro k tx _ _ hk
    simp only [List.length_nil, Nat.add_zero] at hk
    simp [randomizeLoop, hk]
  | cons v rest ih =>
    intro k tx hnd hv hk
    simp only [List.length_cons] at hk
    obtain ⟨h1, h2, h3⟩ := hv v (List.mem_cons_self _ _)
    have hlt : k < instances := by omega
    simp only [List.map_cons, randomizeLoop, if_pos hlt, GetInteger_slotDraw lo hi v h1 h2,
      if_neg h3]
    rw [ih (k + 1) (insert v tx) (List.nodup_cons.mp hnd).2 ?_ (by omega)]
    · congr 2
      ext x
      simp only [Finset.mem_union, Finset.mem_insert, List.toFinset_cons]
      tauto
    · intro w hw
      obtain ⟨w1, w2, w3⟩ := hv w (List.mem_cons_of_mem _ hw)
      refine ⟨w1, w2, ?_⟩
      rw [Finset.mem_insert]
      rintro (h | h)
      · exact (List.nodup_cons.mp hnd).1 (h ▸ hw)
      · exact w3 h

theorem randomizeLoop_returns_iff (instances lo hi : Nat) (tx : Finset Nat) (h : lo ≤ hi) :
    (∃ ds res rest, randomizeLoop instances lo hi ds 0 tx = .ok (res, rest)) ↔
      instances ≤ (freeValues lo hi tx).card := by
  constructor
  · rintro ⟨ds, res, rest, hr⟩
    obtain ⟨h1, h2, h3⟩ := randomizeLoop_ok instances lo hi ds 0 tx res rest hr (Nat.zero_le _)
    have hsub : res \ tx ⊆ freeValues lo hi tx := by
      intro x hx
      obtain ⟨hx1, hx2⟩ := Finset.mem_sdiff.mp hx
      rcases h3 x hx1 with hh | ⟨d, -, rfl⟩
      · exact absurd hh hx2
      · exact Finset.mem_sdiff.mpr
          ⟨Finset.mem_Icc.mpr ⟨GetInteger_ge lo hi d, GetInteger_le lo hi d h⟩, hx2⟩
    have hcard : (res \ tx).card = instances := by
      rw [Finset.card_sdiff h1]; omega
    rw [← hcard]
    exact Finset.card_le_card hsub
  · intro hle
    have hnd : ((freeValues lo hi tx).toList.take instances).Nodup :=
      List.Nodup.sublist (List.take_sublist _ _) (Finset.nodup_toList _)
    have hlen : ((freeValues lo hi tx).toList.take instances).length = instances := by
      rw [List.length_take, Finset.length_toList]; omega
    have hmem : ∀ v ∈ (freeValues lo hi tx).toList.take instances,
        lo ≤ v ∧ v ≤ hi ∧ v ∉ tx := by
      intro v hv
      have := Finset.mem_toList.mp (List.mem_of_mem_take hv)
      obtain ⟨a, b⟩ := Finset.mem_sdiff.mp this
      exact ⟨(Finset.mem_Icc.mp a).1, (Finset.mem_Icc.mp a).2, b⟩
    exact ⟨_, _, _, randomizeLoop_slotDraws instances lo hi _ 0 tx hnd hmem (by omega)⟩

theorem CrdsaRandomizeTxOpportunities_loop (s : SatRandomAccess) (ch : Nat)
    (c : SatRandomAccessAllocationChannel) (tx : Finset Nat) (ds : List Draw)
    (hc : GetAllocationChannelConfiguration s.m_randomAccessConf ch = .ok c) :
    (∃ out s2, CrdsaRandomizeTxOpportunities { s with m_uniformRandomVariable := ds } ch tx
        = .ok (out, s2)) ↔
      ∃ res rest, randomizeLoop (toUint32 c.m_crdsaNumOfInstances)
        (toUint32 c.m_crdsaMinRandomizationValue) (toUint32 c.m_crdsaMaxRandomizationValue)
        ds 0 tx = .ok (res, rest) := by
  have hc2 : GetAllocationChannelConfiguration
      ({ s with m_uniformRandomVariable := ds } : SatRandomAccess).m_randomAccessConf ch
        = .ok c := hc
  constructor
  · rintro ⟨out, s2, h⟩
    obtain ⟨c2, h2, rest, hl, -⟩ := CrdsaRandomizeTxOpportunities_ok _ _ _ _ _ h
    rw [hc2] at h2
    cases h2
    exact ⟨out, rest, hl⟩
  · rintro ⟨res, rest, h⟩
    refine ⟨res, { s with m_uniformRandomVariable := rest }, ?_⟩
    unfold CrdsaRandomizeTxOpportunities
    simp only [hc2, bind, Except.bind, h, pure, Except.pure]

theorem randomizeLoop_error (instances lo hi : Nat) :
    ∀ (ds : List Draw) (k : Nat) (tx : Finset Nat) (e : Fault),
      randomizeLoop instances lo hi ds k tx = .error e → e = .outOfDraws := by
  intro ds
  induction ds with
  | nil =>
    intro k tx e h
    unfold randomizeLoop at h
    split_ifs at h
    exact (Except.error.inj h).symm
  | cons d ds ih =>
    intro k tx e h
    unfold randomizeLoop at h
    dsimp only at h
    split_ifs at h
    · exact ih _ _ _ h
    · exact ih _ _ _ h

theorem CrdsaRandomizeTxOpportunities_error (s : SatRandomAccess) (ch : Nat)
    (c : SatRandomAccessAllocationChannel) (tx : Finset Nat) (e : Fault)
    (hc : GetAllocationChannelConfiguration s.m_randomAccessConf ch = .ok c)
    (h : CrdsaRandomizeTxOpportunities s ch tx = .error e) : e = .outOfDraws := by
  unfold CrdsaRandomizeTxOpportunities at h
  simp only [hc, bind, Except.bind] at h
  cases hl : randomizeLoop (toUint32 c.m_crdsaNumOfInstances)
      (toUint32 c.m_crdsaMinRandomizationValue) (toUint32 c.m_crdsaMaxRandomizationValue)
      s.m_uniformRandomVariable 0 tx with
  | error e2 =>
    simp only [hl] at h
    rw [← Except.error.inj h]
    exact randomizeLoop_error _ _ _ _ _ _ _ hl
  | ok p => simp [hl, pure, Except.pure] at h

theorem freeValues_empty_card (lo hi : Nat) : (freeValues lo hi ∅).card = hi + 1 - lo := by
  simp [freeValues]

/-- C38: for a channel whose draw range is not empty, `CrdsaRandomizeTxOpportunities` returns
for some finite sequence of draws exactly when the range holds at least `instances` values
(the `uint32_t` local of the source) that are not in the input set.  With fewer free values
the call returns for no sequence of draws: every finite sequence is used up.  For the empty
input set and a channel that passes `DoCrdsaVariableSanityCheck`, with a range end that fits
`uint32_t`, a returning sequence of draws exists. -/
theorem CrdsaRandomizeTxOpportunities_returns_iff (s : SatRandomAccess) (allocationChannel : Nat)
    (c : SatRandomAccessAllocationChannel) (txOpportunities : Finset Nat)
    (hc : GetAllocationChannelConfiguration s.m_randomAccessConf allocationChannel = .ok c)
    (hrange : toUint32 c.m_crdsaMinRandomizationValue ≤ toUint32 c.m_crdsaMaxRandomizationValue) :
    ((∃ draws out s2, CrdsaRandomizeTxOpportunities { s with m_uniformRandomVariable := draws }
        allocationChannel txOpportunities = .ok (out, s2)) ↔
      toUint32 c.m_crdsaNumOfInstances ≤
        (freeValues (toUint32 c.m_crdsaMinRandomizationValue)
          (toUint32 c.m_crdsaMaxRandomizationValue) txOpportunities).card) ∧
    ((freeValues (toUint32 c.m_crdsaMinRandomizationValue)
          (toUint32 c.m_crdsaMaxRandomizationValue) txOpportunities).card
        < toUint32 c.m_crdsaNumOfInstances →
      ∀ draws, CrdsaRandomizeTxOpportunities { s with m_uniformRandomVariable := draws }
        allocationChannel txOpportunities = .error .outOfDraws) ∧
    (DoCrdsaVariableSanityCheck c = .ok () → c.m_crdsaMaxRandomizationValue < 4294967296 →
      ∃ draws out s2, CrdsaRandomizeTxOpportunities { s with m_uniformRandomVariable := draws }
        allocationChannel ∅ = .ok (out, s2)) := by
  have hiff : ∀ tx : Finset Nat,
      (∃ draws out s2, CrdsaRandomizeTxOpportunities { s with m_uniformRandomVariable := draws }
        allocationChannel tx = .ok (out, s2)) ↔
      toUint32 c.m_crdsaNumOfInstances ≤
        (freeValues (toUint32 c.m_crdsaMinRandomizationValue)
          (toUint32 c.m_crdsaMaxRandomizationValue) tx).card := by
    intro tx
    rw [← randomizeLoop_returns_iff _ _ _ tx hrange]
    constructor
    · rintro ⟨ds, h⟩
      exact ⟨ds, (CrdsaRandomizeTxOpportunities_loop s allocationChannel c tx ds hc).mp h⟩
    · rintro ⟨ds, h⟩
      exact ⟨ds, (CrdsaRandomizeTxOpportunities_loop s allocationChannel c tx ds hc).mpr h⟩
  refine ⟨hiff txOpportunities, ?_, ?_⟩
  · intro hlt draws
    cases hr : CrdsaRandomizeTxOpportunities { s with m_uniformRandomVariable := draws }
        allocationChannel txOpportunities with
    | error e =>
      rw [CrdsaRandomizeTxOpportunities_error { s with m_uniformRandomVariable := draws }
        allocationChannel c txOpportunities e hc hr]
    | ok p =>
      have := (hiff txOpportunities).mp ⟨draws, p.1, p.2, hr⟩
      omega
  · intro hok hmax
    obtain ⟨h1, h0, -, h2, h3, -⟩ := (DoCrdsaVariableSanityCheck_ok_iff c).mp hok
    rw [hiff ∅, freeValues_empty_card]
    have e1 := toUint32_of_range c.m_crdsaMinRandomizationValue h0 (by omega)
    have e2 := toUint32_of_range c.m_crdsaMaxRandomizationValue (by omega) hmax
    have e3 := toUint32_of_range c.m_crdsaNumOfInstances (by omega) (by omega)
    omega

/-- Witness for C38: the channel `0` of `exampleConf` (range `0 .. 79`, three instances) with
the slots `2 .. 79` already taken, which leaves two free values, and with the empty set. -/
theorem CrdsaRandomizeTxOpportunities_returns_iff_witness :
    ((∃ draws out s2, CrdsaRandomizeTxOpportunities
        { SatRandomAccess.create exampleConf .RA_CRDSA [] with m_uniformRandomVariable := draws }
        0 (Finset.Icc 2 79) = .ok (out, s2)) ↔
      3 ≤ (freeValues 0 79 (Finset.Icc 2 79)).card) ∧
    (∀ draws, CrdsaRandomizeTxOpportunities
        { SatRandomAccess.create exampleConf .RA_CRDSA [] with m_uniformRandomVariable := draws }
        0 (Finset.Icc 2 79) = .error .outOfDraws) ∧
    (∃ draws out s2, CrdsaRandomizeTxOpportunities
        { SatRandomAccess.create exampleConf .RA_CRDSA [] with m_uniformRandomVariable := draws }
        0 ∅ = .ok (out, s2)) := by
  have h := CrdsaRandomizeTxOpportunities_returns_iff
    (SatRandomAccess.create exampleConf .RA_CRDSA []) 0 exampleChannel (Finset.Icc 2 79) rfl
    (by decide)
  exact ⟨h.1, h.2.1 (by decide), h.2.2 (by decide!) (by decide)⟩

theorem ChannelStep_refl (t : Instant) (c : SatRandomAccessAllocationChannel) :
    ChannelStep t c c :=
  ⟨⟨rfl, rfl, rfl, rfl, rfl, rfl, rfl, rfl, rfl⟩, Or.inl rfl, Or.inl (le_refl _), Or.inl rfl⟩

theorem ChannelStep_lowerIdle (t : Instant) (c : SatRandomAccessAllocationChannel) :
    ChannelStep t c (lowerIdle c) :=
  ⟨⟨rfl, rfl, rfl, rfl, rfl, rfl, rfl, rfl, rfl⟩, Or.inl rfl, Or.inl (Nat.sub_le _ _),
    Or.inl rfl⟩

theorem ChannelStep_armed (t : Instant) (c : SatRandomAccessAllocationChannel)
    (h : c.m_crdsaBackoffReleaseTime ≤ t.now) :
    ChannelStep t c { armBackoff t c with m_crdsaNumOfConsecutiveBlocksUsed := 0 } :=
  ⟨⟨rfl, rfl, rfl, rfl, rfl, rfl, rfl, rfl, rfl⟩, Or.inr (Or.inl rfl), Or.inl (Nat.sub_le _ _),
    Or.inr ⟨h, rfl⟩⟩

theorem ChannelStep_prepared (t : Instant) (c : SatRandomAccessAllocationChannel)
    (tr : PrepareTrace) (opportunity : Prop) [Decidable opportunity]
    (h : c.m_crdsaBackoffReleaseTime ≤ t.now) :
    ChannelStep t c
      (if opportunity then increaseConsecutiveBlocksUsed (tr.channelAfter t c)
       else { tr.channelAfter t c with m_crdsaNumOfConsecutiveBlocksUsed := 0 }) := by
  have hidle : (tr.channelAfter t c).m_crdsaIdleBlocksLeft ≤ c.m_crdsaIdleBlocksLeft := by
    unfold PrepareTrace.channelAfter armBackoff lowerIdle
    split_ifs
    · simp only []; omega
    · simp only []; omega
  have hrel : (tr.channelAfter t c).m_crdsaBackoffReleaseTime = c.m_crdsaBackoffReleaseTime ∨
      (c.m_crdsaBackoffReleaseTime ≤ t.now ∧
        (tr.channelAfter t c).m_crdsaBackoffReleaseTime =
          t.now + c.m_crdsaBackoffTime / 1000) := by
    unfold PrepareTrace.channelAfter armBackoff lowerIdle
    split_ifs
    · exact Or.inr ⟨h, rfl⟩
    · exact Or.inl rfl
  have hstat : ChannelStep t c (tr.channelAfter t c) := by
    refine ⟨?_, Or.inl ?_, Or.inl hidle, hrel⟩
    · unfold PrepareTrace.channelAfter armBackoff lowerIdle
      split_ifs <;> exact ⟨rfl, rfl, rfl, rfl, rfl, rfl, rfl, rfl, rfl⟩
    · unfold PrepareTrace.channelAfter armBackoff lowerIdle
      split_ifs <;> rfl
  obtain ⟨⟨s1, s2, s3, s4, s5, s6, s7, s8, s9⟩, -, -, -⟩ := hstat
  by_cases ho : opportunity
  · rw [if_pos ho]
    unfold increaseConsecutiveBlocksUsed
    simp only []
    split_ifs with hmax
    · exact ⟨⟨s1, s2, s3, s4, s5, s6, s7, s8, s9⟩, Or.inr (Or.inl rfl), Or.inr s4, hrel⟩
    · refine ⟨⟨s1, s2, s3, s4, s5, s6, s7, s8, s9⟩, Or.inr (Or.inr ?_), Or.inl hidle, hrel⟩
      simp only [ge_iff_le, not_le] at hmax
      rw [← s9]; exact hmax
  · rw [if_neg ho]
    exact ⟨⟨s1, s2, s3, s4, s5, s6, s7, s8, s9⟩, Or.inr (Or.inl rfl), Or.inl hidle, hrel⟩

theorem forall2_set_of_refl {α : Type} (R : α → α → Prop) (hrefl : ∀ a, R a a) :
    ∀ (l : List α) (i : Nat) (a b : α), l[i]? = some a → R a b → List.Forall₂ R l (l.set i b) := by
  intro l
  induction l with
  | nil => intro i a b h; simp at h
  | cons x xs ih =>
    intro i a b h hab
    cases i with
    | zero =>
      simp only [List.getElem?_cons_zero, Option.some.injEq] at h
      subst h
      exact List.Forall₂.cons hab (List.forall₂_same.mpr (fun a _ => hrefl a))
    | succ i =>
      simp only [List.getElem?_cons_succ] at h
      exact List.Forall₂.cons (hrefl x) (ih i a b h hab)

theorem forall2_getElem {α : Type} (R : α → α → Prop) :
    ∀ (l l2 : List α), List.Forall₂ R l l2 → ∀ (i : Nat) (a b : α),
      l[i]? = some a → l2[i]? = some b → R a b := by
  intro l l2 h
  induction h with
  | nil => intro i a b h; simp at h
  | cons hab _ ih =>
    intro i a b h1 h2
    cases i with
    | zero =>
      simp only [List.getElem?_cons_zero, Option.some.injEq] at h1 h2
      subst h1; subst h2
      exact hab
    | succ i =>
      simp only [List.getElem?_cons_succ] at h1 h2
      exact ih i a b h1 h2

theorem EngineStep_refl (t : Instant) (s s2 : SatRandomAccess)
    (hconf : s2.m_randomAccessConf = s.m_randomAccessConf)
    (hn : s2.m_numOfAllocationChannels = s.m_numOfAllocationChannels)
    (hm : s2.m_randomAccessModel = s.m_randomAccessModel) : EngineStep t s s2 := by
  refine ⟨hn, hm, ?_⟩
  rw [hconf]
  exact List.forall₂_same.mpr (fun a _ => ChannelStep_refl t a)

theorem EngineStep_withChannel (t : Instant) (s s2 : SatRandomAccess) (ch : Nat)
    (c c2 : SatRandomAccessAllocationChannel)
    (hc : GetAllocationChannelConfiguration s.m_randomAccessConf ch = .ok c)
    (hconf : s2.m_randomAccessConf = (withChannel s ch c2).m_randomAccessConf)
    (hn : s2.m_numOfAllocationChannels = s.m_numOfAllocationChannels)
    (hm : s2.m_randomAccessModel = s.m_randomAccessModel)
    (hstep : ChannelStep t c c2) : EngineStep t s s2 := by
  refine ⟨hn, hm, ?_⟩
  rw [hconf]
  simp only [withChannel, withChannels]
  exact forall2_set_of_refl _ (ChannelStep_refl t) _ ch c c2
    ((GetAllocationChannelConfiguration_ok_iff _ _ _).mp hc) hstep

theorem DoCrdsa_channel_exists (t : Instant) (s s2 : SatRandomAccess) (ch : Nat)
    (r : RandomAccessResults_s) (h : DoCrdsa t s ch = .ok (r, s2)) :
    ∃ c, GetAllocationChannelConfiguration s.m_randomAccessConf ch = .ok c := by
  cases hc : GetAllocationChannelConfiguration s.m_randomAccessConf ch with
  | ok c => exact ⟨c, rfl⟩
  | error e =>
    simp [DoCrdsa, CrdsaHasBackoffTimePassed, IsCrdsaAllocationChannelFree, hc, bind,
      Except.bind] at h

theorem slotPreparation_step (t : Instant) (s s2 : SatRandomAccess) (ch : Nat)
    (c : SatRandomAccessAllocationChannel) (r : RandomAccessResults_s)
    (hc : GetAllocationChannelConfiguration s.m_randomAccessConf ch = .ok c)
    (hrel : c.m_crdsaBackoffReleaseTime ≤ t.now)
    (h : slotPreparation t s ch = .ok (r, s2)) : EngineStep t s s2 := by
  obtain ⟨tr, -, -, -, -, -, hconf, hm, hn⟩ := slotPreparation_spec t s s2 ch c r hc h
  exact EngineStep_withChannel t s s2 ch c _ hc hconf hn hm
    (ChannelStep_prepared t c tr _ hrel)

theorem DoCrdsa_step (t : Instant) (s s2 : SatRandomAccess) (ch : Nat)
    (r : RandomAccessResults_s) (h : DoCrdsa t s ch = .ok (r, s2)) : EngineStep t s s2 := by
  obtain ⟨c, hc⟩ := DoCrdsa_channel_exists t s s2 ch r h
  by_cases hblocked : t.now < c.m_crdsaBackoffReleaseTime ∨ t.isDamaAvailable = true
  · rw [DoCrdsa_blocked_eq t s ch c hc hblocked] at h
    simp only [Except.ok.injEq, Prod.mk.injEq] at h
    rw [← h.2]
    exact EngineStep_withChannel t s _ ch c _ hc rfl rfl rfl (ChannelStep_lowerIdle t c)
  · have hrel : c.m_crdsaBackoffReleaseTime ≤ t.now := by
      by_contra hn
      exact hblocked (Or.inl (lt_of_not_le hn))
    have hdama : t.isDamaAvailable = false := by
      cases hd : t.isDamaAvailable with
      | false => rfl
      | true => exact absurd (Or.inr hd) hblocked
    cases hflag : s.m_crdsaNewData with
    | false =>
      rw [DoCrdsa_flag_clear t s ch c hc hrel hdama hflag] at h
      exact slotPreparation_step t s s2 ch c r hc hrel h
    | true =>
      cases hd : s.m_uniformRandomVariable with
      | nil =>
        rw [DoCrdsa_flag_set_nil t s ch c hc hrel hdama hflag hd] at h
        cases h
      | cons d ds =>
        obtain ⟨h1, h2⟩ := DoCrdsa_flag_set t s ch c d ds hc hrel hdama hflag hd
        by_cases hb : GetValue01 d < c.m_crdsaBackoffProbability
        · rw [h1 hb] at h
          simp only [Except.ok.injEq, Prod.mk.injEq] at h
          rw [← h.2]
          exact EngineStep_withChannel t s _ ch c _ hc rfl rfl rfl (ChannelStep_armed t c hrel)
        · rw [h2 hb] at h
          have hstep := slotPreparation_step t
            { s with m_crdsaNewData := false, m_uniformRandomVariable := ds } s2 ch c r hc hrel h
          exact hstep

theorem LoweredOnly_refl (c : SatRandomAccessAllocationChannel) : LoweredOnly c c :=
  ⟨rfl, le_refl _⟩

theorem LoweredOnly_trans (a b c : SatRandomAccessAllocationChannel)
    (h1 : LoweredOnly a b) (h2 : LoweredOnly b c) : LoweredOnly a c := by
  obtain ⟨e1, l1⟩ := h1
  obtain ⟨e2, l2⟩ := h2
  refine ⟨?_, le_trans l2 l1⟩
  rw [e2, e1]

theorem LoweredOnly_step (t : Instant) (c c2 : SatRandomAccessAllocationChannel)
    (h : LoweredOnly c c2) : ChannelStep t c c2 := by
  obtain ⟨e, l⟩ := h
  rw [e]
  exact ⟨⟨rfl, rfl, rfl, rfl, rfl, rfl, rfl, rfl, rfl⟩, Or.inl rfl, Or.inl l, Or.inl rfl⟩

theorem forall2_trans {α : Type} (R : α → α → Prop) (htrans : ∀ a b c, R a b → R b c → R a c) :
    ∀ (l1 l2 : List α), List.Forall₂ R l1 l2 → ∀ l3, List.Forall₂ R l2 l3 →
      List.Forall₂ R l1 l3 := by
  intro l1 l2 h
  induction h with
  | nil => intro l3 h3; cases h3; exact List.Forall₂.nil
  | cons hab _ ih =>
    intro l3 h3
    cases h3 with
    | cons hbc hrest => exact List.Forall₂.cons (htrans _ _ _ hab hbc) (ih _ hrest)

theorem CrdsaReduceIdleBlocks_lowered (s s2 : SatRandomAccess) (i : Nat)
    (h : CrdsaReduceIdleBlocks s i = .ok s2) :
    s2.m_numOfAllocationChannels = s.m_numOfAllocationChannels ∧
    s2.m_randomAccessModel = s.m_randomAccessModel ∧
    List.Forall₂ LoweredOnly s.m_randomAccessConf.m_allocationChannelConf
      s2.m_randomAccessConf.m_allocationChannelConf := by
  cases hc : GetAllocationChannelConfiguration s.m_randomAccessConf i with
  | error e => simp [CrdsaReduceIdleBlocks, hc, bind, Except.bind] at h
  | ok c =>
    rw [CrdsaReduceIdleBlocks_eq s i c hc] at h
    rw [← Except.ok.inj h]
    refine ⟨rfl, rfl, ?_⟩
    simp only [withChannels]
    exact forall2_set_of_refl _ LoweredOnly_refl _ i c (lowerIdle c)
      ((GetAllocationChannelConfiguration_ok_iff _ _ _).mp hc) ⟨rfl, Nat.sub_le _ _⟩

theorem foldlM_CrdsaReduceIdleBlocks_lowered :
    ∀ (l : List Nat) (s s2 : SatRandomAccess), l.foldlM CrdsaReduceIdleBlocks s = .ok s2 →
      s2.m_numOfAllocationChannels = s.m_numOfAllocationChannels ∧
      s2.m_randomAccessModel = s.m_randomAccessModel ∧
      List.Forall₂ LoweredOnly s.m_randomAccessConf.m_allocationChannelConf
        s2.m_randomAccessConf.m_allocationChannelConf := by
  intro l
  induction l with
  | nil =>
    intro s s2 h
    simp only [List.foldlM_nil, pure, Except.pure, Except.ok.injEq] at h
    subst h
    exact ⟨rfl, rfl, List.forall₂_same.mpr (fun a _ => LoweredOnly_refl a)⟩
  | cons i rest ih =>
    intro s s2 h
    rw [List.foldlM_cons] at h
    obtain ⟨s1, h1, h⟩ := Run_bind_ok _ _ _ h
    obtain ⟨a1, a2, a3⟩ := CrdsaReduceIdleBlocks_lowered s s1 i h1
    obtain ⟨b1, b2, b3⟩ := ih s1 s2 h
    exact ⟨b1.trans a1, b2.trans a2, forall2_trans _ LoweredOnly_trans _ _ a3 _ b3⟩

theorem CrdsaReduceIdleBlocksForAllAllocationChannels_step (t : Instant)
    (s s1 s2 : SatRandomAccess)
    (hconf : s1.m_randomAccessConf = s.m_randomAccessConf)
    (hn : s1.m_numOfAllocationChannels = s.m_numOfAllocationChannels)
    (hm : s1.m_randomAccessModel = s.m_randomAccessModel)
    (h : CrdsaReduceIdleBlocksForAllAllocationChannels s1 = .ok s2) : EngineStep t s s2 := by
  obtain ⟨a1, a2, a3⟩ := foldlM_CrdsaReduceIdleBlocks_lowered _ s1 s2 h
  refine ⟨a1.trans hn, a2.trans hm, ?_⟩
  rw [← hconf]
  exact a3.imp (fun a b hab => LoweredOnly_step t a b hab)

theorem DoSlottedAloha_step (t : Instant) (s s2 : SatRandomAccess) (r : RandomAccessResults_s)
    (h : DoSlottedAloha t s = .ok (r, s2)) : EngineStep t s s2 := by
  obtain ⟨h1, h2, h3, -, -⟩ := DoSlottedAloha_state t s s2 r h
  exact EngineStep_refl t s s2 h1 h2 h3

theorem DoRandomAccess_step (t : Instant) (s s2 : SatRandomAccess) (ch : Nat)
    (r : RandomAccessResults_s)
    (h : DoRandomAccess t s ch = .ok (r, s2)) : EngineStep t s s2 := by
  unfold DoRandomAccess at h
  cases hmodel : s.m_randomAccessModel with
  | RA_OFF => simp [hmodel] at h
  | RA_SLOTTED_ALOHA =>
    simp only [hmodel] at h
    exact DoSlottedAloha_step t s s2 r h
  | RA_CRDSA =>
    simp only [hmodel] at h
    split_ifs at h with hfs
    · exact DoCrdsa_step t s s2 ch r h
    · simp only [pure, Except.pure, Except.ok.injEq, Prod.mk.injEq] at h
      rw [← h.2]
      exact EngineStep_refl t s s rfl rfl rfl
  | RA_ANY_AVAILABLE =>
    simp only [hmodel] at h
    split_ifs at h with hfs
    · exact DoSlottedAloha_step t s s2 r h
    · obtain ⟨free, -, h⟩ := Run_bind_ok _ _ _ h
      have hslotted : ∀ p : RandomAccessResults_s × SatRandomAccess,
          DoSlottedAloha t s = .ok p →
          (do
            let s ← CrdsaReduceIdleBlocksForAllAllocationChannels p.2
            (pure (p.1, s) : Run (RandomAccessResults_s × SatRandomAccess))) = .ok (r, s2) →
          EngineStep t s s2 := by
        intro p hp h
        obtain ⟨r1, s1⟩ := p
        obtain ⟨h1, h2, h3, -, -⟩ := DoSlottedAloha_state t s s1 r1 hp
        obtain ⟨s3, hs3, h⟩ := Run_bind_ok _ _ _ h
        simp only [pure, Except.pure, Except.ok.injEq, Prod.mk.injEq] at h
        rw [← h.2]
        exact CrdsaReduceIdleBlocksForAllAllocationChannels_step t s s1 s3 h1 h2 h3 hs3
      split_ifs at h with hfree
      · obtain ⟨tooHigh, -, h⟩ := Run_bind_ok _ _ _ h
        split_ifs at h with hgo
        · exact DoCrdsa_step t s s2 ch r h
        · obtain ⟨p, hp, h⟩ := Run_bind_ok _ _ _ h
          exact hslotted p hp h
      · obtain ⟨tooHigh, -, h⟩ := Run_bind_ok _ _ _ h
        split_ifs at h with hgo
        · exact DoCrdsa_step t s s2 ch r h
        · obtain ⟨p, hp, h⟩ := Run_bind_ok _ _ _ h
          exact hslotted p hp h

theorem Run_isOk {α : Type} (x : Run α) (h : x.isOk = true) : ∃ a, x = .ok a := by
  cases x with
  | ok a => exact ⟨a, rfl⟩
  | error e => simp [Except.isOk, Except.toBool] at h

theorem runCall_step (s s2 : SatRandomAccess) (call : RandomAccessCall)
    (h : runCall s call = .ok s2) : EngineStep call.instant s s2 := by
  cases call with
  | randomAccess t ch =>
    unfold runCall at h
    obtain ⟨p, hp, h⟩ := Run_bind_ok _ _ _ h
    obtain ⟨r, s1⟩ := p
    simp only [pure, Except.pure, Except.ok.injEq] at h
    subst h
    exact DoRandomAccess_step t s s1 ch r hp
  | crdsa t ch =>
    unfold runCall at h
    obtain ⟨p, hp, h⟩ := Run_bind_ok _ _ _ h
    obtain ⟨r, s1⟩ := p
    simp only [pure, Except.pure, Except.ok.injEq] at h
    subst h
    exact DoCrdsa_step t s s1 ch r hp

theorem forall2_forall_right {α : Type} (R : α → α → Prop) (P : α → Prop)
    (hstep : ∀ a b, R a b → P a → P b) :
    ∀ (l l2 : List α), List.Forall₂ R l l2 → (∀ a ∈ l, P a) → ∀ b ∈ l2, P b := by
  intro l l2 h
  induction h with
  | nil => intro _ b hb; simp at hb
  | cons hab _ ih =>
    intro hl b hb
    rcases List.mem_cons.mp hb with rfl | hb
    · exact hstep _ _ hab (hl _ (List.mem_cons_self _ _))
    · exact ih (fun a ha => hl a (List.mem_cons_of_mem _ ha)) b hb

theorem forall2_map_eq {α β : Type} (R : α → α → Prop) (f : α → β)
    (hf : ∀ a b, R a b → f b = f a) :
    ∀ (l l2 : List α), List.Forall₂ R l l2 → l2.map f = l.map f := by
  intro l l2 h
  induction h with
  | nil => rfl
  | cons hab _ ih => simp only [List.map_cons, hf _ _ hab, ih]

theorem ChannelStep_countersWithinLimits (t : Instant) (c c2 : SatRandomAccessAllocationChannel)
    (h : ChannelStep t c c2) (hc : countersWithinLimits c) : countersWithinLimits c2 := by
  obtain ⟨⟨-, -, -, s4, -, -, -, -, s9⟩, hused, hidle, -⟩ := h
  obtain ⟨h1, h2⟩ := hc
  unfold countersWithinLimits
  rw [s4, s9]
  constructor
  · rcases hused with h | h | h
    · rw [h]; exact h1
    · rw [h]; omega
    · exact h
  · rcases hidle with h | h
    · omega
    · omega

theorem EngineStep_countersWithinLimits (t : Instant) (s s2 : SatRandomAccess)
    (h : EngineStep t s s2)
    (hs : ∀ c ∈ s.m_randomAccessConf.m_allocationChannelConf, countersWithinLimits c) :
    s2.m_randomAccessConf.m_allocationChannelConf.map
        (fun c => (c.m_crdsaMaxConsecutiveBlocksAccessed, c.m_crdsaMinIdleBlocks)) =
      s.m_randomAccessConf.m_allocationChannelConf.map
        (fun c => (c.m_crdsaMaxConsecutiveBlocksAccessed, c.m_crdsaMinIdleBlocks)) ∧
    ∀ c ∈ s2.m_randomAccessConf.m_allocationChannelConf, countersWithinLimits c := by
  refine ⟨forall2_map_eq (ChannelStep t) _ ?_ _ _ h.2.2,
    forall2_forall_right (ChannelStep t) countersWithinLimits
      (ChannelStep_countersWithinLimits t) _ _ h.2.2 hs⟩
  intro a b hab
  rw [hab.1.2.2.2.1, hab.1.2.2.2.2.2.2.2.2]

theorem runCalls_append (calls1 calls2 : List RandomAccessCall) (s s2 : SatRandomAccess)
    (h : runCalls (calls1 ++ calls2) s = .ok s2) :
    ∃ s1, runCalls calls1 s = .ok s1 ∧ runCalls calls2 s1 = .ok s2 := by
  unfold runCalls at h ⊢
  rw [List.foldlM_append] at h
  exact Run_bind_ok _ _ _ h

theorem runCalls_countersWithinLimits :
    ∀ (calls : List RandomAccessCall) (s s2 : SatRandomAccess),
      (∀ c ∈ s.m_randomAccessConf.m_allocationChannelConf, countersWithinLimits c) →
      runCalls calls s = .ok s2 →
      s2.m_randomAccessConf.m_allocationChannelConf.map
          (fun c => (c.m_crdsaMaxConsecutiveBlocksAccessed, c.m_crdsaMinIdleBlocks)) =
        s.m_randomAccessConf.m_allocationChannelConf.map
          (fun c => (c.m_crdsaMaxConsecutiveBlocksAccessed, c.m_crdsaMinIdleBlocks)) ∧
      ∀ c ∈ s2.m_randomAccessConf.m_allocationChannelConf, countersWithinLimits c := by
  intro calls
  induction calls with
  | nil =>
    intro s s2 hs h
    simp only [runCalls, List.foldlM_nil, pure, Except.pure, Except.ok.injEq] at h
    subst h
    exact ⟨rfl, hs⟩
  | cons call rest ih =>
    intro s s2 hs h
    unfold runCalls at h
    rw [List.foldlM_cons] at h
    obtain ⟨s1, h1, h⟩ := Run_bind_ok _ _ _ h
    have hstep := runCall_step s s1 call h1
    obtain ⟨hp1, hb1⟩ := EngineStep_countersWithinLimits _ s s1 hstep hs
    obtain ⟨hp2, hb2⟩ := ih s1 s2 hb1 h
    exact ⟨hp2.trans hp1, hb2⟩


theorem ChannelStep_release (t : Instant) (c c2 : SatRandomAccessAllocationChannel)
    (h : ChannelStep t c c2) (hbt : 0 ≤ c.m_crdsaBackoffTime) :
    c.m_crdsaBackoffReleaseTime ≤ c2.m_crdsaBackoffReleaseTime ∧
    (c2.m_crdsaBackoffReleaseTime ≠ c.m_crdsaBackoffReleaseTime →
      t.now ≤ c2.m_crdsaBackoffReleaseTime) := by
  have hnn : 0 ≤ c.m_crdsaBackoffTime / 1000 := div_nonneg hbt (by norm_num)
  rcases h.2.2.2 with h | ⟨h1, h2⟩
  · exact ⟨h.ge, fun hne => absurd h hne⟩
  · rw [h2]
    exact ⟨by linarith, fun _ => by linarith⟩

theorem runCalls_release :
    ∀ (calls : List RandomAccessCall) (s s2 : SatRandomAccess),
      (∀ c ∈ s.m_randomAccessConf.m_allocationChannelConf, 0 ≤ c.m_crdsaBackoffTime) →
      runCalls calls s = .ok s2 →
      s2.m_randomAccessConf.m_allocationChannelConf.length =
        s.m_randomAccessConf.m_allocationChannelConf.length ∧
      ∀ (i : Nat) (c c2 : SatRandomAccessAllocationChannel),
        s.m_randomAccessConf.m_allocationChannelConf[i]? = some c →
        s2.m_randomAccessConf.m_allocationChannelConf[i]? = some c2 →
        c2.m_crdsaBackoffTime = c.m_crdsaBackoffTime ∧
        c.m_crdsaBackoffReleaseTime ≤ c2.m_crdsaBackoffReleaseTime := by
  intro calls
  induction calls with
  | nil =>
    intro s s2 _ h
    simp only [runCalls, List.foldlM_nil, pure, Except.pure, Except.ok.injEq] at h
    subst h
    refine ⟨rfl, fun i c c2 h1 h2 => ?_⟩
    rw [h1] at h2
    cases h2
    exact ⟨rfl, le_refl _⟩
  | cons call rest ih =>
    intro s s2 hbt h
    unfold runCalls at h
    rw [List.foldlM_cons] at h
    obtain ⟨s1, h1, h⟩ := Run_bind_ok _ _ _ h
    have hstep := runCall_step s s1 call h1
    have hbt1 : ∀ c ∈ s1.m_randomAccessConf.m_allocationChannelConf,
        0 ≤ c.m_crdsaBackoffTime :=
      forall2_forall_right (ChannelStep call.instant) (fun c => 0 ≤ c.m_crdsaBackoffTime)
        (fun a b hab ha => by
          show 0 ≤ b.m_crdsaBackoffTime
          rw [hab.1.2.2.2.2.1]; exact ha) _ _ hstep.2.2 hbt
    obtain ⟨hlen, hrest⟩ := ih s1 s2 hbt1 h
    have hlen1 := hstep.2.2.length_eq
    refine ⟨hlen.trans hlen1.symm, fun i c c2 hi hi2 => ?_⟩
    have hlt : i < s1.m_randomAccessConf.m_allocationChannelConf.length := by
      rw [← hlen1]
      exact (List.getElem?_eq_some_iff.mp hi).1
    have hi1 : s1.m_randomAccessConf.m_allocationChannelConf[i]? =
        some (s1.m_randomAccessConf.m_allocationChannelConf[i]) := List.getElem?_eq_getElem hlt
    have hcs := forall2_getElem _ _ _ hstep.2.2 i c _ hi hi1
    obtain ⟨e1, e2⟩ := hrest i _ c2 hi1 hi2
    have hc : 0 ≤ c.m_crdsaBackoffTime := hbt c (List.mem_iff_getElem?.mpr ⟨i, hi⟩)
    exact ⟨e1.trans hcs.1.2.2.2.2.1,
      le_trans (ChannelStep_release _ c _ hcs hc).1 e2⟩

/-- Counterexample to C36 as stated: the engine is built for one channel with a maximum of
one consecutive block and two idle blocks.  A first `DoCrdsa` uses the block and forces the
idle period (idle blocks left `2`); `CrdsaSetMaximumDataRateLimitationParameters` then keeps
the maximum of consecutive blocks at `1` and lowers the minimum number of idle blocks to `0`,
the consecutive-blocks-used counter being `0`; after the next `DoCrdsa` the idle-blocks-left
counter is `1`, above the minimum `0`.  The tuples are (blocks used, maximum, idle blocks
left, minimum idle blocks) after the setter and after the second call. -/
theorem DoCrdsa_idle_above_lowered_minimum :
    (do
      let (_, s1) ← DoCrdsa (Instant.current 0)
        (SatRandomAccess.create exampleForcingConf .RA_CRDSA exampleRetuneDraws) 0
      let s2 ← CrdsaSetMaximumDataRateLimitationParameters s1 0 2 1 0
      let (_, s3) ← DoCrdsa (Instant.current 1) s2 0
      (pure
        (s2.m_randomAccessConf.m_allocationChannelConf.map
          (fun c : SatRandomAccessAllocationChannel =>
          (c.m_crdsaNumOfConsecutiveBlocksUsed, c.m_crdsaMaxConsecutiveBlocksAccessed,
            c.m_crdsaIdleBlocksLeft, c.m_crdsaMinIdleBlocks)),
         s3.m_randomAccessConf.m_allocationChannelConf.map
          (fun c : SatRandomAccessAllocationChannel =>
          (c.m_crdsaNumOfConsecutiveBlocksUsed, c.m_crdsaMaxConsecutiveBlocksAccessed,
            c.m_crdsaIdleBlocksLeft, c.m_crdsaMinIdleBlocks))) :
        Run (List (Nat × Nat × Nat × Nat) × List (Nat × Nat × Nat × Nat)))) =
      .ok ([(0, 1, 2, 0)], [(0, 1, 1, 0)]) := by
  decide!

/-- C36 (amended): from a state in which every channel has its consecutive-blocks-used
counter below the maximum of consecutive blocks (as with a counter of `0` and a maximum of at
least `1`) and its idle-blocks-left counter at most the minimum number of idle blocks, every
`DoCrdsa` or `DoRandomAccess` call that returns leaves the maximum and the minimum of every
channel as they were and both bounds in force; and so does every run of consecutive calls,
whatever the draws and the instants, after each of its calls. -/
theorem DoRandomAccess_counters_within_limits (s : SatRandomAccess)
    (hstart : ∀ c ∈ s.m_randomAccessConf.m_allocationChannelConf,
      c.m_crdsaNumOfConsecutiveBlocksUsed < c.m_crdsaMaxConsecutiveBlocksAccessed ∧
      c.m_crdsaIdleBlocksLeft ≤ c.m_crdsaMinIdleBlocks) :
    (∀ (t : Instant) (allocationChannel : Nat) (r : RandomAccessResults_s)
        (s2 : SatRandomAccess),
      (DoCrdsa t s allocationChannel = .ok (r, s2) ∨
        DoRandomAccess t s allocationChannel = .ok (r, s2)) →
      s2.m_randomAccessConf.m_allocationChannelConf.map
          (fun c => (c.m_crdsaMaxConsecutiveBlocksAccessed, c.m_crdsaMinIdleBlocks)) =
        s.m_randomAccessConf.m_allocationChannelConf.map
          (fun c => (c.m_crdsaMaxConsecutiveBlocksAccessed, c.m_crdsaMinIdleBlocks)) ∧
      ∀ c ∈ s2.m_randomAccessConf.m_allocationChannelConf,
        c.m_crdsaNumOfConsecutiveBlocksUsed < c.m_crdsaMaxConsecutiveBlocksAccessed ∧
        c.m_crdsaIdleBlocksLeft ≤ c.m_crdsaMinIdleBlocks) ∧
    (∀ (calls rest : List RandomAccessCall) (s2 : SatRandomAccess),
      runCalls (calls ++ rest) s = .ok s2 →
      ∃ s1, runCalls calls s = .ok s1 ∧
        s1.m_randomAccessConf.m_allocationChannelConf.map
            (fun c => (c.m_crdsaMaxConsecutiveBlocksAccessed, c.m_crdsaMinIdleBlocks)) =
          s.m_randomAccessConf.m_allocationChannelConf.map
            (fun c => (c.m_crdsaMaxConsecutiveBlocksAccessed, c.m_crdsaMinIdleBlocks)) ∧
        ∀ c ∈ s1.m_randomAccessConf.m_allocationChannelConf,
          c.m_crdsaNumOfConsecutiveBlocksUsed < c.m_crdsaMaxConsecutiveBlocksAccessed ∧
          c.m_crdsaIdleBlocksLeft ≤ c.m_crdsaMinIdleBlocks) := by
  constructor
  · intro t ch r s2 h
    have hstep : EngineStep t s s2 := by
      rcases h with h | h
      · exact DoCrdsa_step t s s2 ch r h
      · exact DoRandomAccess_step t s s2 ch r h
    exact EngineStep_countersWithinLimits t s s2 hstep hstart
  · intro calls rest s2 h
    obtain ⟨s1, h1, -⟩ := runCalls_append calls rest s s2 h
    exact ⟨s1, h1, runCalls_countersWithinLimits calls s s1 hstart h1⟩

/-- Witness for C36: a `DoCrdsa` call at time `0` and a `DoRandomAccess` call at time `1` on
the engine built for `exampleForcingConf`. -/
theorem DoRandomAccess_counters_within_limits_witness :
    ∃ s1, runCalls [RandomAccessCall.crdsa (Instant.current 0) 0,
        RandomAccessCall.randomAccess (Instant.current 1) 0]
        (SatRandomAccess.create exampleForcingConf .RA_CRDSA exampleForcingDraws) = .ok s1 ∧
      ∀ c ∈ s1.m_randomAccessConf.m_allocationChannelConf,
        c.m_crdsaNumOfConsecutiveBlocksUsed < c.m_crdsaMaxConsecutiveBlocksAccessed ∧
        c.m_crdsaIdleBlocksLeft ≤ c.m_crdsaMinIdleBlocks := by
  obtain ⟨s2, hs2⟩ := Run_isOk (runCalls ([RandomAccessCall.crdsa (Instant.current 0) 0,
      RandomAccessCall.randomAccess (Instant.current 1) 0] ++ [])
    (SatRandomAccess.create exampleForcingConf .RA_CRDSA exampleForcingDraws)) (by decide!)
  obtain ⟨s1, h1, -, h2⟩ := (DoRandomAccess_counters_within_limits
    (SatRandomAccess.create exampleForcingConf .RA_CRDSA exampleForcingDraws)
    (by decide)).2 _ [] s2 hs2
  exact ⟨s1, h1, h2⟩

/-- C39: a `DoCrdsa` or `DoRandomAccess` call that returns keeps the backoff time of every
channel, and it either keeps the backoff release time or arms the timer, which it does only
when the old release time is not after the current time, the new release time being the
current time plus the backoff time in seconds.  With a backoff time that is not negative the
release time therefore does not decrease, and an armed release time is at least the current
time; over every run of consecutive calls, whatever the instants, the release time of
every channel does not decrease. -/
theorem DoRandomAccess_release_time_never_decreases (s : SatRandomAccess) :
    (∀ (t : Instant) (allocationChannel : Nat) (r : RandomAccessResults_s)
        (s2 : SatRandomAccess),
      (DoCrdsa t s allocationChannel = .ok (r, s2) ∨
        DoRandomAccess t s allocationChannel = .ok (r, s2)) →
      s2.m_randomAccessConf.m_allocationChannelConf.length =
        s.m_randomAccessConf.m_allocationChannelConf.length ∧
      ∀ (i : Nat) (c c2 : SatRandomAccessAllocationChannel),
        s.m_randomAccessConf.m_allocationChannelConf[i]? = some c →
        s2.m_randomAccessConf.m_allocationChannelConf[i]? = some c2 →
        c2.m_crdsaBackoffTime = c.m_crdsaBackoffTime ∧
        (c2.m_crdsaBackoffReleaseTime = c.m_crdsaBackoffReleaseTime ∨
          (c.m_crdsaBackoffReleaseTime ≤ t.now ∧
            c2.m_crdsaBackoffReleaseTime = t.now + c.m_crdsaBackoffTime / 1000)) ∧
        (0 ≤ c.m_crdsaBackoffTime →
          c.m_crdsaBackoffReleaseTime ≤ c2.m_crdsaBackoffReleaseTime ∧
          (c2.m_crdsaBackoffReleaseTime ≠ c.m_crdsaBackoffReleaseTime →
            t.now ≤ c2.m_crdsaBackoffReleaseTime))) ∧
    (∀ (calls : List RandomAccessCall) (s2 : SatRandomAccess),
      (∀ c ∈ s.m_randomAccessConf.m_allocationChannelConf, 0 ≤ c.m_crdsaBackoffTime) →
      runCalls calls s = .ok s2 →
      s2.m_randomAccessConf.m_allocationChannelConf.length =
        s.m_randomAccessConf.m_allocationChannelConf.length ∧
      ∀ (i : Nat) (c c2 : SatRandomAccessAllocationChannel),
        s.m_randomAccessConf.m_allocationChannelConf[i]? = some c →
        s2.m_randomAccessConf.m_allocationChannelConf[i]? = some c2 →
        c2.m_crdsaBackoffTime = c.m_crdsaBackoffTime ∧
        c.m_crdsaBackoffReleaseTime ≤ c2.m_crdsaBackoffReleaseTime) := by
  constructor
  · intro t ch r s2 h
    have hstep : EngineStep t s s2 := by
      rcases h with h | h
      · exact DoCrdsa_step t s s2 ch r h
      · exact DoRandomAccess_step t s s2 ch r h
    refine ⟨hstep.2.2.length_eq.symm, fun i c c2 h1 h2 => ?_⟩
    have hcs := forall2_getElem _ _ _ hstep.2.2 i c c2 h1 h2
    exact ⟨hcs.1.2.2.2.2.1, hcs.2.2.2, ChannelStep_release t c c2 hcs⟩
  · intro calls s2 hbt h
    exact runCalls_release calls s s2 hbt h


/-- Witness for C39: a `DoCrdsa` call at time `0` and a `DoRandomAccess` call at time `1` on
the engine built for `exampleForcingConf`. -/
theorem DoRandomAccess_release_time_never_decreases_witness :
    ∃ s2, runCalls [RandomAccessCall.crdsa (Instant.current 0) 0,
        RandomAccessCall.randomAccess (Instant.current 1) 0]
        (SatRandomAccess.create exampleForcingConf .RA_CRDSA exampleForcingDraws) = .ok s2 ∧
      ∀ (i : Nat) (c c2 : SatRandomAccessAllocationChannel),
        (SatRandomAccess.create exampleForcingConf .RA_CRDSA
          exampleForcingDraws).m_randomAccessConf.m_allocationChannelConf[i]? = some c →
        s2.m_randomAccessConf.m_allocationChannelConf[i]? = some c2 →
        c2.m_crdsaBackoffTime = c.m_crdsaBackoffTime ∧
        c.m_crdsaBackoffReleaseTime ≤ c2.m_crdsaBackoffReleaseTime := by
  obtain ⟨s2, hs2⟩ := Run_isOk (runCalls [RandomAccessCall.crdsa (Instant.current 0) 0,
      RandomAccessCall.randomAccess (Instant.current 1) 0]
    (SatRandomAccess.create exampleForcingConf .RA_CRDSA exampleForcingDraws)) (by decide!)
  exact ⟨s2, hs2, ((DoRandomAccess_release_time_never_decreases
    (SatRandomAccess.create exampleForcingConf .RA_CRDSA exampleForcingDraws)).2 _ s2
    (by decide!) hs2).2⟩

end SatSpec
